import Mathlib

/-!
Verification development for honeybadger-io/api-go.

Shallow embedding of the Go client library.  Go strings and byte slices are
lists of code points (`GoString`); Go's `int` and `int64` are `Int` with the
64-bit range made explicit where the code depends on it.  Library routines the
sources call (`strconv.Atoi`, `json.Unmarshal` for an `int` or `string` target,
`url.Values`, `url.QueryEscape`, `fmt.Sprintf`) are embedded after the Go
standard library's algorithms.
-/

namespace Honeybadger

/-- A Go string or byte slice, as the list of its code points. -/
abbrev GoString := List Char

deriving instance DecidableEq for Except

/-! ## strconv -/

/-- The two error values of package strconv: `ErrSyntax` and `ErrRange`. -/
inductive NumErrKind where
  | errSyntax
  | errRange
  deriving DecidableEq, Repr

/-- Two to the 64: the modulus of `uint64` arithmetic. -/
def twoTo64 : Nat := 18446744073709551616

/-- The constant `maxUint64`. -/
def maxUint64 : Nat := 18446744073709551615

/-- Largest value of Go's `int` on a 64-bit platform. -/
def maxInt : Int := 9223372036854775807

/-- Smallest value of Go's `int` on a 64-bit platform. -/
def minInt : Int := -9223372036854775808

/-- The byte test `'0' <= c && c <= '9'`. -/
def isDigit (c : Char) : Bool := decide (48 ≤ c.toNat) && decide (c.toNat ≤ 57)

/-- The digit loop of `strconv.ParseUint(s, 10, 64)`: `n` is the accumulator,
`cutoff = maxUint64/10 + 1` and `maxVal = 1<<64 - 1`.  A byte that is not a
decimal digit (a letter has digit value at least 10, the base) is a syntax
error; the products and sums are taken in `uint64`. -/
def parseUintLoop : List Char → Nat → Except NumErrKind Nat
  | [], n => .ok n
  | c :: cs, n =>
    if isDigit c then
      let d := c.toNat - 48
      if n ≥ maxUint64 / 10 + 1 then .error .errRange
      else
        let n10 := (n * 10) % twoTo64
        let n1 := (n10 + d) % twoTo64
        if n1 < n10 ∨ n1 > maxUint64 then .error .errRange
        else parseUintLoop cs n1
    else .error .errSyntax

/-- Model of `strconv.ParseUint(s, 10, 64)`. -/
def ParseUint (s : GoString) : Except NumErrKind Nat :=
  match s with
  | [] => .error .errSyntax
  | _ => parseUintLoop s 0

/-- Model of `strconv.ParseInt(s, 10, 64)` (and of bit size 0 on a 64-bit
platform): pick off the sign, convert unsigned, check the range against
`cutoff = 1 << 63`. -/
def ParseInt (s : GoString) : Except NumErrKind Int :=
  match s with
  | [] => .error .errSyntax
  | c :: cs =>
    let neg := decide (c = '-')
    let body := if c = '+' then cs else if c = '-' then cs else s
    match ParseUint body with
    | .error .errSyntax => .error .errSyntax
    | .error .errRange => .error .errRange
    | .ok un =>
      if !neg && decide (un ≥ 9223372036854775808) then .error .errRange
      else if neg && decide (un > 9223372036854775808) then .error .errRange
      else .ok (if neg then -(un : Int) else (un : Int))

/-- Number of bytes of the UTF-8 form of a string: Go's `len(s)`. -/
def byteLen (s : GoString) : Nat := (s.map Char.utf8Size).sum

/-- The fast-path loop of `strconv.Atoi`: `ch -= '0'; if ch > 9` is a syntax
error, else `n = n*10 + int(ch)`. -/
def atoiLoop : List Char → Int → Except NumErrKind Int
  | [], n => .ok n
  | c :: cs, n =>
    if isDigit c then atoiLoop cs (n * 10 + ((c.toNat - 48 : Nat) : Int))
    else .error .errSyntax

/-- Model of `strconv.Atoi` on a 64-bit platform: strings of 1 to 18 bytes take
the fast path, the others go through `ParseInt(s, 10, 0)`. -/
def Atoi (s : GoString) : Except NumErrKind Int :=
  if 0 < byteLen s ∧ byteLen s < 19 then
    match s with
    | [] => .error .errSyntax
    | c :: cs =>
      let signed := decide (c = '-') || decide (c = '+')
      let body := if signed then cs else s
      if signed && decide (body.length < 1) then .error .errSyntax
      else
        match atoiLoop body 0 with
        | .error e => .error e
        | .ok n => .ok (if c = '-' then -n else n)
  else ParseInt s

/-! ## Decimal notation, as the specification words it -/

/-- Base-10 value of a run of digits read left to right, starting from `n`. -/
def accValue (ds : List Char) (n : Nat) : Nat :=
  ds.foldl (fun a c => a * 10 + (c.toNat - 48)) n

/-- Base-10 value of a run of digits. -/
def digitsValue (ds : List Char) : Nat := accValue ds 0

/-- The digits of a string once an optional single leading sign is removed. -/
def unsignedPart : GoString → List Char
  | [] => []
  | c :: cs => if c = '+' ∨ c = '-' then cs else c :: cs

/-- Whether the string starts with a minus sign. -/
def hasMinus : GoString → Bool
  | [] => false
  | c :: _ => decide (c = '-')

/-- An optional single leading `+` or `-` followed by one or more decimal
digits, and nothing else. -/
def isSignedDecimal (s : GoString) : Bool :=
  !(unsignedPart s).isEmpty && (unsignedPart s).all isDigit

/-- The integer a signed decimal string denotes. -/
def signedDecimalValue (s : GoString) : Int :=
  if hasMinus s then -((digitsValue (unsignedPart s) : Nat) : Int)
  else ((digitsValue (unsignedPart s) : Nat) : Int)

/-- Whether an integer lies in the range of Go's `int`. -/
def inIntRange (v : Int) : Prop := minInt ≤ v ∧ v ≤ maxInt

instance (v : Int) : Decidable (inIntRange v) := by unfold inIntRange; exact inferInstance

/-- Decimal digits of a natural number, most significant first, with `fuel`
bounding the number of digits produced. -/
def natDigits : Nat → Nat → List Char
  | 0, _ => []
  | fuel + 1, n =>
    if n < 10 then [Char.ofNat (48 + n)]
    else natDigits fuel (n / 10) ++ [Char.ofNat (48 + n % 10)]

/-- Model of `strconv.FormatInt(i, 10)`, `strconv.Itoa` and the `%d` verb: the
decimal digits of the magnitude, after a `-` for a negative number. -/
def formatInt (i : Int) : GoString :=
  if i < 0 then '-' :: natDigits (i.natAbs + 1) i.natAbs
  else natDigits (i.natAbs + 1) i.natAbs

/-! ## encoding/json, for an `int` and a `string` target -/

/-- The double quote byte. -/
abbrev dquote : Char := Char.ofNat 34

/-- The backslash byte. -/
abbrev backslash : Char := Char.ofNat 92

/-- The scanner's `isSpace`: space, tab, carriage return, line feed. -/
def isSpace (c : Char) : Bool :=
  decide (c = ' ') || decide (c = Char.ofNat 9) || decide (c = Char.ofNat 13) ||
    decide (c = Char.ofNat 10)

/-- What the scanner's `stateBeginValue` finds at the first byte that is not
white space. -/
inductive TokenKind where
  | object
  | array
  | string
  | number
  | litTrue
  | litFalse
  | litNull
  | invalid
  deriving DecidableEq, Repr

/-- Dispatch of `stateBeginValue` on a byte. -/
def beginValue (c : Char) : TokenKind :=
  if c = Char.ofNat 123 then .object
  else if c = '[' then .array
  else if c = dquote then .string
  else if c = '-' then .number
  else if c = '0' then .number
  else if c = 't' then .litTrue
  else if c = 'f' then .litFalse
  else if c = 'n' then .litNull
  else if decide (49 ≤ c.toNat) && decide (c.toNat ≤ 57) then .number
  else .invalid

/-- Kind of the JSON text `data`, from its first byte after leading white space;
empty or blank input is invalid. -/
def tokenKind (data : GoString) : TokenKind :=
  match data.dropWhile isSpace with
  | [] => .invalid
  | c :: _ => beginValue c

/-- Scanner states `state0` and `state1`: the integer part of a number, a single
`0` or a digit from 1 to 9 followed by digits.  Returns the part and what follows. -/
def scanIntPart : List Char → Option (List Char × List Char)
  | [] => none
  | c :: cs =>
    if c = '0' then some ([c], cs)
    else if decide (49 ≤ c.toNat) && decide (c.toNat ≤ 57) then
      some (c :: cs.takeWhile isDigit, cs.dropWhile isDigit)
    else none

/-- Scanner states `stateDot` and `stateDot0`: an optional fraction, a dot that
must be followed by at least one digit. -/
def scanFrac : List Char → Option (List Char × List Char)
  | [] => some ([], [])
  | c :: cs =>
    if c = '.' then
      if (cs.takeWhile isDigit).isEmpty then none
      else some (c :: cs.takeWhile isDigit, cs.dropWhile isDigit)
    else some ([], c :: cs)

/-- The optional sign of an exponent (`stateE`). -/
def expSign : List Char → List Char × List Char
  | [] => ([], [])
  | d :: ds => if d = '+' ∨ d = '-' then ([d], ds) else ([], d :: ds)

/-- Scanner states `stateE`, `stateESign` and `stateE0`: an optional exponent,
`e` or `E`, an optional sign, at least one digit. -/
def scanExp : List Char → Option (List Char × List Char)
  | [] => some ([], [])
  | c :: cs =>
    if c = 'e' ∨ c = 'E' then
      if (((expSign cs).2).takeWhile isDigit).isEmpty then none
      else some (c :: (expSign cs).1 ++ ((expSign cs).2).takeWhile isDigit,
                 ((expSign cs).2).dropWhile isDigit)
    else some ([], c :: cs)

/-- The optional minus sign of a number (`stateNeg`). -/
def numSign : List Char → List Char × List Char
  | [] => ([], [])
  | c :: cs => if c = '-' then ([c], cs) else ([], c :: cs)

/-- One JSON number literal at the head of the input: the literal's text and
the input after it, or `none` where the scanner reports an error. -/
def scanNumber (s : List Char) : Option (List Char × List Char) :=
  match scanIntPart (numSign s).2 with
  | none => none
  | some (ip, s2) =>
    match scanFrac s2 with
    | none => none
    | some (fp, s3) =>
      match scanExp s3 with
      | none => none
      | some (ep, s4) => some ((numSign s).1 ++ ip ++ fp ++ ep, s4)

/-- Value of a hexadecimal digit, as in `getu4`. -/
def hexVal (c : Char) : Option Nat :=
  if decide (48 ≤ c.toNat) && decide (c.toNat ≤ 57) then some (c.toNat - 48)
  else if decide (97 ≤ c.toNat) && decide (c.toNat ≤ 102) then some (c.toNat - 97 + 10)
  else if decide (65 ≤ c.toNat) && decide (c.toNat ≤ 70) then some (c.toNat - 65 + 10)
  else none

/-- Four hexadecimal digits as a number. -/
def hex4 (a b c d : Char) : Option Nat :=
  match hexVal a, hexVal b, hexVal c, hexVal d with
  | some x, some y, some z, some w => some (((x * 16 + y) * 16 + z) * 16 + w)
  | _, _, _, _ => none

/-- Model of `getu4`: the code unit of a `\uXXXX` escape at the head of the
input, `none` for Go's `-1`. -/
def getu4 : List Char → Option Nat
  | b :: u :: h1 :: h2 :: h3 :: h4 :: _ =>
    if b = backslash ∧ u = 'u' then hex4 h1 h2 h3 h4 else none
  | _ => none

/-- The constant `unicode.ReplacementChar`, U+FFFD. -/
def replacementChar : Char := Char.ofNat 65533

/-- Model of `utf16.IsSurrogate`. -/
def isSurrogate (r : Nat) : Bool := decide (55296 ≤ r) && decide (r < 57344)

/-- Model of `utf16.DecodeRune`: the code point of a surrogate pair, or the
replacement character when the pair is not valid (`r2` is `none` for `-1`). -/
def decodeRune (r1 : Nat) (r2 : Option Nat) : Char :=
  match r2 with
  | none => replacementChar
  | some r2 =>
    if decide (55296 ≤ r1) && decide (r1 < 56320) && decide (56320 ≤ r2) && decide (r2 < 57344)
    then Char.ofNat ((r1 - 55296) * 1024 + (r2 - 56320) + 65536)
    else replacementChar

/-- The character a one-letter escape stands for (`stateInStringEsc` and the
matching cases of `unquoteBytes`). -/
def escapeChar (e : Char) : Option Char :=
  if e = 'b' then some (Char.ofNat 8)
  else if e = 'f' then some (Char.ofNat 12)
  else if e = 'n' then some (Char.ofNat 10)
  else if e = 'r' then some (Char.ofNat 13)
  else if e = 't' then some (Char.ofNat 9)
  else if e = backslash then some backslash
  else if e = '/' then some '/'
  else if e = dquote then some dquote
  else none

/-- Prepend a decoded character to the result of scanning the rest. -/
def consChar (c : Char) : Option (GoString × List Char) → Option (GoString × List Char)
  | none => none
  | some (s, rest) => some (c :: s, rest)

/-- One element of a string's contents that starts with byte `c` (not the
closing quote) and goes on in `cs`: the decoded character and the input after
the element.  An escape is a backslash and one of `b f n r t \ / "`, or
`u` and four hexadecimal digits; a surrogate that is followed by a matching low
surrogate escape is decoded together with it (six more bytes are consumed),
any other surrogate becomes U+FFFD.  `none` for a malformed escape or a control
character. -/
def scanStringChar (c : Char) (cs : List Char) : Option (Char × List Char) :=
  if c = backslash then
    match cs with
    | [] => none
    | e :: es =>
      if e = 'u' then
        match es with
        | h1 :: h2 :: h3 :: h4 :: rest =>
          match hex4 h1 h2 h3 h4 with
          | none => none
          | some rr =>
            if isSurrogate rr then
              if decodeRune rr (getu4 rest) ≠ replacementChar then
                some (decodeRune rr (getu4 rest), rest.drop 6)
              else some (replacementChar, rest)
            else some (Char.ofNat rr, rest)
        | _ => none
      else
        match escapeChar e with
        | none => none
        | some ch => some (ch, es)
  else if c.toNat < 32 then none
  else some (c, cs)

/-- The loop over a string's contents, `fuel` bounding the number of elements. -/
def scanStringAux : Nat → List Char → Option (GoString × List Char)
  | 0, _ => none
  | _ + 1, [] => none
  | fuel + 1, c :: cs =>
    if c = dquote then some ([], cs)
    else
      match scanStringChar c cs with
      | none => none
      | some (ch, rest) => consChar ch (scanStringAux fuel rest)

/-- A JSON string after its opening quote: the scanner states `stateInString`,
`stateInStringEsc`, `stateInStringEscU...` together with `unquoteBytes`.  Returns
the decoded contents and the input after the closing quote; `none` for an
unterminated string, a control character, or a malformed escape.  Every element
consumes at least one byte, so the length of the input is fuel enough. -/
def scanString (s : List Char) : Option (GoString × List Char) :=
  scanStringAux s.length s

/-- Whether the rest of the input after the top-level value is white space only
(`stateEndTop`). -/
def onlySpace (rest : List Char) : Bool := rest.all isSpace

/-- The text of the literal `null`. -/
def nullText : List Char := ['n', 'u', 'l', 'l']

/-- Model of `json.Unmarshal(data, &num)` for `var num int`: `some v` when the
call returns a nil error, `v` being `num` afterwards; `none` for any error.
`null` is a no-op that leaves `num` at 0; a number literal is converted with
`strconv.ParseInt(item, 10, 64)`; an object, array, string, `true` or `false`
is an `UnmarshalTypeError` when well-formed and a `SyntaxError` otherwise,
an error in both cases. -/
def unmarshalInt (data : GoString) : Option Int :=
  match tokenKind data with
  | .litNull =>
    if (data.dropWhile isSpace).take 4 = nullText ∧ onlySpace ((data.dropWhile isSpace).drop 4)
    then some 0 else none
  | .number =>
    match scanNumber (data.dropWhile isSpace) with
    | none => none
    | some (item, rest) =>
      if onlySpace rest then
        match ParseInt item with
        | .ok v => some v
        | .error _ => none
      else none
  | _ => none

/-- Model of `json.Unmarshal(data, &str)` for `var str string`: `some s` when
the call returns a nil error, `s` being `str` afterwards; `none` for any error.
`null` leaves `str` empty; a string literal is unquoted; everything else is an
error. -/
def unmarshalString (data : GoString) : Option GoString :=
  match tokenKind data with
  | .litNull =>
    if (data.dropWhile isSpace).take 4 = nullText ∧ onlySpace ((data.dropWhile isSpace).drop 4)
    then some [] else none
  | .string =>
    match scanString ((data.dropWhile isSpace).drop 1) with
    | none => none
    | some (str, rest) => if onlySpace rest then some str else none
  | _ => none

/-! ## types.go: Number -/

/-- The type `Number`, declared as `type Number int`. -/
abbrev Number := Int

/-- The two errors `Number.UnmarshalJSON` builds with `fmt.Errorf`. -/
inductive NumberError where
  | cannotParse (str : GoString) (err : NumErrKind)
  | cannotUnmarshal
  deriving DecidableEq, Repr

/-- Method `Number.UnmarshalJSON` with receiver `*n = n`: the receiver after the call
and the returned error (`none` for nil).  It tries an integer first, then a
string parsed with `strconv.Atoi`. -/
def Number.UnmarshalJSON (n : Number) (data : GoString) : Number × Option NumberError :=
  match unmarshalInt data with
  | some num => (num, none)
  | none =>
    match unmarshalString data with
    | some str =>
      match Atoi str with
      | .ok parsed => (parsed, none)
      | .error err => (n, some (.cannotParse str err))
    | none => (n, some .cannotUnmarshal)

/-- A JSON string token with the given raw contents between the quotes. -/
def jsonQuoted (contents : GoString) : GoString := dquote :: contents ++ [dquote]

/-- Plain text inside a JSON string: no quote, no backslash, no control
character, so that the raw contents are the decoded contents. -/
def isPlain (c : Char) : Bool :=
  decide (c ≠ dquote) && decide (c ≠ backslash) && decide (32 ≤ c.toNat)

/-! ## Error texts: strconv.Quote, NumError.Error, fmt.Errorf -/

/-- A lower-case hexadecimal digit, as in strconv's `lowerhex` table. -/
def lowerHex (n : Nat) : Char :=
  if n % 16 < 10 then Char.ofNat (48 + n % 16) else Char.ofNat (87 + n % 16)

/-- The `k` low hexadecimal digits of `n`, most significant first. -/
def hexDigits : Nat → Nat → List Char
  | 0, _ => []
  | k + 1, n => hexDigits k (n / 16) ++ [lowerHex n]

/-- Model of strconv's `appendEscapedRune` for the double quote, with the Unicode
table behind `strconv.IsPrint` taken as the parameter `isPrint`. -/
def appendEscapedRune (isPrint : Char → Bool) (r : Char) : GoString :=
  if r = dquote ∨ r = backslash then [backslash, r]
  else if isPrint r then [r]
  else if r = Char.ofNat 7 then [backslash, 'a']
  else if r = Char.ofNat 8 then [backslash, 'b']
  else if r = Char.ofNat 12 then [backslash, 'f']
  else if r = Char.ofNat 10 then [backslash, 'n']
  else if r = Char.ofNat 13 then [backslash, 'r']
  else if r = Char.ofNat 9 then [backslash, 't']
  else if r = Char.ofNat 11 then [backslash, 'v']
  else if r.toNat < 32 ∨ r.toNat = 127 then backslash :: 'x' :: hexDigits 2 r.toNat
  else if r.toNat < 65536 then backslash :: 'u' :: hexDigits 4 r.toNat
  else backslash :: 'U' :: hexDigits 8 r.toNat

/-- Model of `strconv.Quote`, which the `%q` verb applies to a string. -/
def Quote (isPrint : Char → Bool) (s : GoString) : GoString :=
  dquote :: (s.map (appendEscapedRune isPrint)).flatten ++ [dquote]

/-- Text of `ErrSyntax` and `ErrRange`. -/
def NumErrKind.text : NumErrKind → GoString
  | .errSyntax => "invalid syntax".toList
  | .errRange => "value out of range".toList

/-- Model of `(*NumError).Error` for an error of `Atoi` on the string `num`. -/
def numErrorText (isPrint : Char → Bool) (num : GoString) (k : NumErrKind) : GoString :=
  "strconv.Atoi: parsing ".toList ++ Quote isPrint num ++ ": ".toList ++ k.text

/-- The text of the fall-through error of `Number.UnmarshalJSON`. -/
def cannotUnmarshalText : GoString :=
  "Number: cannot unmarshal value into integer or string".toList

/-- The message of an error of `Number.UnmarshalJSON`:
`fmt.Errorf("Number: cannot parse string %q as integer: %v", str, err)` and
`fmt.Errorf("Number: cannot unmarshal value into integer or string")`. -/
def NumberError.Error (isPrint : Char → Bool) : NumberError → GoString
  | .cannotParse str err =>
    "Number: cannot parse string ".toList ++ Quote isPrint str ++ " as integer: ".toList ++
      numErrorText isPrint str err
  | .cannotUnmarshal => cannotUnmarshalText

/-- The JSON text of the empty object. -/
def emptyObjectText : GoString := [Char.ofNat 123, Char.ofNat 125]

/-! ## net/url: Values, Encode, QueryEscape -/

/-- The bytes of the UTF-8 form of a code point. -/
def utf8Bytes (c : Char) : List Nat :=
  if c.toNat < 128 then [c.toNat]
  else if c.toNat < 2048 then [192 + c.toNat / 64, 128 + c.toNat % 64]
  else if c.toNat < 65536 then
    [224 + c.toNat / 4096, 128 + c.toNat / 64 % 64, 128 + c.toNat % 64]
  else
    [240 + c.toNat / 262144, 128 + c.toNat / 4096 % 64, 128 + c.toNat / 64 % 64,
      128 + c.toNat % 64]

/-- The bytes of a Go string. -/
def goBytes (s : GoString) : List Nat := (s.map utf8Bytes).flatten

/-- An upper-case hexadecimal digit, as in net/url's `upperhex` table. -/
def upperHex (n : Nat) : Char :=
  if n % 16 < 10 then Char.ofNat (48 + n % 16) else Char.ofNat (55 + n % 16)

/-- Model of net/url's `shouldEscape(c, encodeQueryComponent)`: letters, digits
and `- _ . ~` pass, every other byte is escaped. -/
def shouldEscape (b : Nat) : Bool :=
  if (97 ≤ b ∧ b ≤ 122) ∨ (65 ≤ b ∧ b ≤ 90) ∨ (48 ≤ b ∧ b ≤ 57) then false
  else if b = 45 ∨ b = 95 ∨ b = 46 ∨ b = 126 then false
  else true

/-- What `escape` writes for one byte in query-component mode: `+` for a space,
`%XX` for a byte to escape, the byte itself otherwise. -/
def escapeByte (b : Nat) : List Char :=
  if shouldEscape b then
    if b = 32 then ['+'] else ['%', upperHex (b / 16), upperHex (b % 16)]
  else [Char.ofNat b]

/-- Model of `url.QueryEscape`: the string itself when no byte needs escaping,
else the bytes escaped one by one. -/
def QueryEscape (s : GoString) : GoString :=
  if (goBytes s).all (fun b => !shouldEscape b) then s
  else ((goBytes s).map escapeByte).flatten

/-- Model of `url.Values`, a `map[string][]string`: the keys, each once, with
their values, in the order the keys were added. -/
abbrev Values := List (GoString × List GoString)

/-- Model of `Values.Set`: `v[key] = []string{value}`. -/
def Values.Set (v : Values) (key value : GoString) : Values :=
  if v.any (fun kv => decide (kv.1 = key)) then
    v.map (fun kv => if kv.1 = key then (kv.1, [value]) else kv)
  else v ++ [(key, [value])]

/-- The values stored under a key, `v[k]`. -/
def Values.lookup (v : Values) (k : GoString) : List GoString :=
  match v.find? (fun kv => decide (kv.1 = k)) with
  | some kv => kv.2
  | none => []

/-- Order of Go strings: byte-wise, which on UTF-8 is the order of code points. -/
def goStringLE : GoString → GoString → Bool
  | [], _ => true
  | _ :: _, [] => false
  | a :: as, b :: bs =>
    if a.toNat < b.toNat then true
    else if b.toNat < a.toNat then false
    else goStringLE as bs

/-- Insert a key into a sorted list of keys. -/
def insertKey (k : GoString) : List GoString → List GoString
  | [] => [k]
  | x :: xs => if goStringLE k x then k :: x :: xs else x :: insertKey k xs

/-- Model of `slices.Sort(keys)` on strings. -/
def sortKeys (ks : List GoString) : List GoString := ks.foldr insertKey []

/-- One round of the inner loop of `Encode`: an `&` when the buffer is not
empty, then the escaped key, `=`, the escaped value. -/
def encodePair (buf keyEscaped val : GoString) : GoString :=
  (if buf.length > 0 then buf ++ ['&'] else buf) ++ keyEscaped ++ ['='] ++ QueryEscape val

/-- Model of `Values.Encode`: the URL-encoded form, sorted by key. -/
def Values.Encode (v : Values) : GoString :=
  if v.length = 0 then []
  else
    (sortKeys (v.map Prod.fst)).foldl
      (fun buf k => (v.lookup k).foldl (fun b val => encodePair b (QueryEscape k) val) buf) []

/-! ## Query strings, as the specification words them -/

/-- Texts joined by `&`. -/
def joinAmp : List GoString → GoString
  | [] => []
  | [t] => t
  | t :: u :: rest => t ++ '&' :: joinAmp (u :: rest)

/-- The text `key=value` of one query parameter, value escaped. -/
def pairText (key value : GoString) : GoString := key ++ '=' :: QueryEscape value

/-- Append a text to a buffer, after an `&` when the buffer is not empty. -/
def appendAmp (buf t : GoString) : GoString :=
  (if buf.length > 0 then buf ++ ['&'] else buf) ++ t

/-! ## types.go: the records the modelled operations use -/

/-- Model of a Go slice `[]T`: `none` is the nil slice. -/
abbrev Slice (α : Type) := Option (List α)

/-- A `time.Time`, kept as the RFC 3339 text it is decoded from. -/
structure Time where
  rfc3339 : GoString
  deriving DecidableEq, Repr

/-- A dynamic JSON value, what `interface{}` holds after decoding: numbers are
kept as their literal text. -/
inductive Any where
  | null
  | bool (b : Bool)
  | number (literal : GoString)
  | string (s : GoString)
  | array (items : List Any)
  | object (members : List (GoString × Any))
  deriving Repr

/-- Type `DeploymentListOptions`: query parameters for listing deployments. -/
structure DeploymentListOptions where
  Environment : GoString
  LocalUsername : GoString
  CreatedAfter : Int
  CreatedBefore : Int
  Limit : Int
  deriving DecidableEq, Repr

/-- Type `OutageListOptions`: query parameters for listing outages. -/
structure OutageListOptions where
  CreatedAfter : Int
  CreatedBefore : Int
  Limit : Int
  deriving DecidableEq, Repr

/-- Type `UptimeCheckListOptions`: query parameters for listing uptime checks. -/
structure UptimeCheckListOptions where
  CreatedAfter : Int
  CreatedBefore : Int
  Limit : Int
  deriving DecidableEq, Repr

/-- Type `Deployment`: a deployment. -/
structure Deployment where
  ID : Int
  CreatedAt : Time
  Environment : GoString
  LocalUsername : GoString
  ProjectID : Int
  Repository : GoString
  Revision : GoString
  deriving DecidableEq, Repr

/-- Type `DeploymentListResponse`: the response from listing deployments. -/
structure DeploymentListResponse where
  Results : Slice Deployment
  deriving DecidableEq, Repr

/-- Type `Outage`: a site outage; `Headers` is a `map[string]interface{}`, nil when `none`. -/
structure Outage where
  DownAt : Time
  UpAt : Option Time
  CreatedAt : Time
  Status : Int
  Reason : GoString
  Headers : Option (List (GoString × Any))

/-- Type `UptimeCheck`: a single uptime check. -/
structure UptimeCheck where
  CreatedAt : Time
  Duration : Int
  Location : GoString
  Up : Bool
  deriving DecidableEq, Repr

/-- Type `StatusPageParams`; pointers are options, `Features` is a
`map[string]interface{}`. -/
structure StatusPageParams where
  Name : GoString
  Domain : Option GoString
  Sites : Slice GoString
  CheckIns : Slice GoString
  HideBranding : Option Bool
  Features : Option (List (GoString × Any))

/-- Type `StatusPageRequest`: the one field is tagged `json:"status_page"`. -/
structure StatusPageRequest where
  StatusPage : StatusPageParams

/-- The JSON keys of a `StatusPageRequest` with the value each holds, from the
struct tags. -/
def StatusPageRequest.jsonFields (r : StatusPageRequest) : List (GoString × StatusPageParams) :=
  [("status_page".toList, r.StatusPage)]

/-- Type `Dashboard` (dashboards.go). -/
structure Dashboard where
  ID : GoString
  Title : GoString
  Widgets : Slice (List (GoString × Any))
  IsDefault : Bool
  Shared : Bool
  CreatedAt : Time
  UpdatedAt : Time
  ProjectID : Int

/-- Type `DashboardRequest` (dashboards.go). -/
structure DashboardRequest where
  Title : GoString
  DefaultTs : GoString
  Widgets : Slice (List (GoString × Any))

/-! ## types.go: the remaining records of the resource methods -/

/-- A `float64`, kept as the literal text it is decoded from. -/
abbrev Float64 := GoString

/-- Type `User`: a Honeybadger user. -/
structure User where
  ID : Int
  Email : GoString
  Name : GoString
  deriving DecidableEq, Repr

/-- Type `Account`; `APIStats` is a `map[string]interface{}`. -/
structure Account where
  ID : GoString
  Email : GoString
  Name : GoString
  Active : Option Bool
  Parked : Option Bool
  QuotaConsumed : Option Float64
  APIStats : Option (List (GoString × Any))

/-- Type `AccountUser`: a user associated with an account. -/
structure AccountUser where
  ID : Int
  Role : GoString
  Name : GoString
  Email : GoString
  deriving DecidableEq, Repr

/-- The anonymous struct of the field `User` of `AccountUserUpdateRequest`. -/
structure AccountUserUpdateRequestUser where
  Role : GoString
  deriving DecidableEq, Repr

/-- Type `AccountUserUpdateRequest`: the one field is tagged `json:"user"`. -/
structure AccountUserUpdateRequest where
  User : AccountUserUpdateRequestUser
  deriving DecidableEq, Repr

/-- Type `AccountInvitation`: an invitation to join an account. -/
structure AccountInvitation where
  ID : Int
  Token : GoString
  Email : GoString
  Role : GoString
  TeamIDs : Slice Int
  CreatedAt : Time
  AcceptedAt : Option Time
  deriving DecidableEq, Repr

/-- Type `AccountInvitationParams`. -/
structure AccountInvitationParams where
  Email : GoString
  Role : GoString
  TeamIDs : Slice Int
  deriving DecidableEq, Repr

/-- Type `AccountInvitationRequest`: the one field is tagged `json:"invitation"`. -/
structure AccountInvitationRequest where
  Invitation : AccountInvitationParams
  deriving DecidableEq, Repr

/-- Type `AccountListResponse`. -/
structure AccountListResponse where
  Results : Slice Account

/-- Type `StatusPage`; `Features` is a `map[string]interface{}`. -/
structure StatusPage where
  ID : Int
  Name : GoString
  AccountID : Int
  Domain : Option GoString
  URL : GoString
  CreatedAt : Time
  DomainVerifiedAt : Option Time
  Sites : Slice GoString
  CheckIns : Slice GoString
  HideBranding : Option Bool
  Features : Option (List (GoString × Any))

/-- Type `StatusPageListResponse`. -/
structure StatusPageListResponse where
  Results : Slice StatusPage

/-- Type `Team`. -/
structure Team where
  ID : Int
  Name : GoString
  AccountID : Int
  CreatedAt : Time
  deriving DecidableEq, Repr

/-- Type `TeamListResponse`. -/
structure TeamListResponse where
  Results : Slice Team
  deriving DecidableEq, Repr

/-- The anonymous struct of the field `Team` of `TeamRequest`. -/
structure TeamRequestTeam where
  Name : GoString
  deriving DecidableEq, Repr

/-- Type `TeamRequest`: the one field is tagged `json:"team"`. -/
structure TeamRequest where
  Team : TeamRequestTeam
  deriving DecidableEq, Repr

/-- Type `TeamMember`. -/
structure TeamMember where
  ID : Int
  Name : GoString
  Email : GoString
  Admin : Bool
  deriving DecidableEq, Repr

/-- Type `TeamMemberListResponse`. -/
structure TeamMemberListResponse where
  Results : Slice TeamMember
  deriving DecidableEq, Repr

/-- The anonymous struct of the field `TeamMember` of `TeamMemberUpdateRequest`. -/
structure TeamMemberUpdateRequestTeamMember where
  Admin : Bool
  deriving DecidableEq, Repr

/-- Type `TeamMemberUpdateRequest`: the one field is tagged `json:"team_member"`. -/
structure TeamMemberUpdateRequest where
  TeamMember : TeamMemberUpdateRequestTeamMember
  deriving DecidableEq, Repr

/-- Type `TeamInvitation`. -/
structure TeamInvitation where
  ID : Int
  Token : GoString
  Email : GoString
  Admin : Bool
  CreatedAt : Time
  AcceptedAt : Option Time
  Message : Option GoString
  deriving DecidableEq, Repr

/-- Type `TeamInvitationParams`. -/
structure TeamInvitationParams where
  Email : GoString
  Admin : Option Bool
  Message : Option GoString
  deriving DecidableEq, Repr

/-- Type `TeamInvitationRequest`: the one field is tagged `json:"team_invitation"`. -/
structure TeamInvitationRequest where
  TeamInvitation : TeamInvitationParams
  deriving DecidableEq, Repr

/-- Type `TeamInvitationListResponse`. -/
structure TeamInvitationListResponse where
  Results : Slice TeamInvitation
  deriving DecidableEq, Repr

/-- Type `Environment`: a project environment. -/
structure Environment where
  ID : Int
  ProjectID : Int
  Name : GoString
  Notifications : Bool
  CreatedAt : Time
  UpdatedAt : Time
  deriving DecidableEq, Repr

/-- Type `EnvironmentParams`. -/
structure EnvironmentParams where
  Name : GoString
  Notifications : Option Bool
  deriving DecidableEq, Repr

/-- Type `EnvironmentRequest`: the one field is tagged `json:"environment"`. -/
structure EnvironmentRequest where
  Environment : EnvironmentParams
  deriving DecidableEq, Repr

/-- Modelled from the spec: the type `EnvironmentListResponse`, whose declaration
is not among the sources; `Environments.List` reads its field `Results`, a
`[]Environment`, taken to be tagged `json:"results"` like every list response
of types.go. -/
structure EnvironmentListResponse where
  Results : Slice Environment
  deriving DecidableEq, Repr

/-- Type `Site`: an uptime monitoring site. -/
structure Site where
  ID : GoString
  Active : Bool
  Frequency : Int
  LastCheckedAt : Option Time
  Match : Option GoString
  MatchType : GoString
  Name : GoString
  State : GoString
  URL : GoString
  deriving DecidableEq, Repr

/-- Type `SiteParams`; `RequestHeaders` is a `[]map[string]string`. -/
structure SiteParams where
  Name : GoString
  URL : GoString
  Frequency : Option Int
  Match : Option GoString
  MatchType : Option GoString
  RequestMethod : Option GoString
  RequestBody : Option GoString
  RequestHeaders : Slice (List (GoString × GoString))
  Locations : Slice GoString
  ValidateSSL : Option Bool
  Timeout : Option Int
  OutageThreshold : Option Int
  Active : Option Bool
  deriving DecidableEq, Repr

/-- Type `SiteCreateRequest`: the one field is tagged `json:"site"`. -/
structure SiteCreateRequest where
  Site : SiteParams
  deriving DecidableEq, Repr

/-- Type `PaginationLinks`: the pagination links in API responses. -/
structure PaginationLinks where
  Next : GoString
  Prev : GoString
  Self : GoString
  deriving DecidableEq, Repr

/-- Type `ListResponse[T]`: a generic list response with results and pagination
links. -/
structure ListResponse (T : Type) where
  Results : Slice T
  Links : PaginationLinks

/-- Type `DashboardListResponse = ListResponse[Dashboard]` (dashboards.go). -/
abbrev DashboardListResponse := ListResponse Dashboard

/-- Type `Comment`: a comment on a fault; `Author` is a `*User`. -/
structure Comment where
  ID : Int
  FaultID : Int
  Event : GoString
  Source : GoString
  NoticesCount : Int
  CreatedAt : Time
  Author : Option User
  Body : GoString
  deriving DecidableEq, Repr

/-- The anonymous struct of the field `Comment` of `CommentRequest`. -/
structure CommentRequestComment where
  Body : GoString
  deriving DecidableEq, Repr

/-- Type `CommentRequest`: the one field is tagged `json:"comment"`. -/
structure CommentRequest where
  Comment : CommentRequestComment
  deriving DecidableEq, Repr

/-- Modelled from the spec: the type `CommentListResponse`, whose declaration is
not among the sources; `Comments.List` reads its field `Results`, a `[]Comment`,
taken to be tagged `json:"results"` like every list response of types.go. -/
structure CommentListResponse where
  Results : Slice Comment
  deriving DecidableEq, Repr

/-- Type `CheckIn`: a check-in; the four periods and schedules are `*string`. -/
structure CheckIn where
  ID : GoString
  Name : GoString
  Slug : GoString
  ScheduleType : GoString
  ReportPeriod : Option GoString
  GracePeriod : Option GoString
  CronSchedule : Option GoString
  CronTimezone : Option GoString
  ProjectID : Int
  CreatedAt : Time
  LastCheckInAt : Option Time
  deriving DecidableEq, Repr

/-- Type `CheckInListResponse`. -/
structure CheckInListResponse where
  Results : Slice CheckIn
  deriving DecidableEq, Repr

/-- Type `CheckInParams`: the parameters for creating or updating a check-in. -/
structure CheckInParams where
  Name : GoString
  Slug : GoString
  ScheduleType : GoString
  ReportPeriod : Option GoString
  GracePeriod : Option GoString
  CronSchedule : Option GoString
  CronTimezone : Option GoString
  deriving DecidableEq, Repr

/-- Type `CheckInRequest`: the one field is tagged `json:"check_in"`. -/
structure CheckInRequest where
  CheckIn : CheckInParams
  deriving DecidableEq, Repr

/-- The anonymous struct `CheckIns.BulkUpdate` sends: the one field is tagged
`json:"check_ins"`. -/
structure CheckInBulkRequest where
  CheckIns : Slice CheckInParams
  deriving DecidableEq, Repr

/-- Type `CheckInBulkResult`: a single result in a bulk operation. -/
structure CheckInBulkResult where
  Success : Bool
  ID : Option GoString
  Slug : GoString
  Error : GoString
  deriving DecidableEq, Repr

/-- Type `CheckInBulkUpdateResponse`. -/
structure CheckInBulkUpdateResponse where
  Create : Slice CheckInBulkResult
  Update : Slice CheckInBulkResult
  Delete : Slice CheckInBulkResult
  deriving DecidableEq, Repr

/-- Modelled from the spec: the type `UpdateResult`, whose declaration is not
among the sources; `Dashboards.Update` builds it with the fields `Success` and
`Message`. -/
structure UpdateResult where
  Success : Bool
  Message : GoString
  deriving DecidableEq, Repr

/-- Modelled from the spec: the type `DeleteResult`, whose declaration is not
among the sources; `Dashboards.Delete` builds it with the fields `Success` and
`Message`. -/
structure DeleteResult where
  Success : Bool
  Message : GoString
  deriving DecidableEq, Repr

/-! ## The client as the resource methods see it -/

/-- The values the resource methods hand to `newRequest` as `body`. -/
inductive Body where
  | statusPageRequest (r : StatusPageRequest)
  | dashboardMap (m : List (GoString × DashboardRequest))
  | accountUserUpdateRequest (r : AccountUserUpdateRequest)
  | accountInvitationRequest (r : AccountInvitationRequest)
  | checkInRequest (r : CheckInRequest)
  | checkInBulkRequest (r : CheckInBulkRequest)
  | commentRequest (r : CommentRequest)
  | environmentRequest (r : EnvironmentRequest)
  | teamRequest (r : TeamRequest)
  | teamMemberUpdateRequest (r : TeamMemberUpdateRequest)
  | teamInvitationRequest (r : TeamInvitationRequest)
  | siteCreateRequest (r : SiteCreateRequest)

/-- The Go type behind a non-nil decode target handed to `do`. -/
inductive Target where
  | deploymentListResponse
  | outages
  | uptimeChecks
  | dashboard
  | accountListResponse
  | account
  | accountUsers
  | accountUser
  | accountInvitations
  | accountInvitation
  | checkInListResponse
  | checkIn
  | checkInBulkUpdateResponse
  | commentListResponse
  | comment
  | dashboardListResponse
  | deployment
  | environmentListResponse
  | environment
  | statusPageListResponse
  | statusPage
  | teamListResponse
  | team
  | teamMemberListResponse
  | teamInvitationListResponse
  | teamInvitation
  | sites
  | site
  deriving DecidableEq, Repr

/-- The value a decode target holds. -/
def Target.Value : Target → Type
  | .deploymentListResponse => DeploymentListResponse
  | .outages => Slice Outage
  | .uptimeChecks => Slice UptimeCheck
  | .dashboard => Dashboard
  | .accountListResponse => AccountListResponse
  | .account => Account
  | .accountUsers => Slice AccountUser
  | .accountUser => AccountUser
  | .accountInvitations => Slice AccountInvitation
  | .accountInvitation => AccountInvitation
  | .checkInListResponse => CheckInListResponse
  | .checkIn => CheckIn
  | .checkInBulkUpdateResponse => CheckInBulkUpdateResponse
  | .commentListResponse => CommentListResponse
  | .comment => Comment
  | .dashboardListResponse => DashboardListResponse
  | .deployment => Deployment
  | .environmentListResponse => EnvironmentListResponse
  | .environment => Environment
  | .statusPageListResponse => StatusPageListResponse
  | .statusPage => StatusPage
  | .teamListResponse => TeamListResponse
  | .team => Team
  | .teamMemberListResponse => TeamMemberListResponse
  | .teamInvitationListResponse => TeamInvitationListResponse
  | .teamInvitation => TeamInvitation
  | .sites => Slice Site
  | .site => Site

/-- The zero `time.Time`. -/
def Time.zero : Time := { rfc3339 := [] }

/-- The zero value of the Go type behind a target, what a variable declared
with `var` holds before `do` decodes into it. -/
def Target.zero : (t : Target) → t.Value
  | .deploymentListResponse => ({ Results := none } : DeploymentListResponse)
  | .outages => (none : Slice Outage)
  | .uptimeChecks => (none : Slice UptimeCheck)
  | .dashboard =>
    ({ ID := [], Title := [], Widgets := none, IsDefault := false, Shared := false,
       CreatedAt := Time.zero, UpdatedAt := Time.zero, ProjectID := 0 } : Dashboard)
  | .accountListResponse => ({ Results := none } : AccountListResponse)
  | .account =>
    ({ ID := [], Email := [], Name := [], Active := none, Parked := none,
       QuotaConsumed := none, APIStats := none } : Account)
  | .accountUsers => (none : Slice AccountUser)
  | .accountUser => ({ ID := 0, Role := [], Name := [], Email := [] } : AccountUser)
  | .accountInvitations => (none : Slice AccountInvitation)
  | .accountInvitation =>
    ({ ID := 0, Token := [], Email := [], Role := [], TeamIDs := none, CreatedAt := Time.zero,
       AcceptedAt := none } : AccountInvitation)
  | .checkInListResponse => ({ Results := none } : CheckInListResponse)
  | .checkIn =>
    ({ ID := [], Name := [], Slug := [], ScheduleType := [], ReportPeriod := none,
       GracePeriod := none, CronSchedule := none, CronTimezone := none, ProjectID := 0,
       CreatedAt := Time.zero, LastCheckInAt := none } : CheckIn)
  | .checkInBulkUpdateResponse =>
    ({ Create := none, Update := none, Delete := none } : CheckInBulkUpdateResponse)
  | .commentListResponse => ({ Results := none } : CommentListResponse)
  | .comment =>
    ({ ID := 0, FaultID := 0, Event := [], Source := [], NoticesCount := 0,
       CreatedAt := Time.zero, Author := none, Body := [] } : Comment)
  | .dashboardListResponse =>
    ({ Results := none, Links := { Next := [], Prev := [], Self := [] } } :
      DashboardListResponse)
  | .deployment =>
    ({ ID := 0, CreatedAt := Time.zero, Environment := [], LocalUsername := [], ProjectID := 0,
       Repository := [], Revision := [] } : Deployment)
  | .environmentListResponse => ({ Results := none } : EnvironmentListResponse)
  | .environment =>
    ({ ID := 0, ProjectID := 0, Name := [], Notifications := false, CreatedAt := Time.zero,
       UpdatedAt := Time.zero } : Environment)
  | .statusPageListResponse => ({ Results := none } : StatusPageListResponse)
  | .statusPage =>
    ({ ID := 0, Name := [], AccountID := 0, Domain := none, URL := [], CreatedAt := Time.zero,
       DomainVerifiedAt := none, Sites := none, CheckIns := none, HideBranding := none,
       Features := none } : StatusPage)
  | .teamListResponse => ({ Results := none } : TeamListResponse)
  | .team => ({ ID := 0, Name := [], AccountID := 0, CreatedAt := Time.zero } : Team)
  | .teamMemberListResponse => ({ Results := none } : TeamMemberListResponse)
  | .teamInvitationListResponse => ({ Results := none } : TeamInvitationListResponse)
  | .teamInvitation =>
    ({ ID := 0, Token := [], Email := [], Admin := false, CreatedAt := Time.zero,
       AcceptedAt := none, Message := none } : TeamInvitation)
  | .sites => (none : Slice Site)
  | .site =>
    ({ ID := [], Active := false, Frequency := 0, LastCheckedAt := none, Match := none,
       MatchType := [], Name := [], State := [], URL := [] } : Site)

/-- Go `error` values the client returns: an `*APIError` with its status code
and message, or any other error (construction, network, decoding). -/
inductive Error where
  | apiError (StatusCode : Int) (Message : GoString)
  | other (text : GoString)
  deriving DecidableEq, Repr

/-- What `do` gives back: for a nil target the error or nil; for a target the
error, or the value the target holds after successful decoding. -/
def DoResult : Option Target → Type
  | none => Option Error
  | some t => Except Error t.Value

/-- The two unexported methods of `Client` the resource methods call live in
client.go, which is not among the sources: `newRequest(ctx, method, path, body)`
and `do(ctx, req, v)` are taken as parameters, over any type `Req` of built
requests. -/
structure Client (Req : Type) where
  newRequestFn : GoString → GoString → Option Body → Except Error Req
  doFn : Req → (v : Option Target) → DoResult v

/-- A call a resource method makes on its client. -/
inductive Event (Req : Type) where
  | newRequest (method path : GoString) (body : Option Body)
  | doCall (req : Req) (v : Option Target)

/-- The calls made so far, oldest first. -/
abbrev Log (Req : Type) := List (Event Req)

/-- The call `c.newRequest(ctx, method, path, body)`, recorded in the log. -/
def Client.newRequest {Req : Type} (c : Client Req) (log : Log Req) (method path : GoString)
    (body : Option Body) : Except Error Req × Log Req :=
  (c.newRequestFn method path body, log ++ [Event.newRequest method path body])

/-- The call `c.do(ctx, req, v)`, recorded in the log. -/
def Client.do {Req : Type} (c : Client Req) (log : Log Req) (req : Req) (v : Option Target) :
    DoResult v × Log Req :=
  (c.doFn req v, log ++ [Event.doCall req v])

/-! ## deployments.go, uptime.go, statuspages.go, dashboards.go -/

/-- The first half of `DeploymentsService.List`: the path with the query
parameters built in a `url.Values` and appended after `?` when there are any. -/
def DeploymentsService.listPath (projectID : Int) (options : DeploymentListOptions) :
    GoString :=
  let path := "/projects/".toList ++ formatInt projectID ++ "/deploys".toList
  let params : Values := []
  let params :=
    if options.Environment ≠ [] then params.Set "environment".toList options.Environment
    else params
  let params :=
    if options.LocalUsername ≠ [] then params.Set "local_username".toList options.LocalUsername
    else params
  let params :=
    if options.CreatedAfter > 0 then
      params.Set "created_after".toList (formatInt options.CreatedAfter)
    else params
  let params :=
    if options.CreatedBefore > 0 then
      params.Set "created_before".toList (formatInt options.CreatedBefore)
    else params
  let params :=
    if options.Limit > 0 then params.Set "limit".toList (formatInt options.Limit) else params
  if params.length > 0 then path ++ '?' :: params.Encode else path

/-- Method `DeploymentsService.List`: the deployments of a project, with optional
filtering.  Returns the pair `([]Deployment, error)` and the log. -/
def DeploymentsService.List {Req : Type} (c : Client Req) (log : Log Req) (projectID : Int)
    (options : DeploymentListOptions) : (Slice Deployment × Option Error) × Log Req :=
  let path := DeploymentsService.listPath projectID options
  match c.newRequest log "GET".toList path none with
  | (.error err, log) => ((none, some err), log)
  | (.ok req, log) =>
    match c.do log req (some .deploymentListResponse) with
    | (.error err, log) => ((none, some err), log)
    | (.ok response, log) => ((response.Results, none), log)

/-- The first half of `UptimeService.ListOutages`: the path with the query parameters
built in a `url.Values` and appended after `?` when there are any. -/
def UptimeService.listOutagesPath (projectID : Int) (siteID : GoString)
    (options : OutageListOptions) : GoString :=
  let path := "/projects/".toList ++ formatInt projectID ++ "/sites/".toList ++ siteID ++
    "/outages".toList
  let params : Values := []
  let params :=
    if options.CreatedAfter > 0 then
      params.Set "created_after".toList (formatInt options.CreatedAfter)
    else params
  let params :=
    if options.CreatedBefore > 0 then
      params.Set "created_before".toList (formatInt options.CreatedBefore)
    else params
  let params :=
    if options.Limit > 0 then params.Set "limit".toList (formatInt options.Limit) else params
  if params.length > 0 then path ++ '?' :: params.Encode else path

/-- Method `UptimeService.ListOutages`: outages of a site. -/
def UptimeService.ListOutages {Req : Type} (c : Client Req) (log : Log Req) (projectID : Int)
    (siteID : GoString) (options : OutageListOptions) :
    (Slice Outage × Option Error) × Log Req :=
  let path := UptimeService.listOutagesPath projectID siteID options
  match c.newRequest log "GET".toList path none with
  | (.error err, log) => ((none, some err), log)
  | (.ok req, log) =>
    match c.do log req (some .outages) with
    | (.error err, log) => ((none, some err), log)
    | (.ok outages, log) => ((outages, none), log)

/-- The first half of `UptimeService.ListUptimeChecks`: the path with the query parameters
built in a `url.Values` and appended after `?` when there are any. -/
def UptimeService.listUptimeChecksPath (projectID : Int) (siteID : GoString)
    (options : UptimeCheckListOptions) : GoString :=
  let path := "/projects/".toList ++ formatInt projectID ++ "/sites/".toList ++ siteID ++
    "/uptime_checks".toList
  let params : Values := []
  let params :=
    if options.CreatedAfter > 0 then
      params.Set "created_after".toList (formatInt options.CreatedAfter)
    else params
  let params :=
    if options.CreatedBefore > 0 then
      params.Set "created_before".toList (formatInt options.CreatedBefore)
    else params
  let params :=
    if options.Limit > 0 then params.Set "limit".toList (formatInt options.Limit) else params
  if params.length > 0 then path ++ '?' :: params.Encode else path

/-- Method `UptimeService.ListUptimeChecks`: uptime checks of a site. -/
def UptimeService.ListUptimeChecks {Req : Type} (c : Client Req) (log : Log Req) (projectID : Int)
    (siteID : GoString) (options : UptimeCheckListOptions) :
    (Slice UptimeCheck × Option Error) × Log Req :=
  let path := UptimeService.listUptimeChecksPath projectID siteID options
  match c.newRequest log "GET".toList path none with
  | (.error err, log) => ((none, some err), log)
  | (.ok req, log) =>
    match c.do log req (some .uptimeChecks) with
    | (.error err, log) => ((none, some err), log)
    | (.ok checks, log) => ((checks, none), log)

/-- Method `StatusPagesService.Update`: update a status page; returns the error. -/
def StatusPagesService.Update {Req : Type} (c : Client Req) (log : Log Req)
    (accountID statusPageID : Int) (params : StatusPageParams) : Option Error × Log Req :=
  let path := "/accounts/".toList ++ formatInt accountID ++ "/status_pages/".toList ++
    formatInt statusPageID
  let reqBody : StatusPageRequest := { StatusPage := params }
  match c.newRequest log "POST".toList path (some (.statusPageRequest reqBody)) with
  | (.error err, log) => (some err, log)
  | (.ok req, log) => c.do log req none

/-- Method `DashboardsService.Create`: create a dashboard; returns `(*Dashboard, error)`. -/
def DashboardsService.Create {Req : Type} (c : Client Req) (log : Log Req) (projectID : Int)
    (dashboardReq : DashboardRequest) : (Option Dashboard × Option Error) × Log Req :=
  let body := Body.dashboardMap [("dashboard".toList, dashboardReq)]
  let path := "/projects/".toList ++ formatInt projectID ++ "/dashboards".toList
  match c.newRequest log "POST".toList path (some body) with
  | (.error err, log) => ((none, some err), log)
  | (.ok req, log) =>
    match c.do log req (some .dashboard) with
    | (.error err, log) => ((none, some err), log)
    | (.ok result, log) => ((some result, none), log)

/-! ## The query string, as the specification words it -/

/-- The parameters a deployment listing sends, as `(key, value)`: one per field
that is a non-empty string or a positive integer, in ascending order of keys. -/
def deploymentParams (o : DeploymentListOptions) : List (GoString × GoString) :=
  (if o.CreatedAfter > 0 then [("created_after".toList, formatInt o.CreatedAfter)] else []) ++
  (if o.CreatedBefore > 0 then [("created_before".toList, formatInt o.CreatedBefore)]
    else []) ++
  (if o.Environment ≠ [] then [("environment".toList, o.Environment)] else []) ++
  (if o.Limit > 0 then [("limit".toList, formatInt o.Limit)] else []) ++
  (if o.LocalUsername ≠ [] then [("local_username".toList, o.LocalUsername)] else [])

/-- The parameters an outage or uptime-check listing sends, as `(key, value)`. -/
def timeRangeParams (createdAfter createdBefore limit : Int) : List (GoString × GoString) :=
  (if createdAfter > 0 then [("created_after".toList, formatInt createdAfter)] else []) ++
  (if createdBefore > 0 then [("created_before".toList, formatInt createdBefore)] else []) ++
  (if limit > 0 then [("limit".toList, formatInt limit)] else [])

/-- The `key=value` texts of a list of parameters. -/
def pairTexts (params : List (GoString × GoString)) : List GoString :=
  params.map (fun kv => pairText kv.1 kv.2)

/-- A path followed by `?` and the parameters joined by `&`, or the bare path
when there are none. -/
def withQuery (path : GoString) (params : List (GoString × GoString)) : GoString :=
  if params = [] then path else path ++ '?' :: joinAmp (pairTexts params)

/-- Number of fields of a `DeploymentListOptions` that differ from their zero
value. -/
def DeploymentListOptions.nonZeroFields (o : DeploymentListOptions) : Nat :=
  (if o.Environment ≠ [] then 1 else 0) + (if o.LocalUsername ≠ [] then 1 else 0) +
  (if o.CreatedAfter ≠ 0 then 1 else 0) + (if o.CreatedBefore ≠ 0 then 1 else 0) +
  (if o.Limit ≠ 0 then 1 else 0)

/-- Number of fields of a `DeploymentListOptions` that are a non-empty string or
a positive integer. -/
def DeploymentListOptions.sentFields (o : DeploymentListOptions) : Nat :=
  (if o.Environment ≠ [] then 1 else 0) + (if o.LocalUsername ≠ [] then 1 else 0) +
  (if o.CreatedAfter > 0 then 1 else 0) + (if o.CreatedBefore > 0 then 1 else 0) +
  (if o.Limit > 0 then 1 else 0)

/-- The method a resource method handed to `newRequest`, read off the first
event of its log. -/
def firstMethod {Req : Type} : Log Req → Option GoString
  | Event.newRequest method _ _ :: _ => some method
  | _ => none

/-- The path a resource method handed to `newRequest`, read off the first event
of its log. -/
def firstPath {Req : Type} : Log Req → Option GoString
  | Event.newRequest _ path _ :: _ => some path
  | _ => none

/-- The request descriptor of the specification: method, path relative to the
API root, optional body. -/
structure Request where
  method : GoString
  path : GoString
  body : Option Body

/-- A client that builds every request and whose `do` always returns a nil
error and leaves its target at the zero value; it serves to run the resource
methods on concrete arguments. -/
def quietClient : Client Request where
  newRequestFn := fun method path body => .ok { method := method, path := path, body := body }
  doFn := fun _ v =>
    match v with
    | none => (none : Option Error)
    | some t => (.ok t.zero : Except Error t.Value)

/-- The options of the test `TestDeploymentsListWithOptions`:
`DeploymentListOptions{Environment: "production", Limit: 10}`. -/
def productionTen : DeploymentListOptions :=
  { Environment := "production".toList, LocalUsername := [], CreatedAfter := 0,
    CreatedBefore := 0, Limit := 10 }

/-- Options whose only non-zero field is `Limit: -1`. -/
def negativeLimit : DeploymentListOptions :=
  { Environment := [], LocalUsername := [], CreatedAfter := 0, CreatedBefore := 0, Limit := -1 }

/-- Options whose only non-zero field is `Environment: "0"`. -/
def environmentZeroText : DeploymentListOptions :=
  { Environment := "0".toList, LocalUsername := [], CreatedAfter := 0, CreatedBefore := 0,
    Limit := 0 }

/-- The zero value of `DeploymentListOptions`. -/
def DeploymentListOptions.zero : DeploymentListOptions :=
  { Environment := [], LocalUsername := [], CreatedAfter := 0, CreatedBefore := 0, Limit := 0 }

/-- The zero value of `OutageListOptions`. -/
def OutageListOptions.zero : OutageListOptions :=
  { CreatedAfter := 0, CreatedBefore := 0, Limit := 0 }

/-- The zero value of `UptimeCheckListOptions`. -/
def UptimeCheckListOptions.zero : UptimeCheckListOptions :=
  { CreatedAfter := 0, CreatedBefore := 0, Limit := 0 }

/-- The parameters of the test `TestStatusPagesUpdate`:
`StatusPageParams{Name: "Updated Status Page"}`. -/
def updatedStatusPage : StatusPageParams :=
  { Name := "Updated Status Page".toList, Domain := none, Sites := none, CheckIns := none,
    HideBranding := none, Features := none }

/-! ## The resource methods: accounts.go, checkins.go, comments.go, dashboards.go,
deployments.go, environments.go, statuspages.go, teams.go, uptime.go -/

/-- Method `AccountsService.List`: all accounts of the authenticated user.  Returns the
pair `([]Account, error)` and the log. -/
def AccountsService.List {Req : Type} (c : Client Req) (log : Log Req) :
    (Slice Account × Option Error) × Log Req :=
  let path := "/accounts".toList
  match c.newRequest log "GET".toList path none with
  | (.error err, log) => ((none, some err), log)
  | (.ok req, log) =>
    match c.do log req (some .accountListResponse) with
    | (.error err, log) => ((none, some err), log)
    | (.ok response, log) => ((response.Results, none), log)

/-- Method `AccountsService.Get`: a single account by ID.  Returns the pair `(*Account,
error)` and the log. -/
def AccountsService.Get {Req : Type} (c : Client Req) (log : Log Req) (accountID : GoString) :
    (Option Account × Option Error) × Log Req :=
  let path := "/accounts/".toList ++ accountID
  match c.newRequest log "GET".toList path none with
  | (.error err, log) => ((none, some err), log)
  | (.ok req, log) =>
    match c.do log req (some .account) with
    | (.error err, log) => ((none, some err), log)
    | (.ok account, log) => ((some account, none), log)

/-- Method `AccountsService.ListUsers`: all users of an account.  Returns the pair
`([]AccountUser, error)` and the log. -/
def AccountsService.ListUsers {Req : Type} (c : Client Req) (log : Log Req)
    (accountID : GoString) :
    (Slice AccountUser × Option Error) × Log Req :=
  let path := "/accounts/".toList ++ accountID ++ "/users".toList
  match c.newRequest log "GET".toList path none with
  | (.error err, log) => ((none, some err), log)
  | (.ok req, log) =>
    match c.do log req (some .accountUsers) with
    | (.error err, log) => ((none, some err), log)
    | (.ok users, log) => ((users, none), log)

/-- Method `AccountsService.GetUser`: a single user by ID.  Returns the pair
`(*AccountUser, error)` and the log. -/
def AccountsService.GetUser {Req : Type} (c : Client Req) (log : Log Req)
    (accountID : GoString) (userID : Int) :
    (Option AccountUser × Option Error) × Log Req :=
  let path := "/accounts/".toList ++ accountID ++ "/users/".toList ++ formatInt userID
  match c.newRequest log "GET".toList path none with
  | (.error err, log) => ((none, some err), log)
  | (.ok req, log) =>
    match c.do log req (some .accountUser) with
    | (.error err, log) => ((none, some err), log)
    | (.ok user, log) => ((some user, none), log)

/-- Method `AccountsService.UpdateUser`: update of a user's role.  Returns the pair
`(*AccountUser, error)` and the log. -/
def AccountsService.UpdateUser {Req : Type} (c : Client Req) (log : Log Req)
    (accountID : GoString) (userID : Int) (role : GoString) :
    (Option AccountUser × Option Error) × Log Req :=
  let path := "/accounts/".toList ++ accountID ++ "/users/".toList ++ formatInt userID
  let reqBody : AccountUserUpdateRequest := { User := { Role := role } }
  match c.newRequest log "PUT".toList path (some (.accountUserUpdateRequest reqBody)) with
  | (.error err, log) => ((none, some err), log)
  | (.ok req, log) =>
    match c.do log req (some .accountUser) with
    | (.error err, log) => ((none, some err), log)
    | (.ok user, log) => ((some user, none), log)

/-- Method `AccountsService.RemoveUser`: removal of a user from an account.  Returns the
error and the log. -/
def AccountsService.RemoveUser {Req : Type} (c : Client Req) (log : Log Req)
    (accountID : GoString) (userID : Int) :
    Option Error × Log Req :=
  let path := "/accounts/".toList ++ accountID ++ "/users/".toList ++ formatInt userID
  match c.newRequest log "DELETE".toList path none with
  | (.error err, log) => (some err, log)
  | (.ok req, log) => c.do log req none

/-- Method `AccountsService.ListInvitations`: all invitations of an account.  Returns
the pair `([]AccountInvitation, error)` and the log. -/
def AccountsService.ListInvitations {Req : Type} (c : Client Req) (log : Log Req)
    (accountID : GoString) :
    (Slice AccountInvitation × Option Error) × Log Req :=
  let path := "/accounts/".toList ++ accountID ++ "/invitations".toList
  match c.newRequest log "GET".toList path none with
  | (.error err, log) => ((none, some err), log)
  | (.ok req, log) =>
    match c.do log req (some .accountInvitations) with
    | (.error err, log) => ((none, some err), log)
    | (.ok invitations, log) => ((invitations, none), log)

/-- Method `AccountsService.GetInvitation`: a single invitation by ID.  Returns the pair
`(*AccountInvitation, error)` and the log. -/
def AccountsService.GetInvitation {Req : Type} (c : Client Req) (log : Log Req)
    (accountID : GoString) (invitationID : Int) :
    (Option AccountInvitation × Option Error) × Log Req :=
  let path := "/accounts/".toList ++ accountID ++ "/invitations/".toList ++
    formatInt invitationID
  match c.newRequest log "GET".toList path none with
  | (.error err, log) => ((none, some err), log)
  | (.ok req, log) =>
    match c.do log req (some .accountInvitation) with
    | (.error err, log) => ((none, some err), log)
    | (.ok invitation, log) => ((some invitation, none), log)

/-- Method `AccountsService.CreateInvitation`: creation of an account invitation.
Returns the pair `(*AccountInvitation, error)` and the log. -/
def AccountsService.CreateInvitation {Req : Type} (c : Client Req) (log : Log Req)
    (accountID : GoString) (params : AccountInvitationParams) :
    (Option AccountInvitation × Option Error) × Log Req :=
  let path := "/accounts/".toList ++ accountID ++ "/invitations".toList
  let reqBody : AccountInvitationRequest := { Invitation := params }
  match c.newRequest log "POST".toList path (some (.accountInvitationRequest reqBody)) with
  | (.error err, log) => ((none, some err), log)
  | (.ok req, log) =>
    match c.do log req (some .accountInvitation) with
    | (.error err, log) => ((none, some err), log)
    | (.ok invitation, log) => ((some invitation, none), log)

/-- Method `AccountsService.UpdateInvitation`: update of an account invitation.  Returns
the pair `(*AccountInvitation, error)` and the log. -/
def AccountsService.UpdateInvitation {Req : Type} (c : Client Req) (log : Log Req)
    (accountID : GoString) (invitationID : Int) (params : AccountInvitationParams) :
    (Option AccountInvitation × Option Error) × Log Req :=
  let path := "/accounts/".toList ++ accountID ++ "/invitations/".toList ++
    formatInt invitationID
  let reqBody : AccountInvitationRequest := { Invitation := params }
  match c.newRequest log "PUT".toList path (some (.accountInvitationRequest reqBody)) with
  | (.error err, log) => ((none, some err), log)
  | (.ok req, log) =>
    match c.do log req (some .accountInvitation) with
    | (.error err, log) => ((none, some err), log)
    | (.ok invitation, log) => ((some invitation, none), log)

/-- Method `AccountsService.DeleteInvitation`: deletion of an account invitation.
Returns the error and the log. -/
def AccountsService.DeleteInvitation {Req : Type} (c : Client Req) (log : Log Req)
    (accountID : GoString) (invitationID : Int) :
    Option Error × Log Req :=
  let path := "/accounts/".toList ++ accountID ++ "/invitations/".toList ++
    formatInt invitationID
  match c.newRequest log "DELETE".toList path none with
  | (.error err, log) => (some err, log)
  | (.ok req, log) => c.do log req none

/-- Method `CheckInsService.List`: all check-ins of a project.  Returns the pair
`([]CheckIn, error)` and the log. -/
def CheckInsService.List {Req : Type} (c : Client Req) (log : Log Req) (projectID : Int) :
    (Slice CheckIn × Option Error) × Log Req :=
  let path := "/projects/".toList ++ formatInt projectID ++ "/check_ins".toList
  match c.newRequest log "GET".toList path none with
  | (.error err, log) => ((none, some err), log)
  | (.ok req, log) =>
    match c.do log req (some .checkInListResponse) with
    | (.error err, log) => ((none, some err), log)
    | (.ok response, log) => ((response.Results, none), log)

/-- Method `CheckInsService.Get`: a single check-in by ID.  Returns the pair `(*CheckIn,
error)` and the log. -/
def CheckInsService.Get {Req : Type} (c : Client Req) (log : Log Req) (projectID : Int)
    (checkInID : Int) :
    (Option CheckIn × Option Error) × Log Req :=
  let path := "/projects/".toList ++ formatInt projectID ++ "/check_ins/".toList ++
    formatInt checkInID
  match c.newRequest log "GET".toList path none with
  | (.error err, log) => ((none, some err), log)
  | (.ok req, log) =>
    match c.do log req (some .checkIn) with
    | (.error err, log) => ((none, some err), log)
    | (.ok checkIn, log) => ((some checkIn, none), log)

/-- Method `CheckInsService.Create`: creation of a check-in.  Returns the pair
`(*CheckIn, error)` and the log. -/
def CheckInsService.Create {Req : Type} (c : Client Req) (log : Log Req) (projectID : Int)
    (params : CheckInParams) :
    (Option CheckIn × Option Error) × Log Req :=
  let path := "/projects/".toList ++ formatInt projectID ++ "/check_ins".toList
  let reqBody : CheckInRequest := { CheckIn := params }
  match c.newRequest log "POST".toList path (some (.checkInRequest reqBody)) with
  | (.error err, log) => ((none, some err), log)
  | (.ok req, log) =>
    match c.do log req (some .checkIn) with
    | (.error err, log) => ((none, some err), log)
    | (.ok checkIn, log) => ((some checkIn, none), log)

/-- Method `CheckInsService.Update`: update of a check-in.  Returns the pair `(*CheckIn,
error)` and the log. -/
def CheckInsService.Update {Req : Type} (c : Client Req) (log : Log Req) (projectID : Int)
    (checkInID : Int) (params : CheckInParams) :
    (Option CheckIn × Option Error) × Log Req :=
  let path := "/projects/".toList ++ formatInt projectID ++ "/check_ins/".toList ++
    formatInt checkInID
  let reqBody : CheckInRequest := { CheckIn := params }
  match c.newRequest log "PUT".toList path (some (.checkInRequest reqBody)) with
  | (.error err, log) => ((none, some err), log)
  | (.ok req, log) =>
    match c.do log req (some .checkIn) with
    | (.error err, log) => ((none, some err), log)
    | (.ok checkIn, log) => ((some checkIn, none), log)

/-- Method `CheckInsService.BulkUpdate`: update of all check-ins of a project; an empty
payload deletes all existing check-ins.  Returns the pair `(*CheckInBulkUpdateResponse,
error)` and the log. -/
def CheckInsService.BulkUpdate {Req : Type} (c : Client Req) (log : Log Req) (projectID : Int)
    (checkIns : Slice CheckInParams) :
    (Option CheckInBulkUpdateResponse × Option Error) × Log Req :=
  let path := "/projects/".toList ++ formatInt projectID ++ "/check_ins".toList
  let reqBody : CheckInBulkRequest := { CheckIns := checkIns }
  match c.newRequest log "PUT".toList path (some (.checkInBulkRequest reqBody)) with
  | (.error err, log) => ((none, some err), log)
  | (.ok req, log) =>
    match c.do log req (some .checkInBulkUpdateResponse) with
    | (.error err, log) => ((none, some err), log)
    | (.ok response, log) => ((some response, none), log)

/-- Method `CheckInsService.Delete`: deletion of a check-in.  Returns the error and the
log. -/
def CheckInsService.Delete {Req : Type} (c : Client Req) (log : Log Req) (projectID : Int)
    (checkInID : Int) :
    Option Error × Log Req :=
  let path := "/projects/".toList ++ formatInt projectID ++ "/check_ins/".toList ++
    formatInt checkInID
  match c.newRequest log "DELETE".toList path none with
  | (.error err, log) => (some err, log)
  | (.ok req, log) => c.do log req none

/-- Method `CommentsService.List`: all comments of a fault.  Returns the pair
`([]Comment, error)` and the log. -/
def CommentsService.List {Req : Type} (c : Client Req) (log : Log Req) (projectID : Int)
    (faultID : Int) :
    (Slice Comment × Option Error) × Log Req :=
  let path := "/projects/".toList ++ formatInt projectID ++ "/faults/".toList ++
    formatInt faultID ++ "/comments".toList
  match c.newRequest log "GET".toList path none with
  | (.error err, log) => ((none, some err), log)
  | (.ok req, log) =>
    match c.do log req (some .commentListResponse) with
    | (.error err, log) => ((none, some err), log)
    | (.ok response, log) => ((response.Results, none), log)

/-- Method `CommentsService.Get`: a single comment by ID.  Returns the pair `(*Comment,
error)` and the log. -/
def CommentsService.Get {Req : Type} (c : Client Req) (log : Log Req) (projectID : Int)
    (faultID : Int) (commentID : Int) :
    (Option Comment × Option Error) × Log Req :=
  let path := "/projects/".toList ++ formatInt projectID ++ "/faults/".toList ++
    formatInt faultID ++ "/comments/".toList ++ formatInt commentID
  match c.newRequest log "GET".toList path none with
  | (.error err, log) => ((none, some err), log)
  | (.ok req, log) =>
    match c.do log req (some .comment) with
    | (.error err, log) => ((none, some err), log)
    | (.ok comment, log) => ((some comment, none), log)

/-- Method `CommentsService.Create`: creation of a comment on a fault.  Returns the pair
`(*Comment, error)` and the log. -/
def CommentsService.Create {Req : Type} (c : Client Req) (log : Log Req) (projectID : Int)
    (faultID : Int) (body : GoString) :
    (Option Comment × Option Error) × Log Req :=
  let path := "/projects/".toList ++ formatInt projectID ++ "/faults/".toList ++
    formatInt faultID ++ "/comments".toList
  let reqBody : CommentRequest := { Comment := { Body := body } }
  match c.newRequest log "POST".toList path (some (.commentRequest reqBody)) with
  | (.error err, log) => ((none, some err), log)
  | (.ok req, log) =>
    match c.do log req (some .comment) with
    | (.error err, log) => ((none, some err), log)
    | (.ok comment, log) => ((some comment, none), log)

/-- Method `CommentsService.Update`: update of a comment; the server answers 204 No
Content.  Returns the error and the log. -/
def CommentsService.Update {Req : Type} (c : Client Req) (log : Log Req) (projectID : Int)
    (faultID : Int) (commentID : Int) (body : GoString) :
    Option Error × Log Req :=
  let path := "/projects/".toList ++ formatInt projectID ++ "/faults/".toList ++
    formatInt faultID ++ "/comments/".toList ++ formatInt commentID
  let reqBody : CommentRequest := { Comment := { Body := body } }
  match c.newRequest log "PUT".toList path (some (.commentRequest reqBody)) with
  | (.error err, log) => (some err, log)
  | (.ok req, log) => c.do log req none

/-- Method `CommentsService.Delete`: deletion of a comment.  Returns the error and the
log. -/
def CommentsService.Delete {Req : Type} (c : Client Req) (log : Log Req) (projectID : Int)
    (faultID : Int) (commentID : Int) :
    Option Error × Log Req :=
  let path := "/projects/".toList ++ formatInt projectID ++ "/faults/".toList ++
    formatInt faultID ++ "/comments/".toList ++ formatInt commentID
  match c.newRequest log "DELETE".toList path none with
  | (.error err, log) => (some err, log)
  | (.ok req, log) => c.do log req none

/-- Method `DashboardsService.List`: all dashboards of a project.  Returns the pair
`(*DashboardListResponse, error)` and the log. -/
def DashboardsService.List {Req : Type} (c : Client Req) (log : Log Req) (projectID : Int) :
    (Option DashboardListResponse × Option Error) × Log Req :=
  let path := "/projects/".toList ++ formatInt projectID ++ "/dashboards".toList
  match c.newRequest log "GET".toList path none with
  | (.error err, log) => ((none, some err), log)
  | (.ok req, log) =>
    match c.do log req (some .dashboardListResponse) with
    | (.error err, log) => ((none, some err), log)
    | (.ok response, log) => ((some response, none), log)

/-- Method `DashboardsService.Get`: a single dashboard by ID.  Returns the pair
`(*Dashboard, error)` and the log. -/
def DashboardsService.Get {Req : Type} (c : Client Req) (log : Log Req) (projectID : Int)
    (dashboardID : GoString) :
    (Option Dashboard × Option Error) × Log Req :=
  let path := "/projects/".toList ++ formatInt projectID ++ "/dashboards/".toList ++ dashboardID
  match c.newRequest log "GET".toList path none with
  | (.error err, log) => ((none, some err), log)
  | (.ok req, log) =>
    match c.do log req (some .dashboard) with
    | (.error err, log) => ((none, some err), log)
    | (.ok result, log) => ((some result, none), log)

/-- Method `DashboardsService.Update`: update of a dashboard.  Returns the pair
`(*UpdateResult, error)` and the log. -/
def DashboardsService.Update {Req : Type} (c : Client Req) (log : Log Req) (projectID : Int)
    (dashboardID : GoString) (dashboardReq : DashboardRequest) :
    (Option UpdateResult × Option Error) × Log Req :=
  let body := Body.dashboardMap [("dashboard".toList, dashboardReq)]
  let path := "/projects/".toList ++ formatInt projectID ++ "/dashboards/".toList ++ dashboardID
  match c.newRequest log "PUT".toList path (some body) with
  | (.error err, log) => ((none, some err), log)
  | (.ok req, log) =>
    match c.do log req none with
    | (some err, log) => ((none, some err), log)
    | (none, log) =>
      ((some { Success := true,
               Message :=
                 "Dashboard ".toList ++ dashboardID ++ " was successfully updated".toList },
        none), log)

/-- Method `DashboardsService.Delete`: deletion of a dashboard.  Returns the pair
`(*DeleteResult, error)` and the log. -/
def DashboardsService.Delete {Req : Type} (c : Client Req) (log : Log Req) (projectID : Int)
    (dashboardID : GoString) :
    (Option DeleteResult × Option Error) × Log Req :=
  let path := "/projects/".toList ++ formatInt projectID ++ "/dashboards/".toList ++ dashboardID
  match c.newRequest log "DELETE".toList path none with
  | (.error err, log) => ((none, some err), log)
  | (.ok req, log) =>
    match c.do log req none with
    | (some err, log) => ((none, some err), log)
    | (none, log) =>
      ((some { Success := true,
               Message :=
                 "Dashboard ".toList ++ dashboardID ++ " deleted successfully".toList },
        none), log)

/-- Method `DeploymentsService.Get`: a single deployment by ID.  Returns the pair
`(*Deployment, error)` and the log. -/
def DeploymentsService.Get {Req : Type} (c : Client Req) (log : Log Req) (projectID : Int)
    (deploymentID : Int) :
    (Option Deployment × Option Error) × Log Req :=
  let path := "/projects/".toList ++ formatInt projectID ++ "/deploys/".toList ++
    formatInt deploymentID
  match c.newRequest log "GET".toList path none with
  | (.error err, log) => ((none, some err), log)
  | (.ok req, log) =>
    match c.do log req (some .deployment) with
    | (.error err, log) => ((none, some err), log)
    | (.ok deployment, log) => ((some deployment, none), log)

/-- Method `DeploymentsService.Delete`: deletion of a deployment.  Returns the error and
the log. -/
def DeploymentsService.Delete {Req : Type} (c : Client Req) (log : Log Req) (projectID : Int)
    (deploymentID : Int) :
    Option Error × Log Req :=
  let path := "/projects/".toList ++ formatInt projectID ++ "/deploys/".toList ++
    formatInt deploymentID
  match c.newRequest log "DELETE".toList path none with
  | (.error err, log) => (some err, log)
  | (.ok req, log) => c.do log req none

/-- Method `EnvironmentsService.List`: all environments of a project.  Returns the pair
`([]Environment, error)` and the log. -/
def EnvironmentsService.List {Req : Type} (c : Client Req) (log : Log Req) (projectID : Int) :
    (Slice Environment × Option Error) × Log Req :=
  let path := "/projects/".toList ++ formatInt projectID ++ "/environments".toList
  match c.newRequest log "GET".toList path none with
  | (.error err, log) => ((none, some err), log)
  | (.ok req, log) =>
    match c.do log req (some .environmentListResponse) with
    | (.error err, log) => ((none, some err), log)
    | (.ok response, log) => ((response.Results, none), log)

/-- Method `EnvironmentsService.Get`: a single environment by ID.  Returns the pair
`(*Environment, error)` and the log. -/
def EnvironmentsService.Get {Req : Type} (c : Client Req) (log : Log Req) (projectID : Int)
    (environmentID : Int) :
    (Option Environment × Option Error) × Log Req :=
  let path := "/projects/".toList ++ formatInt projectID ++ "/environments/".toList ++
    formatInt environmentID
  match c.newRequest log "GET".toList path none with
  | (.error err, log) => ((none, some err), log)
  | (.ok req, log) =>
    match c.do log req (some .environment) with
    | (.error err, log) => ((none, some err), log)
    | (.ok environment, log) => ((some environment, none), log)

/-- Method `EnvironmentsService.Create`: creation of an environment.  Returns the pair
`(*Environment, error)` and the log. -/
def EnvironmentsService.Create {Req : Type} (c : Client Req) (log : Log Req) (projectID : Int)
    (params : EnvironmentParams) :
    (Option Environment × Option Error) × Log Req :=
  let path := "/projects/".toList ++ formatInt projectID ++ "/environments".toList
  let reqBody : EnvironmentRequest := { Environment := params }
  match c.newRequest log "POST".toList path (some (.environmentRequest reqBody)) with
  | (.error err, log) => ((none, some err), log)
  | (.ok req, log) =>
    match c.do log req (some .environment) with
    | (.error err, log) => ((none, some err), log)
    | (.ok environment, log) => ((some environment, none), log)

/-- Method `EnvironmentsService.Update`: update of an environment; the server answers
204 No Content.  Returns the error and the log. -/
def EnvironmentsService.Update {Req : Type} (c : Client Req) (log : Log Req) (projectID : Int)
    (environmentID : Int) (params : EnvironmentParams) :
    Option Error × Log Req :=
  let path := "/projects/".toList ++ formatInt projectID ++ "/environments/".toList ++
    formatInt environmentID
  let reqBody : EnvironmentRequest := { Environment := params }
  match c.newRequest log "PUT".toList path (some (.environmentRequest reqBody)) with
  | (.error err, log) => (some err, log)
  | (.ok req, log) => c.do log req none

/-- Method `EnvironmentsService.Delete`: deletion of an environment.  Returns the error
and the log. -/
def EnvironmentsService.Delete {Req : Type} (c : Client Req) (log : Log Req) (projectID : Int)
    (environmentID : Int) :
    Option Error × Log Req :=
  let path := "/projects/".toList ++ formatInt projectID ++ "/environments/".toList ++
    formatInt environmentID
  match c.newRequest log "DELETE".toList path none with
  | (.error err, log) => (some err, log)
  | (.ok req, log) => c.do log req none

/-- Method `StatusPagesService.List`: all status pages of an account.  Returns the pair
`([]StatusPage, error)` and the log. -/
def StatusPagesService.List {Req : Type} (c : Client Req) (log : Log Req) (accountID : Int) :
    (Slice StatusPage × Option Error) × Log Req :=
  let path := "/accounts/".toList ++ formatInt accountID ++ "/status_pages".toList
  match c.newRequest log "GET".toList path none with
  | (.error err, log) => ((none, some err), log)
  | (.ok req, log) =>
    match c.do log req (some .statusPageListResponse) with
    | (.error err, log) => ((none, some err), log)
    | (.ok response, log) => ((response.Results, none), log)

/-- Method `StatusPagesService.Get`: a single status page by ID.  Returns the pair
`(*StatusPage, error)` and the log. -/
def StatusPagesService.Get {Req : Type} (c : Client Req) (log : Log Req) (accountID : Int)
    (statusPageID : Int) :
    (Option StatusPage × Option Error) × Log Req :=
  let path := "/accounts/".toList ++ formatInt accountID ++ "/status_pages/".toList ++
    formatInt statusPageID
  match c.newRequest log "GET".toList path none with
  | (.error err, log) => ((none, some err), log)
  | (.ok req, log) =>
    match c.do log req (some .statusPage) with
    | (.error err, log) => ((none, some err), log)
    | (.ok statusPage, log) => ((some statusPage, none), log)

/-- Method `StatusPagesService.Create`: creation of a status page.  Returns the pair
`(*StatusPage, error)` and the log. -/
def StatusPagesService.Create {Req : Type} (c : Client Req) (log : Log Req) (accountID : Int)
    (params : StatusPageParams) :
    (Option StatusPage × Option Error) × Log Req :=
  let path := "/accounts/".toList ++ formatInt accountID ++ "/status_pages".toList
  let reqBody : StatusPageRequest := { StatusPage := params }
  match c.newRequest log "POST".toList path (some (.statusPageRequest reqBody)) with
  | (.error err, log) => ((none, some err), log)
  | (.ok req, log) =>
    match c.do log req (some .statusPage) with
    | (.error err, log) => ((none, some err), log)
    | (.ok statusPage, log) => ((some statusPage, none), log)

/-- Method `StatusPagesService.Delete`: deletion of a status page.  Returns the error
and the log. -/
def StatusPagesService.Delete {Req : Type} (c : Client Req) (log : Log Req) (accountID : Int)
    (statusPageID : Int) :
    Option Error × Log Req :=
  let path := "/accounts/".toList ++ formatInt accountID ++ "/status_pages/".toList ++
    formatInt statusPageID
  match c.newRequest log "DELETE".toList path none with
  | (.error err, log) => (some err, log)
  | (.ok req, log) => c.do log req none

/-- Method `TeamsService.List`: all teams of an account.  Returns the pair `([]Team,
error)` and the log. -/
def TeamsService.List {Req : Type} (c : Client Req) (log : Log Req) (accountID : GoString) :
    (Slice Team × Option Error) × Log Req :=
  let path := "/teams".toList
  let params : Values := []
  let params := params.Set "account_id".toList accountID
  let path := path ++ '?' :: params.Encode
  match c.newRequest log "GET".toList path none with
  | (.error err, log) => ((none, some err), log)
  | (.ok req, log) =>
    match c.do log req (some .teamListResponse) with
    | (.error err, log) => ((none, some err), log)
    | (.ok response, log) => ((response.Results, none), log)

/-- Method `TeamsService.Get`: a single team by ID.  Returns the pair `(*Team, error)`
and the log. -/
def TeamsService.Get {Req : Type} (c : Client Req) (log : Log Req) (teamID : Int) :
    (Option Team × Option Error) × Log Req :=
  let path := "/teams/".toList ++ formatInt teamID
  match c.newRequest log "GET".toList path none with
  | (.error err, log) => ((none, some err), log)
  | (.ok req, log) =>
    match c.do log req (some .team) with
    | (.error err, log) => ((none, some err), log)
    | (.ok team, log) => ((some team, none), log)

/-- Method `TeamsService.Create`: creation of a team.  Returns the pair `(*Team, error)`
and the log. -/
def TeamsService.Create {Req : Type} (c : Client Req) (log : Log Req) (accountID : GoString)
    (name : GoString) :
    (Option Team × Option Error) × Log Req :=
  let path := "/teams".toList
  let params : Values := []
  let params := params.Set "account_id".toList accountID
  let path := path ++ '?' :: params.Encode
  let reqBody : TeamRequest := { Team := { Name := name } }
  match c.newRequest log "POST".toList path (some (.teamRequest reqBody)) with
  | (.error err, log) => ((none, some err), log)
  | (.ok req, log) =>
    match c.do log req (some .team) with
    | (.error err, log) => ((none, some err), log)
    | (.ok team, log) => ((some team, none), log)

/-- Method `TeamsService.Update`: update of a team; the server answers 204 No Content.
Returns the error and the log. -/
def TeamsService.Update {Req : Type} (c : Client Req) (log : Log Req) (teamID : Int)
    (name : GoString) :
    Option Error × Log Req :=
  let path := "/teams/".toList ++ formatInt teamID
  let reqBody : TeamRequest := { Team := { Name := name } }
  match c.newRequest log "PUT".toList path (some (.teamRequest reqBody)) with
  | (.error err, log) => (some err, log)
  | (.ok req, log) => c.do log req none

/-- Method `TeamsService.Delete`: deletion of a team.  Returns the error and the log. -/
def TeamsService.Delete {Req : Type} (c : Client Req) (log : Log Req) (teamID : Int) :
    Option Error × Log Req :=
  let path := "/teams/".toList ++ formatInt teamID
  match c.newRequest log "DELETE".toList path none with
  | (.error err, log) => (some err, log)
  | (.ok req, log) => c.do log req none

/-- Method `TeamsService.ListMembers`: all members of a team.  Returns the pair
`([]TeamMember, error)` and the log. -/
def TeamsService.ListMembers {Req : Type} (c : Client Req) (log : Log Req) (teamID : Int) :
    (Slice TeamMember × Option Error) × Log Req :=
  let path := "/teams/".toList ++ formatInt teamID ++ "/team_members".toList
  match c.newRequest log "GET".toList path none with
  | (.error err, log) => ((none, some err), log)
  | (.ok req, log) =>
    match c.do log req (some .teamMemberListResponse) with
    | (.error err, log) => ((none, some err), log)
    | (.ok response, log) => ((response.Results, none), log)

/-- Method `TeamsService.UpdateMember`: update of a team member's permissions; the
server answers 204 No Content.  Returns the error and the log. -/
def TeamsService.UpdateMember {Req : Type} (c : Client Req) (log : Log Req) (teamID : Int)
    (memberID : Int) (admin : Bool) :
    Option Error × Log Req :=
  let path := "/teams/".toList ++ formatInt teamID ++ "/team_members/".toList ++
    formatInt memberID
  let reqBody : TeamMemberUpdateRequest := { TeamMember := { Admin := admin } }
  match c.newRequest log "PUT".toList path (some (.teamMemberUpdateRequest reqBody)) with
  | (.error err, log) => (some err, log)
  | (.ok req, log) => c.do log req none

/-- Method `TeamsService.RemoveMember`: removal of a member from a team.  Returns the
error and the log. -/
def TeamsService.RemoveMember {Req : Type} (c : Client Req) (log : Log Req) (teamID : Int)
    (memberID : Int) :
    Option Error × Log Req :=
  let path := "/teams/".toList ++ formatInt teamID ++ "/team_members/".toList ++
    formatInt memberID
  match c.newRequest log "DELETE".toList path none with
  | (.error err, log) => (some err, log)
  | (.ok req, log) => c.do log req none

/-- Method `TeamsService.ListInvitations`: all invitations of a team.  Returns the pair
`([]TeamInvitation, error)` and the log. -/
def TeamsService.ListInvitations {Req : Type} (c : Client Req) (log : Log Req) (teamID : Int) :
    (Slice TeamInvitation × Option Error) × Log Req :=
  let path := "/teams/".toList ++ formatInt teamID ++ "/team_invitations".toList
  match c.newRequest log "GET".toList path none with
  | (.error err, log) => ((none, some err), log)
  | (.ok req, log) =>
    match c.do log req (some .teamInvitationListResponse) with
    | (.error err, log) => ((none, some err), log)
    | (.ok response, log) => ((response.Results, none), log)

/-- Method `TeamsService.GetInvitation`: a single team invitation by ID.  Returns the
pair `(*TeamInvitation, error)` and the log. -/
def TeamsService.GetInvitation {Req : Type} (c : Client Req) (log : Log Req) (teamID : Int)
    (invitationID : Int) :
    (Option TeamInvitation × Option Error) × Log Req :=
  let path := "/teams/".toList ++ formatInt teamID ++ "/team_invitations/".toList ++
    formatInt invitationID
  match c.newRequest log "GET".toList path none with
  | (.error err, log) => ((none, some err), log)
  | (.ok req, log) =>
    match c.do log req (some .teamInvitation) with
    | (.error err, log) => ((none, some err), log)
    | (.ok invitation, log) => ((some invitation, none), log)

/-- Method `TeamsService.CreateInvitation`: creation of a team invitation.  Returns the
pair `(*TeamInvitation, error)` and the log. -/
def TeamsService.CreateInvitation {Req : Type} (c : Client Req) (log : Log Req) (teamID : Int)
    (params : TeamInvitationParams) :
    (Option TeamInvitation × Option Error) × Log Req :=
  let path := "/teams/".toList ++ formatInt teamID ++ "/team_invitations".toList
  let reqBody : TeamInvitationRequest := { TeamInvitation := params }
  match c.newRequest log "POST".toList path (some (.teamInvitationRequest reqBody)) with
  | (.error err, log) => ((none, some err), log)
  | (.ok req, log) =>
    match c.do log req (some .teamInvitation) with
    | (.error err, log) => ((none, some err), log)
    | (.ok invitation, log) => ((some invitation, none), log)

/-- Method `TeamsService.UpdateInvitation`: update of a team invitation; the server
answers 204 No Content.  Returns the error and the log. -/
def TeamsService.UpdateInvitation {Req : Type} (c : Client Req) (log : Log Req) (teamID : Int)
    (invitationID : Int) (params : TeamInvitationParams) :
    Option Error × Log Req :=
  let path := "/teams/".toList ++ formatInt teamID ++ "/team_invitations/".toList ++
    formatInt invitationID
  let reqBody : TeamInvitationRequest := { TeamInvitation := params }
  match c.newRequest log "PUT".toList path (some (.teamInvitationRequest reqBody)) with
  | (.error err, log) => (some err, log)
  | (.ok req, log) => c.do log req none

/-- Method `TeamsService.DeleteInvitation`: deletion of a team invitation.  Returns the
error and the log. -/
def TeamsService.DeleteInvitation {Req : Type} (c : Client Req) (log : Log Req) (teamID : Int)
    (invitationID : Int) :
    Option Error × Log Req :=
  let path := "/teams/".toList ++ formatInt teamID ++ "/team_invitations/".toList ++
    formatInt invitationID
  match c.newRequest log "DELETE".toList path none with
  | (.error err, log) => (some err, log)
  | (.ok req, log) => c.do log req none

/-- Method `UptimeService.List`: all uptime sites of a project.  Returns the pair
`([]Site, error)` and the log. -/
def UptimeService.List {Req : Type} (c : Client Req) (log : Log Req) (projectID : Int) :
    (Slice Site × Option Error) × Log Req :=
  let path := "/projects/".toList ++ formatInt projectID ++ "/sites".toList
  match c.newRequest log "GET".toList path none with
  | (.error err, log) => ((none, some err), log)
  | (.ok req, log) =>
    match c.do log req (some .sites) with
    | (.error err, log) => ((none, some err), log)
    | (.ok sites, log) => ((sites, none), log)

/-- Method `UptimeService.Get`: a single uptime site by ID.  Returns the pair `(*Site,
error)` and the log. -/
def UptimeService.Get {Req : Type} (c : Client Req) (log : Log Req) (projectID : Int)
    (siteID : GoString) :
    (Option Site × Option Error) × Log Req :=
  let path := "/projects/".toList ++ formatInt projectID ++ "/sites/".toList ++ siteID
  match c.newRequest log "GET".toList path none with
  | (.error err, log) => ((none, some err), log)
  | (.ok req, log) =>
    match c.do log req (some .site) with
    | (.error err, log) => ((none, some err), log)
    | (.ok site, log) => ((some site, none), log)

/-- Method `UptimeService.Create`: creation of an uptime site.  Returns the pair
`(*Site, error)` and the log. -/
def UptimeService.Create {Req : Type} (c : Client Req) (log : Log Req) (projectID : Int)
    (params : SiteParams) :
    (Option Site × Option Error) × Log Req :=
  let path := "/projects/".toList ++ formatInt projectID ++ "/sites".toList
  let reqBody : SiteCreateRequest := { Site := params }
  match c.newRequest log "POST".toList path (some (.siteCreateRequest reqBody)) with
  | (.error err, log) => ((none, some err), log)
  | (.ok req, log) =>
    match c.do log req (some .site) with
    | (.error err, log) => ((none, some err), log)
    | (.ok site, log) => ((some site, none), log)

/-- Method `UptimeService.Update`: update of an uptime site.  Returns the pair `(*Site,
error)` and the log. -/
def UptimeService.Update {Req : Type} (c : Client Req) (log : Log Req) (projectID : Int)
    (siteID : GoString) (params : SiteParams) :
    (Option Site × Option Error) × Log Req :=
  let path := "/projects/".toList ++ formatInt projectID ++ "/sites/".toList ++ siteID
  let reqBody : SiteCreateRequest := { Site := params }
  match c.newRequest log "PUT".toList path (some (.siteCreateRequest reqBody)) with
  | (.error err, log) => ((none, some err), log)
  | (.ok req, log) =>
    match c.do log req (some .site) with
    | (.error err, log) => ((none, some err), log)
    | (.ok site, log) => ((some site, none), log)

/-- Method `UptimeService.Delete`: deletion of an uptime site.  Returns the error and
the log. -/
def UptimeService.Delete {Req : Type} (c : Client Req) (log : Log Req) (projectID : Int)
    (siteID : GoString) :
    Option Error × Log Req :=
  let path := "/projects/".toList ++ formatInt projectID ++ "/sites/".toList ++ siteID
  match c.newRequest log "DELETE".toList path none with
  | (.error err, log) => (some err, log)
  | (.ok req, log) => c.do log req none

/-! ## Every resource method as one operation -/

/-- A call of a resource method with its arguments: one constructor per method of
the nine services. -/
inductive Operation where
  | accountsList
  | accountsGet (accountID : GoString)
  | accountsListUsers (accountID : GoString)
  | accountsGetUser (accountID : GoString) (userID : Int)
  | accountsUpdateUser (accountID : GoString) (userID : Int) (role : GoString)
  | accountsRemoveUser (accountID : GoString) (userID : Int)
  | accountsListInvitations (accountID : GoString)
  | accountsGetInvitation (accountID : GoString) (invitationID : Int)
  | accountsCreateInvitation (accountID : GoString) (params : AccountInvitationParams)
  | accountsUpdateInvitation (accountID : GoString) (invitationID : Int) (params : AccountInvitationParams)
  | accountsDeleteInvitation (accountID : GoString) (invitationID : Int)
  | checkInsList (projectID : Int)
  | checkInsGet (projectID : Int) (checkInID : Int)
  | checkInsCreate (projectID : Int) (params : CheckInParams)
  | checkInsUpdate (projectID : Int) (checkInID : Int) (params : CheckInParams)
  | checkInsBulkUpdate (projectID : Int) (checkIns : Slice CheckInParams)
  | checkInsDelete (projectID : Int) (checkInID : Int)
  | commentsList (projectID : Int) (faultID : Int)
  | commentsGet (projectID : Int) (faultID : Int) (commentID : Int)
  | commentsCreate (projectID : Int) (faultID : Int) (body : GoString)
  | commentsUpdate (projectID : Int) (faultID : Int) (commentID : Int) (body : GoString)
  | commentsDelete (projectID : Int) (faultID : Int) (commentID : Int)
  | dashboardsList (projectID : Int)
  | dashboardsGet (projectID : Int) (dashboardID : GoString)
  | dashboardsCreate (projectID : Int) (dashboardReq : DashboardRequest)
  | dashboardsUpdate (projectID : Int) (dashboardID : GoString) (dashboardReq : DashboardRequest)
  | dashboardsDelete (projectID : Int) (dashboardID : GoString)
  | deploymentsList (projectID : Int) (options : DeploymentListOptions)
  | deploymentsGet (projectID : Int) (deploymentID : Int)
  | deploymentsDelete (projectID : Int) (deploymentID : Int)
  | environmentsList (projectID : Int)
  | environmentsGet (projectID : Int) (environmentID : Int)
  | environmentsCreate (projectID : Int) (params : EnvironmentParams)
  | environmentsUpdate (projectID : Int) (environmentID : Int) (params : EnvironmentParams)
  | environmentsDelete (projectID : Int) (environmentID : Int)
  | statusPagesList (accountID : Int)
  | statusPagesGet (accountID : Int) (statusPageID : Int)
  | statusPagesCreate (accountID : Int) (params : StatusPageParams)
  | statusPagesUpdate (accountID : Int) (statusPageID : Int) (params : StatusPageParams)
  | statusPagesDelete (accountID : Int) (statusPageID : Int)
  | teamsList (accountID : GoString)
  | teamsGet (teamID : Int)
  | teamsCreate (accountID : GoString) (name : GoString)
  | teamsUpdate (teamID : Int) (name : GoString)
  | teamsDelete (teamID : Int)
  | teamsListMembers (teamID : Int)
  | teamsUpdateMember (teamID : Int) (memberID : Int) (admin : Bool)
  | teamsRemoveMember (teamID : Int) (memberID : Int)
  | teamsListInvitations (teamID : Int)
  | teamsGetInvitation (teamID : Int) (invitationID : Int)
  | teamsCreateInvitation (teamID : Int) (params : TeamInvitationParams)
  | teamsUpdateInvitation (teamID : Int) (invitationID : Int) (params : TeamInvitationParams)
  | teamsDeleteInvitation (teamID : Int) (invitationID : Int)
  | uptimeList (projectID : Int)
  | uptimeGet (projectID : Int) (siteID : GoString)
  | uptimeCreate (projectID : Int) (params : SiteParams)
  | uptimeUpdate (projectID : Int) (siteID : GoString) (params : SiteParams)
  | uptimeDelete (projectID : Int) (siteID : GoString)
  | uptimeListOutages (projectID : Int) (siteID : GoString) (options : OutageListOptions)
  | uptimeListUptimeChecks (projectID : Int) (siteID : GoString) (options : UptimeCheckListOptions)

/-- What a resource method hands back, whatever its result type: whether it
declares a result besides the error, whether that result is nil, and the error. -/
structure Outcome where
  hasResult : Bool
  resultNil : Bool
  err : Option Error
  deriving DecidableEq, Repr

/-- Run an operation: call the resource method on its arguments and keep the
outcome and the log. -/
def Operation.run {Req : Type} (c : Client Req) (log : Log Req) : Operation → Outcome × Log Req
  | .accountsList =>
    let r := AccountsService.List c log
    ({ hasResult := true, resultNil := r.1.1.isNone, err := r.1.2 }, r.2)
  | .accountsGet accountID =>
    let r := AccountsService.Get c log accountID
    ({ hasResult := true, resultNil := r.1.1.isNone, err := r.1.2 }, r.2)
  | .accountsListUsers accountID =>
    let r := AccountsService.ListUsers c log accountID
    ({ hasResult := true, resultNil := r.1.1.isNone, err := r.1.2 }, r.2)
  | .accountsGetUser accountID userID =>
    let r := AccountsService.GetUser c log accountID userID
    ({ hasResult := true, resultNil := r.1.1.isNone, err := r.1.2 }, r.2)
  | .accountsUpdateUser accountID userID role =>
    let r := AccountsService.UpdateUser c log accountID userID role
    ({ hasResult := true, resultNil := r.1.1.isNone, err := r.1.2 }, r.2)
  | .accountsRemoveUser accountID userID =>
    let r := AccountsService.RemoveUser c log accountID userID
    ({ hasResult := false, resultNil := true, err := r.1 }, r.2)
  | .accountsListInvitations accountID =>
    let r := AccountsService.ListInvitations c log accountID
    ({ hasResult := true, resultNil := r.1.1.isNone, err := r.1.2 }, r.2)
  | .accountsGetInvitation accountID invitationID =>
    let r := AccountsService.GetInvitation c log accountID invitationID
    ({ hasResult := true, resultNil := r.1.1.isNone, err := r.1.2 }, r.2)
  | .accountsCreateInvitation accountID params =>
    let r := AccountsService.CreateInvitation c log accountID params
    ({ hasResult := true, resultNil := r.1.1.isNone, err := r.1.2 }, r.2)
  | .accountsUpdateInvitation accountID invitationID params =>
    let r := AccountsService.UpdateInvitation c log accountID invitationID params
    ({ hasResult := true, resultNil := r.1.1.isNone, err := r.1.2 }, r.2)
  | .accountsDeleteInvitation accountID invitationID =>
    let r := AccountsService.DeleteInvitation c log accountID invitationID
    ({ hasResult := false, resultNil := true, err := r.1 }, r.2)
  | .checkInsList projectID =>
    let r := CheckInsService.List c log projectID
    ({ hasResult := true, resultNil := r.1.1.isNone, err := r.1.2 }, r.2)
  | .checkInsGet projectID checkInID =>
    let r := CheckInsService.Get c log projectID checkInID
    ({ hasResult := true, resultNil := r.1.1.isNone, err := r.1.2 }, r.2)
  | .checkInsCreate projectID params =>
    let r := CheckInsService.Create c log projectID params
    ({ hasResult := true, resultNil := r.1.1.isNone, err := r.1.2 }, r.2)
  | .checkInsUpdate projectID checkInID params =>
    let r := CheckInsService.Update c log projectID checkInID params
    ({ hasResult := true, resultNil := r.1.1.isNone, err := r.1.2 }, r.2)
  | .checkInsBulkUpdate projectID checkIns =>
    let r := CheckInsService.BulkUpdate c log projectID checkIns
    ({ hasResult := true, resultNil := r.1.1.isNone, err := r.1.2 }, r.2)
  | .checkInsDelete projectID checkInID =>
    let r := CheckInsService.Delete c log projectID checkInID
    ({ hasResult := false, resultNil := true, err := r.1 }, r.2)
  | .commentsList projectID faultID =>
    let r := CommentsService.List c log projectID faultID
    ({ hasResult := true, resultNil := r.1.1.isNone, err := r.1.2 }, r.2)
  | .commentsGet projectID faultID commentID =>
    let r := CommentsService.Get c log projectID faultID commentID
    ({ hasResult := true, resultNil := r.1.1.isNone, err := r.1.2 }, r.2)
  | .commentsCreate projectID faultID body =>
    let r := CommentsService.Create c log projectID faultID body
    ({ hasResult := true, resultNil := r.1.1.isNone, err := r.1.2 }, r.2)
  | .commentsUpdate projectID faultID commentID body =>
    let r := CommentsService.Update c log projectID faultID commentID body
    ({ hasResult := false, resultNil := true, err := r.1 }, r.2)
  | .commentsDelete projectID faultID commentID =>
    let r := CommentsService.Delete c log projectID faultID commentID
    ({ hasResult := false, resultNil := true, err := r.1 }, r.2)
  | .dashboardsList projectID =>
    let r := DashboardsService.List c log projectID
    ({ hasResult := true, resultNil := r.1.1.isNone, err := r.1.2 }, r.2)
  | .dashboardsGet projectID dashboardID =>
    let r := DashboardsService.Get c log projectID dashboardID
    ({ hasResult := true, resultNil := r.1.1.isNone, err := r.1.2 }, r.2)
  | .dashboardsCreate projectID dashboardReq =>
    let r := DashboardsService.Create c log projectID dashboardReq
    ({ hasResult := true, resultNil := r.1.1.isNone, err := r.1.2 }, r.2)
  | .dashboardsUpdate projectID dashboardID dashboardReq =>
    let r := DashboardsService.Update c log projectID dashboardID dashboardReq
    ({ hasResult := true, resultNil := r.1.1.isNone, err := r.1.2 }, r.2)
  | .dashboardsDelete projectID dashboardID =>
    let r := DashboardsService.Delete c log projectID dashboardID
    ({ hasResult := true, resultNil := r.1.1.isNone, err := r.1.2 }, r.2)
  | .deploymentsList projectID options =>
    let r := DeploymentsService.List c log projectID options
    ({ hasResult := true, resultNil := r.1.1.isNone, err := r.1.2 }, r.2)
  | .deploymentsGet projectID deploymentID =>
    let r := DeploymentsService.Get c log projectID deploymentID
    ({ hasResult := true, resultNil := r.1.1.isNone, err := r.1.2 }, r.2)
  | .deploymentsDelete projectID deploymentID =>
    let r := DeploymentsService.Delete c log projectID deploymentID
    ({ hasResult := false, resultNil := true, err := r.1 }, r.2)
  | .environmentsList projectID =>
    let r := EnvironmentsService.List c log projectID
    ({ hasResult := true, resultNil := r.1.1.isNone, err := r.1.2 }, r.2)
  | .environmentsGet projectID environmentID =>
    let r := EnvironmentsService.Get c log projectID environmentID
    ({ hasResult := true, resultNil := r.1.1.isNone, err := r.1.2 }, r.2)
  | .environmentsCreate projectID params =>
    let r := EnvironmentsService.Create c log projectID params
    ({ hasResult := true, resultNil := r.1.1.isNone, err := r.1.2 }, r.2)
  | .environmentsUpdate projectID environmentID params =>
    let r := EnvironmentsService.Update c log projectID environmentID params
    ({ hasResult := false, resultNil := true, err := r.1 }, r.2)
  | .environmentsDelete projectID environmentID =>
    let r := EnvironmentsService.Delete c log projectID environmentID
    ({ hasResult := false, resultNil := true, err := r.1 }, r.2)
  | .statusPagesList accountID =>
    let r := StatusPagesService.List c log accountID
    ({ hasResult := true, resultNil := r.1.1.isNone, err := r.1.2 }, r.2)
  | .statusPagesGet accountID statusPageID =>
    let r := StatusPagesService.Get c log accountID statusPageID
    ({ hasResult := true, resultNil := r.1.1.isNone, err := r.1.2 }, r.2)
  | .statusPagesCreate accountID params =>
    let r := StatusPagesService.Create c log accountID params
    ({ hasResult := true, resultNil := r.1.1.isNone, err := r.1.2 }, r.2)
  | .statusPagesUpdate accountID statusPageID params =>
    let r := StatusPagesService.Update c log accountID statusPageID params
    ({ hasResult := false, resultNil := true, err := r.1 }, r.2)
  | .statusPagesDelete accountID statusPageID =>
    let r := StatusPagesService.Delete c log accountID statusPageID
    ({ hasResult := false, resultNil := true, err := r.1 }, r.2)
  | .teamsList accountID =>
    let r := TeamsService.List c log accountID
    ({ hasResult := true, resultNil := r.1.1.isNone, err := r.1.2 }, r.2)
  | .teamsGet teamID =>
    let r := TeamsService.Get c log teamID
    ({ hasResult := true, resultNil := r.1.1.isNone, err := r.1.2 }, r.2)
  | .teamsCreate accountID name =>
    let r := TeamsService.Create c log accountID name
    ({ hasResult := true, resultNil := r.1.1.isNone, err := r.1.2 }, r.2)
  | .teamsUpdate teamID name =>
    let r := TeamsService.Update c log teamID name
    ({ hasResult := false, resultNil := true, err := r.1 }, r.2)
  | .teamsDelete teamID =>
    let r := TeamsService.Delete c log teamID
    ({ hasResult := false, resultNil := true, err := r.1 }, r.2)
  | .teamsListMembers teamID =>
    let r := TeamsService.ListMembers c log teamID
    ({ hasResult := true, resultNil := r.1.1.isNone, err := r.1.2 }, r.2)
  | .teamsUpdateMember teamID memberID admin =>
    let r := TeamsService.UpdateMember c log teamID memberID admin
    ({ hasResult := false, resultNil := true, err := r.1 }, r.2)
  | .teamsRemoveMember teamID memberID =>
    let r := TeamsService.RemoveMember c log teamID memberID
    ({ hasResult := false, resultNil := true, err := r.1 }, r.2)
  | .teamsListInvitations teamID =>
    let r := TeamsService.ListInvitations c log teamID
    ({ hasResult := true, resultNil := r.1.1.isNone, err := r.1.2 }, r.2)
  | .teamsGetInvitation teamID invitationID =>
    let r := TeamsService.GetInvitation c log teamID invitationID
    ({ hasResult := true, resultNil := r.1.1.isNone, err := r.1.2 }, r.2)
  | .teamsCreateInvitation teamID params =>
    let r := TeamsService.CreateInvitation c log teamID params
    ({ hasResult := true, resultNil := r.1.1.isNone, err := r.1.2 }, r.2)
  | .teamsUpdateInvitation teamID invitationID params =>
    let r := TeamsService.UpdateInvitation c log teamID invitationID params
    ({ hasResult := false, resultNil := true, err := r.1 }, r.2)
  | .teamsDeleteInvitation teamID invitationID =>
    let r := TeamsService.DeleteInvitation c log teamID invitationID
    ({ hasResult := false, resultNil := true, err := r.1 }, r.2)
  | .uptimeList projectID =>
    let r := UptimeService.List c log projectID
    ({ hasResult := true, resultNil := r.1.1.isNone, err := r.1.2 }, r.2)
  | .uptimeGet projectID siteID =>
    let r := UptimeService.Get c log projectID siteID
    ({ hasResult := true, resultNil := r.1.1.isNone, err := r.1.2 }, r.2)
  | .uptimeCreate projectID params =>
    let r := UptimeService.Create c log projectID params
    ({ hasResult := true, resultNil := r.1.1.isNone, err := r.1.2 }, r.2)
  | .uptimeUpdate projectID siteID params =>
    let r := UptimeService.Update c log projectID siteID params
    ({ hasResult := true, resultNil := r.1.1.isNone, err := r.1.2 }, r.2)
  | .uptimeDelete projectID siteID =>
    let r := UptimeService.Delete c log projectID siteID
    ({ hasResult := false, resultNil := true, err := r.1 }, r.2)
  | .uptimeListOutages projectID siteID options =>
    let r := UptimeService.ListOutages c log projectID siteID options
    ({ hasResult := true, resultNil := r.1.1.isNone, err := r.1.2 }, r.2)
  | .uptimeListUptimeChecks projectID siteID options =>
    let r := UptimeService.ListUptimeChecks c log projectID siteID options
    ({ hasResult := true, resultNil := r.1.1.isNone, err := r.1.2 }, r.2)

/-- The HTTP method of an operation, from the endpoint table of the
specification. -/
def Operation.method : Operation → GoString
  | .accountsList => "GET".toList
  | .accountsGet _ => "GET".toList
  | .accountsListUsers _ => "GET".toList
  | .accountsGetUser _ _ => "GET".toList
  | .accountsUpdateUser _ _ _ => "PUT".toList
  | .accountsRemoveUser _ _ => "DELETE".toList
  | .accountsListInvitations _ => "GET".toList
  | .accountsGetInvitation _ _ => "GET".toList
  | .accountsCreateInvitation _ _ => "POST".toList
  | .accountsUpdateInvitation _ _ _ => "PUT".toList
  | .accountsDeleteInvitation _ _ => "DELETE".toList
  | .checkInsList _ => "GET".toList
  | .checkInsGet _ _ => "GET".toList
  | .checkInsCreate _ _ => "POST".toList
  | .checkInsUpdate _ _ _ => "PUT".toList
  | .checkInsBulkUpdate _ _ => "PUT".toList
  | .checkInsDelete _ _ => "DELETE".toList
  | .commentsList _ _ => "GET".toList
  | .commentsGet _ _ _ => "GET".toList
  | .commentsCreate _ _ _ => "POST".toList
  | .commentsUpdate _ _ _ _ => "PUT".toList
  | .commentsDelete _ _ _ => "DELETE".toList
  | .dashboardsList _ => "GET".toList
  | .dashboardsGet _ _ => "GET".toList
  | .dashboardsCreate _ _ => "POST".toList
  | .dashboardsUpdate _ _ _ => "PUT".toList
  | .dashboardsDelete _ _ => "DELETE".toList
  | .deploymentsList _ _ => "GET".toList
  | .deploymentsGet _ _ => "GET".toList
  | .deploymentsDelete _ _ => "DELETE".toList
  | .environmentsList _ => "GET".toList
  | .environmentsGet _ _ => "GET".toList
  | .environmentsCreate _ _ => "POST".toList
  | .environmentsUpdate _ _ _ => "PUT".toList
  | .environmentsDelete _ _ => "DELETE".toList
  | .statusPagesList _ => "GET".toList
  | .statusPagesGet _ _ => "GET".toList
  | .statusPagesCreate _ _ => "POST".toList
  | .statusPagesUpdate _ _ _ => "POST".toList
  | .statusPagesDelete _ _ => "DELETE".toList
  | .teamsList _ => "GET".toList
  | .teamsGet _ => "GET".toList
  | .teamsCreate _ _ => "POST".toList
  | .teamsUpdate _ _ => "PUT".toList
  | .teamsDelete _ => "DELETE".toList
  | .teamsListMembers _ => "GET".toList
  | .teamsUpdateMember _ _ _ => "PUT".toList
  | .teamsRemoveMember _ _ => "DELETE".toList
  | .teamsListInvitations _ => "GET".toList
  | .teamsGetInvitation _ _ => "GET".toList
  | .teamsCreateInvitation _ _ => "POST".toList
  | .teamsUpdateInvitation _ _ _ => "PUT".toList
  | .teamsDeleteInvitation _ _ => "DELETE".toList
  | .uptimeList _ => "GET".toList
  | .uptimeGet _ _ => "GET".toList
  | .uptimeCreate _ _ => "POST".toList
  | .uptimeUpdate _ _ _ => "PUT".toList
  | .uptimeDelete _ _ => "DELETE".toList
  | .uptimeListOutages _ _ _ => "GET".toList
  | .uptimeListUptimeChecks _ _ _ => "GET".toList

/-- The path of an operation relative to the API root, from the endpoint table
of the specification, identifiers written as `%d` and `%s` write them. -/
def Operation.path : Operation → GoString
  | .accountsList =>
    "/accounts".toList
  | .accountsGet accountID =>
    "/accounts/".toList ++ accountID
  | .accountsListUsers accountID =>
    "/accounts/".toList ++ accountID ++ "/users".toList
  | .accountsGetUser accountID userID =>
    "/accounts/".toList ++ accountID ++ "/users/".toList ++ formatInt userID
  | .accountsUpdateUser accountID userID _ =>
    "/accounts/".toList ++ accountID ++ "/users/".toList ++ formatInt userID
  | .accountsRemoveUser accountID userID =>
    "/accounts/".toList ++ accountID ++ "/users/".toList ++ formatInt userID
  | .accountsListInvitations accountID =>
    "/accounts/".toList ++ accountID ++ "/invitations".toList
  | .accountsGetInvitation accountID invitationID =>
    "/accounts/".toList ++ accountID ++ "/invitations/".toList ++ formatInt invitationID
  | .accountsCreateInvitation accountID _ =>
    "/accounts/".toList ++ accountID ++ "/invitations".toList
  | .accountsUpdateInvitation accountID invitationID _ =>
    "/accounts/".toList ++ accountID ++ "/invitations/".toList ++ formatInt invitationID
  | .accountsDeleteInvitation accountID invitationID =>
    "/accounts/".toList ++ accountID ++ "/invitations/".toList ++ formatInt invitationID
  | .checkInsList projectID =>
    "/projects/".toList ++ formatInt projectID ++ "/check_ins".toList
  | .checkInsGet projectID checkInID =>
    "/projects/".toList ++ formatInt projectID ++ "/check_ins/".toList ++ formatInt checkInID
  | .checkInsCreate projectID _ =>
    "/projects/".toList ++ formatInt projectID ++ "/check_ins".toList
  | .checkInsUpdate projectID checkInID _ =>
    "/projects/".toList ++ formatInt projectID ++ "/check_ins/".toList ++ formatInt checkInID
  | .checkInsBulkUpdate projectID _ =>
    "/projects/".toList ++ formatInt projectID ++ "/check_ins".toList
  | .checkInsDelete projectID checkInID =>
    "/projects/".toList ++ formatInt projectID ++ "/check_ins/".toList ++ formatInt checkInID
  | .commentsList projectID faultID =>
    "/projects/".toList ++ formatInt projectID ++ "/faults/".toList ++ formatInt faultID ++
      "/comments".toList
  | .commentsGet projectID faultID commentID =>
    "/projects/".toList ++ formatInt projectID ++ "/faults/".toList ++ formatInt faultID ++
      "/comments/".toList ++ formatInt commentID
  | .commentsCreate projectID faultID _ =>
    "/projects/".toList ++ formatInt projectID ++ "/faults/".toList ++ formatInt faultID ++
      "/comments".toList
  | .commentsUpdate projectID faultID commentID _ =>
    "/projects/".toList ++ formatInt projectID ++ "/faults/".toList ++ formatInt faultID ++
      "/comments/".toList ++ formatInt commentID
  | .commentsDelete projectID faultID commentID =>
    "/projects/".toList ++ formatInt projectID ++ "/faults/".toList ++ formatInt faultID ++
      "/comments/".toList ++ formatInt commentID
  | .dashboardsList projectID =>
    "/projects/".toList ++ formatInt projectID ++ "/dashboards".toList
  | .dashboardsGet projectID dashboardID =>
    "/projects/".toList ++ formatInt projectID ++ "/dashboards/".toList ++ dashboardID
  | .dashboardsCreate projectID _ =>
    "/projects/".toList ++ formatInt projectID ++ "/dashboards".toList
  | .dashboardsUpdate projectID dashboardID _ =>
    "/projects/".toList ++ formatInt projectID ++ "/dashboards/".toList ++ dashboardID
  | .dashboardsDelete projectID dashboardID =>
    "/projects/".toList ++ formatInt projectID ++ "/dashboards/".toList ++ dashboardID
  | .deploymentsList projectID options =>
    DeploymentsService.listPath projectID options
  | .deploymentsGet projectID deploymentID =>
    "/projects/".toList ++ formatInt projectID ++ "/deploys/".toList ++ formatInt deploymentID
  | .deploymentsDelete projectID deploymentID =>
    "/projects/".toList ++ formatInt projectID ++ "/deploys/".toList ++ formatInt deploymentID
  | .environmentsList projectID =>
    "/projects/".toList ++ formatInt projectID ++ "/environments".toList
  | .environmentsGet projectID environmentID =>
    "/projects/".toList ++ formatInt projectID ++ "/environments/".toList ++
      formatInt environmentID
  | .environmentsCreate projectID _ =>
    "/projects/".toList ++ formatInt projectID ++ "/environments".toList
  | .environmentsUpdate projectID environmentID _ =>
    "/projects/".toList ++ formatInt projectID ++ "/environments/".toList ++
      formatInt environmentID
  | .environmentsDelete projectID environmentID =>
    "/projects/".toList ++ formatInt projectID ++ "/environments/".toList ++
      formatInt environmentID
  | .statusPagesList accountID =>
    "/accounts/".toList ++ formatInt accountID ++ "/status_pages".toList
  | .statusPagesGet accountID statusPageID =>
    "/accounts/".toList ++ formatInt accountID ++ "/status_pages/".toList ++
      formatInt statusPageID
  | .statusPagesCreate accountID _ =>
    "/accounts/".toList ++ formatInt accountID ++ "/status_pages".toList
  | .statusPagesUpdate accountID statusPageID _ =>
    "/accounts/".toList ++ formatInt accountID ++ "/status_pages/".toList ++
      formatInt statusPageID
  | .statusPagesDelete accountID statusPageID =>
    "/accounts/".toList ++ formatInt accountID ++ "/status_pages/".toList ++
      formatInt statusPageID
  | .teamsList accountID =>
    "/teams?account_id=".toList ++ QueryEscape accountID
  | .teamsGet teamID =>
    "/teams/".toList ++ formatInt teamID
  | .teamsCreate accountID _ =>
    "/teams?account_id=".toList ++ QueryEscape accountID
  | .teamsUpdate teamID _ =>
    "/teams/".toList ++ formatInt teamID
  | .teamsDelete teamID =>
    "/teams/".toList ++ formatInt teamID
  | .teamsListMembers teamID =>
    "/teams/".toList ++ formatInt teamID ++ "/team_members".toList
  | .teamsUpdateMember teamID memberID _ =>
    "/teams/".toList ++ formatInt teamID ++ "/team_members/".toList ++ formatInt memberID
  | .teamsRemoveMember teamID memberID =>
    "/teams/".toList ++ formatInt teamID ++ "/team_members/".toList ++ formatInt memberID
  | .teamsListInvitations teamID =>
    "/teams/".toList ++ formatInt teamID ++ "/team_invitations".toList
  | .teamsGetInvitation teamID invitationID =>
    "/teams/".toList ++ formatInt teamID ++ "/team_invitations/".toList ++
      formatInt invitationID
  | .teamsCreateInvitation teamID _ =>
    "/teams/".toList ++ formatInt teamID ++ "/team_invitations".toList
  | .teamsUpdateInvitation teamID invitationID _ =>
    "/teams/".toList ++ formatInt teamID ++ "/team_invitations/".toList ++
      formatInt invitationID
  | .teamsDeleteInvitation teamID invitationID =>
    "/teams/".toList ++ formatInt teamID ++ "/team_invitations/".toList ++
      formatInt invitationID
  | .uptimeList projectID =>
    "/projects/".toList ++ formatInt projectID ++ "/sites".toList
  | .uptimeGet projectID siteID =>
    "/projects/".toList ++ formatInt projectID ++ "/sites/".toList ++ siteID
  | .uptimeCreate projectID _ =>
    "/projects/".toList ++ formatInt projectID ++ "/sites".toList
  | .uptimeUpdate projectID siteID _ =>
    "/projects/".toList ++ formatInt projectID ++ "/sites/".toList ++ siteID
  | .uptimeDelete projectID siteID =>
    "/projects/".toList ++ formatInt projectID ++ "/sites/".toList ++ siteID
  | .uptimeListOutages projectID siteID options =>
    UptimeService.listOutagesPath projectID siteID options
  | .uptimeListUptimeChecks projectID siteID options =>
    UptimeService.listUptimeChecksPath projectID siteID options

/-- The body of an operation: nil, or the request value wrapped under its one
JSON key. -/
def Operation.body : Operation → Option Body
  | .accountsList => none
  | .accountsGet _ => none
  | .accountsListUsers _ => none
  | .accountsGetUser _ _ => none
  | .accountsUpdateUser _ _ role => some (.accountUserUpdateRequest { User := { Role := role } })
  | .accountsRemoveUser _ _ => none
  | .accountsListInvitations _ => none
  | .accountsGetInvitation _ _ => none
  | .accountsCreateInvitation _ params => some (.accountInvitationRequest { Invitation := params })
  | .accountsUpdateInvitation _ _ params => some (.accountInvitationRequest { Invitation := params })
  | .accountsDeleteInvitation _ _ => none
  | .checkInsList _ => none
  | .checkInsGet _ _ => none
  | .checkInsCreate _ params => some (.checkInRequest { CheckIn := params })
  | .checkInsUpdate _ _ params => some (.checkInRequest { CheckIn := params })
  | .checkInsBulkUpdate _ checkIns => some (.checkInBulkRequest { CheckIns := checkIns })
  | .checkInsDelete _ _ => none
  | .commentsList _ _ => none
  | .commentsGet _ _ _ => none
  | .commentsCreate _ _ body => some (.commentRequest { Comment := { Body := body } })
  | .commentsUpdate _ _ _ body => some (.commentRequest { Comment := { Body := body } })
  | .commentsDelete _ _ _ => none
  | .dashboardsList _ => none
  | .dashboardsGet _ _ => none
  | .dashboardsCreate _ dashboardReq => some (.dashboardMap [("dashboard".toList, dashboardReq)])
  | .dashboardsUpdate _ _ dashboardReq => some (.dashboardMap [("dashboard".toList, dashboardReq)])
  | .dashboardsDelete _ _ => none
  | .deploymentsList _ _ => none
  | .deploymentsGet _ _ => none
  | .deploymentsDelete _ _ => none
  | .environmentsList _ => none
  | .environmentsGet _ _ => none
  | .environmentsCreate _ params => some (.environmentRequest { Environment := params })
  | .environmentsUpdate _ _ params => some (.environmentRequest { Environment := params })
  | .environmentsDelete _ _ => none
  | .statusPagesList _ => none
  | .statusPagesGet _ _ => none
  | .statusPagesCreate _ params => some (.statusPageRequest { StatusPage := params })
  | .statusPagesUpdate _ _ params => some (.statusPageRequest { StatusPage := params })
  | .statusPagesDelete _ _ => none
  | .teamsList _ => none
  | .teamsGet _ => none
  | .teamsCreate _ name => some (.teamRequest { Team := { Name := name } })
  | .teamsUpdate _ name => some (.teamRequest { Team := { Name := name } })
  | .teamsDelete _ => none
  | .teamsListMembers _ => none
  | .teamsUpdateMember _ _ admin => some (.teamMemberUpdateRequest { TeamMember := { Admin := admin } })
  | .teamsRemoveMember _ _ => none
  | .teamsListInvitations _ => none
  | .teamsGetInvitation _ _ => none
  | .teamsCreateInvitation _ params => some (.teamInvitationRequest { TeamInvitation := params })
  | .teamsUpdateInvitation _ _ params => some (.teamInvitationRequest { TeamInvitation := params })
  | .teamsDeleteInvitation _ _ => none
  | .uptimeList _ => none
  | .uptimeGet _ _ => none
  | .uptimeCreate _ params => some (.siteCreateRequest { Site := params })
  | .uptimeUpdate _ _ params => some (.siteCreateRequest { Site := params })
  | .uptimeDelete _ _ => none
  | .uptimeListOutages _ _ _ => none
  | .uptimeListUptimeChecks _ _ _ => none

/-- The decode target of an operation: nil where the server answers with no
body to read, else the Go type the response is decoded into. -/
def Operation.target : Operation → Option Target
  | .accountsList => some .accountListResponse
  | .accountsGet _ => some .account
  | .accountsListUsers _ => some .accountUsers
  | .accountsGetUser _ _ => some .accountUser
  | .accountsUpdateUser _ _ _ => some .accountUser
  | .accountsRemoveUser _ _ => none
  | .accountsListInvitations _ => some .accountInvitations
  | .accountsGetInvitation _ _ => some .accountInvitation
  | .accountsCreateInvitation _ _ => some .accountInvitation
  | .accountsUpdateInvitation _ _ _ => some .accountInvitation
  | .accountsDeleteInvitation _ _ => none
  | .checkInsList _ => some .checkInListResponse
  | .checkInsGet _ _ => some .checkIn
  | .checkInsCreate _ _ => some .checkIn
  | .checkInsUpdate _ _ _ => some .checkIn
  | .checkInsBulkUpdate _ _ => some .checkInBulkUpdateResponse
  | .checkInsDelete _ _ => none
  | .commentsList _ _ => some .commentListResponse
  | .commentsGet _ _ _ => some .comment
  | .commentsCreate _ _ _ => some .comment
  | .commentsUpdate _ _ _ _ => none
  | .commentsDelete _ _ _ => none
  | .dashboardsList _ => some .dashboardListResponse
  | .dashboardsGet _ _ => some .dashboard
  | .dashboardsCreate _ _ => some .dashboard
  | .dashboardsUpdate _ _ _ => none
  | .dashboardsDelete _ _ => none
  | .deploymentsList _ _ => some .deploymentListResponse
  | .deploymentsGet _ _ => some .deployment
  | .deploymentsDelete _ _ => none
  | .environmentsList _ => some .environmentListResponse
  | .environmentsGet _ _ => some .environment
  | .environmentsCreate _ _ => some .environment
  | .environmentsUpdate _ _ _ => none
  | .environmentsDelete _ _ => none
  | .statusPagesList _ => some .statusPageListResponse
  | .statusPagesGet _ _ => some .statusPage
  | .statusPagesCreate _ _ => some .statusPage
  | .statusPagesUpdate _ _ _ => none
  | .statusPagesDelete _ _ => none
  | .teamsList _ => some .teamListResponse
  | .teamsGet _ => some .team
  | .teamsCreate _ _ => some .team
  | .teamsUpdate _ _ => none
  | .teamsDelete _ => none
  | .teamsListMembers _ => some .teamMemberListResponse
  | .teamsUpdateMember _ _ _ => none
  | .teamsRemoveMember _ _ => none
  | .teamsListInvitations _ => some .teamInvitationListResponse
  | .teamsGetInvitation _ _ => some .teamInvitation
  | .teamsCreateInvitation _ _ => some .teamInvitation
  | .teamsUpdateInvitation _ _ _ => none
  | .teamsDeleteInvitation _ _ => none
  | .uptimeList _ => some .sites
  | .uptimeGet _ _ => some .site
  | .uptimeCreate _ _ => some .site
  | .uptimeUpdate _ _ _ => some .site
  | .uptimeDelete _ _ => none
  | .uptimeListOutages _ _ _ => some .outages
  | .uptimeListUptimeChecks _ _ _ => some .uptimeChecks

/-- Whether the method behind an operation declares a result besides the
error. -/
def Operation.hasResult : Operation → Bool
  | .accountsList => true
  | .accountsGet _ => true
  | .accountsListUsers _ => true
  | .accountsGetUser _ _ => true
  | .accountsUpdateUser _ _ _ => true
  | .accountsRemoveUser _ _ => false
  | .accountsListInvitations _ => true
  | .accountsGetInvitation _ _ => true
  | .accountsCreateInvitation _ _ => true
  | .accountsUpdateInvitation _ _ _ => true
  | .accountsDeleteInvitation _ _ => false
  | .checkInsList _ => true
  | .checkInsGet _ _ => true
  | .checkInsCreate _ _ => true
  | .checkInsUpdate _ _ _ => true
  | .checkInsBulkUpdate _ _ => true
  | .checkInsDelete _ _ => false
  | .commentsList _ _ => true
  | .commentsGet _ _ _ => true
  | .commentsCreate _ _ _ => true
  | .commentsUpdate _ _ _ _ => false
  | .commentsDelete _ _ _ => false
  | .dashboardsList _ => true
  | .dashboardsGet _ _ => true
  | .dashboardsCreate _ _ => true
  | .dashboardsUpdate _ _ _ => true
  | .dashboardsDelete _ _ => true
  | .deploymentsList _ _ => true
  | .deploymentsGet _ _ => true
  | .deploymentsDelete _ _ => false
  | .environmentsList _ => true
  | .environmentsGet _ _ => true
  | .environmentsCreate _ _ => true
  | .environmentsUpdate _ _ _ => false
  | .environmentsDelete _ _ => false
  | .statusPagesList _ => true
  | .statusPagesGet _ _ => true
  | .statusPagesCreate _ _ => true
  | .statusPagesUpdate _ _ _ => false
  | .statusPagesDelete _ _ => false
  | .teamsList _ => true
  | .teamsGet _ => true
  | .teamsCreate _ _ => true
  | .teamsUpdate _ _ => false
  | .teamsDelete _ => false
  | .teamsListMembers _ => true
  | .teamsUpdateMember _ _ _ => false
  | .teamsRemoveMember _ _ => false
  | .teamsListInvitations _ => true
  | .teamsGetInvitation _ _ => true
  | .teamsCreateInvitation _ _ => true
  | .teamsUpdateInvitation _ _ _ => false
  | .teamsDeleteInvitation _ _ => false
  | .uptimeList _ => true
  | .uptimeGet _ _ => true
  | .uptimeCreate _ _ => true
  | .uptimeUpdate _ _ _ => true
  | .uptimeDelete _ _ => false
  | .uptimeListOutages _ _ _ => true
  | .uptimeListUptimeChecks _ _ _ => true

/-- The error in what `do` gives back, nil when there is none. -/
def DoResult.err : {v : Option Target} → DoResult v → Option Error
  | none, r => (r : Option Error)
  | some t, r =>
    match (r : Except Error t.Value) with
    | .error e => some e
    | .ok _ => none

/-- Whether the result of an operation is nil, given what `do` gave back: a
pointer result is nil exactly when `do` failed, a slice result is nil when `do`
failed or the decoded slice is nil; operations without a result count as nil. -/
def Operation.resultNilAfter : (op : Operation) → DoResult op.target → Bool
  | .accountsList, r =>
    match (r : Except Error Target.accountListResponse.Value) with
    | .error _ => true
    | .ok response => (response : AccountListResponse).Results.isNone
  | .accountsGet _, r =>
    match (r : Except Error Target.account.Value) with
    | .error _ => true
    | .ok _ => false
  | .accountsListUsers _, r =>
    match (r : Except Error Target.accountUsers.Value) with
    | .error _ => true
    | .ok items => (items : Slice AccountUser).isNone
  | .accountsGetUser _ _, r =>
    match (r : Except Error Target.accountUser.Value) with
    | .error _ => true
    | .ok _ => false
  | .accountsUpdateUser _ _ _, r =>
    match (r : Except Error Target.accountUser.Value) with
    | .error _ => true
    | .ok _ => false
  | .accountsRemoveUser _ _, _ => true
  | .accountsListInvitations _, r =>
    match (r : Except Error Target.accountInvitations.Value) with
    | .error _ => true
    | .ok items => (items : Slice AccountInvitation).isNone
  | .accountsGetInvitation _ _, r =>
    match (r : Except Error Target.accountInvitation.Value) with
    | .error _ => true
    | .ok _ => false
  | .accountsCreateInvitation _ _, r =>
    match (r : Except Error Target.accountInvitation.Value) with
    | .error _ => true
    | .ok _ => false
  | .accountsUpdateInvitation _ _ _, r =>
    match (r : Except Error Target.accountInvitation.Value) with
    | .error _ => true
    | .ok _ => false
  | .accountsDeleteInvitation _ _, _ => true
  | .checkInsList _, r =>
    match (r : Except Error Target.checkInListResponse.Value) with
    | .error _ => true
    | .ok response => (response : CheckInListResponse).Results.isNone
  | .checkInsGet _ _, r =>
    match (r : Except Error Target.checkIn.Value) with
    | .error _ => true
    | .ok _ => false
  | .checkInsCreate _ _, r =>
    match (r : Except Error Target.checkIn.Value) with
    | .error _ => true
    | .ok _ => false
  | .checkInsUpdate _ _ _, r =>
    match (r : Except Error Target.checkIn.Value) with
    | .error _ => true
    | .ok _ => false
  | .checkInsBulkUpdate _ _, r =>
    match (r : Except Error Target.checkInBulkUpdateResponse.Value) with
    | .error _ => true
    | .ok _ => false
  | .checkInsDelete _ _, _ => true
  | .commentsList _ _, r =>
    match (r : Except Error Target.commentListResponse.Value) with
    | .error _ => true
    | .ok response => (response : CommentListResponse).Results.isNone
  | .commentsGet _ _ _, r =>
    match (r : Except Error Target.comment.Value) with
    | .error _ => true
    | .ok _ => false
  | .commentsCreate _ _ _, r =>
    match (r : Except Error Target.comment.Value) with
    | .error _ => true
    | .ok _ => false
  | .commentsUpdate _ _ _ _, _ => true
  | .commentsDelete _ _ _, _ => true
  | .dashboardsList _, r =>
    match (r : Except Error Target.dashboardListResponse.Value) with
    | .error _ => true
    | .ok _ => false
  | .dashboardsGet _ _, r =>
    match (r : Except Error Target.dashboard.Value) with
    | .error _ => true
    | .ok _ => false
  | .dashboardsCreate _ _, r =>
    match (r : Except Error Target.dashboard.Value) with
    | .error _ => true
    | .ok _ => false
  | .dashboardsUpdate _ _ _, r => (r : Option Error).isSome
  | .dashboardsDelete _ _, r => (r : Option Error).isSome
  | .deploymentsList _ _, r =>
    match (r : Except Error Target.deploymentListResponse.Value) with
    | .error _ => true
    | .ok response => (response : DeploymentListResponse).Results.isNone
  | .deploymentsGet _ _, r =>
    match (r : Except Error Target.deployment.Value) with
    | .error _ => true
    | .ok _ => false
  | .deploymentsDelete _ _, _ => true
  | .environmentsList _, r =>
    match (r : Except Error Target.environmentListResponse.Value) with
    | .error _ => true
    | .ok response => (response : EnvironmentListResponse).Results.isNone
  | .environmentsGet _ _, r =>
    match (r : Except Error Target.environment.Value) with
    | .error _ => true
    | .ok _ => false
  | .environmentsCreate _ _, r =>
    match (r : Except Error Target.environment.Value) with
    | .error _ => true
    | .ok _ => false
  | .environmentsUpdate _ _ _, _ => true
  | .environmentsDelete _ _, _ => true
  | .statusPagesList _, r =>
    match (r : Except Error Target.statusPageListResponse.Value) with
    | .error _ => true
    | .ok response => (response : StatusPageListResponse).Results.isNone
  | .statusPagesGet _ _, r =>
    match (r : Except Error Target.statusPage.Value) with
    | .error _ => true
    | .ok _ => false
  | .statusPagesCreate _ _, r =>
    match (r : Except Error Target.statusPage.Value) with
    | .error _ => true
    | .ok _ => false
  | .statusPagesUpdate _ _ _, _ => true
  | .statusPagesDelete _ _, _ => true
  | .teamsList _, r =>
    match (r : Except Error Target.teamListResponse.Value) with
    | .error _ => true
    | .ok response => (response : TeamListResponse).Results.isNone
  | .teamsGet _, r =>
    match (r : Except Error Target.team.Value) with
    | .error _ => true
    | .ok _ => false
  | .teamsCreate _ _, r =>
    match (r : Except Error Target.team.Value) with
    | .error _ => true
    | .ok _ => false
  | .teamsUpdate _ _, _ => true
  | .teamsDelete _, _ => true
  | .teamsListMembers _, r =>
    match (r : Except Error Target.teamMemberListResponse.Value) with
    | .error _ => true
    | .ok response => (response : TeamMemberListResponse).Results.isNone
  | .teamsUpdateMember _ _ _, _ => true
  | .teamsRemoveMember _ _, _ => true
  | .teamsListInvitations _, r =>
    match (r : Except Error Target.teamInvitationListResponse.Value) with
    | .error _ => true
    | .ok response => (response : TeamInvitationListResponse).Results.isNone
  | .teamsGetInvitation _ _, r =>
    match (r : Except Error Target.teamInvitation.Value) with
    | .error _ => true
    | .ok _ => false
  | .teamsCreateInvitation _ _, r =>
    match (r : Except Error Target.teamInvitation.Value) with
    | .error _ => true
    | .ok _ => false
  | .teamsUpdateInvitation _ _ _, _ => true
  | .teamsDeleteInvitation _ _, _ => true
  | .uptimeList _, r =>
    match (r : Except Error Target.sites.Value) with
    | .error _ => true
    | .ok items => (items : Slice Site).isNone
  | .uptimeGet _ _, r =>
    match (r : Except Error Target.site.Value) with
    | .error _ => true
    | .ok _ => false
  | .uptimeCreate _ _, r =>
    match (r : Except Error Target.site.Value) with
    | .error _ => true
    | .ok _ => false
  | .uptimeUpdate _ _ _, r =>
    match (r : Except Error Target.site.Value) with
    | .error _ => true
    | .ok _ => false
  | .uptimeDelete _ _, _ => true
  | .uptimeListOutages _ _ _, r =>
    match (r : Except Error Target.outages.Value) with
    | .error _ => true
    | .ok items => (items : Slice Outage).isNone
  | .uptimeListUptimeChecks _ _ _, r =>
    match (r : Except Error Target.uptimeChecks.Value) with
    | .error _ => true
    | .ok items => (items : Slice UptimeCheck).isNone

/-- One round trip, as the specification words it: `newRequest` is called once
with the method, path and body of the endpoint table; its error ends the call
with a nil result; else `do` is called once with the request just built and the
operation's target, and its error, or nil, is handed back. -/
def Operation.roundTrip {Req : Type} (c : Client Req) (log : Log Req) (op : Operation) :
    Outcome × Log Req :=
  match c.newRequestFn op.method op.path op.body with
  | .error e =>
    ({ hasResult := op.hasResult, resultNil := true, err := some e },
      log ++ [Event.newRequest op.method op.path op.body])
  | .ok req =>
    ({ hasResult := op.hasResult, resultNil := op.resultNilAfter (c.doFn req op.target),
       err := DoResult.err (c.doFn req op.target) },
      log ++ [Event.newRequest op.method op.path op.body, Event.doCall req op.target])

/-! ## The methods that return a pointer -/

/-- Whether the method behind an operation is declared to return a pointer and an
error, `(*T, error)`; the others return a slice and an error, or only an error. -/
def Operation.returnsPointer : Operation → Bool
  | .accountsList => false
  | .accountsGet _ => true
  | .accountsListUsers _ => false
  | .accountsGetUser _ _ => true
  | .accountsUpdateUser _ _ _ => true
  | .accountsRemoveUser _ _ => false
  | .accountsListInvitations _ => false
  | .accountsGetInvitation _ _ => true
  | .accountsCreateInvitation _ _ => true
  | .accountsUpdateInvitation _ _ _ => true
  | .accountsDeleteInvitation _ _ => false
  | .checkInsList _ => false
  | .checkInsGet _ _ => true
  | .checkInsCreate _ _ => true
  | .checkInsUpdate _ _ _ => true
  | .checkInsBulkUpdate _ _ => true
  | .checkInsDelete _ _ => false
  | .commentsList _ _ => false
  | .commentsGet _ _ _ => true
  | .commentsCreate _ _ _ => true
  | .commentsUpdate _ _ _ _ => false
  | .commentsDelete _ _ _ => false
  | .dashboardsList _ => true
  | .dashboardsGet _ _ => true
  | .dashboardsCreate _ _ => true
  | .dashboardsUpdate _ _ _ => true
  | .dashboardsDelete _ _ => true
  | .deploymentsList _ _ => false
  | .deploymentsGet _ _ => true
  | .deploymentsDelete _ _ => false
  | .environmentsList _ => false
  | .environmentsGet _ _ => true
  | .environmentsCreate _ _ => true
  | .environmentsUpdate _ _ _ => false
  | .environmentsDelete _ _ => false
  | .statusPagesList _ => false
  | .statusPagesGet _ _ => true
  | .statusPagesCreate _ _ => true
  | .statusPagesUpdate _ _ _ => false
  | .statusPagesDelete _ _ => false
  | .teamsList _ => false
  | .teamsGet _ => true
  | .teamsCreate _ _ => true
  | .teamsUpdate _ _ => false
  | .teamsDelete _ => false
  | .teamsListMembers _ => false
  | .teamsUpdateMember _ _ _ => false
  | .teamsRemoveMember _ _ => false
  | .teamsListInvitations _ => false
  | .teamsGetInvitation _ _ => true
  | .teamsCreateInvitation _ _ => true
  | .teamsUpdateInvitation _ _ _ => false
  | .teamsDeleteInvitation _ _ => false
  | .uptimeList _ => false
  | .uptimeGet _ _ => true
  | .uptimeCreate _ _ => true
  | .uptimeUpdate _ _ _ => true
  | .uptimeDelete _ _ => false
  | .uptimeListOutages _ _ _ => false
  | .uptimeListUptimeChecks _ _ _ => false

/-! ## JSON documents -/

/-- The text of the literal `true`. -/
def trueText : List Char := ['t', 'r', 'u', 'e']

/-- The text of the literal `false`. -/
def falseText : List Char := ['f', 'a', 'l', 's', 'e']

mutual

/-- One JSON value at the head of the input, after optional white space: the
value and the input after it.  `fuel` bounds the nesting and the number of
members and elements read. -/
def parseValue : Nat → List Char → Option (Any × List Char)
  | 0, _ => none
  | fuel + 1, s =>
    match s.dropWhile isSpace with
    | [] => none
    | c :: cs =>
      match beginValue c with
      | .object => parseMembers fuel cs true []
      | .array => parseElements fuel cs true []
      | .string =>
        match scanString cs with
        | none => none
        | some (str, rest) => some (Any.string str, rest)
      | .number =>
        match scanNumber (c :: cs) with
        | none => none
        | some (item, rest) => some (Any.number item, rest)
      | .litTrue =>
        if (c :: cs).take 4 = trueText then some (Any.bool true, (c :: cs).drop 4) else none
      | .litFalse =>
        if (c :: cs).take 5 = falseText then some (Any.bool false, (c :: cs).drop 5) else none
      | .litNull =>
        if (c :: cs).take 4 = nullText then some (Any.null, (c :: cs).drop 4) else none
      | .invalid => none

/-- The elements of an array after `[` (when `first`) or after a comma: values
separated by commas, up to the closing bracket. -/
def parseElements : Nat → List Char → Bool → List Any → Option (Any × List Char)
  | 0, _, _, _ => none
  | fuel + 1, s, first, acc =>
    match s.dropWhile isSpace with
    | [] => none
    | c :: cs =>
      if c = ']' ∧ first = true then some (Any.array [], cs)
      else
        match parseValue fuel (c :: cs) with
        | none => none
        | some (v, rest) =>
          match rest.dropWhile isSpace with
          | [] => none
          | d :: ds =>
            if d = ',' then parseElements fuel ds false (acc ++ [v])
            else if d = ']' then some (Any.array (acc ++ [v]), ds)
            else none

/-- The members of an object after the opening brace (when `first`) or after a
comma: `"key": value` pairs separated by commas, up to the closing brace. -/
def parseMembers : Nat → List Char → Bool → List (GoString × Any) → Option (Any × List Char)
  | 0, _, _, _ => none
  | fuel + 1, s, first, acc =>
    match s.dropWhile isSpace with
    | [] => none
    | c :: cs =>
      if c = Char.ofNat 125 ∧ first = true then some (Any.object [], cs)
      else if c = dquote then
        match scanString cs with
        | none => none
        | some (key, rest) =>
          match rest.dropWhile isSpace with
          | [] => none
          | d :: ds =>
            if d = ':' then
              match parseValue fuel ds with
              | none => none
              | some (v, rest2) =>
                match rest2.dropWhile isSpace with
                | [] => none
                | e :: es =>
                  if e = ',' then parseMembers fuel es false (acc ++ [(key, v)])
                  else if e = Char.ofNat 125 then some (Any.object (acc ++ [(key, v)]), es)
                  else none
            else none
      else none

end

/-- A whole JSON document: one value with only white space around it.  Every
step of the parser consumes input, so the length of the text is fuel enough. -/
def parseJSON (text : GoString) : Option Any :=
  match parseValue (text.length + 1) text with
  | none => none
  | some (v, rest) => if onlySpace rest then some v else none

/-- The member of a JSON object with the given key, the last one when the key
is repeated (as encoding/json keeps it); `none` for other values. -/
def Any.member (key : GoString) : Any → Option Any
  | .object members =>
    match members.reverse.find? (fun kv => decide (kv.1 = key)) with
    | some kv => some kv.2
    | none => none
  | _ => none

/-- The raw contents of a JSON string holding `s`: quote and backslash behind a
backslash, control characters as `\u00XX`, everything else as it is. -/
def jsonEscapeChar (c : Char) : List Char :=
  if c = dquote ∨ c = backslash then [backslash, c]
  else if c.toNat < 32 then
    [backslash, 'u', '0', '0', lowerHex (c.toNat / 16), lowerHex (c.toNat % 16)]
  else [c]

/-- The JSON string token for `s`. -/
def jsonString (s : GoString) : GoString :=
  dquote :: (s.map jsonEscapeChar).flatten ++ [dquote]

/-- The JSON text `{"errors": s}` for a string `s`, spaced as in the tests. -/
def errorsBody (s : GoString) : GoString :=
  Char.ofNat 123 :: jsonString "errors".toList ++ ": ".toList ++ jsonString s ++ [Char.ofNat 125]

/-! ## The response decoder of the specification -/

/-- An HTTP response as `do` sees it: the status code and the full body. -/
structure Response where
  StatusCode : Int
  Body : GoString

/-- Modelled from the spec: the message of an `APIError` (client.go, which
declares `APIError` and builds its message, is not among the sources).  The
message is the JSON field `errors` of the body when the body is a JSON document
that has one: a JSON string gives its contents, any other value its compact
rendering `render`, which the specification leaves open.  A body that is not
valid JSON, or has no `errors` field, gives `fallback status body`: the raw body
text or a default message keyed by the status code. -/
def apiErrorMessage (render : Any → GoString) (fallback : Int → GoString → GoString)
    (status : Int) (body : GoString) : GoString :=
  match parseJSON body with
  | none => fallback status body
  | some doc =>
    match doc.member "errors".toList with
    | none => fallback status body
    | some (Any.string s) => s
    | some v => render v

/-- Modelled from the spec: `Client.do(ctx, req, v)` (client.go is not among the
sources).  The request goes over the transport, whose errors are returned as
they are; a status code in [200,300) is success: with a nil target nothing is
decoded, with a target the body is decoded into it by `decode` and a decoding
failure is an error; any other status code gives an `APIError` with the status
code and the message of `apiErrorMessage`. -/
def specDo {Req : Type} (transport : Req → Except Error Response)
    (decode : (t : Target) → GoString → Except Error t.Value)
    (render : Any → GoString) (fallback : Int → GoString → GoString) (req : Req) :
    (v : Option Target) → DoResult v
  | none =>
    match transport req with
    | .error e => (some e : Option Error)
    | .ok resp =>
      if 200 ≤ resp.StatusCode ∧ resp.StatusCode < 300 then (none : Option Error)
      else some (Error.apiError resp.StatusCode
        (apiErrorMessage render fallback resp.StatusCode resp.Body))
  | some t =>
    match transport req with
    | .error e => (.error e : Except Error t.Value)
    | .ok resp =>
      if 200 ≤ resp.StatusCode ∧ resp.StatusCode < 300 then decode t resp.Body
      else .error (Error.apiError resp.StatusCode
        (apiErrorMessage render fallback resp.StatusCode resp.Body))

/-- The request of the test `TestDashboardsCreate_Unauthorized`:
`DashboardRequest{Title: "Test", Widgets: []map[string]interface{}{}}`. -/
def testDashboardRequest : DashboardRequest :=
  { Title := "Test".toList, DefaultTs := [], Widgets := some [] }

/-- A `newRequest` that builds every request as its descriptor. -/
def buildDescriptor (method path : GoString) (body : Option Body) : Except Error Request :=
  .ok { method := method, path := path, body := body }

/-- A transport that answers every request with the same response. -/
def constantTransport (status : Int) (body : GoString) (_ : Request) : Except Error Response :=
  .ok { StatusCode := status, Body := body }

/-- A decoder that rejects every body; the error path never calls it. -/
def rejectingDecode (t : Target) (_ : GoString) : Except Error t.Value :=
  .error (Error.other "decode".toList)

/-- The client of the tests `TestDashboardsCreate_Unauthorized` and
`TestDashboardsCreate_ValidationError`: a server that answers every request with
the given status and body. -/
def cannedClient (status : Int) (body : GoString) : Client Request where
  newRequestFn := buildDescriptor
  doFn := specDo (constantTransport status body) rejectingDecode (fun _ => []) (fun _ b => b)

/-! ## encoding/json: decoding into the records of types.go -/

/-- The raw text of the JSON value at the head of the input, white space
skipped, and the input after it. -/
def rawValue (fuel : Nat) (s : List Char) : Option (GoString × List Char) :=
  match parseValue fuel s with
  | none => none
  | some (_, rest) =>
    some ((s.dropWhile isSpace).take ((s.dropWhile isSpace).length - rest.length), rest)

/-- The members of an object after the opening brace (when `first`) or after a
comma, each as its decoded key and the raw text of its value. -/
def rawMembers : Nat → List Char → Bool → List (GoString × GoString) →
    Option (List (GoString × GoString) × List Char)
  | 0, _, _, _ => none
  | fuel + 1, s, first, acc =>
    match s.dropWhile isSpace with
    | [] => none
    | c :: cs =>
      if c = Char.ofNat 125 ∧ first = true then some ([], cs)
      else if c = dquote then
        match scanString cs with
        | none => none
        | some (key, rest) =>
          match rest.dropWhile isSpace with
          | [] => none
          | d :: ds =>
            if d = ':' then
              match rawValue fuel ds with
              | none => none
              | some (raw, rest2) =>
                match rest2.dropWhile isSpace with
                | [] => none
                | e :: es =>
                  if e = ',' then rawMembers fuel es false (acc ++ [(key, raw)])
                  else if e = Char.ofNat 125 then some (acc ++ [(key, raw)], es)
                  else none
            else none
      else none

/-- The elements of an array after `[` (when `first`) or after a comma, each as
the raw text of its value. -/
def rawElements : Nat → List Char → Bool → List GoString → Option (List GoString × List Char)
  | 0, _, _, _ => none
  | fuel + 1, s, first, acc =>
    match s.dropWhile isSpace with
    | [] => none
    | c :: cs =>
      if c = ']' ∧ first = true then some ([], cs)
      else
        match rawValue fuel (c :: cs) with
        | none => none
        | some (raw, rest) =>
          match rest.dropWhile isSpace with
          | [] => none
          | d :: ds =>
            if d = ',' then rawElements fuel ds false (acc ++ [raw])
            else if d = ']' then some (acc ++ [raw], ds)
            else none

/-- The members of a JSON text that is one object: keys decoded, values raw;
`none` when the text is not a well-formed object. -/
def objectMembers (text : GoString) : Option (List (GoString × GoString)) :=
  match text.dropWhile isSpace with
  | [] => none
  | c :: cs =>
    if c = Char.ofNat 123 then
      match rawMembers (text.length + 1) cs true [] with
      | none => none
      | some (ms, rest) => if onlySpace rest then some ms else none
    else none

/-- The elements of a JSON text that is one array, raw; `none` when the text is
not a well-formed array. -/
def arrayElements (text : GoString) : Option (List GoString) :=
  match text.dropWhile isSpace with
  | [] => none
  | c :: cs =>
    if c = '[' then
      match rawElements (text.length + 1) cs true [] with
      | none => none
      | some (items, rest) => if onlySpace rest then some items else none
    else none

/-- Whether a JSON text is the literal `null`. -/
def isNullText (text : GoString) : Bool :=
  match parseJSON text with
  | some Any.null => true
  | _ => false

/-- Decoding the raw text of a JSON value into a Go value of type `T` that
already holds something: the value afterwards, or the error `json.Unmarshal`
returns.  The model stops at the first failure; encoding/json records a type
mismatch and goes on, but returns an error in exactly the same cases. -/
abbrev Decoder (T : Type) := GoString → T → Except Error T

/-- The name encoding/json gives the kind of a JSON value in its messages. -/
def Any.kindName : Any → GoString
  | .null => "null".toList
  | .bool _ => "bool".toList
  | .number _ => "number".toList
  | .string _ => "string".toList
  | .array _ => "array".toList
  | .object _ => "object".toList

/-- The error of a JSON value that does not fit the Go type, after
`(*UnmarshalTypeError).Error`; the name of the struct field, which the real
message also carries, is left out. -/
def typeError (value goType : GoString) : Error :=
  Error.other ("json: cannot unmarshal ".toList ++ value ++
    " into Go value of type ".toList ++ goType)

/-- The error of a text that is not JSON (`SyntaxError`). -/
def invalidJSON : Error :=
  Error.other "json: syntax error".toList

/-- The error of decoding a raw text that does not fit the Go type. -/
def mismatch (raw goType : GoString) : Error :=
  match parseJSON raw with
  | none => invalidJSON
  | some v => typeError v.kindName goType

/-- Decoding into a `string`: a JSON string gives its contents, `null` changes
nothing, everything else is an error. -/
def decodeString : Decoder GoString := fun raw cur =>
  match parseJSON raw with
  | some (Any.string s) => .ok s
  | some Any.null => .ok cur
  | _ => .error (mismatch raw "string".toList)

/-- Decoding into an `int`: a number literal that `strconv.ParseInt` accepts
gives its value, `null` changes nothing, everything else is an error. -/
def decodeInt : Decoder Int := fun raw cur =>
  match parseJSON raw with
  | some (Any.number item) =>
    match ParseInt item with
    | .ok v => .ok v
    | .error _ => .error (typeError ("number ".toList ++ item) "int".toList)
  | some Any.null => .ok cur
  | _ => .error (mismatch raw "int".toList)

/-- Decoding into a `bool`. -/
def decodeBool : Decoder Bool := fun raw cur =>
  match parseJSON raw with
  | some (Any.bool b) => .ok b
  | some Any.null => .ok cur
  | _ => .error (mismatch raw "bool".toList)

/-- Decoding into a `float64`, kept as the literal text. -/
def decodeFloat64 : Decoder Float64 := fun raw cur =>
  match parseJSON raw with
  | some (Any.number item) => .ok item
  | some Any.null => .ok cur
  | _ => .error (mismatch raw "float64".toList)

/-- Decoding into a pointer `*T`: `null` sets the pointer to nil, any other
value is decoded into what the pointer refers to, a fresh zero value when the
pointer is nil. -/
def decodePtr {T : Type} (d : Decoder T) (zero : T) : Decoder (Option T) := fun raw cur =>
  if isNullText raw then .ok none
  else
    match d raw (cur.getD zero) with
    | .error e => .error e
    | .ok v => .ok (some v)

/-- Decode a list of raw elements one after the other, each into a zero value. -/
def decodeElements {T : Type} (d : Decoder T) (zero : T) : List GoString → Except Error (List T)
  | [] => .ok []
  | raw :: rest =>
    match d raw zero with
    | .error e => .error e
    | .ok v =>
      match decodeElements d zero rest with
      | .error e => .error e
      | .ok vs => .ok (v :: vs)

/-- Decoding into a slice `[]T` that is nil before: `null` leaves it nil, an
array gives a slice that is not nil, also when the array is empty, and
everything else is an error. -/
def decodeSlice {T : Type} (d : Decoder T) (zero : T) : Decoder (Slice T) := fun raw _ =>
  if isNullText raw then .ok none
  else
    match arrayElements raw with
    | none => .error (mismatch raw "slice".toList)
    | some items =>
      match decodeElements d zero items with
      | .error e => .error e
      | .ok vs => .ok (some vs)

/-- Decoding into a `map[string]interface{}`: an object gives its members,
`null` a nil map, everything else is an error. -/
def decodeAnyMap : Decoder (Option (List (GoString × Any))) := fun raw _ =>
  match parseJSON raw with
  | some (Any.object members) => .ok (some members)
  | some Any.null => .ok none
  | _ => .error (mismatch raw "map[string]interface \x7b\x7d".toList)

/-- Model of `(*time.Time).UnmarshalJSON`, which works on the raw text: `null`
changes nothing, a text that is not between double quotes is an error, else the
text between the quotes goes to `parseStrictRFC3339`, which is the parameter
`parseTime`. -/
def decodeTime (parseTime : GoString → Option Time) : Decoder Time := fun raw cur =>
  if raw = nullText then .ok cur
  else if raw.length < 2 ∨ raw.head? ≠ some dquote ∨ raw.getLast? ≠ some dquote then
    .error (Error.other "Time.UnmarshalJSON: input is not a JSON string".toList)
  else
    match parseTime ((raw.drop 1).take (raw.length - 2)) with
    | some t => .ok t
    | none => .error (Error.other "parsing time".toList)

/-- ASCII and the two other characters that fold onto ASCII letters (the Kelvin
sign and the long s), folded to lower case: for a field name in ASCII, two keys
are equal under `strings.EqualFold` exactly when they are equal after this. -/
def foldChar (c : Char) : Char :=
  if 65 ≤ c.toNat ∧ c.toNat ≤ 90 then Char.ofNat (c.toNat + 32)
  else if c.toNat = 8490 then 'k'
  else if c.toNat = 383 then 's'
  else c

/-- Whether a JSON key names the field tagged `name`: exactly or up to case. -/
def keyMatches (name key : GoString) : Bool :=
  decide (key.map foldChar = name.map foldChar)

/-- A field of a struct as the decoder sees it: the name from its `json` tag and
the decoding of a raw value into that field of the struct. -/
structure Field (S : Type) where
  name : GoString
  set : GoString → S → Except Error S

/-- The field a JSON key is decoded into: the one with exactly that name, else
the first one whose name matches up to case, else none. -/
def findField {S : Type} (fields : List (Field S)) (key : GoString) : Option (Field S) :=
  match fields.find? (fun f => decide (f.name = key)) with
  | some f => some f
  | none => fields.find? (fun f => keyMatches f.name key)

/-- Decode the members of an object one after the other into a struct; a key
that names no field is skipped. -/
def decodeMembers {S : Type} (fields : List (Field S)) :
    List (GoString × GoString) → S → Except Error S
  | [], s => .ok s
  | (key, raw) :: rest, s =>
    match findField fields key with
    | none => decodeMembers fields rest s
    | some f =>
      match f.set raw s with
      | .error e => .error e
      | .ok s1 => decodeMembers fields rest s1

/-- Decoding into a struct: `null` changes nothing, an object is decoded member
by member, everything else (an array, a string, a number, a malformed text) is
an error. -/
def decodeStruct {S : Type} (goType : GoString) (fields : List (Field S)) : Decoder S :=
  fun raw cur =>
    if isNullText raw then .ok cur
    else
      match objectMembers raw with
      | none => .error (mismatch raw goType)
      | some members => decodeMembers fields members cur

/-! ## The decoders of the records the list and get endpoints answer with -/

/-- The fields of `User` as the decoder sees them. -/
def User.fields : List (Field User) :=
  [ { name := "id".toList, set := fun raw s => (decodeInt raw s.ID).map (fun v => { s with ID := v }) },
    { name := "email".toList,
      set := fun raw s => (decodeString raw s.Email).map (fun v => { s with Email := v }) },
    { name := "name".toList,
      set := fun raw s => (decodeString raw s.Name).map (fun v => { s with Name := v }) } ]

/-- The zero `User`. -/
def User.zero : User := { ID := 0, Email := [], Name := [] }

/-- Decoding into a `User`. -/
def User.decode : Decoder User := decodeStruct "User".toList User.fields

/-- The fields of `CheckIn` as the decoder sees them, in the order of the
declaration, under the names of their `json` tags. -/
def CheckIn.fields (parseTime : GoString → Option Time) : List (Field CheckIn) :=
  [ { name := "id".toList,
      set := fun raw s => (decodeString raw s.ID).map (fun v => { s with ID := v }) },
    { name := "name".toList,
      set := fun raw s => (decodeString raw s.Name).map (fun v => { s with Name := v }) },
    { name := "slug".toList,
      set := fun raw s => (decodeString raw s.Slug).map (fun v => { s with Slug := v }) },
    { name := "schedule_type".toList,
      set := fun raw s =>
        (decodeString raw s.ScheduleType).map (fun v => { s with ScheduleType := v }) },
    { name := "report_period".toList,
      set := fun raw s =>
        (decodePtr decodeString [] raw s.ReportPeriod).map (fun v => { s with ReportPeriod := v }) },
    { name := "grace_period".toList,
      set := fun raw s =>
        (decodePtr decodeString [] raw s.GracePeriod).map (fun v => { s with GracePeriod := v }) },
    { name := "cron_schedule".toList,
      set := fun raw s =>
        (decodePtr decodeString [] raw s.CronSchedule).map (fun v => { s with CronSchedule := v }) },
    { name := "cron_timezone".toList,
      set := fun raw s =>
        (decodePtr decodeString [] raw s.CronTimezone).map (fun v => { s with CronTimezone := v }) },
    { name := "project_id".toList,
      set := fun raw s => (decodeInt raw s.ProjectID).map (fun v => { s with ProjectID := v }) },
    { name := "created_at".toList,
      set := fun raw s =>
        (decodeTime parseTime raw s.CreatedAt).map (fun v => { s with CreatedAt := v }) },
    { name := "last_check_in_at".toList,
      set := fun raw s =>
        (decodePtr (decodeTime parseTime) Time.zero raw s.LastCheckInAt).map
          (fun v => { s with LastCheckInAt := v }) } ]

/-- Decoding into a `CheckIn`. -/
def CheckIn.decode (parseTime : GoString → Option Time) : Decoder CheckIn :=
  decodeStruct "CheckIn".toList (CheckIn.fields parseTime)

/-- The one field of `CheckInListResponse`: `Results []CheckIn`, tagged
`json:"results"`. -/
def CheckInListResponse.fields (parseTime : GoString → Option Time) :
    List (Field CheckInListResponse) :=
  [ { name := "results".toList,
      set := fun raw s =>
        (decodeSlice (CheckIn.decode parseTime) (Target.zero .checkIn) raw s.Results).map
          (fun v => { s with Results := v }) } ]

/-- Decoding into a `CheckInListResponse`. -/
def CheckInListResponse.decode (parseTime : GoString → Option Time) :
    Decoder CheckInListResponse :=
  decodeStruct "CheckInListResponse".toList (CheckInListResponse.fields parseTime)

/-- The fields of `StatusPage` as the decoder sees them. -/
def StatusPage.fields (parseTime : GoString → Option Time) : List (Field StatusPage) :=
  [ { name := "id".toList,
      set := fun raw s => (decodeInt raw s.ID).map (fun v => { s with ID := v }) },
    { name := "name".toList,
      set := fun raw s => (decodeString raw s.Name).map (fun v => { s with Name := v }) },
    { name := "account_id".toList,
      set := fun raw s => (decodeInt raw s.AccountID).map (fun v => { s with AccountID := v }) },
    { name := "domain".toList,
      set := fun raw s =>
        (decodePtr decodeString [] raw s.Domain).map (fun v => { s with Domain := v }) },
    { name := "url".toList,
      set := fun raw s => (decodeString raw s.URL).map (fun v => { s with URL := v }) },
    { name := "created_at".toList,
      set := fun raw s =>
        (decodeTime parseTime raw s.CreatedAt).map (fun v => { s with CreatedAt := v }) },
    { name := "domain_verified_at".toList,
      set := fun raw s =>
        (decodePtr (decodeTime parseTime) Time.zero raw s.DomainVerifiedAt).map
          (fun v => { s with DomainVerifiedAt := v }) },
    { name := "sites".toList,
      set := fun raw s =>
        (decodeSlice decodeString [] raw s.Sites).map (fun v => { s with Sites := v }) },
    { name := "check_ins".toList,
      set := fun raw s =>
        (decodeSlice decodeString [] raw s.CheckIns).map (fun v => { s with CheckIns := v }) },
    { name := "hide_branding".toList,
      set := fun raw s =>
        (decodePtr decodeBool false raw s.HideBranding).map
          (fun v => { s with HideBranding := v }) },
    { name := "features".toList,
      set := fun raw s =>
        (decodeAnyMap raw s.Features).map (fun v => { s with Features := v }) } ]

/-- Decoding into a `StatusPage`. -/
def StatusPage.decode (parseTime : GoString → Option Time) : Decoder StatusPage :=
  decodeStruct "StatusPage".toList (StatusPage.fields parseTime)

/-- The one field of `StatusPageListResponse`: `Results []StatusPage`. -/
def StatusPageListResponse.fields (parseTime : GoString → Option Time) :
    List (Field StatusPageListResponse) :=
  [ { name := "results".toList,
      set := fun raw s =>
        (decodeSlice (StatusPage.decode parseTime) (Target.zero .statusPage) raw s.Results).map
          (fun v => { s with Results := v }) } ]

/-- Decoding into a `StatusPageListResponse`. -/
def StatusPageListResponse.decode (parseTime : GoString → Option Time) :
    Decoder StatusPageListResponse :=
  decodeStruct "StatusPageListResponse".toList (StatusPageListResponse.fields parseTime)

/-- The fields of `Comment` as the decoder sees them; `Author` is a `*User`. -/
def Comment.fields (parseTime : GoString → Option Time) : List (Field Comment) :=
  [ { name := "id".toList,
      set := fun raw s => (decodeInt raw s.ID).map (fun v => { s with ID := v }) },
    { name := "fault_id".toList,
      set := fun raw s => (decodeInt raw s.FaultID).map (fun v => { s with FaultID := v }) },
    { name := "event".toList,
      set := fun raw s => (decodeString raw s.Event).map (fun v => { s with Event := v }) },
    { name := "source".toList,
      set := fun raw s => (decodeString raw s.Source).map (fun v => { s with Source := v }) },
    { name := "notices_count".toList,
      set := fun raw s =>
        (decodeInt raw s.NoticesCount).map (fun v => { s with NoticesCount := v }) },
    { name := "created_at".toList,
      set := fun raw s =>
        (decodeTime parseTime raw s.CreatedAt).map (fun v => { s with CreatedAt := v }) },
    { name := "author".toList,
      set := fun raw s =>
        (decodePtr User.decode User.zero raw s.Author).map (fun v => { s with Author := v }) },
    { name := "body".toList,
      set := fun raw s => (decodeString raw s.Body).map (fun v => { s with Body := v }) } ]

/-- Decoding into a `Comment`. -/
def Comment.decode (parseTime : GoString → Option Time) : Decoder Comment :=
  decodeStruct "Comment".toList (Comment.fields parseTime)

/-- The fields of `PaginationLinks` as the decoder sees them. -/
def PaginationLinks.fields : List (Field PaginationLinks) :=
  [ { name := "next".toList,
      set := fun raw s => (decodeString raw s.Next).map (fun v => { s with Next := v }) },
    { name := "prev".toList,
      set := fun raw s => (decodeString raw s.Prev).map (fun v => { s with Prev := v }) },
    { name := "self".toList,
      set := fun raw s => (decodeString raw s.Self).map (fun v => { s with Self := v }) } ]

/-- The zero `PaginationLinks`. -/
def PaginationLinks.zero : PaginationLinks := { Next := [], Prev := [], Self := [] }

/-- Decoding into a `PaginationLinks`. -/
def PaginationLinks.decode : Decoder PaginationLinks :=
  decodeStruct "PaginationLinks".toList PaginationLinks.fields

/-- The two fields of `ListResponse[T]`: `Results []T` tagged `json:"results"`
and `Links PaginationLinks` tagged `json:"links"`; `elem` decodes into a `T` and
`zero` is the zero value of `T`.  The type has no `UnmarshalJSON` of its own. -/
def ListResponse.fields {T : Type} (elem : Decoder T) (zero : T) : List (Field (ListResponse T)) :=
  [ { name := "results".toList,
      set := fun raw s =>
        (decodeSlice elem zero raw s.Results).map (fun v => { s with Results := v }) },
    { name := "links".toList,
      set := fun raw s =>
        (PaginationLinks.decode raw s.Links).map (fun v => { s with Links := v }) } ]

/-- The zero `ListResponse[T]`, what `var response ListResponse[T]` holds. -/
def ListResponse.zero (T : Type) : ListResponse T :=
  { Results := none, Links := PaginationLinks.zero }

/-- Decoding into a `ListResponse[T]`. -/
def ListResponse.decode {T : Type} (elem : Decoder T) (zero : T) : Decoder (ListResponse T) :=
  decodeStruct "ListResponse".toList (ListResponse.fields elem zero)

/-- The fields of `Dashboard` (dashboards.go) as the decoder sees them; a widget
that is `null` is a nil map, which the record holds as the map without members. -/
def Dashboard.fields (parseTime : GoString → Option Time) : List (Field Dashboard) :=
  [ { name := "id".toList,
      set := fun raw s => (decodeString raw s.ID).map (fun v => { s with ID := v }) },
    { name := "title".toList,
      set := fun raw s => (decodeString raw s.Title).map (fun v => { s with Title := v }) },
    { name := "widgets".toList,
      set := fun raw s =>
        (decodeSlice decodeAnyMap none raw none).map
          (fun v => { s with Widgets := v.map (fun ws => ws.map (fun w => w.getD [])) }) },
    { name := "is_default".toList,
      set := fun raw s => (decodeBool raw s.IsDefault).map (fun v => { s with IsDefault := v }) },
    { name := "shared".toList,
      set := fun raw s => (decodeBool raw s.Shared).map (fun v => { s with Shared := v }) },
    { name := "created_at".toList,
      set := fun raw s =>
        (decodeTime parseTime raw s.CreatedAt).map (fun v => { s with CreatedAt := v }) },
    { name := "updated_at".toList,
      set := fun raw s =>
        (decodeTime parseTime raw s.UpdatedAt).map (fun v => { s with UpdatedAt := v }) },
    { name := "project_id".toList,
      set := fun raw s => (decodeInt raw s.ProjectID).map (fun v => { s with ProjectID := v }) } ]

/-- Decoding into a `Dashboard`. -/
def Dashboard.decode (parseTime : GoString → Option Time) : Decoder Dashboard :=
  decodeStruct "Dashboard".toList (Dashboard.fields parseTime)

/-- The decoding `do` applies to a response body: `json.Unmarshal` into the
zero value the method declared.  The targets of the check-in, status page,
comment and dashboard endpoints are decoded here; the decoding of the other
targets is the parameter `others`. -/
def jsonDecode (parseTime : GoString → Option Time)
    (others : (t : Target) → GoString → Except Error t.Value) :
    (t : Target) → GoString → Except Error t.Value
  | .checkIn, body => CheckIn.decode parseTime body (Target.zero .checkIn)
  | .checkInListResponse, body =>
    CheckInListResponse.decode parseTime body (Target.zero .checkInListResponse)
  | .statusPage, body => StatusPage.decode parseTime body (Target.zero .statusPage)
  | .statusPageListResponse, body =>
    StatusPageListResponse.decode parseTime body (Target.zero .statusPageListResponse)
  | .comment, body => Comment.decode parseTime body (Target.zero .comment)
  | .dashboard, body => Dashboard.decode parseTime body (Target.zero .dashboard)
  | .dashboardListResponse, body =>
    ListResponse.decode (Dashboard.decode parseTime) (Target.zero .dashboard) body
      (ListResponse.zero Dashboard)
  | t, body => others t body

/-! ## The response bodies of the tests -/

/-- The check-in the server answers with in `TestCheckInsGet`: `"id": 1`, a JSON
number, name "Daily Backup", report period "1 day". -/
def dailyBackupBody : GoString :=
  "\x7b\n".toList ++
  "\t\t\"id\": 1,\n".toList ++
  "\t\t\"name\": \"Daily Backup\",\n".toList ++
  "\t\t\"slug\": \"daily-backup\",\n".toList ++
  "\t\t\"schedule_type\": \"simple\",\n".toList ++
  "\t\t\"report_period\": \"1 day\",\n".toList ++
  "\t\t\"project_id\": 123,\n".toList ++
  "\t\t\"created_at\": \"2024-01-01T00:00:00Z\",\n".toList ++
  "\t\t\"last_check_in_at\": \"2024-01-10T00:00:00Z\"\n".toList ++
  "\t\x7d".toList

/-- The body the server of `TestCheckInsCreate` answers with. -/
def newCheckInBody : GoString :=
  "\x7b\n".toList ++
  "\t\t\"id\": 1,\n".toList ++
  "\t\t\"name\": \"New Check-In\",\n".toList ++
  "\t\t\"slug\": \"new-check-in\",\n".toList ++
  "\t\t\"schedule_type\": \"simple\",\n".toList ++
  "\t\t\"report_period\": \"1 hour\",\n".toList ++
  "\t\t\"project_id\": 123,\n".toList ++
  "\t\t\"created_at\": \"2024-01-01T00:00:00Z\",\n".toList ++
  "\t\t\"last_check_in_at\": null\n".toList ++
  "\t\x7d".toList

/-- The body the server of `TestCheckInsList` answers with: a bare JSON array of
two check-ins whose ids are JSON numbers. -/
def mockCheckIns : GoString :=
  "[\n".toList ++
  "\t\t\x7b\n".toList ++
  "\t\t\t\"id\": 1,\n".toList ++
  "\t\t\t\"name\": \"Daily Backup\",\n".toList ++
  "\t\t\t\"slug\": \"daily-backup\",\n".toList ++
  "\t\t\t\"schedule_type\": \"simple\",\n".toList ++
  "\t\t\t\"report_period\": \"1 day\",\n".toList ++
  "\t\t\t\"grace_period\": \"5 minutes\",\n".toList ++
  "\t\t\t\"project_id\": 123,\n".toList ++
  "\t\t\t\"created_at\": \"2024-01-01T00:00:00Z\",\n".toList ++
  "\t\t\t\"last_check_in_at\": \"2024-01-10T00:00:00Z\"\n".toList ++
  "\t\t\x7d,\n".toList ++
  "\t\t\x7b\n".toList ++
  "\t\t\t\"id\": 2,\n".toList ++
  "\t\t\t\"name\": \"Hourly Sync\",\n".toList ++
  "\t\t\t\"slug\": \"hourly-sync\",\n".toList ++
  "\t\t\t\"schedule_type\": \"cron\",\n".toList ++
  "\t\t\t\"cron_schedule\": \"0 * * * *\",\n".toList ++
  "\t\t\t\"cron_timezone\": \"UTC\",\n".toList ++
  "\t\t\t\"project_id\": 123,\n".toList ++
  "\t\t\t\"created_at\": \"2024-01-01T00:00:00Z\",\n".toList ++
  "\t\t\t\"last_check_in_at\": null\n".toList ++
  "\t\t\x7d\n".toList ++
  "\t]".toList

/-- The body the server of `TestStatusPagesList` answers with: the identifiers of
the status pages are JSON strings. -/
def mockStatusPages : GoString :=
  "\x7b\n".toList ++
  "\t\t\"results\": [\n".toList ++
  "\t\t\t\x7b\n".toList ++
  "\t\t\t\t\"id\": \"abc123\",\n".toList ++
  "\t\t\t\t\"name\": \"Public Status\",\n".toList ++
  "\t\t\t\t\"account_id\": \"100\",\n".toList ++
  "\t\t\t\t\"url\": \"https://status.example.com\",\n".toList ++
  "\t\t\t\t\"created_at\": \"2024-01-01T00:00:00Z\",\n".toList ++
  "\t\t\t\t\"sites\": [\"site1\", \"site2\"],\n".toList ++
  "\t\t\t\t\"check_ins\": [\"check1\"]\n".toList ++
  "\t\t\t\x7d,\n".toList ++
  "\t\t\t\x7b\n".toList ++
  "\t\t\t\t\"id\": \"def456\",\n".toList ++
  "\t\t\t\t\"name\": \"Internal Status\",\n".toList ++
  "\t\t\t\t\"account_id\": \"100\",\n".toList ++
  "\t\t\t\t\"url\": \"https://internal-status.example.com\",\n".toList ++
  "\t\t\t\t\"created_at\": \"2024-01-02T00:00:00Z\",\n".toList ++
  "\t\t\t\t\"sites\": [],\n".toList ++
  "\t\t\t\t\"check_ins\": []\n".toList ++
  "\t\t\t\x7d\n".toList ++
  "\t\t]\n".toList ++
  "\t\x7d".toList

/-- The body the server of `TestCommentsGet` answers with: `author` is a JSON
string. -/
def mockComment : GoString :=
  "\x7b\n".toList ++
  "\t\t\"id\": 1,\n".toList ++
  "\t\t\"fault_id\": 100,\n".toList ++
  "\t\t\"event\": \"comment\",\n".toList ++
  "\t\t\"source\": \"user\",\n".toList ++
  "\t\t\"created_at\": \"2024-01-01T00:00:00Z\",\n".toList ++
  "\t\t\"author\": \"Test User\",\n".toList ++
  "\t\t\"body\": \"This is a comment\"\n".toList ++
  "\t\x7d".toList

/-- The document `{"results": []}`. -/
def emptyResultsBody : GoString := "\x7b\"results\": []\x7d".toList

/-- The document `{}`, an object that has no `results` key. -/
def emptyObjectBody : GoString := "\x7b\x7d".toList

/-- The document `{"links": {"self": "/v2/projects/123/dashboards"}}`, an object
that has links and no `results` key. -/
def linksOnlyBody : GoString :=
  "\x7b\"links\": \x7b\"self\": \"/v2/projects/123/dashboards\"\x7d\x7d".toList

/-- The client of the tests: every request is built, the server answers every
request with the given status and body, and `do` decodes with `jsonDecode`. -/
def testServer (parseTime : GoString → Option Time)
    (others : (t : Target) → GoString → Except Error t.Value) (status : Int) (body : GoString) :
    Client Request where
  newRequestFn := buildDescriptor
  doFn := specDo (constantTransport status body) (jsonDecode parseTime others) (fun _ => [])
    (fun _ b => b)

/-- The parameters of the round trip: `CheckInParams{Name: "Daily Backup",
ScheduleType: "simple", ReportPeriod: &"1 day"}`. -/
def dailyBackupParams : CheckInParams :=
  { Name := "Daily Backup".toList, Slug := [], ScheduleType := "simple".toList,
    ReportPeriod := some "1 day".toList, GracePeriod := none, CronSchedule := none,
    CronTimezone := none }

/-! ## The request builder of the specification -/

/-- Modelled from the spec: the configuration of a client (client.go is not
among the sources): the base URL and the authentication token. -/
structure Config where
  baseURL : GoString
  authToken : GoString
  deriving DecidableEq, Repr

/-- Modelled from the spec: an outgoing HTTP request as `newRequest` builds it
(client.go is not among the sources): the method, the resolved URL, the
serialized body with its content type, and the Basic Auth credential as the
pair of user name and password. -/
structure HTTPRequest where
  method : GoString
  url : GoString
  contentType : Option GoString
  basicAuth : Option (GoString × GoString)
  body : Option GoString
  deriving DecidableEq, Repr

/-- Modelled from the spec: `Client.newRequest(ctx, method, path, body)`
(client.go is not among the sources).  A body that is not nil is serialized to
JSON by `marshal` and the content type is set to `application/json`; the path is
resolved against the base URL followed by `/v2` by `resolve`; the token is
attached as HTTP Basic Auth, as the user name, with the empty password.  A
failure of the serialization or of the resolution is a construction error. -/
def specNewRequest (cfg : Config) (marshal : Body → Except Error GoString)
    (resolve : GoString → GoString → Except Error GoString) (method path : GoString)
    (body : Option Body) : Except Error HTTPRequest :=
  match (match body with
    | none => (.ok none : Except Error (Option GoString))
    | some b => (marshal b).map some) with
  | .error e => .error e
  | .ok payload =>
    match resolve (cfg.baseURL ++ "/v2".toList) path with
    | .error e => .error e
    | .ok url =>
      .ok { method := method, url := url,
            contentType := payload.map (fun _ => "application/json".toList),
            basicAuth := some (cfg.authToken, []), body := payload }

/-- The configuration of the tests: `WithAuthToken("test-token")` on a local
server. -/
def testConfig : Config :=
  { baseURL := "http://127.0.0.1:8080".toList, authToken := "test-token".toList }

/-- A resolution of paths that appends the path to the base. -/
def appendPath (base path : GoString) : Except Error GoString :=
  .ok (base ++ path)

/-- A serialization that gives every body the empty object; it serves to run
`specNewRequest` where the body text plays no role. -/
def marshalEmptyObject (_ : Body) : Except Error GoString :=
  .ok emptyObjectBody

/-- A `do` over built HTTP requests that returns a nil error and leaves its
target at the zero value. -/
def quietDo (_ : HTTPRequest) : (v : Option Target) → DoResult v
  | none => (none : Option Error)
  | some t => (.ok t.zero : Except Error t.Value)

/-- The operations the specification lists as passing a nil decode target: every
deletion (the two `Remove` methods included), and the `Update` of comments,
environments, status pages, teams, team members and team invitations. -/
def Operation.isDeleteOrBareUpdate : Operation → Bool
  | .accountsRemoveUser _ _ => true
  | .accountsDeleteInvitation _ _ => true
  | .checkInsDelete _ _ => true
  | .commentsUpdate _ _ _ _ => true
  | .commentsDelete _ _ _ => true
  | .dashboardsDelete _ _ => true
  | .deploymentsDelete _ _ => true
  | .environmentsUpdate _ _ _ => true
  | .environmentsDelete _ _ => true
  | .statusPagesUpdate _ _ _ => true
  | .statusPagesDelete _ _ => true
  | .teamsUpdate _ _ => true
  | .teamsDelete _ => true
  | .teamsUpdateMember _ _ _ => true
  | .teamsRemoveMember _ _ => true
  | .teamsUpdateInvitation _ _ _ => true
  | .teamsDeleteInvitation _ _ => true
  | .uptimeDelete _ _ => true
  | _ => false

/-- A `newRequest` that fails with the given construction error. -/
def failingNewRequest (e : Error) (_ _ : GoString) (_ : Option Body) : Except Error Request :=
  .error e

/-- A client whose `newRequest` fails with the given construction error; its
`do` would return a nil error. -/
def brokenClient (e : Error) : Client Request where
  newRequestFn := failingNewRequest e
  doFn := quietClient.doFn

/-- A construction error: the base URL cannot be parsed. -/
def malformedBaseURL : Error :=
  Error.other "parse \"://\": missing protocol scheme".toList

/-- The client of the tests that check the credential: the request builder of
the specification with the token `test-token`. -/
def tokenClient : Client HTTPRequest where
  newRequestFn := specNewRequest testConfig marshalEmptyObject appendPath
  doFn := quietDo

/-- The request `Deployments.List(ctx, 123, DeploymentListOptions{})` hands to
`do` on `tokenClient`. -/
def deploymentsListRequest : HTTPRequest :=
  { method := "GET".toList, url := "http://127.0.0.1:8080/v2/projects/123/deploys".toList,
    contentType := none, basicAuth := some ("test-token".toList, []), body := none }

/-! ## encoding/json: request bodies as JSON values -/

/-- The member `json.Marshal` writes for a string field tagged `omitempty`: none
when the string is empty. -/
def omitEmptyString (key value : GoString) : List (GoString × Any) :=
  if value ≠ [] then [(key, Any.string value)] else []

/-- The member `json.Marshal` writes for a `*string` field tagged `omitempty`:
none when the pointer is nil; a pointer to the empty string is written. -/
def omitNilString (key : GoString) : Option GoString → List (GoString × Any)
  | none => []
  | some value => [(key, Any.string value)]

/-- The JSON value `json.Marshal` renders for a `CheckInParams`: an object with
the members of the fields that are not empty (every field is tagged
`omitempty`), in the order of the declaration. -/
def CheckInParams.toJSON (p : CheckInParams) : Any :=
  Any.object
    (omitEmptyString "name".toList p.Name ++
     omitEmptyString "slug".toList p.Slug ++
     omitEmptyString "schedule_type".toList p.ScheduleType ++
     omitNilString "report_period".toList p.ReportPeriod ++
     omitNilString "grace_period".toList p.GracePeriod ++
     omitNilString "cron_schedule".toList p.CronSchedule ++
     omitNilString "cron_timezone".toList p.CronTimezone)

/-- The JSON value `json.Marshal` renders for a `[]CheckInParams`: `null` for the
nil slice, else the array of the elements in their order. -/
def checkInsJSON : Slice CheckInParams → Any
  | none => Any.null
  | some items => Any.array (items.map CheckInParams.toJSON)

/-- The JSON value `json.Marshal` renders for the body of `CheckIns.BulkUpdate`:
an object with the one key `check_ins`, from the struct tag, which has no
`omitempty`. -/
def CheckInBulkRequest.toJSON (r : CheckInBulkRequest) : Any :=
  Any.object [("check_ins".toList, checkInsJSON r.CheckIns)]

/-- The JSON value `json.Marshal` renders for a `TeamRequest`:
`{"team": {"name": ...}}`, from the two struct tags. -/
def TeamRequest.toJSON (r : TeamRequest) : Any :=
  Any.object [("team".toList, Any.object [("name".toList, Any.string r.Team.Name)])]

/-- The length of a slice, `len(s)`: 0 for the nil slice. -/
def Slice.len {α : Type} : Slice α → Nat
  | none => 0
  | some items => items.length

/-! ## types.go: BacktraceEntry -/

/-- Type `BacktraceEntry`: a single entry in the error backtrace; `Number` and
`Column` are of type `Number` and `*Number`; the field `Type` is `TypeName`
here. -/
structure BacktraceEntry where
  Number : Honeybadger.Number
  Column : Option Honeybadger.Number
  File : GoString
  Method : GoString
  Class : GoString
  TypeName : GoString
  Args : Slice Any
  Source : Option (List (GoString × Any))
  Context : GoString

/-- The zero `BacktraceEntry`. -/
def BacktraceEntry.zero : BacktraceEntry :=
  { Number := 0, Column := none, File := [], Method := [], Class := [], TypeName := [],
    Args := none, Source := none, Context := [] }

/-- Decoding into a `Number`: encoding/json hands the raw text of the value to
`Number.UnmarshalJSON` and returns its error. -/
def decodeNumber (isPrint : Char → Bool) : Decoder Number := fun raw cur =>
  match Number.UnmarshalJSON cur raw with
  | (n, none) => .ok n
  | (_, some e) => .error (Error.other (e.Error isPrint))

/-- Decoding into an `interface{}`: the value itself. -/
def decodeAny : Decoder Any := fun raw _ =>
  match parseJSON raw with
  | some v => .ok v
  | none => .error invalidJSON

/-- The fields of `BacktraceEntry` as the decoder sees them. -/
def BacktraceEntry.fields (isPrint : Char → Bool) : List (Field BacktraceEntry) :=
  [ { name := "number".toList,
      set := fun raw s =>
        (decodeNumber isPrint raw s.Number).map (fun v => { s with Number := v }) },
    { name := "column".toList,
      set := fun raw s =>
        (decodePtr (decodeNumber isPrint) 0 raw s.Column).map (fun v => { s with Column := v }) },
    { name := "file".toList,
      set := fun raw s => (decodeString raw s.File).map (fun v => { s with File := v }) },
    { name := "method".toList,
      set := fun raw s => (decodeString raw s.Method).map (fun v => { s with Method := v }) },
    { name := "class".toList,
      set := fun raw s => (decodeString raw s.Class).map (fun v => { s with Class := v }) },
    { name := "type".toList,
      set := fun raw s =>
        (decodeString raw s.TypeName).map (fun v => { s with TypeName := v }) },
    { name := "args".toList,
      set := fun raw s =>
        (decodeSlice decodeAny Any.null raw s.Args).map (fun v => { s with Args := v }) },
    { name := "source".toList,
      set := fun raw s => (decodeAnyMap raw s.Source).map (fun v => { s with Source := v }) },
    { name := "context".toList,
      set := fun raw s => (decodeString raw s.Context).map (fun v => { s with Context := v }) } ]

/-- The members `json.Marshal` writes for the fields `Number` and `Column` of a
`BacktraceEntry`, as key and raw text: `Number` has no marshaller of its own, so
each is the decimal literal of the integer; `column` is tagged `omitempty` and
is left out when the pointer is nil. -/
def BacktraceEntry.numberMembers (e : BacktraceEntry) : List (GoString × GoString) :=
  ("number".toList, formatInt e.Number) ::
    (match e.Column with
     | none => []
     | some c => [("column".toList, formatInt c)])

/-- A backtrace entry at line 42, column 7. -/
def entryLine42 : BacktraceEntry :=
  { BacktraceEntry.zero with Number := 42, Column := some 7 }

/-! ## net/url: QueryUnescape and ParseQuery -/

/-- Model of net/url's `unhex`, `none` where `ishex` is false. -/
def unhex (c : Char) : Option Nat :=
  if 48 ≤ c.toNat ∧ c.toNat ≤ 57 then some (c.toNat - 48)
  else if 97 ≤ c.toNat ∧ c.toNat ≤ 102 then some (c.toNat - 97 + 10)
  else if 65 ≤ c.toNat ∧ c.toNat ≤ 70 then some (c.toNat - 65 + 10)
  else none

/-- Model of `url.QueryUnescape`, giving the bytes of the result: `%XX` is the
byte with that hexadecimal value, `+` a space, every other character stands for
itself; `none` is the `EscapeError` of a `%` that two hexadecimal digits do not
follow. -/
def QueryUnescape : GoString → Option (List Nat)
  | [] => some []
  | c :: rest =>
    if c = '%' then
      match rest with
      | a :: b :: rest2 =>
        match unhex a, unhex b with
        | some x, some y => (QueryUnescape rest2).map (fun bs => (16 * x + y) :: bs)
        | _, _ => none
      | _ => none
    else if c = '+' then (QueryUnescape rest).map (fun bs => 32 :: bs)
    else (QueryUnescape rest).map (fun bs => utf8Bytes c ++ bs)

/-- Model of `strings.Split(s, sep)` for a separator of one byte. -/
def splitOn (sep : Char) : List Char → List (List Char)
  | [] => [[]]
  | c :: cs =>
    if c = sep then [] :: splitOn sep cs
    else
      match splitOn sep cs with
      | [] => [[c]]
      | x :: xs => (c :: x) :: xs

/-- Model of `strings.Cut(s, "=")`: the text before the first `=` and the text
after it, empty when there is none. -/
def cutEq (s : List Char) : List Char × List Char :=
  (s.takeWhile (fun c => decide (c ≠ '=')), (s.dropWhile (fun c => decide (c ≠ '='))).drop 1)

/-- One `key=value` setting of a query, as `parseQuery` reads it: a `;` is an
error, key and value are unescaped. -/
def parseSegment (seg : GoString) : Option (List Nat × List Nat) :=
  if ';' ∈ seg then none
  else
    match QueryUnescape (cutEq seg).1, QueryUnescape (cutEq seg).2 with
    | some k, some v => some (k, v)
    | _, _ => none

/-- The settings of a query one after the other; an empty setting is skipped. -/
def parseSegments : List GoString → Option (List (List Nat × List Nat))
  | [] => some []
  | seg :: rest =>
    if seg = [] then parseSegments rest
    else
      match parseSegment seg, parseSegments rest with
      | some kv, some kvs => some (kv :: kvs)
      | _, _ => none

/-- Model of `url.ParseQuery`: the settings of the query, split at `&` and at the
first `=`, unescaped, as the bytes of key and value in the order they occur;
`none` when `ParseQuery` returns an error. -/
def ParseQuery (query : GoString) : Option (List (List Nat × List Nat)) :=
  parseSegments (splitOn '&' query)

/-- The query string of a path: what follows the first `?`, empty when there is
none. -/
def queryString (path : GoString) : GoString :=
  (path.dropWhile (fun c => decide (c ≠ '?'))).drop 1

/-- A parameter as the bytes of its key and of its value. -/
def bytesPair (kv : GoString × GoString) : List Nat × List Nat :=
  (goBytes kv.1, goBytes kv.2)

/-- The characters `url.QueryEscape` writes: letters, digits, `- _ . ~`, and the
`%` and `+` of the escapes. -/
def isQuerySafe (c : Char) : Bool :=
  decide (c.toNat < 128) && (!shouldEscape c.toNat || decide (c = '%') || decide (c = '+'))

/-- The keys a deployment listing can send, in ascending order. -/
def deploymentKeys : List GoString :=
  ["created_after".toList, "created_before".toList, "environment".toList, "limit".toList,
   "local_username".toList]

/-- The options `DeploymentListOptions{Environment: "a&b=c #?", Limit: 5}`. -/
def ampersandEnvironment : DeploymentListOptions :=
  { Environment := "a&b=c #?".toList, LocalUsername := [], CreatedAfter := 0,
    CreatedBefore := 0, Limit := 5 }

/-- The options `OutageListOptions{Limit: 10}`. -/
def outageLimitTen : OutageListOptions :=
  { CreatedAfter := 0, CreatedBefore := 0, Limit := 10 }

/-! ## Facts about strconv -/

theorem isDigit_iff (c : Char) : isDigit c = true ↔ 48 ≤ c.toNat ∧ c.toNat ≤ 57 := by
  simp [isDigit]

theorem accValue_cons (c : Char) (cs : List Char) (n : Nat) :
    accValue (c :: cs) n = accValue cs (n * 10 + (c.toNat - 48)) := rfl

theorem accValue_mono (ds : List Char) : ∀ n, n ≤ accValue ds n := by
  induction ds with
  | nil => intro n; exact Nat.le_refl _
  | cons c cs ih =>
    intro n
    rw [accValue_cons]
    have := ih (n * 10 + (c.toNat - 48))
    omega

theorem accValue_mono_left (ds : List Char) : ∀ m n, m ≤ n → accValue ds m ≤ accValue ds n := by
  induction ds with
  | nil => intro m n h; exact h
  | cons c cs ih =>
    intro m n h
    rw [accValue_cons, accValue_cons]
    exact ih _ _ (by omega)

/-- On a run of digits the `uint64` loop of `ParseUint` returns the base-10
value when it fits and a range error when it does not. -/
theorem parseUintLoop_digits (ds : List Char) (hd : ds.all isDigit = true) :
    ∀ n, n ≤ maxUint64 →
      parseUintLoop ds n =
        if accValue ds n ≤ maxUint64 then .ok (accValue ds n) else .error .errRange := by
  induction ds with
  | nil => intro n hn; simp [parseUintLoop, accValue, hn]
  | cons c cs ih =>
    intro n hn
    simp only [List.all_cons, Bool.and_eq_true] at hd
    obtain ⟨hc, hcs⟩ := hd
    have hc2 := (isDigit_iff c).1 hc
    rw [accValue_cons]
    simp only [parseUintLoop, hc, if_true]
    have hmono := accValue_mono cs (n * 10 + (c.toNat - 48))
    simp only [maxUint64, twoTo64] at *
    by_cases h1 : n ≥ 18446744073709551615 / 10 + 1
    · rw [if_pos h1, if_neg (by omega)]
    · rw [if_neg h1]
      by_cases h2 : n * 10 + (c.toNat - 48) ≤ 18446744073709551615
      · have e1 : n * 10 % 18446744073709551616 = n * 10 := Nat.mod_eq_of_lt (by omega)
        have e2 : (n * 10 + (c.toNat - 48)) % 18446744073709551616 = n * 10 + (c.toNat - 48) :=
          Nat.mod_eq_of_lt (by omega)
        simp only [e1, e2]
        rw [if_neg (by omega)]
        exact ih hcs _ h2
      · have e1 : n * 10 % 18446744073709551616 = n * 10 := Nat.mod_eq_of_lt (by omega)
        have e2 : (n * 10 + (c.toNat - 48)) % 18446744073709551616
            = n * 10 + (c.toNat - 48) - 18446744073709551616 := by omega
        simp only [e1, e2]
        rw [if_pos (by omega), if_neg (by omega)]

/-- The loop of `ParseUint` succeeds only on runs of digits. -/
theorem parseUintLoop_ok_digits (ds : List Char) :
    ∀ n v, parseUintLoop ds n = .ok v → ds.all isDigit = true := by
  induction ds with
  | nil => intro n v _; rfl
  | cons c cs ih =>
    intro n v h
    simp only [parseUintLoop] at h
    by_cases hc : isDigit c = true
    · simp only [hc, if_true] at h
      split at h
      · cases h
      · split at h
        · cases h
        · simp only [List.all_cons, hc, Bool.true_and]
          exact ih _ _ h
    · simp [hc] at h

theorem atoiLoop_digits (ds : List Char) (hd : ds.all isDigit = true) :
    ∀ n : Nat, atoiLoop ds (n : Int) = .ok ((accValue ds n : Nat) : Int) := by
  induction ds with
  | nil => intro n; rfl
  | cons c cs ih =>
    intro n
    simp only [List.all_cons, Bool.and_eq_true] at hd
    simp only [atoiLoop, hd.1, if_true, accValue_cons]
    have := ih hd.2 (n * 10 + (c.toNat - 48))
    rw [← this]
    congr 1

theorem atoiLoop_ok_digits (ds : List Char) :
    ∀ n v, atoiLoop ds n = .ok v → ds.all isDigit = true := by
  induction ds with
  | nil => intro n v _; rfl
  | cons c cs ih =>
    intro n v h
    simp only [atoiLoop] at h
    by_cases hc : isDigit c = true
    · simp only [hc, if_true] at h
      simp only [List.all_cons, hc, Bool.true_and]
      exact ih _ _ h
    · simp [hc] at h

theorem length_le_byteLen (s : GoString) : s.length ≤ byteLen s := by
  induction s with
  | nil => simp [byteLen]
  | cons c cs ih =>
    have := Char.utf8Size_pos c
    simp only [byteLen, List.map_cons, List.sum_cons, List.length_cons] at *
    omega

theorem accValue_lt (ds : List Char) (hd : ds.all isDigit = true) :
    ∀ n, accValue ds n < (n + 1) * 10 ^ ds.length := by
  induction ds with
  | nil => intro n; simp [accValue]
  | cons c cs ih =>
    intro n
    simp only [List.all_cons, Bool.and_eq_true] at hd
    have hc := (isDigit_iff c).1 hd.1
    rw [accValue_cons, List.length_cons, pow_succ]
    have h1 := ih hd.2 (n * 10 + (c.toNat - 48))
    have h2 : (n * 10 + (c.toNat - 48) + 1) * 10 ^ cs.length ≤ ((n + 1) * 10) * 10 ^ cs.length :=
      Nat.mul_le_mul_right _ (by omega)
    calc accValue cs (n * 10 + (c.toNat - 48))
        < (n * 10 + (c.toNat - 48) + 1) * 10 ^ cs.length := h1
      _ ≤ ((n + 1) * 10) * 10 ^ cs.length := h2
      _ = (n + 1) * (10 ^ cs.length * 10) := by ring

theorem ParseUint_ok_iff (b : GoString) (u : Nat) :
    ParseUint b = .ok u ↔
      b ≠ [] ∧ b.all isDigit = true ∧ u = digitsValue b ∧ u ≤ maxUint64 := by
  cases b with
  | nil => simp [ParseUint]
  | cons c cs =>
    simp only [ParseUint, ne_eq, reduceCtorEq, not_false_eq_true, true_and]
    constructor
    · intro h
      have hd := parseUintLoop_ok_digits _ _ _ h
      rw [parseUintLoop_digits _ hd 0 (by simp [maxUint64])] at h
      by_cases hle : accValue (c :: cs) 0 ≤ maxUint64
      · rw [if_pos hle] at h
        injection h with h
        exact ⟨hd, h.symm, h ▸ hle⟩
      · rw [if_neg hle] at h
        cases h
    · rintro ⟨hd, hu, hle⟩
      rw [parseUintLoop_digits _ hd 0 (by simp [maxUint64])]
      subst hu
      exact if_pos hle

theorem ParseInt_unfold (c : Char) (cs : List Char) :
    ParseInt (c :: cs) =
      match ParseUint (unsignedPart (c :: cs)) with
      | .error .errSyntax => .error .errSyntax
      | .error .errRange => .error .errRange
      | .ok un =>
        if !hasMinus (c :: cs) && decide (un ≥ 9223372036854775808) then .error .errRange
        else if hasMinus (c :: cs) && decide (un > 9223372036854775808) then .error .errRange
        else .ok (if hasMinus (c :: cs) then -(un : Int) else (un : Int)) := by
  have hb : (if c = '+' then cs else if c = '-' then cs else c :: cs) = unsignedPart (c :: cs) := by
    simp only [unsignedPart]
    by_cases h1 : c = '+'
    · simp [h1]
    · by_cases h2 : c = '-'
      · simp [h2]
      · simp [h1, h2]
  simp only [ParseInt, hb, hasMinus]

/-- The call `strconv.ParseInt(s, 10, 64)` succeeds exactly on the signed decimal strings
whose value fits in 64 bits, and returns that value. -/
theorem ParseInt_ok_iff (s : GoString) (v : Int) :
    ParseInt s = .ok v ↔
      isSignedDecimal s = true ∧ v = signedDecimalValue s ∧ inIntRange v := by
  cases s with
  | nil => simp [ParseInt, isSignedDecimal, unsignedPart]
  | cons c cs =>
    rw [ParseInt_unfold]
    simp only [isSignedDecimal, signedDecimalValue, inIntRange, minInt, maxInt]
    generalize hb : unsignedPart (c :: cs) = b
    generalize hm : hasMinus (c :: cs) = m
    cases hP : ParseUint b with
    | error e =>
      have hno : ¬ (b ≠ [] ∧ b.all isDigit = true ∧
          digitsValue b = digitsValue b ∧ digitsValue b ≤ maxUint64) := by
        intro h
        have := (ParseUint_ok_iff b (digitsValue b)).2 h
        rw [hP] at this
        cases this
      constructor
      · intro h
        cases e <;> simp at h
      · rintro ⟨h1, h2, h3, h4⟩
        exfalso
        apply hno
        simp only [Bool.and_eq_true, Bool.not_eq_true', List.isEmpty_eq_false] at h1
        refine ⟨by simpa [List.isEmpty_iff] using h1.1, h1.2, rfl, ?_⟩
        simp only [maxUint64]
        subst h2
        cases m <;> simp at h3 h4 <;> omega
    | ok un =>
      obtain ⟨hne, hd, hu, hle⟩ := (ParseUint_ok_iff b un).1 hP
      subst hu
      have hne2 : (!b.isEmpty) = true := by
        cases b with
        | nil => exact absurd rfl hne
        | cons _ _ => rfl
      simp only [hne2, hd, Bool.and_self, true_and]
      cases m
      · simp only [Bool.not_false, Bool.true_and, Bool.false_and, decide_eq_true_eq,
          Bool.false_eq_true, if_false]
        by_cases hr : digitsValue b ≥ 9223372036854775808
        · rw [if_pos hr]
          constructor
          · intro h; cases h
          · rintro ⟨h2, h3, h4⟩
            subst h2
            omega
        · rw [if_neg hr]
          constructor
          · intro h
            injection h with h
            subst h
            exact ⟨rfl, by omega, by omega⟩
          · rintro ⟨h2, _, _⟩
            rw [h2]
      · simp only [Bool.not_true, Bool.false_and, Bool.true_and, decide_eq_true_eq,
          Bool.false_eq_true, if_false, if_true]
        by_cases hr : digitsValue b > 9223372036854775808
        · rw [if_pos hr]
          constructor
          · intro h; cases h
          · rintro ⟨h2, h3, h4⟩
            subst h2
            omega
        · rw [if_neg hr]
          constructor
          · intro h
            injection h with h
            subst h
            exact ⟨rfl, by omega, by omega⟩
          · rintro ⟨h2, _, _⟩
            rw [h2]

theorem unsignedPart_length_le (s : GoString) : (unsignedPart s).length ≤ s.length := by
  cases s with
  | nil => simp [unsignedPart]
  | cons c cs =>
    simp only [unsignedPart]
    split <;> simp

/-- The fast path of `Atoi` cannot overflow: up to 18 digits stay below `10^18`. -/
theorem digitsValue_lt_of_short (b : List Char) (hd : b.all isDigit = true)
    (hlen : b.length ≤ 18) : digitsValue b < 1000000000000000000 := by
  have h1 := accValue_lt b hd 0
  have h2 : 10 ^ b.length ≤ 10 ^ 18 := Nat.pow_le_pow_right (by norm_num) hlen
  have h3 : (10 : Nat) ^ 18 = 1000000000000000000 := by norm_num
  simp only [digitsValue]
  omega

/-- The function `strconv.Atoi` succeeds exactly on the signed decimal strings whose value
fits in `int`, and returns that value; both of its paths agree on this. -/
theorem Atoi_ok_iff (s : GoString) (v : Int) :
    Atoi s = .ok v ↔
      isSignedDecimal s = true ∧ v = signedDecimalValue s ∧ inIntRange v := by
  unfold Atoi
  by_cases hfast : 0 < byteLen s ∧ byteLen s < 19
  · rw [if_pos hfast]
    cases s with
    | nil => simp [byteLen] at hfast
    | cons c cs =>
      have hlen : (unsignedPart (c :: cs)).length ≤ 18 := by
        have := unsignedPart_length_le (c :: cs)
        have := length_le_byteLen (c :: cs)
        omega
      have hb : (if (decide (c = '-') || decide (c = '+')) = true then cs else c :: cs)
          = unsignedPart (c :: cs) := by
        simp only [unsignedPart]
        by_cases h1 : c = '+'
        · simp [h1]
        · by_cases h2 : c = '-'
          · simp [h2]
          · simp [h1, h2]
      simp only [hb]
      simp only [isSignedDecimal, signedDecimalValue, inIntRange, minInt, maxInt, hasMinus]
      generalize hbb : unsignedPart (c :: cs) = b at hlen
      by_cases hempty : b = []
      · subst hempty
        have hs : (decide (c = '-') || decide (c = '+')) = true := by
          simp only [unsignedPart] at hbb
          split at hbb
          · rename_i h
            rcases h with h | h <;> simp [h]
          · cases hbb
        simp [hs]
      · have hne2 : (!b.isEmpty) = true := by
          cases b with
          | nil => exact absurd rfl hempty
          | cons _ _ => rfl
        have hl : ¬ (b.length < 1) := by
          cases b with
          | nil => exact absurd rfl hempty
          | cons _ _ => simp
        simp only [hne2, Bool.true_and, hl, decide_False, Bool.and_false, Bool.false_eq_true,
          if_false]
        by_cases hd : b.all isDigit = true
        · have hloop := atoiLoop_digits b hd 0
          simp only [Nat.cast_zero] at hloop
          rw [hloop]
          have hv := digitsValue_lt_of_short b hd hlen
          simp only [digitsValue] at hv ⊢
          simp only [hd, true_and]
          constructor
          · intro h
            injection h with h
            subst h
            refine ⟨by simp, ?_, ?_⟩ <;> split <;> omega
          · rintro ⟨h, _, _⟩
            rw [h]
            simp
        · have hloop : ∀ x, atoiLoop b 0 ≠ .ok x := fun x hx => hd (atoiLoop_ok_digits _ _ _ hx)
          cases hL : atoiLoop b 0 with
          | ok x => exact absurd hL (hloop x)
          | error e => simp [hd]
  · rw [if_neg hfast]
    exact ParseInt_ok_iff s v

theorem Atoi_42 : Atoi "42".toList = .ok 42 := by decide

theorem Atoi_plus_42 : Atoi "+42".toList = .ok 42 := by decide

theorem Atoi_space_42 : Atoi " 42".toList = .error .errSyntax := by decide

theorem Atoi_max : Atoi "9223372036854775807".toList = .ok 9223372036854775807 := by decide

theorem Atoi_over : Atoi "9223372036854775808".toList = .error .errRange := by decide

/-! ## Number.UnmarshalJSON on concrete tokens -/

theorem unmarshal_42 : Number.UnmarshalJSON 7 "42".toList = (42, none) := by decide

theorem unmarshal_quoted_42 : Number.UnmarshalJSON 7 (jsonQuoted "42".toList) = (42, none) := by
  decide

theorem unmarshal_null : Number.UnmarshalJSON 7 "null".toList = (0, none) := by decide

theorem unmarshal_escaped_42 :
    Number.UnmarshalJSON 7 (jsonQuoted (backslash :: "u00342".toList)) = (42, none) := by decide

theorem unmarshal_true :
    Number.UnmarshalJSON 7 "true".toList = (7, some .cannotUnmarshal) := by decide

theorem unmarshal_fraction :
    Number.UnmarshalJSON 7 "1.5".toList = (7, some .cannotUnmarshal) := by decide

/-! ## Decimal formatting -/

theorem digitChar_toNat (d : Nat) (h : d < 10) : (Char.ofNat (48 + d)).toNat = 48 + d := by
  interval_cases d <;> rfl

theorem digitChar_isDigit (d : Nat) (h : d < 10) : isDigit (Char.ofNat (48 + d)) = true := by
  rw [isDigit_iff, digitChar_toNat d h]
  omega

theorem accValue_append (a b : List Char) (n : Nat) :
    accValue (a ++ b) n = accValue b (accValue a n) := by
  simp [accValue, List.foldl_append]

theorem natDigits_all_digit (fuel : Nat) : ∀ n, (natDigits fuel n).all isDigit = true := by
  induction fuel with
  | zero => intro n; rfl
  | succ fuel ih =>
    intro n
    simp only [natDigits]
    split
    · rename_i h
      simp [digitChar_isDigit n h]
    · simp only [List.all_append, ih, Bool.true_and, List.all_cons, List.all_nil, Bool.and_true]
      exact digitChar_isDigit _ (Nat.mod_lt _ (by norm_num))

theorem natDigits_value (fuel : Nat) : ∀ n, n < fuel → accValue (natDigits fuel n) 0 = n := by
  induction fuel with
  | zero => intro n h; omega
  | succ fuel ih =>
    intro n h
    simp only [natDigits]
    split
    · rename_i h10
      simp only [accValue, List.foldl_cons, List.foldl_nil, digitChar_toNat n h10]
      omega
    · rw [accValue_append, ih (n / 10) (by omega)]
      simp only [accValue, List.foldl_cons, List.foldl_nil,
        digitChar_toNat _ (Nat.mod_lt n (by norm_num : 10 > 0))]
      omega

/-- A positive number is written without a leading zero. -/
theorem natDigits_head (fuel : Nat) : ∀ n, 0 < n → n < fuel →
    ∃ c cs, natDigits fuel n = c :: cs ∧ 49 ≤ c.toNat ∧ c.toNat ≤ 57 ∧
      cs.all isDigit = true := by
  induction fuel with
  | zero => intro n _ h; omega
  | succ fuel ih =>
    intro n hpos h
    simp only [natDigits]
    split
    · rename_i h10
      refine ⟨_, [], rfl, ?_, ?_, rfl⟩ <;> rw [digitChar_toNat n h10] <;> omega
    · obtain ⟨c, cs, he, h1, h2, h3⟩ := ih (n / 10) (by omega) (by omega)
      refine ⟨c, cs ++ [Char.ofNat (48 + n % 10)], by rw [he]; rfl, h1, h2, ?_⟩
      simp only [List.all_append, h3, Bool.true_and, List.all_cons, List.all_nil, Bool.and_true]
      exact digitChar_isDigit _ (Nat.mod_lt _ (by norm_num))

theorem natDigits_zero (fuel : Nat) : natDigits (fuel + 1) 0 = ['0'] := by
  simp [natDigits]

theorem natDigits_ne_nil (fuel n : Nat) : natDigits (fuel + 1) n ≠ [] := by
  simp only [natDigits]
  split <;> simp

theorem formatInt_nonneg (i : Int) (h : 0 ≤ i) :
    formatInt i = natDigits (i.natAbs + 1) i.natAbs := by
  simp [formatInt, not_lt.2 h]

theorem formatInt_neg (i : Int) (h : i < 0) :
    formatInt i = '-' :: natDigits (i.natAbs + 1) i.natAbs := by
  simp [formatInt, h]

/-- The first digit of a formatted magnitude is a digit, hence neither a sign
nor white space. -/
theorem natDigits_first (n : Nat) :
    ∃ c cs, natDigits (n + 1) n = c :: cs ∧ isDigit c = true ∧ cs.all isDigit = true := by
  have hall := natDigits_all_digit (n + 1) n
  cases hd : natDigits (n + 1) n with
  | nil => exact absurd hd (natDigits_ne_nil n n)
  | cons c cs =>
    rw [hd] at hall
    simp only [List.all_cons, Bool.and_eq_true] at hall
    exact ⟨c, cs, rfl, hall.1, hall.2⟩

theorem digit_not_sign (c : Char) (h : isDigit c = true) : c ≠ '+' ∧ c ≠ '-' := by
  rw [isDigit_iff] at h
  constructor <;> intro e <;> subst e <;> revert h <;> decide

theorem unsignedPart_formatInt (i : Int) :
    unsignedPart (formatInt i) = natDigits (i.natAbs + 1) i.natAbs := by
  by_cases h : i < 0
  · rw [formatInt_neg i h]
    simp [unsignedPart]
  · rw [formatInt_nonneg i (not_lt.1 h)]
    obtain ⟨c, cs, he, hc, _⟩ := natDigits_first i.natAbs
    rw [he]
    have := digit_not_sign c hc
    simp [unsignedPart, this.1, this.2]

theorem hasMinus_formatInt (i : Int) : hasMinus (formatInt i) = decide (i < 0) := by
  by_cases h : i < 0
  · rw [formatInt_neg i h]
    simp [hasMinus, h]
  · rw [formatInt_nonneg i (not_lt.1 h)]
    obtain ⟨c, cs, he, hc, _⟩ := natDigits_first i.natAbs
    rw [he]
    have := digit_not_sign c hc
    simp [hasMinus, this.2, h]

/-- The formatted text of an integer is a signed decimal string. -/
theorem isSignedDecimal_formatInt (i : Int) : isSignedDecimal (formatInt i) = true := by
  simp only [isSignedDecimal, unsignedPart_formatInt, natDigits_all_digit, Bool.and_true]
  cases hd : natDigits (i.natAbs + 1) i.natAbs with
  | nil => exact absurd hd (natDigits_ne_nil _ _)
  | cons _ _ => rfl

/-- Reading the formatted text of an integer gives the integer back. -/
theorem signedDecimalValue_formatInt (i : Int) : signedDecimalValue (formatInt i) = i := by
  simp only [signedDecimalValue, unsignedPart_formatInt, hasMinus_formatInt, digitsValue,
    natDigits_value _ _ (Nat.lt_succ_self _)]
  by_cases h : i < 0
  · simp only [h, decide_True, if_true]
    omega
  · simp only [h, decide_False, Bool.false_eq_true, if_false]
    omega

theorem ParseInt_formatInt (i : Int) (h : inIntRange i) : ParseInt (formatInt i) = .ok i :=
  (ParseInt_ok_iff _ _).2 ⟨isSignedDecimal_formatInt i, (signedDecimalValue_formatInt i).symm, h⟩

theorem Atoi_formatInt (i : Int) (h : inIntRange i) : Atoi (formatInt i) = .ok i :=
  (Atoi_ok_iff _ _).2 ⟨isSignedDecimal_formatInt i, (signedDecimalValue_formatInt i).symm, h⟩

/-! ## json.Unmarshal on formatted integers and on quoted text -/

theorem char_eq_of_toNat (c : Char) (k : Nat) (h : c.toNat = k) : c = Char.ofNat k := by
  rw [← h, Char.ofNat_toNat]

theorem takeWhile_of_all {p : Char → Bool} (l : List Char) (h : l.all p = true) :
    l.takeWhile p = l ∧ l.dropWhile p = [] := by
  induction l with
  | nil => exact ⟨rfl, rfl⟩
  | cons c cs ih =>
    simp only [List.all_cons, Bool.and_eq_true] at h
    simp [List.takeWhile, List.dropWhile, h.1, ih h.2]

theorem digit_not_space (c : Char) (h : isDigit c = true) : isSpace c = false := by
  rw [isDigit_iff] at h
  simp only [isSpace, Bool.or_eq_false_iff, decide_eq_false_iff_not]
  refine ⟨⟨⟨?_, ?_⟩, ?_⟩, ?_⟩ <;> intro e <;> subst e <;> revert h <;> decide

theorem beginValue_digit (c : Char) (h : isDigit c = true) : beginValue c = .number := by
  have h2 := (isDigit_iff c).1 h
  have n1 : c ≠ Char.ofNat 123 := by intro e; subst e; revert h; decide
  have n2 : c ≠ '[' := by intro e; subst e; revert h; decide
  have n3 : c ≠ dquote := by intro e; subst e; revert h; decide
  have n4 : c ≠ 't' := by intro e; subst e; revert h; decide
  have n5 : c ≠ 'f' := by intro e; subst e; revert h; decide
  have n6 : c ≠ 'n' := by intro e; subst e; revert h; decide
  have n7 : c ≠ '-' := by intro e; subst e; revert h; decide
  unfold beginValue
  simp only [n1, n2, n3, n7, if_false]
  by_cases h0 : c = '0'
  · simp [h0]
  · have : c.toNat ≠ 48 := fun e => h0 (char_eq_of_toNat c 48 e)
    have h49 : 49 ≤ c.toNat := by omega
    simp [h0, n4, n5, n6, h49, h2.2]

theorem dropWhile_isSpace_cons (c : Char) (cs : List Char) (h : isSpace c = false) :
    (c :: cs).dropWhile isSpace = c :: cs := by
  simp [List.dropWhile, h]

theorem scanIntPart_natDigits (n : Nat) :
    scanIntPart (natDigits (n + 1) n) = some (natDigits (n + 1) n, []) := by
  by_cases h0 : n = 0
  · subst h0
    rfl
  · obtain ⟨c, cs, he, h1, h2, h3⟩ := natDigits_head (n + 1) n (by omega) (by omega)
    rw [he]
    have hc0 : c ≠ '0' := by
      intro e
      subst e
      revert h1
      decide
    have := takeWhile_of_all cs h3
    simp [scanIntPart, hc0, h1, h2, this.1, this.2]

/-- The scanner accepts the formatted text of an integer as one number literal
with nothing after it. -/
theorem scanNumber_formatInt (i : Int) : scanNumber (formatInt i) = some (formatInt i, []) := by
  by_cases h : i < 0
  · rw [formatInt_neg i h]
    simp [scanNumber, numSign, scanIntPart_natDigits, scanFrac, scanExp]
  · rw [formatInt_nonneg i (not_lt.1 h)]
    obtain ⟨c, cs, he, hc, _⟩ := natDigits_first i.natAbs
    have hm := (digit_not_sign c hc).2
    have hs : numSign (natDigits (i.natAbs + 1) i.natAbs)
        = ([], natDigits (i.natAbs + 1) i.natAbs) := by
      rw [he]
      simp [numSign, hm]
    simp [scanNumber, hs, scanIntPart_natDigits, scanFrac, scanExp]

theorem formatInt_head (i : Int) :
    ∃ c cs, formatInt i = c :: cs ∧ isSpace c = false ∧ beginValue c = .number := by
  by_cases h : i < 0
  · rw [formatInt_neg i h]
    exact ⟨_, _, rfl, by decide, by decide⟩
  · rw [formatInt_nonneg i (not_lt.1 h)]
    obtain ⟨c, cs, he, hc, _⟩ := natDigits_first i.natAbs
    exact ⟨c, cs, he, digit_not_space c hc, beginValue_digit c hc⟩

/-- An integer literal decodes into an `int` as the integer it denotes. -/
theorem unmarshalInt_formatInt (i : Int) (h : inIntRange i) :
    unmarshalInt (formatInt i) = some i := by
  obtain ⟨c, cs, he, hsp, hk⟩ := formatInt_head i
  have hdrop : (formatInt i).dropWhile isSpace = formatInt i := by
    rw [he]
    exact dropWhile_isSpace_cons c cs hsp
  have hkind : tokenKind (formatInt i) = .number := by
    simp only [tokenKind, hdrop]
    rw [he]
    exact hk
  simp only [unmarshalInt, hkind, hdrop, scanNumber_formatInt, onlySpace, List.all_nil, if_true,
    ParseInt_formatInt i h]

theorem scanStringChar_plain (c : Char) (cs : List Char) (h : isPlain c = true) :
    scanStringChar c cs = some (c, cs) := by
  simp only [isPlain, Bool.and_eq_true, decide_eq_true_eq] at h
  obtain ⟨⟨_, h2⟩, h3⟩ := h
  unfold scanStringChar
  rw [if_neg h2, if_neg (by omega)]

theorem scanStringAux_plain (s : GoString) (hs : s.all isPlain = true) (rest : List Char) :
    ∀ fuel, s.length < fuel → scanStringAux fuel (s ++ dquote :: rest) = some (s, rest) := by
  induction s with
  | nil =>
    intro fuel hf
    obtain ⟨k, rfl⟩ : ∃ k, fuel = k + 1 := ⟨fuel - 1, by simp at hf; omega⟩
    simp [scanStringAux]
  | cons c cs ih =>
    intro fuel hf
    obtain ⟨k, rfl⟩ : ∃ k, fuel = k + 1 := ⟨fuel - 1, by simp at hf; omega⟩
    simp only [List.all_cons, Bool.and_eq_true] at hs
    have hc := hs.1
    simp only [isPlain, Bool.and_eq_true, decide_eq_true_eq] at hc
    simp only [List.length_cons] at hf
    have hrec := ih hs.2 k (by omega)
    simp only [List.cons_append, scanStringAux, hc.1.1, if_false,
      scanStringChar_plain c _ hs.1, List.append_eq, hrec, consChar]

theorem scanString_plain (s : GoString) (hs : s.all isPlain = true) (rest : List Char) :
    scanString (s ++ dquote :: rest) = some (s, rest) :=
  scanStringAux_plain s hs rest _ (by simp)

theorem dropWhile_jsonQuoted (s : GoString) :
    (jsonQuoted s).dropWhile isSpace = jsonQuoted s := by
  simp only [jsonQuoted]
  exact dropWhile_isSpace_cons _ _ (by decide)

theorem tokenKind_jsonQuoted (s : GoString) : tokenKind (jsonQuoted s) = .string := by
  simp only [tokenKind, dropWhile_jsonQuoted]
  show beginValue dquote = .string
  decide

/-- A string token is never accepted as an integer. -/
theorem unmarshalInt_of_string (data : GoString) (h : tokenKind data = .string) :
    unmarshalInt data = none := by
  simp [unmarshalInt, h]

/-- A quoted plain text decodes into a `string` as that text. -/
theorem unmarshalString_jsonQuoted (s : GoString) (hs : s.all isPlain = true) :
    unmarshalString (jsonQuoted s) = some s := by
  simp only [unmarshalString, tokenKind_jsonQuoted, dropWhile_jsonQuoted]
  have hd : (jsonQuoted s).drop 1 = s ++ [dquote] := rfl
  rw [hd, scanString_plain s hs []]
  rfl

theorem digit_isPlain (c : Char) (h : isDigit c = true) : isPlain c = true := by
  have h2 := (isDigit_iff c).1 h
  have n1 : c ≠ dquote := by intro e; subst e; revert h; decide
  have n2 : c ≠ backslash := by intro e; subst e; revert h; decide
  simp only [isPlain, Bool.and_eq_true, decide_eq_true_eq]
  exact ⟨⟨n1, n2⟩, by omega⟩

theorem all_isPlain_of_digits (l : List Char) (h : l.all isDigit = true) :
    l.all isPlain = true := by
  rw [List.all_eq_true] at h ⊢
  exact fun c hc => digit_isPlain c (h c hc)

theorem formatInt_plain (i : Int) : (formatInt i).all isPlain = true := by
  have hd := all_isPlain_of_digits _ (natDigits_all_digit (i.natAbs + 1) i.natAbs)
  by_cases h : i < 0
  · rw [formatInt_neg i h, List.all_cons, hd]
    decide
  · rw [formatInt_nonneg i (not_lt.1 h)]
    exact hd

/-! ## Tokens that are neither numbers nor strings -/

/-- Splitting off the pieces of a number literal loses nothing. -/
theorem scanIntPart_append (s ip r : List Char) (h : scanIntPart s = some (ip, r)) :
    ip ++ r = s := by
  cases s with
  | nil => simp [scanIntPart] at h
  | cons c cs =>
    simp only [scanIntPart] at h
    split at h
    · injection h with h
      injection h with h1 h2
      subst h1 h2
      rfl
    · split at h
      · injection h with h
        injection h with h1 h2
        subst h1 h2
        simp
      · cases h

theorem scanFrac_append (s fp r : List Char) (h : scanFrac s = some (fp, r)) : fp ++ r = s := by
  cases s with
  | nil =>
    simp only [scanFrac] at h
    injection h with h
    injection h with h1 h2
    subst h1 h2
    rfl
  | cons c cs =>
    simp only [scanFrac] at h
    split at h
    · split at h
      · cases h
      · injection h with h
        injection h with h1 h2
        subst h1 h2
        simp
    · injection h with h
      injection h with h1 h2
      subst h1 h2
      rfl

theorem expSign_append (s : List Char) : (expSign s).1 ++ (expSign s).2 = s := by
  cases s with
  | nil => rfl
  | cons d ds =>
    simp only [expSign]
    split <;> rfl

theorem scanExp_append (s ep r : List Char) (h : scanExp s = some (ep, r)) : ep ++ r = s := by
  cases s with
  | nil =>
    simp only [scanExp] at h
    injection h with h
    injection h with h1 h2
    subst h1 h2
    rfl
  | cons c cs =>
    simp only [scanExp] at h
    split at h
    · split at h
      · cases h
      · injection h with h
        injection h with h1 h2
        subst h1 h2
        have := expSign_append cs
        simp only [List.cons_append, List.append_assoc, List.takeWhile_append_dropWhile, this]
    · injection h with h
      injection h with h1 h2
      subst h1 h2
      rfl

theorem numSign_append (s : List Char) : (numSign s).1 ++ (numSign s).2 = s := by
  cases s with
  | nil => rfl
  | cons d ds =>
    simp only [numSign]
    split <;> rfl

/-- The literal found by `scanNumber` and the input after it make up the input. -/
theorem scanNumber_append (s item rest : List Char) (h : scanNumber s = some (item, rest)) :
    item ++ rest = s := by
  simp only [scanNumber] at h
  cases h1 : scanIntPart (numSign s).2 with
  | none => simp [h1] at h
  | some p1 =>
    obtain ⟨ip, s2⟩ := p1
    cases h2 : scanFrac s2 with
    | none => simp [h1, h2] at h
    | some p2 =>
      obtain ⟨fp, s3⟩ := p2
      cases h3 : scanExp s3 with
      | none => simp [h1, h2, h3] at h
      | some p3 =>
        obtain ⟨ep, s4⟩ := p3
        simp only [h1, h2, h3, Option.some.injEq, Prod.mk.injEq] at h
        obtain ⟨hi, hr⟩ := h
        subst hi hr
        have a1 := scanIntPart_append _ _ _ h1
        have a2 := scanFrac_append _ _ _ h2
        have a3 := scanExp_append _ _ _ h3
        have a0 := numSign_append s
        calc (numSign s).1 ++ ip ++ fp ++ ep ++ s4
            = (numSign s).1 ++ (ip ++ (fp ++ (ep ++ s4))) := by simp [List.append_assoc]
          _ = s := by rw [a3, a2, a1, a0]

/-- Every byte of a signed decimal string is a digit or a sign. -/
theorem isSignedDecimal_mem (s : GoString) (h : isSignedDecimal s = true) (c : Char)
    (hc : c ∈ s) : isDigit c = true ∨ c = '+' ∨ c = '-' := by
  simp only [isSignedDecimal, Bool.and_eq_true, List.all_eq_true] at h
  cases s with
  | nil => simp at hc
  | cons d ds =>
    simp only [unsignedPart] at h
    split at h
    · rename_i hsign
      rcases List.mem_cons.1 hc with e | e
      · subst e
        exact Or.inr hsign
      · exact Or.inl (h.2 c e)
    · exact Or.inl (h.2 c hc)

/-- An object, an array, `true`, `false` and bytes that start no value are
rejected by both interpretations. -/
theorem unmarshal_none_of_kind (data : GoString)
    (h : tokenKind data = .object ∨ tokenKind data = .array ∨ tokenKind data = .litTrue ∨
      tokenKind data = .litFalse ∨ tokenKind data = .invalid) :
    unmarshalInt data = none ∧ unmarshalString data = none := by
  rcases h with h | h | h | h | h <;> simp [unmarshalInt, unmarshalString, h]

theorem mem_dropWhile_of_not {p : Char → Bool} (l : List Char) (c : Char) (hc : c ∈ l)
    (hp : p c = false) : c ∈ l.dropWhile p := by
  induction l with
  | nil => simp at hc
  | cons d ds ih =>
    simp only [List.dropWhile]
    cases hd : p d with
    | true =>
      simp only
      rcases List.mem_cons.1 hc with e | e
      · subst e
        rw [hp] at hd
        cases hd
      · exact ih e
    | false => exact hc

/-- A number written with a fraction or an exponent is not accepted as an
integer. -/
theorem unmarshalInt_none_of_fraction (data : GoString) (c : Char) (hc : c ∈ data)
    (hdot : c = '.' ∨ c = 'e' ∨ c = 'E') : unmarshalInt data = none := by
  have hsp : isSpace c = false := by rcases hdot with e | e | e <;> subst e <;> decide
  have hnd : ¬ (isDigit c = true ∨ c = '+' ∨ c = '-') := by
    rcases hdot with e | e | e <;> subst e <;> decide
  have hmem := mem_dropWhile_of_not data c hc hsp
  simp only [unmarshalInt]
  split
  · split
    · rename_i hnull
      exfalso
      have h4 : (data.dropWhile isSpace).take 4 ++ (data.dropWhile isSpace).drop 4
          = data.dropWhile isSpace := List.take_append_drop _ _
      rw [← h4, List.mem_append] at hmem
      rcases hmem with hm | hm
      · rw [hnull.1] at hm
        rcases hdot with e | e | e <;> subst e <;> revert hm <;> decide
      · have := hnull.2
        simp only [onlySpace, List.all_eq_true] at this
        rw [this c hm] at hsp
        cases hsp
    · rfl
  · cases hs : scanNumber (data.dropWhile isSpace) with
    | none => rfl
    | some p =>
      obtain ⟨item, rest⟩ := p
      simp only
      split
      · rename_i hrest
        cases hP : ParseInt item with
        | error e => rfl
        | ok v =>
          exfalso
          have hsd := ((ParseInt_ok_iff item v).1 hP).1
          rw [← scanNumber_append _ _ _ hs, List.mem_append] at hmem
          rcases hmem with hm | hm
          · exact hnd (isSignedDecimal_mem item hsd c hm)
          · simp only [onlySpace, List.all_eq_true] at hrest
            rw [hrest c hm] at hsp
            cases hsp
      · rfl
  · rfl

/-! ## Facts about url.Values -/

theorem encodePair_eq (buf ke val : GoString) :
    encodePair buf ke val = appendAmp buf (ke ++ '=' :: QueryEscape val) := by
  simp [encodePair, appendAmp, List.append_assoc]

theorem appendAmp_nil (t : GoString) : appendAmp [] t = t := by
  simp [appendAmp]

theorem appendAmp_of_ne (buf t : GoString) (h : buf ≠ []) :
    appendAmp buf t = buf ++ '&' :: t := by
  have : buf.length > 0 := List.length_pos.2 h
  simp [appendAmp, this, List.append_assoc]

theorem joinAmp_cons_amp (a t : GoString) (ts : List GoString) :
    joinAmp ((a ++ '&' :: t) :: ts) = a ++ '&' :: joinAmp (t :: ts) := by
  cases ts with
  | nil => rfl
  | cons u rest => simp [joinAmp, List.append_assoc]

/-- Writing texts into a buffer with `&` between them joins them. -/
theorem foldl_appendAmp (texts : List GoString) (hne : ∀ t ∈ texts, t ≠ []) :
    ∀ buf, texts.foldl appendAmp buf = joinAmp (if buf = [] then texts else buf :: texts) := by
  induction texts with
  | nil =>
    intro buf
    by_cases hb : buf = []
    · simp [hb, joinAmp]
    · simp [hb, joinAmp]
  | cons t ts ih =>
    intro buf
    have ht : t ≠ [] := hne t (List.mem_cons_self _ _)
    have hts : ∀ u ∈ ts, u ≠ [] := fun u hu => hne u (List.mem_cons_of_mem _ hu)
    rw [List.foldl_cons, ih hts]
    by_cases hb : buf = []
    · subst hb
      rw [appendAmp_nil, if_neg ht, if_pos rfl]
    · rw [appendAmp_of_ne buf t hb, if_neg (by simp), if_neg hb, joinAmp_cons_amp]
      rfl

theorem foldl_flatMap_appendAmp (keys : List GoString) (F : GoString → List GoString) :
    ∀ b, keys.foldl (fun buf k => (F k).foldl appendAmp buf) b
      = (keys.flatMap F).foldl appendAmp b := by
  induction keys with
  | nil => intro b; rfl
  | cons k ks ih =>
    intro b
    rw [List.foldl_cons, ih, List.flatMap_cons, List.foldl_append]

/-- The method `Values.Encode` writes the `key=value` texts, keys sorted, joined by `&`. -/
theorem Values.Encode_eq (v : Values) :
    v.Encode = joinAmp ((sortKeys (v.map Prod.fst)).flatMap
      (fun k => (v.lookup k).map (fun val => QueryEscape k ++ '=' :: QueryEscape val))) := by
  unfold Values.Encode
  by_cases h0 : v.length = 0
  · have : v = [] := List.length_eq_zero.1 h0
    subst this
    rfl
  · rw [if_neg h0]
    have hinner : (fun buf k => (v.lookup k).foldl
          (fun b val => encodePair b (QueryEscape k) val) buf)
        = (fun buf k => ((v.lookup k).map
          (fun val => QueryEscape k ++ '=' :: QueryEscape val)).foldl appendAmp buf) := by
      funext buf k
      rw [List.foldl_map]
      congr 1
      funext b val
      exact encodePair_eq b _ val
    rw [hinner, foldl_flatMap_appendAmp, foldl_appendAmp, if_pos rfl]
    intro t ht
    simp only [List.mem_flatMap, List.mem_map] at ht
    obtain ⟨k, _, val, _, rfl⟩ := ht
    simp

theorem QueryEscape_ne_nil (s : GoString) (h : s ≠ []) : QueryEscape s ≠ [] := by
  unfold QueryEscape
  split
  · exact h
  · cases s with
    | nil => exact absurd rfl h
    | cons c cs =>
      have hb : utf8Bytes c ≠ [] := by
        unfold utf8Bytes
        split
        · simp
        · split
          · simp
          · split <;> simp
      cases hu : utf8Bytes c with
      | nil => exact absurd hu hb
      | cons b bs =>
        have he : escapeByte b ≠ [] := by
          unfold escapeByte
          split
          · split <;> simp
          · simp
        cases hE : escapeByte b with
        | nil => exact absurd hE he
        | cons x xs => simp [goBytes, hu, hE]

/-! ## The paths the list operations build -/

/-- The path `Deployments.List` builds is the resource path followed, when some
parameter is sent, by `?` and the parameters joined by `&` in ascending order of
keys. -/
theorem DeploymentsService.listPath_eq (projectID : Int) (o : DeploymentListOptions) :
    DeploymentsService.listPath projectID o =
      withQuery ("/projects/".toList ++ formatInt projectID ++ "/deploys".toList)
        (deploymentParams o) := by
  unfold DeploymentsService.listPath deploymentParams withQuery pairTexts
  by_cases h1 : o.Environment = [] <;> by_cases h2 : o.LocalUsername = [] <;>
    by_cases h3 : o.CreatedAfter > 0 <;> by_cases h4 : o.CreatedBefore > 0 <;>
    by_cases h5 : o.Limit > 0 <;>
    simp only [ne_eq, h1, h2, h3, h4, h5, if_true, if_false, not_true_eq_false,
      not_false_eq_true, Values.Encode_eq] <;> rfl

/-- The path `Uptime.ListOutages` builds. -/
theorem UptimeService.listOutagesPath_eq (projectID : Int) (siteID : GoString)
    (o : OutageListOptions) :
    UptimeService.listOutagesPath projectID siteID o =
      withQuery ("/projects/".toList ++ formatInt projectID ++ "/sites/".toList ++ siteID ++
          "/outages".toList)
        (timeRangeParams o.CreatedAfter o.CreatedBefore o.Limit) := by
  unfold UptimeService.listOutagesPath timeRangeParams withQuery pairTexts
  by_cases h3 : o.CreatedAfter > 0 <;> by_cases h4 : o.CreatedBefore > 0 <;>
    by_cases h5 : o.Limit > 0 <;>
    simp only [h3, h4, h5, if_true, if_false, Values.Encode_eq] <;> rfl

/-- The path `Uptime.ListUptimeChecks` builds. -/
theorem UptimeService.listUptimeChecksPath_eq (projectID : Int) (siteID : GoString)
    (o : UptimeCheckListOptions) :
    UptimeService.listUptimeChecksPath projectID siteID o =
      withQuery ("/projects/".toList ++ formatInt projectID ++ "/sites/".toList ++ siteID ++
          "/uptime_checks".toList)
        (timeRangeParams o.CreatedAfter o.CreatedBefore o.Limit) := by
  unfold UptimeService.listUptimeChecksPath timeRangeParams withQuery pairTexts
  by_cases h3 : o.CreatedAfter > 0 <;> by_cases h4 : o.CreatedBefore > 0 <;>
    by_cases h5 : o.Limit > 0 <;>
    simp only [h3, h4, h5, if_true, if_false, Values.Encode_eq] <;> rfl

/-! ## Fuel of the string scanner -/

/-- Every element of a string's contents consumes at least one byte. -/
theorem scanStringChar_length (c ch : Char) (cs rest : List Char)
    (h : scanStringChar c cs = some (ch, rest)) : rest.length ≤ cs.length := by
  unfold scanStringChar at h
  split at h
  · cases cs with
    | nil => cases h
    | cons e es =>
      simp only at h
      split at h
      · split at h
        · rename_i h1 h2 h3 h4 tail
          split at h
          · cases h
          · split at h
            · split at h
              · injection h with h
                injection h with _ hr
                subst hr
                simp only [List.length_drop, List.length_cons]
                omega
              · injection h with h
                injection h with _ hr
                subst hr
                simp only [List.length_cons]
                omega
            · injection h with h
              injection h with _ hr
              subst hr
              simp only [List.length_cons]
              omega
        · cases h
      · split at h
        · cases h
        · injection h with h
          injection h with _ hr
          subst hr
          simp
  · split at h
    · cases h
    · injection h with h
      injection h with _ hr
      subst hr
      exact Nat.le_refl _

/-- The length of the input is fuel enough for `scanStringAux`: more fuel does
not change the result. -/
theorem scanStringAux_fuel (s : List Char) :
    ∀ f1 f2, s.length ≤ f1 → s.length ≤ f2 → scanStringAux f1 s = scanStringAux f2 s := by
  intro f1
  induction f1 generalizing s with
  | zero =>
    intro f2 h1 _
    have : s = [] := List.length_eq_zero.1 (by omega)
    subst this
    cases f2 <;> rfl
  | succ k ih =>
    intro f2 h1 h2
    cases s with
    | nil => cases f2 <;> rfl
    | cons c cs =>
      simp only [List.length_cons] at h1 h2
      obtain ⟨m, rfl⟩ : ∃ m, f2 = m + 1 := ⟨f2 - 1, by omega⟩
      simp only [scanStringAux]
      split
      · rfl
      · cases hsc : scanStringChar c cs with
        | none => rfl
        | some p =>
          obtain ⟨ch, rest⟩ := p
          have hl := scanStringChar_length c ch cs rest hsc
          simp only
          rw [ih rest m (by omega) (by omega)]

/-- With any fuel of at least the length of the input, the loop gives what
`scanString` gives. -/
theorem scanString_eq_aux (s : List Char) (fuel : Nat) (h : s.length ≤ fuel) :
    scanStringAux fuel s = scanString s :=
  scanStringAux_fuel s fuel s.length h (Nat.le_refl _)

/-! ## Number.UnmarshalJSON: decoding -/

/-- C1: for every integer `i` in the range of `int`, `Number.UnmarshalJSON` applied
to the JSON integer literal of `i` and to the JSON string holding the decimal
representation of `i` both succeed and both set the receiver to `i`. -/
theorem C1_literal_and_string_decode_alike (n : Number) (i : Int) (h : inIntRange i) :
    Number.UnmarshalJSON n (formatInt i) = (i, none) ∧
      Number.UnmarshalJSON n (jsonQuoted (formatInt i)) = (i, none) := by
  constructor
  · simp only [Number.UnmarshalJSON, unmarshalInt_formatInt i h]
  · simp only [Number.UnmarshalJSON, unmarshalInt_of_string _ (tokenKind_jsonQuoted _),
      unmarshalString_jsonQuoted _ (formatInt_plain i), Atoi_formatInt i h]

/-- C1 at 42: the tokens `42` and `"42"` both set a receiver holding 7 to 42. -/
theorem C1_witness_42 :
    inIntRange 42 ∧ Number.UnmarshalJSON 7 "42".toList = (42, none) ∧
      Number.UnmarshalJSON 7 (jsonQuoted "42".toList) = (42, none) :=
  ⟨by decide, C1_literal_and_string_decode_alike 7 42 (by decide)⟩

/-- C2: `Number.UnmarshalJSON` returns an error for every JSON object and for
every JSON string whose contents are not a signed run of decimal digits; the
tokens `"abc"` and `{}` are two such inputs, and the receiver is left alone. -/
theorem C2_non_numeric_string_and_object_rejected (n : Number) :
    Number.UnmarshalJSON n (jsonQuoted "abc".toList)
        = (n, some (.cannotParse "abc".toList .errSyntax)) ∧
      Number.UnmarshalJSON n emptyObjectText = (n, some .cannotUnmarshal) ∧
      ∀ data : GoString,
        (tokenKind data = .object ∨
          (tokenKind data = .string ∧
            ∃ str, unmarshalString data = some str ∧ isSignedDecimal str = false)) →
        ∃ e, Number.UnmarshalJSON n data = (n, some e) := by
  refine ⟨rfl, rfl, ?_⟩
  intro data h
  rcases h with h | ⟨hk, str, hs, hnd⟩
  · have := unmarshal_none_of_kind data (Or.inl h)
    exact ⟨.cannotUnmarshal, by simp only [Number.UnmarshalJSON, this.1, this.2]⟩
  · cases hA : Atoi str with
    | ok v =>
      have := ((Atoi_ok_iff str v).1 hA).1
      rw [hnd] at this
      cases this
    | error k =>
      exact ⟨.cannotParse str k,
        by simp only [Number.UnmarshalJSON, unmarshalInt_of_string data hk, hs, hA]⟩

/-- C2 at the string token `"4x"`: its contents are not a signed run of digits
and the call returns an error. -/
theorem C2_witness_4x :
    (tokenKind (jsonQuoted "4x".toList) = .string ∧
      unmarshalString (jsonQuoted "4x".toList) = some "4x".toList ∧
      isSignedDecimal "4x".toList = false) ∧
    ∃ e, Number.UnmarshalJSON 7 (jsonQuoted "4x".toList) = (7, some e) :=
  ⟨⟨by decide, by decide, by decide⟩,
    (C2_non_numeric_string_and_object_rejected 7).2.2 (jsonQuoted "4x".toList)
      (Or.inr ⟨by decide, "4x".toList, by decide, by decide⟩)⟩

/-- C3, as stated, fails at `null`: the call returns no error and sets the
receiver to 0. -/
theorem C3_counterexample_null :
    tokenKind "null".toList = .litNull ∧
      Number.UnmarshalJSON 7 "null".toList = (0, none) := by decide

/-- C3, amended: `true`, `false`, an array, an object and a number written with
a fraction or an exponent make `Number.UnmarshalJSON` return its decode error
and leave the receiver alone; `null` is accepted and sets the receiver to 0. -/
theorem C3_other_shapes_rejected_null_accepted (n : Number) :
    Number.UnmarshalJSON n nullText = (0, none) ∧
      ∀ data : GoString,
        (tokenKind data = .litTrue ∨ tokenKind data = .litFalse ∨ tokenKind data = .array ∨
          tokenKind data = .object ∨
          (tokenKind data = .number ∧ ∃ c ∈ data, c = '.' ∨ c = 'e' ∨ c = 'E')) →
        Number.UnmarshalJSON n data = (n, some .cannotUnmarshal) := by
  refine ⟨rfl, ?_⟩
  intro data h
  have key : unmarshalInt data = none ∧ unmarshalString data = none := by
    rcases h with h | h | h | h | ⟨hk, c, hc, hdot⟩
    · exact unmarshal_none_of_kind data (Or.inr (Or.inr (Or.inl h)))
    · exact unmarshal_none_of_kind data (Or.inr (Or.inr (Or.inr (Or.inl h))))
    · exact unmarshal_none_of_kind data (Or.inr (Or.inl h))
    · exact unmarshal_none_of_kind data (Or.inl h)
    · exact ⟨unmarshalInt_none_of_fraction data c hc hdot, by simp [unmarshalString, hk]⟩
  simp only [Number.UnmarshalJSON, key.1, key.2]

/-- C3, amended, at the number `1.5`. -/
theorem C3_witness_fraction :
    (tokenKind "1.5".toList = .number ∧ '.' ∈ "1.5".toList) ∧
      Number.UnmarshalJSON 7 "1.5".toList = (7, some .cannotUnmarshal) :=
  ⟨⟨by decide, by decide⟩,
    (C3_other_shapes_rejected_null_accepted 7).2 "1.5".toList
      (Or.inr (Or.inr (Or.inr (Or.inr ⟨by decide, '.', by decide, Or.inl rfl⟩))))⟩

theorem appendEscapedRune_plain (isPrint : Char → Bool) (c : Char) (hp : isPlain c = true)
    (hq : isPrint c = true) : appendEscapedRune isPrint c = [c] := by
  simp only [isPlain, Bool.and_eq_true, decide_eq_true_eq] at hp
  simp [appendEscapedRune, hp.1.1, hp.1.2, hq]

/-- Quoting a text of printable characters without quote or backslash only puts
it between double quotes. -/
theorem Quote_plain (isPrint : Char → Bool) (s : GoString) (hp : s.all isPlain = true)
    (hq : s.all isPrint = true) : Quote isPrint s = jsonQuoted s := by
  have : (s.map (appendEscapedRune isPrint)).flatten = s := by
    induction s with
    | nil => rfl
    | cons c cs ih =>
      simp only [List.all_cons, Bool.and_eq_true] at hp hq
      simp only [List.map_cons, List.flatten_cons, appendEscapedRune_plain isPrint c hp.1 hq.1,
        ih hp.2 hq.2, List.singleton_append]
  simp only [Quote, this, jsonQuoted]

/-- C4, as stated, fails at the object `{}`: the call fails and the message of
its error does not contain the input. -/
theorem C4_counterexample_object :
    ¬ ∀ (isPrint : Char → Bool) (n : Number) (data : GoString) (e : NumberError),
        Number.UnmarshalJSON n data = (n, some e) → data <:+: e.Error isPrint := by
  intro h
  have h1 := h (fun _ => true) 7 emptyObjectText .cannotUnmarshal (by decide)
  revert h1
  decide

/-- C4, amended: when `Number.UnmarshalJSON` fails on a JSON string whose contents
do not parse, the message contains the contents quoted as `%q` does, which for
printable contents without quote or backslash is the raw token; when both
interpretations fail, the message is the fixed text
`Number: cannot unmarshal value into integer or string`, whatever the input. -/
theorem C4_message_on_failure (isPrint : Char → Bool) (n : Number) (data : GoString)
    (e : NumberError) (h : (Number.UnmarshalJSON n data).2 = some e) :
    (∃ str k, unmarshalString data = some str ∧ e = .cannotParse str k ∧
        Quote isPrint str <:+: e.Error isPrint ∧
        (str.all isPlain = true → str.all isPrint = true →
          jsonQuoted str <:+: e.Error isPrint)) ∨
      (unmarshalInt data = none ∧ unmarshalString data = none ∧
        e.Error isPrint = cannotUnmarshalText) := by
  simp only [Number.UnmarshalJSON] at h
  cases hI : unmarshalInt data with
  | some num => simp [hI] at h
  | none =>
    cases hS : unmarshalString data with
    | none =>
      simp only [hI, hS, Option.some.injEq] at h
      subst h
      exact Or.inr ⟨rfl, rfl, rfl⟩
    | some str =>
      cases hA : Atoi str with
      | ok v => simp [hI, hS, hA] at h
      | error k =>
        simp only [hI, hS, hA, Option.some.injEq] at h
        subst h
        have hin : Quote isPrint str <:+: (NumberError.cannotParse str k).Error isPrint :=
          ⟨"Number: cannot parse string ".toList,
            " as integer: ".toList ++ numErrorText isPrint str k,
            by simp [NumberError.Error, List.append_assoc]⟩
        refine Or.inl ⟨str, k, rfl, rfl, hin, ?_⟩
        intro hp hq
        rw [← Quote_plain isPrint str hp hq]
        exact hin

/-- C4, amended, at the token `"abc"` with every character printable: the
message contains the raw token. -/
theorem C4_witness_abc :
    (Number.UnmarshalJSON 7 (jsonQuoted "abc".toList)).2
        = some (.cannotParse "abc".toList .errSyntax) ∧
      ((∃ str k, unmarshalString (jsonQuoted "abc".toList) = some str ∧
          NumberError.cannotParse "abc".toList .errSyntax = .cannotParse str k ∧
          Quote (fun _ => true) str <:+:
            (NumberError.cannotParse "abc".toList .errSyntax).Error (fun _ => true) ∧
          (str.all isPlain = true → str.all (fun _ => true) = true →
            jsonQuoted str <:+:
              (NumberError.cannotParse "abc".toList .errSyntax).Error (fun _ => true))) ∨
        (unmarshalInt (jsonQuoted "abc".toList) = none ∧
          unmarshalString (jsonQuoted "abc".toList) = none ∧
          (NumberError.cannotParse "abc".toList .errSyntax).Error (fun _ => true)
            = cannotUnmarshalText)) :=
  ⟨by decide, C4_message_on_failure (fun _ => true) 7 (jsonQuoted "abc".toList)
    (.cannotParse "abc".toList .errSyntax) (by decide)⟩

/-- C5: on a JSON string token with contents `str`, `Number.UnmarshalJSON`
succeeds exactly when `str` is an optional single `+` or `-` followed by one or
more decimal digits whose value fits in `int`, and then sets the receiver to that
value; otherwise it returns an error and keeps the receiver.  In particular any
contents with a byte that is neither a digit nor a sign, such as white space
anywhere, are rejected. -/
theorem C5_string_token_accepted_iff_signed_decimal (n : Number) (data str : GoString)
    (hk : tokenKind data = .string) (hs : unmarshalString data = some str) :
    (∀ v : Int, (Number.UnmarshalJSON n data = (v, none)) ↔
        (isSignedDecimal str = true ∧ v = signedDecimalValue str ∧ inIntRange v)) ∧
      (¬ (isSignedDecimal str = true ∧ inIntRange (signedDecimalValue str)) →
        ∃ k, Number.UnmarshalJSON n data = (n, some (.cannotParse str k))) ∧
      ((∃ c ∈ str, isDigit c = false ∧ c ≠ '+' ∧ c ≠ '-') →
        ∃ k, Number.UnmarshalJSON n data = (n, some (.cannotParse str k))) := by
  have hI := unmarshalInt_of_string data hk
  have hfail : ¬ (isSignedDecimal str = true ∧ inIntRange (signedDecimalValue str)) →
      ∃ k, Number.UnmarshalJSON n data = (n, some (.cannotParse str k)) := by
    intro hno
    cases hA : Atoi str with
    | ok v =>
      obtain ⟨h1, h2, h3⟩ := (Atoi_ok_iff str v).1 hA
      exact absurd ⟨h1, h2 ▸ h3⟩ hno
    | error k => exact ⟨k, by simp only [Number.UnmarshalJSON, hI, hs, hA]⟩
  refine ⟨?_, hfail, ?_⟩
  · intro v
    rw [← Atoi_ok_iff]
    cases hA : Atoi str with
    | ok w => simp [Number.UnmarshalJSON, hI, hs, hA]
    | error k => simp [Number.UnmarshalJSON, hI, hs, hA]
  · rintro ⟨c, hc, hnd, hp, hm⟩
    apply hfail
    rintro ⟨hsd, _⟩
    rcases isSignedDecimal_mem str hsd c hc with h | h | h
    · rw [hnd] at h
      cases h
    · exact hp h
    · exact hm h

/-- C5 at the tokens `"+42"`, `"-42"` and `" 42"`. -/
theorem C5_witness_signs_and_space :
    Number.UnmarshalJSON 7 (jsonQuoted "+42".toList) = (42, none) ∧
      Number.UnmarshalJSON 7 (jsonQuoted "-42".toList) = (-42, none) ∧
      ∃ k, Number.UnmarshalJSON 7 (jsonQuoted " 42".toList)
        = (7, some (.cannotParse " 42".toList k)) :=
  ⟨((C5_string_token_accepted_iff_signed_decimal 7 (jsonQuoted "+42".toList) "+42".toList
      (by decide) (by decide)).1 42).2 ⟨by decide, by decide, by decide⟩,
    ((C5_string_token_accepted_iff_signed_decimal 7 (jsonQuoted "-42".toList) "-42".toList
      (by decide) (by decide)).1 (-42)).2 ⟨by decide, by decide, by decide⟩,
    (C5_string_token_accepted_iff_signed_decimal 7 (jsonQuoted " 42".toList) " 42".toList
      (by decide) (by decide)).2.2 ⟨' ', by decide, by decide, by decide, by decide⟩⟩

/-! ## Query strings and request logs -/

theorem formatInt_ne_nil (i : Int) : formatInt i ≠ [] := by
  intro h
  have := isSignedDecimal_formatInt i
  rw [h] at this
  revert this
  decide

theorem formatInt_ne_zero_text (i : Int) (h : i > 0) : formatInt i ≠ "0".toList := by
  intro e
  have := signedDecimalValue_formatInt i
  rw [e] at this
  have h0 : signedDecimalValue "0".toList = 0 := by decide
  omega

theorem question_not_in_formatInt (i : Int) : '?' ∉ formatInt i := by
  intro h
  rcases isSignedDecimal_mem _ (isSignedDecimal_formatInt i) '?' h with h | h | h <;>
    revert h <;> decide

theorem DeploymentsService.List_log {Req : Type} (c : Client Req) (log : Log Req)
    (projectID : Int) (o : DeploymentListOptions) :
    (DeploymentsService.List c log projectID o).2 =
      log ++ Event.newRequest "GET".toList (DeploymentsService.listPath projectID o) none ::
        (match c.newRequestFn "GET".toList (DeploymentsService.listPath projectID o) none with
          | .error _ => []
          | .ok req => [Event.doCall req (some .deploymentListResponse)]) := by
  simp only [DeploymentsService.List, Client.newRequest, Client.do]
  cases c.newRequestFn "GET".toList (DeploymentsService.listPath projectID o) none with
  | error e => simp
  | ok req =>
    simp only
    cases c.doFn req (some .deploymentListResponse) with
    | error e => simp
    | ok r => simp

/-- C6, as stated, fails for a negative field: with `Limit = -1` one field is
set, yet the path carries no query string at all. -/
theorem C6_counterexample_negative_limit :
    negativeLimit.nonZeroFields = 1 ∧
      DeploymentsService.listPath 123 negativeLimit = "/projects/123/deploys".toList := by
  decide

/-- C6, amended: for every projectID, `Deployments.List` with
`{Environment: "production", Limit: 10}` calls `newRequest` with GET and the path
`/projects/{projectID}/deploys?environment=production&limit=10`; in general its
first call is `newRequest` with GET, a nil body and the resource path followed by
the `key=value` texts, joined by `&`, of exactly the fields that are a non-empty
string or a positive integer, and `do` follows with a `DeploymentListResponse`
target when the request was built. -/
theorem C6_deployment_list_query {Req : Type} (c : Client Req) (log : Log Req)
    (projectID : Int) :
    withQuery ("/projects/".toList ++ formatInt projectID ++ "/deploys".toList)
        (deploymentParams productionTen)
      = "/projects/".toList ++ formatInt projectID ++
          "/deploys?environment=production&limit=10".toList ∧
    ∀ o : DeploymentListOptions,
      (deploymentParams o).length = o.sentFields ∧
      (DeploymentsService.List c log projectID o).2 =
        log ++ Event.newRequest "GET".toList
            (withQuery ("/projects/".toList ++ formatInt projectID ++ "/deploys".toList)
              (deploymentParams o)) none ::
          (match c.newRequestFn "GET".toList
              (withQuery ("/projects/".toList ++ formatInt projectID ++ "/deploys".toList)
                (deploymentParams o)) none with
            | .error _ => []
            | .ok req => [Event.doCall req (some .deploymentListResponse)]) := by
  constructor
  · have : deploymentParams productionTen
        = [("environment".toList, "production".toList), ("limit".toList, "10".toList)] := by
      decide
    rw [this]
    simp only [withQuery, reduceCtorEq, if_false, List.append_assoc]
    congr 1
  · intro o
    constructor
    · unfold deploymentParams DeploymentListOptions.sentFields
      by_cases h1 : o.Environment = [] <;> by_cases h2 : o.LocalUsername = [] <;>
        by_cases h3 : o.CreatedAfter > 0 <;> by_cases h4 : o.CreatedBefore > 0 <;>
        by_cases h5 : o.Limit > 0 <;>
        simp [h1, h2, h3, h4, h5]
    · rw [DeploymentsService.List_log, DeploymentsService.listPath_eq]

theorem UptimeService.ListOutages_log {Req : Type} (c : Client Req) (log : Log Req)
    (projectID : Int) (siteID : GoString) (o : OutageListOptions) :
    (UptimeService.ListOutages c log projectID siteID o).2 =
      log ++ Event.newRequest "GET".toList
          (UptimeService.listOutagesPath projectID siteID o) none ::
        (match c.newRequestFn "GET".toList
            (UptimeService.listOutagesPath projectID siteID o) none with
          | .error _ => []
          | .ok req => [Event.doCall req (some .outages)]) := by
  simp only [UptimeService.ListOutages, Client.newRequest, Client.do]
  cases c.newRequestFn "GET".toList (UptimeService.listOutagesPath projectID siteID o) none with
  | error e => simp
  | ok req =>
    simp only
    cases c.doFn req (some .outages) with
    | error e => simp
    | ok r => simp

theorem UptimeService.ListUptimeChecks_log {Req : Type} (c : Client Req) (log : Log Req)
    (projectID : Int) (siteID : GoString) (o : UptimeCheckListOptions) :
    (UptimeService.ListUptimeChecks c log projectID siteID o).2 =
      log ++ Event.newRequest "GET".toList
          (UptimeService.listUptimeChecksPath projectID siteID o) none ::
        (match c.newRequestFn "GET".toList
            (UptimeService.listUptimeChecksPath projectID siteID o) none with
          | .error _ => []
          | .ok req => [Event.doCall req (some .uptimeChecks)]) := by
  simp only [UptimeService.ListUptimeChecks, Client.newRequest, Client.do]
  cases c.newRequestFn "GET".toList
      (UptimeService.listUptimeChecksPath projectID siteID o) none with
  | error e => simp
  | ok req =>
    simp only
    cases c.doFn req (some .uptimeChecks) with
    | error e => simp
    | ok r => simp

/-- Every parameter of a deployment listing comes from a field that is a
non-empty string or a positive integer. -/
theorem deploymentParams_mem (o : DeploymentListOptions) (kv : GoString × GoString)
    (h : kv ∈ deploymentParams o) :
    (kv = ("created_after".toList, formatInt o.CreatedAfter) ∧ o.CreatedAfter > 0) ∨
    (kv = ("created_before".toList, formatInt o.CreatedBefore) ∧ o.CreatedBefore > 0) ∨
    (kv = ("environment".toList, o.Environment) ∧ o.Environment ≠ []) ∨
    (kv = ("limit".toList, formatInt o.Limit) ∧ o.Limit > 0) ∨
    (kv = ("local_username".toList, o.LocalUsername) ∧ o.LocalUsername ≠ []) := by
  simp only [deploymentParams, List.mem_append] at h
  rcases h with (((h | h) | h) | h) | h
  · split at h
    · rename_i hc
      simp only [List.mem_singleton] at h
      exact Or.inl ⟨h, hc⟩
    · simp at h
  · split at h
    · rename_i hc
      simp only [List.mem_singleton] at h
      exact Or.inr (Or.inl ⟨h, hc⟩)
    · simp at h
  · split at h
    · rename_i hc
      simp only [List.mem_singleton] at h
      exact Or.inr (Or.inr (Or.inl ⟨h, hc⟩))
    · simp at h
  · split at h
    · rename_i hc
      simp only [List.mem_singleton] at h
      exact Or.inr (Or.inr (Or.inr (Or.inl ⟨h, hc⟩)))
    · simp at h
  · split at h
    · rename_i hc
      simp only [List.mem_singleton] at h
      exact Or.inr (Or.inr (Or.inr (Or.inr ⟨h, hc⟩)))
    · simp at h

/-- Every parameter of an outage or uptime-check listing comes from a positive
field. -/
theorem timeRangeParams_mem (a b l : Int) (kv : GoString × GoString)
    (h : kv ∈ timeRangeParams a b l) :
    (kv = ("created_after".toList, formatInt a) ∧ a > 0) ∨
    (kv = ("created_before".toList, formatInt b) ∧ b > 0) ∨
    (kv = ("limit".toList, formatInt l) ∧ l > 0) := by
  simp only [timeRangeParams, List.mem_append] at h
  rcases h with (h | h) | h
  · split at h
    · rename_i hc
      simp only [List.mem_singleton] at h
      exact Or.inl ⟨h, hc⟩
    · simp at h
  · split at h
    · rename_i hc
      simp only [List.mem_singleton] at h
      exact Or.inr (Or.inl ⟨h, hc⟩)
    · simp at h
  · split at h
    · rename_i hc
      simp only [List.mem_singleton] at h
      exact Or.inr (Or.inr ⟨h, hc⟩)
    · simp at h

/-- C7, as stated, fails twice: a string field holding the text `0` is sent as
`environment=0`, and with every option zero the path of `Uptime.ListOutages`
for the site identifier `a?b` contains a `?`. -/
theorem C7_counterexample_zero_text_and_site :
    DeploymentsService.listPath 123 environmentZeroText
        = "/projects/123/deploys?environment=0".toList ∧
      UptimeService.listOutagesPath 1 "a?b".toList OutageListOptions.zero
        = "/projects/1/sites/a?b/outages".toList ∧
      '?' ∈ UptimeService.listOutagesPath 1 "a?b".toList OutageListOptions.zero := by
  decide

theorem utf8Bytes_digit (c : Char) (h : isDigit c = true) : utf8Bytes c = [c.toNat] := by
  rw [isDigit_iff] at h
  unfold utf8Bytes
  rw [if_pos (by omega)]

theorem goBytes_digits_all (s : GoString) (h : s.all isDigit = true) :
    (goBytes s).all (fun b => !shouldEscape b) = true := by
  induction s with
  | nil => rfl
  | cons c cs ih =>
    simp only [List.all_cons, Bool.and_eq_true] at h
    have hc := (isDigit_iff c).1 h.1
    have hs : shouldEscape c.toNat = false := by
      unfold shouldEscape
      rw [if_pos (Or.inr (Or.inr hc))]
    have ih' := ih h.2
    simp only [goBytes] at ih' ⊢
    simp only [List.map_cons, List.flatten_cons, utf8Bytes_digit c h.1, List.singleton_append,
      List.all_cons, hs, Bool.not_false, Bool.true_and]
    exact ih'

/-- A run of digits passes `QueryEscape` unchanged. -/
theorem QueryEscape_digits (s : GoString) (h : s.all isDigit = true) : QueryEscape s = s := by
  unfold QueryEscape
  rw [if_pos (goBytes_digits_all s h)]

/-- A positive integer is sent as its decimal digits, which are neither empty
nor the text `0`. -/
theorem QueryEscape_formatInt_pos (v : Int) (h : v > 0) :
    QueryEscape (formatInt v) = formatInt v ∧ formatInt v ≠ [] ∧ formatInt v ≠ "0".toList := by
  refine ⟨?_, formatInt_ne_nil v, formatInt_ne_zero_text v h⟩
  rw [formatInt_nonneg v (by omega)]
  exact QueryEscape_digits _ (natDigits_all_digit _ _)

theorem question_not_in_deploys_path (projectID : Int) :
    '?' ∉ "/projects/".toList ++ formatInt projectID ++ "/deploys".toList := by
  intro h
  simp only [List.mem_append] at h
  rcases h with (h | h) | h
  · revert h; decide
  · exact question_not_in_formatInt _ h
  · revert h; decide

theorem question_not_in_site_path (projectID : Int) (siteID suffix : GoString)
    (hs : '?' ∉ siteID) (hx : '?' ∉ suffix) :
    '?' ∉ "/projects/".toList ++ formatInt projectID ++ "/sites/".toList ++ siteID ++ suffix := by
  intro h
  simp only [List.mem_append] at h
  rcases h with (((h | h) | h) | h) | h
  · revert h; decide
  · exact question_not_in_formatInt _ h
  · revert h; decide
  · exact hs h
  · exact hx h

/-- C7, amended: in the query strings built by `Deployments.List`,
`Uptime.ListOutages` and `Uptime.ListUptimeChecks` a field holding its zero value
contributes no key, no key is sent with an empty value, and no integer field is
sent as `0` (a string field holding the text `0` is sent as it is); when every
field is zero nothing is appended to the resource path, which for deployments
contains no `?`, and for the two uptime operations contains none unless the site
identifier does. -/
theorem C7_zero_fields_send_no_key (projectID : Int) (siteID : GoString)
    (od : DeploymentListOptions) (oo : OutageListOptions) (ou : UptimeCheckListOptions) :
    (DeploymentsService.listPath projectID od =
        withQuery ("/projects/".toList ++ formatInt projectID ++ "/deploys".toList)
          (deploymentParams od) ∧
      UptimeService.listOutagesPath projectID siteID oo =
        withQuery ("/projects/".toList ++ formatInt projectID ++ "/sites/".toList ++ siteID ++
          "/outages".toList) (timeRangeParams oo.CreatedAfter oo.CreatedBefore oo.Limit) ∧
      UptimeService.listUptimeChecksPath projectID siteID ou =
        withQuery ("/projects/".toList ++ formatInt projectID ++ "/sites/".toList ++ siteID ++
          "/uptime_checks".toList)
          (timeRangeParams ou.CreatedAfter ou.CreatedBefore ou.Limit)) ∧
    ((od.Environment = [] → "environment".toList ∉ (deploymentParams od).map Prod.fst) ∧
      (od.LocalUsername = [] → "local_username".toList ∉ (deploymentParams od).map Prod.fst) ∧
      (od.CreatedAfter = 0 → "created_after".toList ∉ (deploymentParams od).map Prod.fst) ∧
      (od.CreatedBefore = 0 → "created_before".toList ∉ (deploymentParams od).map Prod.fst) ∧
      (od.Limit = 0 → "limit".toList ∉ (deploymentParams od).map Prod.fst)) ∧
    (∀ a b l : Int,
      (a = 0 → "created_after".toList ∉ (timeRangeParams a b l).map Prod.fst) ∧
      (b = 0 → "created_before".toList ∉ (timeRangeParams a b l).map Prod.fst) ∧
      (l = 0 → "limit".toList ∉ (timeRangeParams a b l).map Prod.fst)) ∧
    (∀ kv ∈ deploymentParams od, kv.2 ≠ [] ∧ QueryEscape kv.2 ≠ [] ∧
      (kv.1 ≠ "environment".toList → kv.1 ≠ "local_username".toList →
        QueryEscape kv.2 ≠ "0".toList)) ∧
    (∀ a b l : Int, ∀ kv ∈ timeRangeParams a b l,
      kv.2 ≠ [] ∧ QueryEscape kv.2 ≠ [] ∧ QueryEscape kv.2 ≠ "0".toList) ∧
    (DeploymentsService.listPath projectID DeploymentListOptions.zero =
        "/projects/".toList ++ formatInt projectID ++ "/deploys".toList ∧
      '?' ∉ DeploymentsService.listPath projectID DeploymentListOptions.zero) ∧
    (UptimeService.listOutagesPath projectID siteID OutageListOptions.zero =
        "/projects/".toList ++ formatInt projectID ++ "/sites/".toList ++ siteID ++
          "/outages".toList ∧
      UptimeService.listUptimeChecksPath projectID siteID UptimeCheckListOptions.zero =
        "/projects/".toList ++ formatInt projectID ++ "/sites/".toList ++ siteID ++
          "/uptime_checks".toList) ∧
    ('?' ∉ siteID →
      '?' ∉ UptimeService.listOutagesPath projectID siteID OutageListOptions.zero ∧
      '?' ∉ UptimeService.listUptimeChecksPath projectID siteID UptimeCheckListOptions.zero) := by
  have hD0 : DeploymentsService.listPath projectID DeploymentListOptions.zero =
      "/projects/".toList ++ formatInt projectID ++ "/deploys".toList := by
    rw [DeploymentsService.listPath_eq]
    rfl
  have hO0 : UptimeService.listOutagesPath projectID siteID OutageListOptions.zero =
      "/projects/".toList ++ formatInt projectID ++ "/sites/".toList ++ siteID ++
        "/outages".toList := by
    rw [UptimeService.listOutagesPath_eq]
    rfl
  have hU0 : UptimeService.listUptimeChecksPath projectID siteID UptimeCheckListOptions.zero =
      "/projects/".toList ++ formatInt projectID ++ "/sites/".toList ++ siteID ++
        "/uptime_checks".toList := by
    rw [UptimeService.listUptimeChecksPath_eq]
    rfl
  have hkeyD : ∀ (key : GoString), key ∈ (deploymentParams od).map Prod.fst →
      (key = "created_after".toList ∧ od.CreatedAfter > 0) ∨
      (key = "created_before".toList ∧ od.CreatedBefore > 0) ∨
      (key = "environment".toList ∧ od.Environment ≠ []) ∨
      (key = "limit".toList ∧ od.Limit > 0) ∨
      (key = "local_username".toList ∧ od.LocalUsername ≠ []) := by
    intro key hk
    obtain ⟨kv, hkv, rfl⟩ := List.mem_map.1 hk
    rcases deploymentParams_mem od kv hkv with ⟨e, h⟩ | ⟨e, h⟩ | ⟨e, h⟩ | ⟨e, h⟩ | ⟨e, h⟩ <;>
      subst e
    · exact Or.inl ⟨rfl, h⟩
    · exact Or.inr (Or.inl ⟨rfl, h⟩)
    · exact Or.inr (Or.inr (Or.inl ⟨rfl, h⟩))
    · exact Or.inr (Or.inr (Or.inr (Or.inl ⟨rfl, h⟩)))
    · exact Or.inr (Or.inr (Or.inr (Or.inr ⟨rfl, h⟩)))
  have hkeyT : ∀ (a b l : Int) (key : GoString), key ∈ (timeRangeParams a b l).map Prod.fst →
      (key = "created_after".toList ∧ a > 0) ∨ (key = "created_before".toList ∧ b > 0) ∨
      (key = "limit".toList ∧ l > 0) := by
    intro a b l key hk
    obtain ⟨kv, hkv, rfl⟩ := List.mem_map.1 hk
    rcases timeRangeParams_mem a b l kv hkv with ⟨e, h⟩ | ⟨e, h⟩ | ⟨e, h⟩ <;> subst e
    · exact Or.inl ⟨rfl, h⟩
    · exact Or.inr (Or.inl ⟨rfl, h⟩)
    · exact Or.inr (Or.inr ⟨rfl, h⟩)
  refine ⟨⟨DeploymentsService.listPath_eq _ _, UptimeService.listOutagesPath_eq _ _ _,
    UptimeService.listUptimeChecksPath_eq _ _ _⟩, ⟨?_, ?_, ?_, ?_, ?_⟩, ?_, ?_, ?_,
    ⟨hD0, ?_⟩, ⟨hO0, hU0⟩, ?_⟩
  · intro h0 hk
    rcases hkeyD _ hk with ⟨e, h⟩ | ⟨e, h⟩ | ⟨e, h⟩ | ⟨e, h⟩ | ⟨e, h⟩
    · revert e; decide
    · revert e; decide
    · exact h h0
    · revert e; decide
    · revert e; decide
  · intro h0 hk
    rcases hkeyD _ hk with ⟨e, h⟩ | ⟨e, h⟩ | ⟨e, h⟩ | ⟨e, h⟩ | ⟨e, h⟩
    · revert e; decide
    · revert e; decide
    · revert e; decide
    · revert e; decide
    · exact h h0
  · intro h0 hk
    rcases hkeyD _ hk with ⟨e, h⟩ | ⟨e, h⟩ | ⟨e, h⟩ | ⟨e, h⟩ | ⟨e, h⟩
    · omega
    · revert e; decide
    · revert e; decide
    · revert e; decide
    · revert e; decide
  · intro h0 hk
    rcases hkeyD _ hk with ⟨e, h⟩ | ⟨e, h⟩ | ⟨e, h⟩ | ⟨e, h⟩ | ⟨e, h⟩
    · revert e; decide
    · omega
    · revert e; decide
    · revert e; decide
    · revert e; decide
  · intro h0 hk
    rcases hkeyD _ hk with ⟨e, h⟩ | ⟨e, h⟩ | ⟨e, h⟩ | ⟨e, h⟩ | ⟨e, h⟩
    · revert e; decide
    · revert e; decide
    · revert e; decide
    · omega
    · revert e; decide
  · intro a b l
    refine ⟨?_, ?_, ?_⟩ <;> intro h0 hk <;>
      rcases hkeyT a b l _ hk with ⟨e, h⟩ | ⟨e, h⟩ | ⟨e, h⟩ <;>
      first
        | omega
        | (revert e; decide)
  · intro kv hkv
    rcases deploymentParams_mem od kv hkv with ⟨e, h⟩ | ⟨e, h⟩ | ⟨e, h⟩ | ⟨e, h⟩ | ⟨e, h⟩ <;>
      subst e
    · obtain ⟨q1, q2, q3⟩ := QueryEscape_formatInt_pos _ h
      exact ⟨q2, by rw [q1]; exact q2, fun _ _ => by rw [q1]; exact q3⟩
    · obtain ⟨q1, q2, q3⟩ := QueryEscape_formatInt_pos _ h
      exact ⟨q2, by rw [q1]; exact q2, fun _ _ => by rw [q1]; exact q3⟩
    · exact ⟨h, QueryEscape_ne_nil _ h, fun hk _ => absurd rfl hk⟩
    · obtain ⟨q1, q2, q3⟩ := QueryEscape_formatInt_pos _ h
      exact ⟨q2, by rw [q1]; exact q2, fun _ _ => by rw [q1]; exact q3⟩
    · exact ⟨h, QueryEscape_ne_nil _ h, fun _ hk => absurd rfl hk⟩
  · intro a b l kv hkv
    rcases timeRangeParams_mem a b l kv hkv with ⟨e, h⟩ | ⟨e, h⟩ | ⟨e, h⟩ <;> subst e <;>
      obtain ⟨q1, q2, q3⟩ := QueryEscape_formatInt_pos _ h <;>
      exact ⟨q2, by rw [q1]; exact q2, by rw [q1]; exact q3⟩
  · rw [hD0]
    exact question_not_in_deploys_path projectID
  · intro hs
    rw [hO0, hU0]
    exact ⟨question_not_in_site_path _ _ _ hs (by decide),
      question_not_in_site_path _ _ _ hs (by decide)⟩

/-- C7, amended, at the options of the deployments test and the site `abc`: the
empty `LocalUsername` sends no key and the bare uptime paths hold no `?`. -/
theorem C7_witness_production :
    (productionTen.LocalUsername = [] ∧
      "local_username".toList ∉ (deploymentParams productionTen).map Prod.fst) ∧
    ('?' ∉ "abc".toList ∧
      '?' ∉ UptimeService.listOutagesPath 123 "abc".toList OutageListOptions.zero) :=
  ⟨⟨by decide,
    (C7_zero_fields_send_no_key 123 "abc".toList productionTen OutageListOptions.zero
      UptimeCheckListOptions.zero).2.1.2.1 (by decide)⟩,
   ⟨by decide,
    ((C7_zero_fields_send_no_key 123 "abc".toList productionTen OutageListOptions.zero
      UptimeCheckListOptions.zero).2.2.2.2.2.2.2 (by decide)).1⟩⟩

/-! ## StatusPages.Update -/

/-- C8: for every accountID, statusPageID and params, `StatusPages.Update` makes
one call of `newRequest`, with the method POST (which is not PUT), the path
`/accounts/{accountID}/status_pages/{statusPageID}` and the body
`StatusPageRequest{StatusPage: params}`, whose one JSON key is `status_page`;
when the request is built it is handed to `do` once, with a nil decode target,
and the result of `do` is returned. -/
theorem C8_status_page_update_posts {Req : Type} (c : Client Req) (log : Log Req)
    (accountID statusPageID : Int) (params : StatusPageParams) :
    (StatusPagesService.Update c log accountID statusPageID params).2 =
        log ++ Event.newRequest "POST".toList
            ("/accounts/".toList ++ formatInt accountID ++ "/status_pages/".toList ++
              formatInt statusPageID)
            (some (.statusPageRequest { StatusPage := params })) ::
          (match c.newRequestFn "POST".toList
              ("/accounts/".toList ++ formatInt accountID ++ "/status_pages/".toList ++
                formatInt statusPageID)
              (some (.statusPageRequest { StatusPage := params })) with
            | .error _ => []
            | .ok req => [Event.doCall req none]) ∧
      (StatusPagesService.Update c log accountID statusPageID params).1 =
        (match c.newRequestFn "POST".toList
            ("/accounts/".toList ++ formatInt accountID ++ "/status_pages/".toList ++
              formatInt statusPageID)
            (some (.statusPageRequest { StatusPage := params })) with
          | .error err => some err
          | .ok req => c.doFn req none) ∧
      StatusPageRequest.jsonFields { StatusPage := params } = [("status_page".toList, params)] ∧
      "POST".toList ≠ "PUT".toList := by
  refine ⟨?_, ?_, rfl, by decide⟩
  · simp only [StatusPagesService.Update, Client.newRequest, Client.do]
    cases c.newRequestFn "POST".toList
        ("/accounts/".toList ++ formatInt accountID ++ "/status_pages/".toList ++
          formatInt statusPageID)
        (some (.statusPageRequest { StatusPage := params })) with
    | error e => simp
    | ok req => simp
  · simp only [StatusPagesService.Update, Client.newRequest, Client.do]
    cases c.newRequestFn "POST".toList
        ("/accounts/".toList ++ formatInt accountID ++ "/status_pages/".toList ++
          formatInt statusPageID)
        (some (.statusPageRequest { StatusPage := params })) with
    | error e => rfl
    | ok req => rfl

/-- C9, the code at account 100 and status page 1 with the parameters of the
test: the request goes out with the method POST, not the PUT the test expects,
to the path `/accounts/100/status_pages/1`; the call itself returns no error
when `do` returns none. -/
theorem C9_update_sends_post_not_put :
    firstMethod (StatusPagesService.Update quietClient [] 100 1 updatedStatusPage).2
        = some "POST".toList ∧
      firstMethod (StatusPagesService.Update quietClient [] 100 1 updatedStatusPage).2
        ≠ some "PUT".toList ∧
      firstPath (StatusPagesService.Update quietClient [] 100 1 updatedStatusPage).2
        = some "/accounts/100/status_pages/1".toList ∧
      (StatusPagesService.Update quietClient [] 100 1 updatedStatusPage).1 = none := by
  decide

/-! ## The JSON parser on the body `{"errors": s}` -/

theorem parseJSON_access_denied :
    (parseJSON (errorsBody "Access denied".toList)).bind (Any.member "errors".toList)
      = some (Any.string "Access denied".toList) := by
  rfl

theorem hex4_lowerHex (n : Nat) (h : n < 32) :
    hex4 '0' '0' (lowerHex (n / 16)) (lowerHex (n % 16)) = some n := by
  interval_cases n <;> rfl

/-- Scanning the escaped form of one character gives the character back. -/
theorem scanStringChar_escape (c : Char) (more : List Char) :
    ∃ x xs, jsonEscapeChar c ++ more = x :: xs ∧ x ≠ dquote ∧
      scanStringChar x xs = some (c, more) := by
  unfold jsonEscapeChar
  by_cases h1 : c = dquote ∨ c = backslash
  · rw [if_pos h1]
    refine ⟨backslash, c :: more, rfl, by decide, ?_⟩
    rcases h1 with h | h <;> subst h <;> rfl
  · rw [if_neg h1]
    by_cases h2 : c.toNat < 32
    · rw [if_pos h2]
      refine ⟨backslash,
        'u' :: '0' :: '0' :: lowerHex (c.toNat / 16) :: lowerHex (c.toNat % 16) :: more,
        rfl, by decide, ?_⟩
      have hx := hex4_lowerHex c.toNat h2
      have hs : isSurrogate c.toNat = false := by
        simp only [isSurrogate, Bool.and_eq_false_iff, decide_eq_false_iff_not]
        left
        omega
      simp only [scanStringChar, if_true, hx, hs, Bool.false_eq_true, if_false,
        Char.ofNat_toNat]
    · rw [if_neg h2]
      refine ⟨c, more, rfl, fun e => h1 (Or.inl e), ?_⟩
      apply scanStringChar_plain
      simp only [isPlain, Bool.and_eq_true, decide_eq_true_eq]
      exact ⟨⟨fun e => h1 (Or.inl e), fun e => h1 (Or.inr e)⟩, by omega⟩

theorem scanStringAux_escape (s : GoString) (rest : List Char) :
    ∀ fuel, s.length < fuel →
      scanStringAux fuel ((s.map jsonEscapeChar).flatten ++ dquote :: rest) = some (s, rest) := by
  induction s with
  | nil =>
    intro fuel hf
    obtain ⟨k, rfl⟩ : ∃ k, fuel = k + 1 := ⟨fuel - 1, by simp at hf; omega⟩
    simp [scanStringAux]
  | cons c cs ih =>
    intro fuel hf
    obtain ⟨k, rfl⟩ : ∃ k, fuel = k + 1 := ⟨fuel - 1, by simp at hf; omega⟩
    simp only [List.length_cons] at hf
    obtain ⟨x, xs, he, hx, hsc⟩ :=
      scanStringChar_escape c ((cs.map jsonEscapeChar).flatten ++ dquote :: rest)
    have hrec := ih k (by omega)
    simp only [List.map_cons, List.flatten_cons, List.append_assoc, he, scanStringAux, hx,
      if_false, hsc, hrec, consChar]

theorem length_le_flatten_escape (s : GoString) :
    s.length ≤ ((s.map jsonEscapeChar).flatten).length := by
  induction s with
  | nil => simp
  | cons c cs ih =>
    have : 1 ≤ (jsonEscapeChar c).length := by
      unfold jsonEscapeChar
      split
      · simp
      · split <;> simp
    simp only [List.map_cons, List.flatten_cons, List.length_append, List.length_cons]
    omega

/-- The scanner reads the JSON string written for `s` back as `s`. -/
theorem scanString_escape (s : GoString) (rest : List Char) :
    scanString ((s.map jsonEscapeChar).flatten ++ dquote :: rest) = some (s, rest) := by
  apply scanStringAux_escape
  have := length_le_flatten_escape s
  simp only [List.length_append, List.length_cons]
  omega

theorem errorsBody_eq (s : GoString) :
    errorsBody s = Char.ofNat 123 :: dquote :: ("errors".toList ++ dquote :: ':' :: ' ' ::
      dquote :: ((s.map jsonEscapeChar).flatten ++ dquote :: [Char.ofNat 125])) := by
  have hj : jsonString "errors".toList = dquote :: ("errors".toList ++ [dquote]) := by decide
  rw [errorsBody, hj]
  simp [jsonString]

/-- The parser reads the body `{"errors": s}` as the object with the one member
`errors`, a string with contents `s`. -/
theorem parseValue_errorsBody (s : GoString) (k : Nat) :
    parseValue (k + 3) (errorsBody s)
      = some (Any.object [("errors".toList, Any.string s)], []) := by
  rw [errorsBody_eq]
  have hkey : scanString ("errors".toList ++ dquote :: ':' :: ' ' :: dquote ::
      ((s.map jsonEscapeChar).flatten ++ dquote :: [Char.ofNat 125]))
      = some ("errors".toList, ':' :: ' ' :: dquote ::
          ((s.map jsonEscapeChar).flatten ++ dquote :: [Char.ofNat 125])) :=
    scanString_plain _ (by decide) _
  have hval := scanString_escape s [Char.ofNat 125]
  have hinner : parseValue (k + 1) (' ' :: dquote ::
      ((s.map jsonEscapeChar).flatten ++ dquote :: [Char.ofNat 125]))
      = some (Any.string s, [Char.ofNat 125]) := by
    rw [parseValue]
    have hd : (' ' :: dquote :: ((s.map jsonEscapeChar).flatten ++ dquote :: [Char.ofNat 125])
        ).dropWhile isSpace
        = dquote :: ((s.map jsonEscapeChar).flatten ++ dquote :: [Char.ofNat 125]) := by
      rw [List.dropWhile_cons_of_pos (by decide), List.dropWhile_cons_of_neg (by decide)]
    have hb : beginValue dquote = .string := by decide
    simp only [hd, hb, hval]
  rw [parseValue]
  have hd0 : (Char.ofNat 123 :: dquote :: ("errors".toList ++ dquote :: ':' :: ' ' ::
      dquote :: ((s.map jsonEscapeChar).flatten ++ dquote :: [Char.ofNat 125]))
      ).dropWhile isSpace
      = Char.ofNat 123 :: dquote :: ("errors".toList ++ dquote :: ':' :: ' ' ::
      dquote :: ((s.map jsonEscapeChar).flatten ++ dquote :: [Char.ofNat 125])) :=
    List.dropWhile_cons_of_neg (by decide)
  have hb0 : beginValue (Char.ofNat 123) = .object := by decide
  simp only [hd0, hb0]
  rw [parseMembers]
  have hd1 : (dquote :: ("errors".toList ++ dquote :: ':' :: ' ' ::
      dquote :: ((s.map jsonEscapeChar).flatten ++ dquote :: [Char.ofNat 125]))
      ).dropWhile isSpace
      = dquote :: ("errors".toList ++ dquote :: ':' :: ' ' ::
      dquote :: ((s.map jsonEscapeChar).flatten ++ dquote :: [Char.ofNat 125])) :=
    List.dropWhile_cons_of_neg (by decide)
  have hd2 : (':' :: ' ' :: dquote ::
      ((s.map jsonEscapeChar).flatten ++ dquote :: [Char.ofNat 125])).dropWhile isSpace
      = ':' :: ' ' :: dquote ::
      ((s.map jsonEscapeChar).flatten ++ dquote :: [Char.ofNat 125]) :=
    List.dropWhile_cons_of_neg (by decide)
  have hd3 : [Char.ofNat 125].dropWhile isSpace = [Char.ofNat 125] := by decide
  have hq : (dquote = Char.ofNat 125) = False := eq_false (by decide)
  have hc : ¬ (Char.ofNat 125 = ',') := by decide
  simp only [hd1, hq, false_and, if_false, if_true, hkey, hd2, hinner, hd3, hc,
    List.nil_append]

theorem parseJSON_errorsBody (s : GoString) :
    parseJSON (errorsBody s) = some (Any.object [("errors".toList, Any.string s)]) := by
  have hlen : ∃ k, (errorsBody s).length + 1 = k + 3 := by
    refine ⟨(errorsBody s).length - 2, ?_⟩
    rw [errorsBody_eq]
    simp only [List.length_cons]
    omega
  obtain ⟨k, hk⟩ := hlen
  simp only [parseJSON, hk, parseValue_errorsBody, onlySpace, List.all_nil, if_true]

/-- The message of an API error whose body is `{"errors": s}` is `s`. -/
theorem apiErrorMessage_errorsBody (render : Any → GoString)
    (fallback : Int → GoString → GoString) (status : Int) (s : GoString) :
    apiErrorMessage render fallback status (errorsBody s) = s := by
  have hm : (Any.object [("errors".toList, Any.string s)]).member "errors".toList
      = some (Any.string s) := by
    simp [Any.member]
  simp only [apiErrorMessage, parseJSON_errorsBody, hm]

/-- C10: for every status code outside [200,300) and every string `s`, a response
with the JSON body `{"errors": s}` makes `do` return an `APIError` with that
status code and the message `s`, for a nil target and for every decode target,
and `Dashboards.Create` hands this error back with a nil dashboard. -/
theorem C10_errors_string_becomes_api_error
    (transport : Request → Except Error Response)
    (decode : (t : Target) → GoString → Except Error t.Value)
    (render : Any → GoString) (fallback : Int → GoString → GoString)
    (req : Request) (status : Int) (s : GoString)
    (hstatus : ¬ (200 ≤ status ∧ status < 300))
    (hresp : transport req = .ok { StatusCode := status, Body := errorsBody s }) :
    specDo transport decode render fallback req none = some (Error.apiError status s) ∧
    (∀ t : Target,
      specDo transport decode render fallback req (some t) = .error (Error.apiError status s)) ∧
    (∀ (newRequestFn : GoString → GoString → Option Body → Except Error Request)
        (log : Log Request) (projectID : Int) (dashboardReq : DashboardRequest),
      newRequestFn "POST".toList
          ("/projects/".toList ++ formatInt projectID ++ "/dashboards".toList)
          (some (Body.dashboardMap [("dashboard".toList, dashboardReq)])) = .ok req →
      (DashboardsService.Create
          { newRequestFn := newRequestFn, doFn := specDo transport decode render fallback }
          log projectID dashboardReq).1 = (none, some (Error.apiError status s))) := by
  have h1 : specDo transport decode render fallback req none = some (Error.apiError status s) := by
    simp only [specDo, hresp, hstatus, if_false, apiErrorMessage_errorsBody]
  have h2 : ∀ t : Target,
      specDo transport decode render fallback req (some t)
        = .error (Error.apiError status s) := by
    intro t
    simp only [specDo, hresp, hstatus, if_false, apiErrorMessage_errorsBody]
  refine ⟨h1, h2, ?_⟩
  intro newRequestFn log projectID dashboardReq hbuild
  simp only [DashboardsService.Create, Client.newRequest, Client.do, hbuild]
  have h3 := h2 .dashboard
  generalize specDo transport decode render fallback req (some .dashboard) = r at h3
  subst h3
  rfl

/-- C10 at the two responses of the tests: 403 with `Access denied` and 422
with the widget message. -/
theorem C10_witness_403_422 :
    (specDo (constantTransport 403 (errorsBody "Access denied".toList)) rejectingDecode
        (fun _ => []) (fun _ b => b)
        { method := "POST".toList, path := "/projects/123/dashboards".toList,
          body := some (Body.dashboardMap [("dashboard".toList, testDashboardRequest)]) } none
      = some (Error.apiError 403 "Access denied".toList)) ∧
    ((DashboardsService.Create
        (cannedClient 422 (errorsBody "/widgets/0: missing required property 'type'".toList))
        [] 123 testDashboardRequest).1
      = (none, some (Error.apiError 422
          "/widgets/0: missing required property 'type'".toList))) :=
  ⟨(C10_errors_string_becomes_api_error
      (constantTransport 403 (errorsBody "Access denied".toList)) rejectingDecode
      (fun _ => []) (fun _ b => b) _ 403 "Access denied".toList (by decide) rfl).1,
   (C10_errors_string_becomes_api_error
      (constantTransport 422 (errorsBody "/widgets/0: missing required property 'type'".toList))
      rejectingDecode (fun _ => []) (fun _ b => b)
      { method := "POST".toList, path := "/projects/123/dashboards".toList,
        body := some (Body.dashboardMap [("dashboard".toList, testDashboardRequest)]) }
      422 "/widgets/0: missing required property 'type'".toList (by decide) rfl).2.2
      buildDescriptor [] 123 testDashboardRequest rfl⟩

/-! ## Every resource method makes one round trip -/

theorem teams_query (accountID : GoString) :
    "/teams".toList ++ '?' :: (Values.Set [] "account_id".toList accountID).Encode
      = "/teams?account_id=".toList ++ QueryEscape accountID := by
  rw [Values.Encode_eq]
  rfl

theorem Operation.run_accountsList {Req : Type} (c : Client Req) (log : Log Req) :
    Operation.run c log (.accountsList) = Operation.roundTrip c log (.accountsList) := by
  simp only [Operation.run, Operation.roundTrip, AccountsService.List, Client.newRequest, Client.do,
    Operation.method, Operation.path, Operation.body, Operation.target,
    Operation.hasResult, Operation.resultNilAfter, DoResult.err, teams_query]
  cases c.newRequestFn "GET".toList
      ("/accounts".toList)
      (none) with
  | error e => simp
  | ok req =>
    simp only
    cases c.doFn req (some .accountListResponse) with
    | error e => simp
    | ok v => simp

theorem Operation.run_accountsGet {Req : Type} (c : Client Req) (log : Log Req)
    (accountID : GoString) :
    Operation.run c log (.accountsGet accountID) = Operation.roundTrip c log (.accountsGet accountID) := by
  simp only [Operation.run, Operation.roundTrip, AccountsService.Get, Client.newRequest, Client.do,
    Operation.method, Operation.path, Operation.body, Operation.target,
    Operation.hasResult, Operation.resultNilAfter, DoResult.err, teams_query]
  cases c.newRequestFn "GET".toList
      ("/accounts/".toList ++ accountID)
      (none) with
  | error e => simp
  | ok req =>
    simp only
    cases c.doFn req (some .account) with
    | error e => simp
    | ok v => simp

theorem Operation.run_accountsListUsers {Req : Type} (c : Client Req) (log : Log Req)
    (accountID : GoString) :
    Operation.run c log (.accountsListUsers accountID) = Operation.roundTrip c log (.accountsListUsers accountID) := by
  simp only [Operation.run, Operation.roundTrip, AccountsService.ListUsers, Client.newRequest, Client.do,
    Operation.method, Operation.path, Operation.body, Operation.target,
    Operation.hasResult, Operation.resultNilAfter, DoResult.err, teams_query]
  cases c.newRequestFn "GET".toList
      ("/accounts/".toList ++ accountID ++ "/users".toList)
      (none) with
  | error e => simp
  | ok req =>
    simp only
    cases c.doFn req (some .accountUsers) with
    | error e => simp
    | ok v => simp

theorem Operation.run_accountsGetUser {Req : Type} (c : Client Req) (log : Log Req)
    (accountID : GoString) (userID : Int) :
    Operation.run c log (.accountsGetUser accountID userID) = Operation.roundTrip c log (.accountsGetUser accountID userID) := by
  simp only [Operation.run, Operation.roundTrip, AccountsService.GetUser, Client.newRequest, Client.do,
    Operation.method, Operation.path, Operation.body, Operation.target,
    Operation.hasResult, Operation.resultNilAfter, DoResult.err, teams_query]
  cases c.newRequestFn "GET".toList
      ("/accounts/".toList ++ accountID ++ "/users/".toList ++ formatInt userID)
      (none) with
  | error e => simp
  | ok req =>
    simp only
    cases c.doFn req (some .accountUser) with
    | error e => simp
    | ok v => simp

theorem Operation.run_accountsUpdateUser {Req : Type} (c : Client Req) (log : Log Req)
    (accountID : GoString) (userID : Int) (role : GoString) :
    Operation.run c log (.accountsUpdateUser accountID userID role) = Operation.roundTrip c log (.accountsUpdateUser accountID userID role) := by
  simp only [Operation.run, Operation.roundTrip, AccountsService.UpdateUser, Client.newRequest, Client.do,
    Operation.method, Operation.path, Operation.body, Operation.target,
    Operation.hasResult, Operation.resultNilAfter, DoResult.err, teams_query]
  cases c.newRequestFn "PUT".toList
      ("/accounts/".toList ++ accountID ++ "/users/".toList ++ formatInt userID)
      (some (.accountUserUpdateRequest { User := { Role := role } })) with
  | error e => simp
  | ok req =>
    simp only
    cases c.doFn req (some .accountUser) with
    | error e => simp
    | ok v => simp

theorem Operation.run_accountsRemoveUser {Req : Type} (c : Client Req) (log : Log Req)
    (accountID : GoString) (userID : Int) :
    Operation.run c log (.accountsRemoveUser accountID userID) = Operation.roundTrip c log (.accountsRemoveUser accountID userID) := by
  simp only [Operation.run, Operation.roundTrip, AccountsService.RemoveUser, Client.newRequest, Client.do,
    Operation.method, Operation.path, Operation.body, Operation.target,
    Operation.hasResult, Operation.resultNilAfter, DoResult.err, teams_query]
  cases c.newRequestFn "DELETE".toList
      ("/accounts/".toList ++ accountID ++ "/users/".toList ++ formatInt userID)
      (none) with
  | error e => simp
  | ok req => simp

theorem Operation.run_accountsListInvitations {Req : Type} (c : Client Req) (log : Log Req)
    (accountID : GoString) :
    Operation.run c log (.accountsListInvitations accountID) = Operation.roundTrip c log (.accountsListInvitations accountID) := by
  simp only [Operation.run, Operation.roundTrip, AccountsService.ListInvitations, Client.newRequest, Client.do,
    Operation.method, Operation.path, Operation.body, Operation.target,
    Operation.hasResult, Operation.resultNilAfter, DoResult.err, teams_query]
  cases c.newRequestFn "GET".toList
      ("/accounts/".toList ++ accountID ++ "/invitations".toList)
      (none) with
  | error e => simp
  | ok req =>
    simp only
    cases c.doFn req (some .accountInvitations) with
    | error e => simp
    | ok v => simp

theorem Operation.run_accountsGetInvitation {Req : Type} (c : Client Req) (log : Log Req)
    (accountID : GoString) (invitationID : Int) :
    Operation.run c log (.accountsGetInvitation accountID invitationID) = Operation.roundTrip c log (.accountsGetInvitation accountID invitationID) := by
  simp only [Operation.run, Operation.roundTrip, AccountsService.GetInvitation, Client.newRequest, Client.do,
    Operation.method, Operation.path, Operation.body, Operation.target,
    Operation.hasResult, Operation.resultNilAfter, DoResult.err, teams_query]
  cases c.newRequestFn "GET".toList
      ("/accounts/".toList ++ accountID ++ "/invitations/".toList ++ formatInt invitationID)
      (none) with
  | error e => simp
  | ok req =>
    simp only
    cases c.doFn req (some .accountInvitation) with
    | error e => simp
    | ok v => simp

theorem Operation.run_accountsCreateInvitation {Req : Type} (c : Client Req) (log : Log Req)
    (accountID : GoString) (params : AccountInvitationParams) :
    Operation.run c log (.accountsCreateInvitation accountID params) = Operation.roundTrip c log (.accountsCreateInvitation accountID params) := by
  simp only [Operation.run, Operation.roundTrip, AccountsService.CreateInvitation, Client.newRequest, Client.do,
    Operation.method, Operation.path, Operation.body, Operation.target,
    Operation.hasResult, Operation.resultNilAfter, DoResult.err, teams_query]
  cases c.newRequestFn "POST".toList
      ("/accounts/".toList ++ accountID ++ "/invitations".toList)
      (some (.accountInvitationRequest { Invitation := params })) with
  | error e => simp
  | ok req =>
    simp only
    cases c.doFn req (some .accountInvitation) with
    | error e => simp
    | ok v => simp

theorem Operation.run_accountsUpdateInvitation {Req : Type} (c : Client Req) (log : Log Req)
    (accountID : GoString) (invitationID : Int) (params : AccountInvitationParams) :
    Operation.run c log (.accountsUpdateInvitation accountID invitationID params) = Operation.roundTrip c log (.accountsUpdateInvitation accountID invitationID params) := by
  simp only [Operation.run, Operation.roundTrip, AccountsService.UpdateInvitation, Client.newRequest, Client.do,
    Operation.method, Operation.path, Operation.body, Operation.target,
    Operation.hasResult, Operation.resultNilAfter, DoResult.err, teams_query]
  cases c.newRequestFn "PUT".toList
      ("/accounts/".toList ++ accountID ++ "/invitations/".toList ++ formatInt invitationID)
      (some (.accountInvitationRequest { Invitation := params })) with
  | error e => simp
  | ok req =>
    simp only
    cases c.doFn req (some .accountInvitation) with
    | error e => simp
    | ok v => simp

theorem Operation.run_accountsDeleteInvitation {Req : Type} (c : Client Req) (log : Log Req)
    (accountID : GoString) (invitationID : Int) :
    Operation.run c log (.accountsDeleteInvitation accountID invitationID) = Operation.roundTrip c log (.accountsDeleteInvitation accountID invitationID) := by
  simp only [Operation.run, Operation.roundTrip, AccountsService.DeleteInvitation, Client.newRequest, Client.do,
    Operation.method, Operation.path, Operation.body, Operation.target,
    Operation.hasResult, Operation.resultNilAfter, DoResult.err, teams_query]
  cases c.newRequestFn "DELETE".toList
      ("/accounts/".toList ++ accountID ++ "/invitations/".toList ++ formatInt invitationID)
      (none) with
  | error e => simp
  | ok req => simp

theorem Operation.run_checkInsList {Req : Type} (c : Client Req) (log : Log Req)
    (projectID : Int) :
    Operation.run c log (.checkInsList projectID) = Operation.roundTrip c log (.checkInsList projectID) := by
  simp only [Operation.run, Operation.roundTrip, CheckInsService.List, Client.newRequest, Client.do,
    Operation.method, Operation.path, Operation.body, Operation.target,
    Operation.hasResult, Operation.resultNilAfter, DoResult.err, teams_query]
  cases c.newRequestFn "GET".toList
      ("/projects/".toList ++ formatInt projectID ++ "/check_ins".toList)
      (none) with
  | error e => simp
  | ok req =>
    simp only
    cases c.doFn req (some .checkInListResponse) with
    | error e => simp
    | ok v => simp

theorem Operation.run_checkInsGet {Req : Type} (c : Client Req) (log : Log Req)
    (projectID : Int) (checkInID : Int) :
    Operation.run c log (.checkInsGet projectID checkInID) = Operation.roundTrip c log (.checkInsGet projectID checkInID) := by
  simp only [Operation.run, Operation.roundTrip, CheckInsService.Get, Client.newRequest, Client.do,
    Operation.method, Operation.path, Operation.body, Operation.target,
    Operation.hasResult, Operation.resultNilAfter, DoResult.err, teams_query]
  cases c.newRequestFn "GET".toList
      ("/projects/".toList ++ formatInt projectID ++ "/check_ins/".toList ++ formatInt checkInID)
      (none) with
  | error e => simp
  | ok req =>
    simp only
    cases c.doFn req (some .checkIn) with
    | error e => simp
    | ok v => simp

theorem Operation.run_checkInsCreate {Req : Type} (c : Client Req) (log : Log Req)
    (projectID : Int) (params : CheckInParams) :
    Operation.run c log (.checkInsCreate projectID params) = Operation.roundTrip c log (.checkInsCreate projectID params) := by
  simp only [Operation.run, Operation.roundTrip, CheckInsService.Create, Client.newRequest, Client.do,
    Operation.method, Operation.path, Operation.body, Operation.target,
    Operation.hasResult, Operation.resultNilAfter, DoResult.err, teams_query]
  cases c.newRequestFn "POST".toList
      ("/projects/".toList ++ formatInt projectID ++ "/check_ins".toList)
      (some (.checkInRequest { CheckIn := params })) with
  | error e => simp
  | ok req =>
    simp only
    cases c.doFn req (some .checkIn) with
    | error e => simp
    | ok v => simp

theorem Operation.run_checkInsUpdate {Req : Type} (c : Client Req) (log : Log Req)
    (projectID : Int) (checkInID : Int) (params : CheckInParams) :
    Operation.run c log (.checkInsUpdate projectID checkInID params) = Operation.roundTrip c log (.checkInsUpdate projectID checkInID params) := by
  simp only [Operation.run, Operation.roundTrip, CheckInsService.Update, Client.newRequest, Client.do,
    Operation.method, Operation.path, Operation.body, Operation.target,
    Operation.hasResult, Operation.resultNilAfter, DoResult.err, teams_query]
  cases c.newRequestFn "PUT".toList
      ("/projects/".toList ++ formatInt projectID ++ "/check_ins/".toList ++ formatInt checkInID)
      (some (.checkInRequest { CheckIn := params })) with
  | error e => simp
  | ok req =>
    simp only
    cases c.doFn req (some .checkIn) with
    | error e => simp
    | ok v => simp

theorem Operation.run_checkInsBulkUpdate {Req : Type} (c : Client Req) (log : Log Req)
    (projectID : Int) (checkIns : Slice CheckInParams) :
    Operation.run c log (.checkInsBulkUpdate projectID checkIns) = Operation.roundTrip c log (.checkInsBulkUpdate projectID checkIns) := by
  simp only [Operation.run, Operation.roundTrip, CheckInsService.BulkUpdate, Client.newRequest, Client.do,
    Operation.method, Operation.path, Operation.body, Operation.target,
    Operation.hasResult, Operation.resultNilAfter, DoResult.err, teams_query]
  cases c.newRequestFn "PUT".toList
      ("/projects/".toList ++ formatInt projectID ++ "/check_ins".toList)
      (some (.checkInBulkRequest { CheckIns := checkIns })) with
  | error e => simp
  | ok req =>
    simp only
    cases c.doFn req (some .checkInBulkUpdateResponse) with
    | error e => simp
    | ok v => simp

theorem Operation.run_checkInsDelete {Req : Type} (c : Client Req) (log : Log Req)
    (projectID : Int) (checkInID : Int) :
    Operation.run c log (.checkInsDelete projectID checkInID) = Operation.roundTrip c log (.checkInsDelete projectID checkInID) := by
  simp only [Operation.run, Operation.roundTrip, CheckInsService.Delete, Client.newRequest, Client.do,
    Operation.method, Operation.path, Operation.body, Operation.target,
    Operation.hasResult, Operation.resultNilAfter, DoResult.err, teams_query]
  cases c.newRequestFn "DELETE".toList
      ("/projects/".toList ++ formatInt projectID ++ "/check_ins/".toList ++ formatInt checkInID)
      (none) with
  | error e => simp
  | ok req => simp

theorem Operation.run_commentsList {Req : Type} (c : Client Req) (log : Log Req)
    (projectID : Int) (faultID : Int) :
    Operation.run c log (.commentsList projectID faultID) = Operation.roundTrip c log (.commentsList projectID faultID) := by
  simp only [Operation.run, Operation.roundTrip, CommentsService.List, Client.newRequest, Client.do,
    Operation.method, Operation.path, Operation.body, Operation.target,
    Operation.hasResult, Operation.resultNilAfter, DoResult.err, teams_query]
  cases c.newRequestFn "GET".toList
      ("/projects/".toList ++ formatInt projectID ++ "/faults/".toList ++ formatInt faultID ++
            "/comments".toList)
      (none) with
  | error e => simp
  | ok req =>
    simp only
    cases c.doFn req (some .commentListResponse) with
    | error e => simp
    | ok v => simp

theorem Operation.run_commentsGet {Req : Type} (c : Client Req) (log : Log Req)
    (projectID : Int) (faultID : Int) (commentID : Int) :
    Operation.run c log (.commentsGet projectID faultID commentID) = Operation.roundTrip c log (.commentsGet projectID faultID commentID) := by
  simp only [Operation.run, Operation.roundTrip, CommentsService.Get, Client.newRequest, Client.do,
    Operation.method, Operation.path, Operation.body, Operation.target,
    Operation.hasResult, Operation.resultNilAfter, DoResult.err, teams_query]
  cases c.newRequestFn "GET".toList
      ("/projects/".toList ++ formatInt projectID ++ "/faults/".toList ++ formatInt faultID ++
            "/comments/".toList ++ formatInt commentID)
      (none) with
  | error e => simp
  | ok req =>
    simp only
    cases c.doFn req (some .comment) with
    | error e => simp
    | ok v => simp

theorem Operation.run_commentsCreate {Req : Type} (c : Client Req) (log : Log Req)
    (projectID : Int) (faultID : Int) (body : GoString) :
    Operation.run c log (.commentsCreate projectID faultID body) = Operation.roundTrip c log (.commentsCreate projectID faultID body) := by
  simp only [Operation.run, Operation.roundTrip, CommentsService.Create, Client.newRequest, Client.do,
    Operation.method, Operation.path, Operation.body, Operation.target,
    Operation.hasResult, Operation.resultNilAfter, DoResult.err, teams_query]
  cases c.newRequestFn "POST".toList
      ("/projects/".toList ++ formatInt projectID ++ "/faults/".toList ++ formatInt faultID ++
            "/comments".toList)
      (some (.commentRequest { Comment := { Body := body } })) with
  | error e => simp
  | ok req =>
    simp only
    cases c.doFn req (some .comment) with
    | error e => simp
    | ok v => simp

theorem Operation.run_commentsUpdate {Req : Type} (c : Client Req) (log : Log Req)
    (projectID : Int) (faultID : Int) (commentID : Int) (body : GoString) :
    Operation.run c log (.commentsUpdate projectID faultID commentID body) = Operation.roundTrip c log (.commentsUpdate projectID faultID commentID body) := by
  simp only [Operation.run, Operation.roundTrip, CommentsService.Update, Client.newRequest, Client.do,
    Operation.method, Operation.path, Operation.body, Operation.target,
    Operation.hasResult, Operation.resultNilAfter, DoResult.err, teams_query]
  cases c.newRequestFn "PUT".toList
      ("/projects/".toList ++ formatInt projectID ++ "/faults/".toList ++ formatInt faultID ++
            "/comments/".toList ++ formatInt commentID)
      (some (.commentRequest { Comment := { Body := body } })) with
  | error e => simp
  | ok req => simp

theorem Operation.run_commentsDelete {Req : Type} (c : Client Req) (log : Log Req)
    (projectID : Int) (faultID : Int) (commentID : Int) :
    Operation.run c log (.commentsDelete projectID faultID commentID) = Operation.roundTrip c log (.commentsDelete projectID faultID commentID) := by
  simp only [Operation.run, Operation.roundTrip, CommentsService.Delete, Client.newRequest, Client.do,
    Operation.method, Operation.path, Operation.body, Operation.target,
    Operation.hasResult, Operation.resultNilAfter, DoResult.err, teams_query]
  cases c.newRequestFn "DELETE".toList
      ("/projects/".toList ++ formatInt projectID ++ "/faults/".toList ++ formatInt faultID ++
            "/comments/".toList ++ formatInt commentID)
      (none) with
  | error e => simp
  | ok req => simp

theorem Operation.run_dashboardsList {Req : Type} (c : Client Req) (log : Log Req)
    (projectID : Int) :
    Operation.run c log (.dashboardsList projectID) = Operation.roundTrip c log (.dashboardsList projectID) := by
  simp only [Operation.run, Operation.roundTrip, DashboardsService.List, Client.newRequest, Client.do,
    Operation.method, Operation.path, Operation.body, Operation.target,
    Operation.hasResult, Operation.resultNilAfter, DoResult.err, teams_query]
  cases c.newRequestFn "GET".toList
      ("/projects/".toList ++ formatInt projectID ++ "/dashboards".toList)
      (none) with
  | error e => simp
  | ok req =>
    simp only
    cases c.doFn req (some .dashboardListResponse) with
    | error e => simp
    | ok v => simp

theorem Operation.run_dashboardsGet {Req : Type} (c : Client Req) (log : Log Req)
    (projectID : Int) (dashboardID : GoString) :
    Operation.run c log (.dashboardsGet projectID dashboardID) = Operation.roundTrip c log (.dashboardsGet projectID dashboardID) := by
  simp only [Operation.run, Operation.roundTrip, DashboardsService.Get, Client.newRequest, Client.do,
    Operation.method, Operation.path, Operation.body, Operation.target,
    Operation.hasResult, Operation.resultNilAfter, DoResult.err, teams_query]
  cases c.newRequestFn "GET".toList
      ("/projects/".toList ++ formatInt projectID ++ "/dashboards/".toList ++ dashboardID)
      (none) with
  | error e => simp
  | ok req =>
    simp only
    cases c.doFn req (some .dashboard) with
    | error e => simp
    | ok v => simp

theorem Operation.run_dashboardsCreate {Req : Type} (c : Client Req) (log : Log Req)
    (projectID : Int) (dashboardReq : DashboardRequest) :
    Operation.run c log (.dashboardsCreate projectID dashboardReq) = Operation.roundTrip c log (.dashboardsCreate projectID dashboardReq) := by
  simp only [Operation.run, Operation.roundTrip, DashboardsService.Create, Client.newRequest, Client.do,
    Operation.method, Operation.path, Operation.body, Operation.target,
    Operation.hasResult, Operation.resultNilAfter, DoResult.err, teams_query]
  cases c.newRequestFn "POST".toList
      ("/projects/".toList ++ formatInt projectID ++ "/dashboards".toList)
      (some (.dashboardMap [("dashboard".toList, dashboardReq)])) with
  | error e => simp
  | ok req =>
    simp only
    cases c.doFn req (some .dashboard) with
    | error e => simp
    | ok v => simp

theorem Operation.run_dashboardsUpdate {Req : Type} (c : Client Req) (log : Log Req)
    (projectID : Int) (dashboardID : GoString) (dashboardReq : DashboardRequest) :
    Operation.run c log (.dashboardsUpdate projectID dashboardID dashboardReq) = Operation.roundTrip c log (.dashboardsUpdate projectID dashboardID dashboardReq) := by
  simp only [Operation.run, Operation.roundTrip, DashboardsService.Update, Client.newRequest, Client.do,
    Operation.method, Operation.path, Operation.body, Operation.target,
    Operation.hasResult, Operation.resultNilAfter, DoResult.err, teams_query]
  cases c.newRequestFn "PUT".toList
      ("/projects/".toList ++ formatInt projectID ++ "/dashboards/".toList ++ dashboardID)
      (some (.dashboardMap [("dashboard".toList, dashboardReq)])) with
  | error e => simp
  | ok req =>
    simp only
    cases c.doFn req none with
    | none => simp
    | some e => simp

theorem Operation.run_dashboardsDelete {Req : Type} (c : Client Req) (log : Log Req)
    (projectID : Int) (dashboardID : GoString) :
    Operation.run c log (.dashboardsDelete projectID dashboardID) = Operation.roundTrip c log (.dashboardsDelete projectID dashboardID) := by
  simp only [Operation.run, Operation.roundTrip, DashboardsService.Delete, Client.newRequest, Client.do,
    Operation.method, Operation.path, Operation.body, Operation.target,
    Operation.hasResult, Operation.resultNilAfter, DoResult.err, teams_query]
  cases c.newRequestFn "DELETE".toList
      ("/projects/".toList ++ formatInt projectID ++ "/dashboards/".toList ++ dashboardID)
      (none) with
  | error e => simp
  | ok req =>
    simp only
    cases c.doFn req none with
    | none => simp
    | some e => simp

theorem Operation.run_deploymentsList {Req : Type} (c : Client Req) (log : Log Req)
    (projectID : Int) (options : DeploymentListOptions) :
    Operation.run c log (.deploymentsList projectID options) = Operation.roundTrip c log (.deploymentsList projectID options) := by
  simp only [Operation.run, Operation.roundTrip, DeploymentsService.List, Client.newRequest, Client.do,
    Operation.method, Operation.path, Operation.body, Operation.target,
    Operation.hasResult, Operation.resultNilAfter, DoResult.err, teams_query]
  cases c.newRequestFn "GET".toList
      (DeploymentsService.listPath projectID options)
      (none) with
  | error e => simp
  | ok req =>
    simp only
    cases c.doFn req (some .deploymentListResponse) with
    | error e => simp
    | ok v => simp

theorem Operation.run_deploymentsGet {Req : Type} (c : Client Req) (log : Log Req)
    (projectID : Int) (deploymentID : Int) :
    Operation.run c log (.deploymentsGet projectID deploymentID) = Operation.roundTrip c log (.deploymentsGet projectID deploymentID) := by
  simp only [Operation.run, Operation.roundTrip, DeploymentsService.Get, Client.newRequest, Client.do,
    Operation.method, Operation.path, Operation.body, Operation.target,
    Operation.hasResult, Operation.resultNilAfter, DoResult.err, teams_query]
  cases c.newRequestFn "GET".toList
      ("/projects/".toList ++ formatInt projectID ++ "/deploys/".toList ++ formatInt deploymentID)
      (none) with
  | error e => simp
  | ok req =>
    simp only
    cases c.doFn req (some .deployment) with
    | error e => simp
    | ok v => simp

theorem Operation.run_deploymentsDelete {Req : Type} (c : Client Req) (log : Log Req)
    (projectID : Int) (deploymentID : Int) :
    Operation.run c log (.deploymentsDelete projectID deploymentID) = Operation.roundTrip c log (.deploymentsDelete projectID deploymentID) := by
  simp only [Operation.run, Operation.roundTrip, DeploymentsService.Delete, Client.newRequest, Client.do,
    Operation.method, Operation.path, Operation.body, Operation.target,
    Operation.hasResult, Operation.resultNilAfter, DoResult.err, teams_query]
  cases c.newRequestFn "DELETE".toList
      ("/projects/".toList ++ formatInt projectID ++ "/deploys/".toList ++ formatInt deploymentID)
      (none) with
  | error e => simp
  | ok req => simp

theorem Operation.run_environmentsList {Req : Type} (c : Client Req) (log : Log Req)
    (projectID : Int) :
    Operation.run c log (.environmentsList projectID) = Operation.roundTrip c log (.environmentsList projectID) := by
  simp only [Operation.run, Operation.roundTrip, EnvironmentsService.List, Client.newRequest, Client.do,
    Operation.method, Operation.path, Operation.body, Operation.target,
    Operation.hasResult, Operation.resultNilAfter, DoResult.err, teams_query]
  cases c.newRequestFn "GET".toList
      ("/projects/".toList ++ formatInt projectID ++ "/environments".toList)
      (none) with
  | error e => simp
  | ok req =>
    simp only
    cases c.doFn req (some .environmentListResponse) with
    | error e => simp
    | ok v => simp

theorem Operation.run_environmentsGet {Req : Type} (c : Client Req) (log : Log Req)
    (projectID : Int) (environmentID : Int) :
    Operation.run c log (.environmentsGet projectID environmentID) = Operation.roundTrip c log (.environmentsGet projectID environmentID) := by
  simp only [Operation.run, Operation.roundTrip, EnvironmentsService.Get, Client.newRequest, Client.do,
    Operation.method, Operation.path, Operation.body, Operation.target,
    Operation.hasResult, Operation.resultNilAfter, DoResult.err, teams_query]
  cases c.newRequestFn "GET".toList
      ("/projects/".toList ++ formatInt projectID ++ "/environments/".toList ++
            formatInt environmentID)
      (none) with
  | error e => simp
  | ok req =>
    simp only
    cases c.doFn req (some .environment) with
    | error e => simp
    | ok v => simp

theorem Operation.run_environmentsCreate {Req : Type} (c : Client Req) (log : Log Req)
    (projectID : Int) (params : EnvironmentParams) :
    Operation.run c log (.environmentsCreate projectID params) = Operation.roundTrip c log (.environmentsCreate projectID params) := by
  simp only [Operation.run, Operation.roundTrip, EnvironmentsService.Create, Client.newRequest, Client.do,
    Operation.method, Operation.path, Operation.body, Operation.target,
    Operation.hasResult, Operation.resultNilAfter, DoResult.err, teams_query]
  cases c.newRequestFn "POST".toList
      ("/projects/".toList ++ formatInt projectID ++ "/environments".toList)
      (some (.environmentRequest { Environment := params })) with
  | error e => simp
  | ok req =>
    simp only
    cases c.doFn req (some .environment) with
    | error e => simp
    | ok v => simp

theorem Operation.run_environmentsUpdate {Req : Type} (c : Client Req) (log : Log Req)
    (projectID : Int) (environmentID : Int) (params : EnvironmentParams) :
    Operation.run c log (.environmentsUpdate projectID environmentID params) = Operation.roundTrip c log (.environmentsUpdate projectID environmentID params) := by
  simp only [Operation.run, Operation.roundTrip, EnvironmentsService.Update, Client.newRequest, Client.do,
    Operation.method, Operation.path, Operation.body, Operation.target,
    Operation.hasResult, Operation.resultNilAfter, DoResult.err, teams_query]
  cases c.newRequestFn "PUT".toList
      ("/projects/".toList ++ formatInt projectID ++ "/environments/".toList ++
            formatInt environmentID)
      (some (.environmentRequest { Environment := params })) with
  | error e => simp
  | ok req => simp

theorem Operation.run_environmentsDelete {Req : Type} (c : Client Req) (log : Log Req)
    (projectID : Int) (environmentID : Int) :
    Operation.run c log (.environmentsDelete projectID environmentID) = Operation.roundTrip c log (.environmentsDelete projectID environmentID) := by
  simp only [Operation.run, Operation.roundTrip, EnvironmentsService.Delete, Client.newRequest, Client.do,
    Operation.method, Operation.path, Operation.body, Operation.target,
    Operation.hasResult, Operation.resultNilAfter, DoResult.err, teams_query]
  cases c.newRequestFn "DELETE".toList
      ("/projects/".toList ++ formatInt projectID ++ "/environments/".toList ++
            formatInt environmentID)
      (none) with
  | error e => simp
  | ok req => simp

theorem Operation.run_statusPagesList {Req : Type} (c : Client Req) (log : Log Req)
    (accountID : Int) :
    Operation.run c log (.statusPagesList accountID) = Operation.roundTrip c log (.statusPagesList accountID) := by
  simp only [Operation.run, Operation.roundTrip, StatusPagesService.List, Client.newRequest, Client.do,
    Operation.method, Operation.path, Operation.body, Operation.target,
    Operation.hasResult, Operation.resultNilAfter, DoResult.err, teams_query]
  cases c.newRequestFn "GET".toList
      ("/accounts/".toList ++ formatInt accountID ++ "/status_pages".toList)
      (none) with
  | error e => simp
  | ok req =>
    simp only
    cases c.doFn req (some .statusPageListResponse) with
    | error e => simp
    | ok v => simp

theorem Operation.run_statusPagesGet {Req : Type} (c : Client Req) (log : Log Req)
    (accountID : Int) (statusPageID : Int) :
    Operation.run c log (.statusPagesGet accountID statusPageID) = Operation.roundTrip c log (.statusPagesGet accountID statusPageID) := by
  simp only [Operation.run, Operation.roundTrip, StatusPagesService.Get, Client.newRequest, Client.do,
    Operation.method, Operation.path, Operation.body, Operation.target,
    Operation.hasResult, Operation.resultNilAfter, DoResult.err, teams_query]
  cases c.newRequestFn "GET".toList
      ("/accounts/".toList ++ formatInt accountID ++ "/status_pages/".toList ++
            formatInt statusPageID)
      (none) with
  | error e => simp
  | ok req =>
    simp only
    cases c.doFn req (some .statusPage) with
    | error e => simp
    | ok v => simp

theorem Operation.run_statusPagesCreate {Req : Type} (c : Client Req) (log : Log Req)
    (accountID : Int) (params : StatusPageParams) :
    Operation.run c log (.statusPagesCreate accountID params) = Operation.roundTrip c log (.statusPagesCreate accountID params) := by
  simp only [Operation.run, Operation.roundTrip, StatusPagesService.Create, Client.newRequest, Client.do,
    Operation.method, Operation.path, Operation.body, Operation.target,
    Operation.hasResult, Operation.resultNilAfter, DoResult.err, teams_query]
  cases c.newRequestFn "POST".toList
      ("/accounts/".toList ++ formatInt accountID ++ "/status_pages".toList)
      (some (.statusPageRequest { StatusPage := params })) with
  | error e => simp
  | ok req =>
    simp only
    cases c.doFn req (some .statusPage) with
    | error e => simp
    | ok v => simp

theorem Operation.run_statusPagesUpdate {Req : Type} (c : Client Req) (log : Log Req)
    (accountID : Int) (statusPageID : Int) (params : StatusPageParams) :
    Operation.run c log (.statusPagesUpdate accountID statusPageID params) = Operation.roundTrip c log (.statusPagesUpdate accountID statusPageID params) := by
  simp only [Operation.run, Operation.roundTrip, StatusPagesService.Update, Client.newRequest, Client.do,
    Operation.method, Operation.path, Operation.body, Operation.target,
    Operation.hasResult, Operation.resultNilAfter, DoResult.err, teams_query]
  cases c.newRequestFn "POST".toList
      ("/accounts/".toList ++ formatInt accountID ++ "/status_pages/".toList ++
            formatInt statusPageID)
      (some (.statusPageRequest { StatusPage := params })) with
  | error e => simp
  | ok req => simp

theorem Operation.run_statusPagesDelete {Req : Type} (c : Client Req) (log : Log Req)
    (accountID : Int) (statusPageID : Int) :
    Operation.run c log (.statusPagesDelete accountID statusPageID) = Operation.roundTrip c log (.statusPagesDelete accountID statusPageID) := by
  simp only [Operation.run, Operation.roundTrip, StatusPagesService.Delete, Client.newRequest, Client.do,
    Operation.method, Operation.path, Operation.body, Operation.target,
    Operation.hasResult, Operation.resultNilAfter, DoResult.err, teams_query]
  cases c.newRequestFn "DELETE".toList
      ("/accounts/".toList ++ formatInt accountID ++ "/status_pages/".toList ++
            formatInt statusPageID)
      (none) with
  | error e => simp
  | ok req => simp

theorem Operation.run_teamsList {Req : Type} (c : Client Req) (log : Log Req)
    (accountID : GoString) :
    Operation.run c log (.teamsList accountID) = Operation.roundTrip c log (.teamsList accountID) := by
  simp only [Operation.run, Operation.roundTrip, TeamsService.List, Client.newRequest, Client.do,
    Operation.method, Operation.path, Operation.body, Operation.target,
    Operation.hasResult, Operation.resultNilAfter, DoResult.err, teams_query]
  cases c.newRequestFn "GET".toList
      ("/teams?account_id=".toList ++ QueryEscape accountID)
      (none) with
  | error e => simp
  | ok req =>
    simp only
    cases c.doFn req (some .teamListResponse) with
    | error e => simp
    | ok v => simp

theorem Operation.run_teamsGet {Req : Type} (c : Client Req) (log : Log Req) (teamID : Int) :
    Operation.run c log (.teamsGet teamID) = Operation.roundTrip c log (.teamsGet teamID) := by
  simp only [Operation.run, Operation.roundTrip, TeamsService.Get, Client.newRequest, Client.do,
    Operation.method, Operation.path, Operation.body, Operation.target,
    Operation.hasResult, Operation.resultNilAfter, DoResult.err, teams_query]
  cases c.newRequestFn "GET".toList
      ("/teams/".toList ++ formatInt teamID)
      (none) with
  | error e => simp
  | ok req =>
    simp only
    cases c.doFn req (some .team) with
    | error e => simp
    | ok v => simp

theorem Operation.run_teamsCreate {Req : Type} (c : Client Req) (log : Log Req)
    (accountID : GoString) (name : GoString) :
    Operation.run c log (.teamsCreate accountID name) = Operation.roundTrip c log (.teamsCreate accountID name) := by
  simp only [Operation.run, Operation.roundTrip, TeamsService.Create, Client.newRequest, Client.do,
    Operation.method, Operation.path, Operation.body, Operation.target,
    Operation.hasResult, Operation.resultNilAfter, DoResult.err, teams_query]
  cases c.newRequestFn "POST".toList
      ("/teams?account_id=".toList ++ QueryEscape accountID)
      (some (.teamRequest { Team := { Name := name } })) with
  | error e => simp
  | ok req =>
    simp only
    cases c.doFn req (some .team) with
    | error e => simp
    | ok v => simp

theorem Operation.run_teamsUpdate {Req : Type} (c : Client Req) (log : Log Req) (teamID : Int)
    (name : GoString) :
    Operation.run c log (.teamsUpdate teamID name) = Operation.roundTrip c log (.teamsUpdate teamID name) := by
  simp only [Operation.run, Operation.roundTrip, TeamsService.Update, Client.newRequest, Client.do,
    Operation.method, Operation.path, Operation.body, Operation.target,
    Operation.hasResult, Operation.resultNilAfter, DoResult.err, teams_query]
  cases c.newRequestFn "PUT".toList
      ("/teams/".toList ++ formatInt teamID)
      (some (.teamRequest { Team := { Name := name } })) with
  | error e => simp
  | ok req => simp

theorem Operation.run_teamsDelete {Req : Type} (c : Client Req) (log : Log Req) (teamID : Int) :
    Operation.run c log (.teamsDelete teamID) = Operation.roundTrip c log (.teamsDelete teamID) := by
  simp only [Operation.run, Operation.roundTrip, TeamsService.Delete, Client.newRequest, Client.do,
    Operation.method, Operation.path, Operation.body, Operation.target,
    Operation.hasResult, Operation.resultNilAfter, DoResult.err, teams_query]
  cases c.newRequestFn "DELETE".toList
      ("/teams/".toList ++ formatInt teamID)
      (none) with
  | error e => simp
  | ok req => simp

theorem Operation.run_teamsListMembers {Req : Type} (c : Client Req) (log : Log Req)
    (teamID : Int) :
    Operation.run c log (.teamsListMembers teamID) = Operation.roundTrip c log (.teamsListMembers teamID) := by
  simp only [Operation.run, Operation.roundTrip, TeamsService.ListMembers, Client.newRequest, Client.do,
    Operation.method, Operation.path, Operation.body, Operation.target,
    Operation.hasResult, Operation.resultNilAfter, DoResult.err, teams_query]
  cases c.newRequestFn "GET".toList
      ("/teams/".toList ++ formatInt teamID ++ "/team_members".toList)
      (none) with
  | error e => simp
  | ok req =>
    simp only
    cases c.doFn req (some .teamMemberListResponse) with
    | error e => simp
    | ok v => simp

theorem Operation.run_teamsUpdateMember {Req : Type} (c : Client Req) (log : Log Req)
    (teamID : Int) (memberID : Int) (admin : Bool) :
    Operation.run c log (.teamsUpdateMember teamID memberID admin) = Operation.roundTrip c log (.teamsUpdateMember teamID memberID admin) := by
  simp only [Operation.run, Operation.roundTrip, TeamsService.UpdateMember, Client.newRequest, Client.do,
    Operation.method, Operation.path, Operation.body, Operation.target,
    Operation.hasResult, Operation.resultNilAfter, DoResult.err, teams_query]
  cases c.newRequestFn "PUT".toList
      ("/teams/".toList ++ formatInt teamID ++ "/team_members/".toList ++ formatInt memberID)
      (some (.teamMemberUpdateRequest { TeamMember := { Admin := admin } })) with
  | error e => simp
  | ok req => simp

theorem Operation.run_teamsRemoveMember {Req : Type} (c : Client Req) (log : Log Req)
    (teamID : Int) (memberID : Int) :
    Operation.run c log (.teamsRemoveMember teamID memberID) = Operation.roundTrip c log (.teamsRemoveMember teamID memberID) := by
  simp only [Operation.run, Operation.roundTrip, TeamsService.RemoveMember, Client.newRequest, Client.do,
    Operation.method, Operation.path, Operation.body, Operation.target,
    Operation.hasResult, Operation.resultNilAfter, DoResult.err, teams_query]
  cases c.newRequestFn "DELETE".toList
      ("/teams/".toList ++ formatInt teamID ++ "/team_members/".toList ++ formatInt memberID)
      (none) with
  | error e => simp
  | ok req => simp

theorem Operation.run_teamsListInvitations {Req : Type} (c : Client Req) (log : Log Req)
    (teamID : Int) :
    Operation.run c log (.teamsListInvitations teamID) = Operation.roundTrip c log (.teamsListInvitations teamID) := by
  simp only [Operation.run, Operation.roundTrip, TeamsService.ListInvitations, Client.newRequest, Client.do,
    Operation.method, Operation.path, Operation.body, Operation.target,
    Operation.hasResult, Operation.resultNilAfter, DoResult.err, teams_query]
  cases c.newRequestFn "GET".toList
      ("/teams/".toList ++ formatInt teamID ++ "/team_invitations".toList)
      (none) with
  | error e => simp
  | ok req =>
    simp only
    cases c.doFn req (some .teamInvitationListResponse) with
    | error e => simp
    | ok v => simp

theorem Operation.run_teamsGetInvitation {Req : Type} (c : Client Req) (log : Log Req)
    (teamID : Int) (invitationID : Int) :
    Operation.run c log (.teamsGetInvitation teamID invitationID) = Operation.roundTrip c log (.teamsGetInvitation teamID invitationID) := by
  simp only [Operation.run, Operation.roundTrip, TeamsService.GetInvitation, Client.newRequest, Client.do,
    Operation.method, Operation.path, Operation.body, Operation.target,
    Operation.hasResult, Operation.resultNilAfter, DoResult.err, teams_query]
  cases c.newRequestFn "GET".toList
      ("/teams/".toList ++ formatInt teamID ++ "/team_invitations/".toList ++
            formatInt invitationID)
      (none) with
  | error e => simp
  | ok req =>
    simp only
    cases c.doFn req (some .teamInvitation) with
    | error e => simp
    | ok v => simp

theorem Operation.run_teamsCreateInvitation {Req : Type} (c : Client Req) (log : Log Req)
    (teamID : Int) (params : TeamInvitationParams) :
    Operation.run c log (.teamsCreateInvitation teamID params) = Operation.roundTrip c log (.teamsCreateInvitation teamID params) := by
  simp only [Operation.run, Operation.roundTrip, TeamsService.CreateInvitation, Client.newRequest, Client.do,
    Operation.method, Operation.path, Operation.body, Operation.target,
    Operation.hasResult, Operation.resultNilAfter, DoResult.err, teams_query]
  cases c.newRequestFn "POST".toList
      ("/teams/".toList ++ formatInt teamID ++ "/team_invitations".toList)
      (some (.teamInvitationRequest { TeamInvitation := params })) with
  | error e => simp
  | ok req =>
    simp only
    cases c.doFn req (some .teamInvitation) with
    | error e => simp
    | ok v => simp

theorem Operation.run_teamsUpdateInvitation {Req : Type} (c : Client Req) (log : Log Req)
    (teamID : Int) (invitationID : Int) (params : TeamInvitationParams) :
    Operation.run c log (.teamsUpdateInvitation teamID invitationID params) = Operation.roundTrip c log (.teamsUpdateInvitation teamID invitationID params) := by
  simp only [Operation.run, Operation.roundTrip, TeamsService.UpdateInvitation, Client.newRequest, Client.do,
    Operation.method, Operation.path, Operation.body, Operation.target,
    Operation.hasResult, Operation.resultNilAfter, DoResult.err, teams_query]
  cases c.newRequestFn "PUT".toList
      ("/teams/".toList ++ formatInt teamID ++ "/team_invitations/".toList ++
            formatInt invitationID)
      (some (.teamInvitationRequest { TeamInvitation := params })) with
  | error e => simp
  | ok req => simp

theorem Operation.run_teamsDeleteInvitation {Req : Type} (c : Client Req) (log : Log Req)
    (teamID : Int) (invitationID : Int) :
    Operation.run c log (.teamsDeleteInvitation teamID invitationID) = Operation.roundTrip c log (.teamsDeleteInvitation teamID invitationID) := by
  simp only [Operation.run, Operation.roundTrip, TeamsService.DeleteInvitation, Client.newRequest, Client.do,
    Operation.method, Operation.path, Operation.body, Operation.target,
    Operation.hasResult, Operation.resultNilAfter, DoResult.err, teams_query]
  cases c.newRequestFn "DELETE".toList
      ("/teams/".toList ++ formatInt teamID ++ "/team_invitations/".toList ++
            formatInt invitationID)
      (none) with
  | error e => simp
  | ok req => simp

theorem Operation.run_uptimeList {Req : Type} (c : Client Req) (log : Log Req)
    (projectID : Int) :
    Operation.run c log (.uptimeList projectID) = Operation.roundTrip c log (.uptimeList projectID) := by
  simp only [Operation.run, Operation.roundTrip, UptimeService.List, Client.newRequest, Client.do,
    Operation.method, Operation.path, Operation.body, Operation.target,
    Operation.hasResult, Operation.resultNilAfter, DoResult.err, teams_query]
  cases c.newRequestFn "GET".toList
      ("/projects/".toList ++ formatInt projectID ++ "/sites".toList)
      (none) with
  | error e => simp
  | ok req =>
    simp only
    cases c.doFn req (some .sites) with
    | error e => simp
    | ok v => simp

theorem Operation.run_uptimeGet {Req : Type} (c : Client Req) (log : Log Req)
    (projectID : Int) (siteID : GoString) :
    Operation.run c log (.uptimeGet projectID siteID) = Operation.roundTrip c log (.uptimeGet projectID siteID) := by
  simp only [Operation.run, Operation.roundTrip, UptimeService.Get, Client.newRequest, Client.do,
    Operation.method, Operation.path, Operation.body, Operation.target,
    Operation.hasResult, Operation.resultNilAfter, DoResult.err, teams_query]
  cases c.newRequestFn "GET".toList
      ("/projects/".toList ++ formatInt projectID ++ "/sites/".toList ++ siteID)
      (none) with
  | error e => simp
  | ok req =>
    simp only
    cases c.doFn req (some .site) with
    | error e => simp
    | ok v => simp

theorem Operation.run_uptimeCreate {Req : Type} (c : Client Req) (log : Log Req)
    (projectID : Int) (params : SiteParams) :
    Operation.run c log (.uptimeCreate projectID params) = Operation.roundTrip c log (.uptimeCreate projectID params) := by
  simp only [Operation.run, Operation.roundTrip, UptimeService.Create, Client.newRequest, Client.do,
    Operation.method, Operation.path, Operation.body, Operation.target,
    Operation.hasResult, Operation.resultNilAfter, DoResult.err, teams_query]
  cases c.newRequestFn "POST".toList
      ("/projects/".toList ++ formatInt projectID ++ "/sites".toList)
      (some (.siteCreateRequest { Site := params })) with
  | error e => simp
  | ok req =>
    simp only
    cases c.doFn req (some .site) with
    | error e => simp
    | ok v => simp

theorem Operation.run_uptimeUpdate {Req : Type} (c : Client Req) (log : Log Req)
    (projectID : Int) (siteID : GoString) (params : SiteParams) :
    Operation.run c log (.uptimeUpdate projectID siteID params) = Operation.roundTrip c log (.uptimeUpdate projectID siteID params) := by
  simp only [Operation.run, Operation.roundTrip, UptimeService.Update, Client.newRequest, Client.do,
    Operation.method, Operation.path, Operation.body, Operation.target,
    Operation.hasResult, Operation.resultNilAfter, DoResult.err, teams_query]
  cases c.newRequestFn "PUT".toList
      ("/projects/".toList ++ formatInt projectID ++ "/sites/".toList ++ siteID)
      (some (.siteCreateRequest { Site := params })) with
  | error e => simp
  | ok req =>
    simp only
    cases c.doFn req (some .site) with
    | error e => simp
    | ok v => simp

theorem Operation.run_uptimeDelete {Req : Type} (c : Client Req) (log : Log Req)
    (projectID : Int) (siteID : GoString) :
    Operation.run c log (.uptimeDelete projectID siteID) = Operation.roundTrip c log (.uptimeDelete projectID siteID) := by
  simp only [Operation.run, Operation.roundTrip, UptimeService.Delete, Client.newRequest, Client.do,
    Operation.method, Operation.path, Operation.body, Operation.target,
    Operation.hasResult, Operation.resultNilAfter, DoResult.err, teams_query]
  cases c.newRequestFn "DELETE".toList
      ("/projects/".toList ++ formatInt projectID ++ "/sites/".toList ++ siteID)
      (none) with
  | error e => simp
  | ok req => simp

theorem Operation.run_uptimeListOutages {Req : Type} (c : Client Req) (log : Log Req)
    (projectID : Int) (siteID : GoString) (options : OutageListOptions) :
    Operation.run c log (.uptimeListOutages projectID siteID options) = Operation.roundTrip c log (.uptimeListOutages projectID siteID options) := by
  simp only [Operation.run, Operation.roundTrip, UptimeService.ListOutages, Client.newRequest, Client.do,
    Operation.method, Operation.path, Operation.body, Operation.target,
    Operation.hasResult, Operation.resultNilAfter, DoResult.err, teams_query]
  cases c.newRequestFn "GET".toList
      (UptimeService.listOutagesPath projectID siteID options)
      (none) with
  | error e => simp
  | ok req =>
    simp only
    cases c.doFn req (some .outages) with
    | error e => simp
    | ok v => simp

theorem Operation.run_uptimeListUptimeChecks {Req : Type} (c : Client Req) (log : Log Req)
    (projectID : Int) (siteID : GoString) (options : UptimeCheckListOptions) :
    Operation.run c log (.uptimeListUptimeChecks projectID siteID options) = Operation.roundTrip c log (.uptimeListUptimeChecks projectID siteID options) := by
  simp only [Operation.run, Operation.roundTrip, UptimeService.ListUptimeChecks, Client.newRequest, Client.do,
    Operation.method, Operation.path, Operation.body, Operation.target,
    Operation.hasResult, Operation.resultNilAfter, DoResult.err, teams_query]
  cases c.newRequestFn "GET".toList
      (UptimeService.listUptimeChecksPath projectID siteID options)
      (none) with
  | error e => simp
  | ok req =>
    simp only
    cases c.doFn req (some .uptimeChecks) with
    | error e => simp
    | ok v => simp

/-- Every resource method is one round trip: running an operation gives the
outcome and the log of `Operation.roundTrip`. -/
theorem Operation.run_eq_roundTrip {Req : Type} (c : Client Req) (log : Log Req)
    (op : Operation) : op.run c log = op.roundTrip c log := by
  cases op with
  | accountsList => exact Operation.run_accountsList c log
  | accountsGet accountID => exact Operation.run_accountsGet c log accountID
  | accountsListUsers accountID => exact Operation.run_accountsListUsers c log accountID
  | accountsGetUser accountID userID => exact Operation.run_accountsGetUser c log accountID userID
  | accountsUpdateUser accountID userID role => exact Operation.run_accountsUpdateUser c log accountID userID role
  | accountsRemoveUser accountID userID => exact Operation.run_accountsRemoveUser c log accountID userID
  | accountsListInvitations accountID => exact Operation.run_accountsListInvitations c log accountID
  | accountsGetInvitation accountID invitationID => exact Operation.run_accountsGetInvitation c log accountID invitationID
  | accountsCreateInvitation accountID params => exact Operation.run_accountsCreateInvitation c log accountID params
  | accountsUpdateInvitation accountID invitationID params => exact Operation.run_accountsUpdateInvitation c log accountID invitationID params
  | accountsDeleteInvitation accountID invitationID => exact Operation.run_accountsDeleteInvitation c log accountID invitationID
  | checkInsList projectID => exact Operation.run_checkInsList c log projectID
  | checkInsGet projectID checkInID => exact Operation.run_checkInsGet c log projectID checkInID
  | checkInsCreate projectID params => exact Operation.run_checkInsCreate c log projectID params
  | checkInsUpdate projectID checkInID params => exact Operation.run_checkInsUpdate c log projectID checkInID params
  | checkInsBulkUpdate projectID checkIns => exact Operation.run_checkInsBulkUpdate c log projectID checkIns
  | checkInsDelete projectID checkInID => exact Operation.run_checkInsDelete c log projectID checkInID
  | commentsList projectID faultID => exact Operation.run_commentsList c log projectID faultID
  | commentsGet projectID faultID commentID => exact Operation.run_commentsGet c log projectID faultID commentID
  | commentsCreate projectID faultID body => exact Operation.run_commentsCreate c log projectID faultID body
  | commentsUpdate projectID faultID commentID body => exact Operation.run_commentsUpdate c log projectID faultID commentID body
  | commentsDelete projectID faultID commentID => exact Operation.run_commentsDelete c log projectID faultID commentID
  | dashboardsList projectID => exact Operation.run_dashboardsList c log projectID
  | dashboardsGet projectID dashboardID => exact Operation.run_dashboardsGet c log projectID dashboardID
  | dashboardsCreate projectID dashboardReq => exact Operation.run_dashboardsCreate c log projectID dashboardReq
  | dashboardsUpdate projectID dashboardID dashboardReq => exact Operation.run_dashboardsUpdate c log projectID dashboardID dashboardReq
  | dashboardsDelete projectID dashboardID => exact Operation.run_dashboardsDelete c log projectID dashboardID
  | deploymentsList projectID options => exact Operation.run_deploymentsList c log projectID options
  | deploymentsGet projectID deploymentID => exact Operation.run_deploymentsGet c log projectID deploymentID
  | deploymentsDelete projectID deploymentID => exact Operation.run_deploymentsDelete c log projectID deploymentID
  | environmentsList projectID => exact Operation.run_environmentsList c log projectID
  | environmentsGet projectID environmentID => exact Operation.run_environmentsGet c log projectID environmentID
  | environmentsCreate projectID params => exact Operation.run_environmentsCreate c log projectID params
  | environmentsUpdate projectID environmentID params => exact Operation.run_environmentsUpdate c log projectID environmentID params
  | environmentsDelete projectID environmentID => exact Operation.run_environmentsDelete c log projectID environmentID
  | statusPagesList accountID => exact Operation.run_statusPagesList c log accountID
  | statusPagesGet accountID statusPageID => exact Operation.run_statusPagesGet c log accountID statusPageID
  | statusPagesCreate accountID params => exact Operation.run_statusPagesCreate c log accountID params
  | statusPagesUpdate accountID statusPageID params => exact Operation.run_statusPagesUpdate c log accountID statusPageID params
  | statusPagesDelete accountID statusPageID => exact Operation.run_statusPagesDelete c log accountID statusPageID
  | teamsList accountID => exact Operation.run_teamsList c log accountID
  | teamsGet teamID => exact Operation.run_teamsGet c log teamID
  | teamsCreate accountID name => exact Operation.run_teamsCreate c log accountID name
  | teamsUpdate teamID name => exact Operation.run_teamsUpdate c log teamID name
  | teamsDelete teamID => exact Operation.run_teamsDelete c log teamID
  | teamsListMembers teamID => exact Operation.run_teamsListMembers c log teamID
  | teamsUpdateMember teamID memberID admin => exact Operation.run_teamsUpdateMember c log teamID memberID admin
  | teamsRemoveMember teamID memberID => exact Operation.run_teamsRemoveMember c log teamID memberID
  | teamsListInvitations teamID => exact Operation.run_teamsListInvitations c log teamID
  | teamsGetInvitation teamID invitationID => exact Operation.run_teamsGetInvitation c log teamID invitationID
  | teamsCreateInvitation teamID params => exact Operation.run_teamsCreateInvitation c log teamID params
  | teamsUpdateInvitation teamID invitationID params => exact Operation.run_teamsUpdateInvitation c log teamID invitationID params
  | teamsDeleteInvitation teamID invitationID => exact Operation.run_teamsDeleteInvitation c log teamID invitationID
  | uptimeList projectID => exact Operation.run_uptimeList c log projectID
  | uptimeGet projectID siteID => exact Operation.run_uptimeGet c log projectID siteID
  | uptimeCreate projectID params => exact Operation.run_uptimeCreate c log projectID params
  | uptimeUpdate projectID siteID params => exact Operation.run_uptimeUpdate c log projectID siteID params
  | uptimeDelete projectID siteID => exact Operation.run_uptimeDelete c log projectID siteID
  | uptimeListOutages projectID siteID options => exact Operation.run_uptimeListOutages c log projectID siteID options
  | uptimeListUptimeChecks projectID siteID options => exact Operation.run_uptimeListUptimeChecks c log projectID siteID options

/-! ## One round trip per method -/

/-- C19: every resource method of the nine services makes exactly one call of
`newRequest`, with the method, path and body of its endpoint, and, when that
call built a request, exactly one call of `do`, with that request and the
decode target of the endpoint; it makes no other call.  The log after the method
is the log before it followed by these one or two calls. -/
theorem C19_one_round_trip {Req : Type} (c : Client Req) (log : Log Req) (op : Operation) :
    (op.run c log).2 =
      log ++ Event.newRequest op.method op.path op.body ::
        (match c.newRequestFn op.method op.path op.body with
         | .error _ => []
         | .ok req => [Event.doCall req op.target]) := by
  rw [Operation.run_eq_roundTrip, Operation.roundTrip]
  cases c.newRequestFn op.method op.path op.body <;> rfl

/-- C20: when `newRequest` returns a construction error, every resource method
returns exactly that error, with a nil result where it has one, and the only
call it made is the one of `newRequest`: `do` is never called. -/
theorem C20_construction_error_returned {Req : Type} (c : Client Req) (log : Log Req)
    (op : Operation) (e : Error) (h : c.newRequestFn op.method op.path op.body = .error e) :
    (op.run c log).1 = { hasResult := op.hasResult, resultNil := true, err := some e } ∧
      (op.run c log).2 = log ++ [Event.newRequest op.method op.path op.body] := by
  rw [Operation.run_eq_roundTrip, Operation.roundTrip, h]
  exact ⟨rfl, rfl⟩

/-- Witness of C20 on `Accounts.List` and a client whose base URL is malformed. -/
theorem C20_witness_accounts_list :
    (brokenClient malformedBaseURL).newRequestFn Operation.accountsList.method
        Operation.accountsList.path Operation.accountsList.body = .error malformedBaseURL ∧
      (Operation.accountsList.run (brokenClient malformedBaseURL) []).1 =
        { hasResult := Operation.accountsList.hasResult, resultNil := true,
          err := some malformedBaseURL } ∧
      (Operation.accountsList.run (brokenClient malformedBaseURL) []).2 =
        [] ++ [Event.newRequest Operation.accountsList.method Operation.accountsList.path
          Operation.accountsList.body] :=
  ⟨rfl, C20_construction_error_returned (brokenClient malformedBaseURL) [] Operation.accountsList
    malformedBaseURL rfl⟩

/-! ## Nil targets and authentication -/

theorem Operation.target_none_of_listed (op : Operation) (h : op.isDeleteOrBareUpdate = true) :
    op.target = none := by
  cases op <;> first | rfl | exact Bool.noConfusion h

theorem specDo_no_content {Req : Type} (transport : Req → Except Error Response)
    (decode : (t : Target) → GoString → Except Error t.Value) (render : Any → GoString)
    (fallback : Int → GoString → GoString) (req : Req)
    (hresp : transport req = .ok { StatusCode := 204, Body := [] }) :
    specDo transport decode render fallback req none = (none : Option Error) := by
  simp [specDo, hresp]

theorem specNewRequest_basicAuth (cfg : Config) (marshal : Body → Except Error GoString)
    (resolve : GoString → GoString → Except Error GoString) (method path : GoString)
    (body : Option Body) (req : HTTPRequest)
    (h : specNewRequest cfg marshal resolve method path body = .ok req) :
    req.basicAuth = some (cfg.authToken, []) := by
  unfold specNewRequest at h
  split at h
  · cases h
  · split at h
    · cases h
    · cases h
      rfl

/-- C11: for every operation that hands `do` a nil decode target, when the
request is built and the server answers 204 No Content with an empty body, the
method returns a nil error, whatever the decoder is: `do` is called once, with
the nil target, and nothing is decoded.  The operations the specification lists
(every deletion, and the update of comments, environments, status pages, teams,
team members and team invitations) all hand `do` a nil target. -/
theorem C11_no_content_nil_target {Req : Type}
    (newRequestFn : GoString → GoString → Option Body → Except Error Req)
    (transport : Req → Except Error Response)
    (decode : (t : Target) → GoString → Except Error t.Value) (render : Any → GoString)
    (fallback : Int → GoString → GoString) (log : Log Req) (op : Operation) (req : Req)
    (hop : op.target = none)
    (hreq : newRequestFn op.method op.path op.body = .ok req)
    (hresp : transport req = .ok { StatusCode := 204, Body := [] }) :
    (op.run { newRequestFn := newRequestFn,
              doFn := specDo transport decode render fallback } log).1.err = none ∧
      (op.run { newRequestFn := newRequestFn,
                doFn := specDo transport decode render fallback } log).2 =
        log ++ [Event.newRequest op.method op.path op.body, Event.doCall req none] ∧
      (∀ o : Operation, o.isDeleteOrBareUpdate = true → o.target = none) := by
  refine ⟨?_, ?_, Operation.target_none_of_listed⟩
  · rw [Operation.run_eq_roundTrip, Operation.roundTrip]
    simp only [hreq]
    rw [hop]
    exact specDo_no_content transport decode render fallback req hresp
  · rw [Operation.run_eq_roundTrip, Operation.roundTrip]
    simp only [hreq]
    rw [hop]

/-- Witness of C11: `Comments.Update(ctx, 123, 100, 1, "Updated comment")` on a
server that answers 204 with an empty body, with a decoder that rejects every
body. -/
theorem C11_witness_comments_update :
    (Operation.commentsUpdate 123 100 1 "Updated comment".toList).target = none ∧
      ((Operation.commentsUpdate 123 100 1 "Updated comment".toList).run
        (cannedClient 204 []) []).1.err = none :=
  ⟨rfl,
    (C11_no_content_nil_target buildDescriptor (constantTransport 204 []) rejectingDecode
      (fun _ => []) (fun _ b => b) [] (Operation.commentsUpdate 123 100 1 "Updated comment".toList)
      { method := (Operation.commentsUpdate 123 100 1 "Updated comment".toList).method,
        path := (Operation.commentsUpdate 123 100 1 "Updated comment".toList).path,
        body := (Operation.commentsUpdate 123 100 1 "Updated comment".toList).body }
      rfl rfl rfl).1⟩

/-- C12: with the request builder of the specification configured with a token,
every request a resource method hands to `do` carries HTTP Basic Auth whose user
name is the token and whose password is the empty string. -/
theorem C12_basic_auth_on_every_request (cfg : Config) (marshal : Body → Except Error GoString)
    (resolve : GoString → GoString → Except Error GoString)
    (doFn : HTTPRequest → (v : Option Target) → DoResult v) (op : Operation)
    (req : HTTPRequest) (target : Option Target)
    (h : Event.doCall req target ∈
      (op.run { newRequestFn := specNewRequest cfg marshal resolve, doFn := doFn } []).2) :
    req.basicAuth = some (cfg.authToken, []) := by
  rw [Operation.run_eq_roundTrip, Operation.roundTrip] at h
  simp only at h
  cases hreq : specNewRequest cfg marshal resolve op.method op.path op.body with
  | error e =>
    rw [hreq] at h
    simp at h
  | ok r =>
    rw [hreq] at h
    simp at h
    rw [h.1]
    exact specNewRequest_basicAuth cfg marshal resolve _ _ _ r hreq

set_option maxRecDepth 100000 in
theorem tokenClient_log :
    ((Operation.deploymentsList 123 DeploymentListOptions.zero).run tokenClient []).2 =
      [Event.newRequest "GET".toList "/projects/123/deploys".toList none,
       Event.doCall deploymentsListRequest (some Target.deploymentListResponse)] := by
  rfl

/-- Witness of C12: `Deployments.List` on project 123 with the token
`test-token`. -/
theorem C12_witness_test_token :
    Event.doCall deploymentsListRequest (some Target.deploymentListResponse) ∈
        ((Operation.deploymentsList 123 DeploymentListOptions.zero).run tokenClient []).2 ∧
      deploymentsListRequest.basicAuth = some ("test-token".toList, []) :=
  ⟨by rw [tokenClient_log]; simp,
    C12_basic_auth_on_every_request testConfig marshalEmptyObject appendPath quietDo
      (Operation.deploymentsList 123 DeploymentListOptions.zero) deploymentsListRequest
      (some Target.deploymentListResponse)
      (by
        show Event.doCall _ _ ∈
          ((Operation.deploymentsList 123 DeploymentListOptions.zero).run tokenClient []).2
        rw [tokenClient_log]; simp)⟩

/-! ## The bodies of the tests against the declared types -/

set_option maxRecDepth 100000 in
/-- C13: `CheckIns.Create` with `{name: "Daily Backup", schedule_type: "simple",
report_period: "1 day"}`, answered 201 with the check-in whose `id` is the JSON
number 1, returns a nil check-in and an error: `CheckIn.ID` is declared a
`string`, and a JSON number does not decode into it.  The same holds for every
parameter value, and for the body the server of `TestCheckInsCreate` answers
with. -/
theorem C13_create_rejects_numeric_id (parseTime : GoString → Option Time)
    (others : (t : Target) → GoString → Except Error t.Value) (params : CheckInParams) :
    (CheckInsService.Create (testServer parseTime others 201 dailyBackupBody) [] 123
        dailyBackupParams).1 =
        (none, some (typeError "number".toList "string".toList)) ∧
      (CheckInsService.Create (testServer parseTime others 201 dailyBackupBody) [] 123
        params).1 =
        (none, some (typeError "number".toList "string".toList)) ∧
      (CheckInsService.Create (testServer parseTime others 201 newCheckInBody) [] 123
        params).1 =
        (none, some (typeError "number".toList "string".toList)) := by
  exact ⟨rfl, rfl, rfl⟩

set_option maxRecDepth 100000 in
/-- C14: `CheckIns.List`, answered 200 with the bare JSON array of the test,
returns a nil slice and an error: the body is decoded into a
`CheckInListResponse`, a struct, and a JSON array does not decode into it; the
elements of the array, decoded on their own as a `[]CheckIn`, are rejected too,
for their numeric `id`. -/
theorem C14_list_rejects_bare_array (parseTime : GoString → Option Time)
    (others : (t : Target) → GoString → Except Error t.Value) :
    (CheckInsService.List (testServer parseTime others 200 mockCheckIns) [] 123).1 =
        (none, some (typeError "array".toList "CheckInListResponse".toList)) ∧
      decodeSlice (CheckIn.decode parseTime) (Target.zero .checkIn) mockCheckIns none =
        .error (typeError "number".toList "string".toList) := by
  exact ⟨rfl, rfl⟩

set_option maxRecDepth 100000 in
/-- C15: `StatusPages.List` on account 100, answered 200 with the body of the
test, requests `/accounts/100/status_pages` and returns a nil slice and an
error: `StatusPage.ID` is declared an `int`, and the JSON string `"abc123"` does
not decode into it. -/
theorem C15_list_rejects_string_id (parseTime : GoString → Option Time)
    (others : (t : Target) → GoString → Except Error t.Value) :
    (StatusPagesService.List (testServer parseTime others 200 mockStatusPages) [] 100).1 =
        (none, some (typeError "string".toList "int".toList)) ∧
      firstPath (StatusPagesService.List (testServer parseTime others 200 mockStatusPages)
        [] 100).2 = some "/accounts/100/status_pages".toList := by
  exact ⟨rfl, rfl⟩

set_option maxRecDepth 100000 in
/-- C16: `Comments.Get(ctx, 123, 100, 1)`, answered 200 with the comment of the
test, whose `author` is the JSON string `"Test User"`, requests
`/projects/123/faults/100/comments/1` and returns a nil comment and an error:
`Comment.Author` is declared a `*User`, and a JSON string does not decode into a
`User` (when the time stamp before it is not accepted, the error is that of the
time stamp). -/
theorem C16_get_rejects_string_author (parseTime : GoString → Option Time)
    (others : (t : Target) → GoString → Except Error t.Value) :
    (CommentsService.Get (testServer parseTime others 200 mockComment) [] 123 100 1).1 =
        (none, some (match parseTime "2024-01-01T00:00:00Z".toList with
          | some _ => typeError "string".toList "User".toList
          | none => Error.other "parsing time".toList)) ∧
      firstPath (CommentsService.Get (testServer parseTime others 200 mockComment)
        [] 123 100 1).2 = some "/projects/123/faults/100/comments/1".toList := by
  cases ht : parseTime "2024-01-01T00:00:00Z".toList with
  | some t =>
    obtain ⟨f, rfl⟩ : ∃ f, parseTime = Function.update f "2024-01-01T00:00:00Z".toList (some t) :=
      ⟨parseTime, by rw [← ht, Function.update_eq_self]⟩
    exact ⟨rfl, rfl⟩
  | none =>
    obtain ⟨f, rfl⟩ : ∃ f, parseTime = Function.update f "2024-01-01T00:00:00Z".toList none :=
      ⟨parseTime, by rw [← ht, Function.update_eq_self]⟩
    exact ⟨rfl, rfl⟩

/-! ## The pagination envelope -/

theorem decodeMembers_invariant {S : Type} (fields : List (Field S)) (P : S → Prop) :
    ∀ (members : List (GoString × GoString)),
      (∀ m ∈ members, ∀ f, findField fields m.1 = some f →
        ∀ s s1, P s → f.set m.2 s = .ok s1 → P s1) →
      ∀ s r, P s → decodeMembers fields members s = .ok r → P r := by
  intro members
  induction members with
  | nil =>
    intro _ s r hs h
    simp only [decodeMembers] at h
    cases h
    exact hs
  | cons m rest ih =>
    intro hstep s r hs h
    obtain ⟨key, raw⟩ := m
    have hrest : ∀ m ∈ rest, ∀ f, findField fields m.1 = some f →
        ∀ s s1, P s → f.set m.2 s = .ok s1 → P s1 :=
      fun m hm => hstep m (List.mem_cons_of_mem _ hm)
    simp only [decodeMembers] at h
    cases hf : findField fields key with
    | none =>
      rw [hf] at h
      exact ih hrest s r hs h
    | some f =>
      rw [hf] at h
      simp only at h
      cases hset : f.set raw s with
      | error e =>
        rw [hset] at h
        cases h
      | ok s1 =>
        rw [hset] at h
        exact ih hrest s1 r (hstep (key, raw) (List.mem_cons_self _ _) f hf s s1 hs hset) h

theorem decodeMembers_unmatched {S : Type} (fields : List (Field S)) :
    ∀ (members : List (GoString × GoString)),
      (∀ m ∈ members, findField fields m.1 = none) →
      ∀ s, decodeMembers fields members s = .ok s := by
  intro members
  induction members with
  | nil => intro _ s; rfl
  | cons m rest ih =>
    intro h s
    obtain ⟨key, raw⟩ := m
    simp only [decodeMembers]
    rw [h (key, raw) (List.mem_cons_self _ _)]
    exact ih (fun m hm => h m (List.mem_cons_of_mem _ hm)) s

theorem keyMatches_self (name : GoString) : keyMatches name name = true := by
  simp [keyMatches]

theorem ListResponse.findField_keeps_results {T : Type} (elem : Decoder T) (zero : T)
    (key : GoString) (hkey : keyMatches "results".toList key = false)
    (f : Field (ListResponse T)) (hf : findField (ListResponse.fields elem zero) key = some f)
    (raw : GoString) (s s1 : ListResponse T) (hset : f.set raw s = .ok s1) :
    s1.Results = s.Results := by
  have hne : ¬ ("results".toList = key) := by
    intro h
    rw [← h, keyMatches_self] at hkey
    cases hkey
  have hlinks : ∀ g : Field (ListResponse T),
      g = { name := "links".toList,
            set := fun raw s =>
              (PaginationLinks.decode raw s.Links).map (fun v => { s with Links := v }) } →
      g.set raw s = .ok s1 → s1.Results = s.Results := by
    intro g hg h
    subst hg
    simp only at h
    cases hd : PaginationLinks.decode raw s.Links with
    | error e =>
      rw [hd] at h
      cases h
    | ok v =>
      rw [hd] at h
      cases h
      rfl
  unfold findField ListResponse.fields at hf
  simp only [List.find?, hne, decide_False, hkey] at hf
  by_cases h1 : "links".toList = key
  · simp only [h1, decide_True] at hf
    cases hf
    exact hlinks _ (by rw [h1]) hset
  · simp only [h1, decide_False] at hf
    cases h2 : keyMatches "links".toList key with
    | true =>
      rw [h2] at hf
      cases hf
      exact hlinks _ rfl hset
    | false =>
      rw [h2] at hf
      cases hf

theorem ListResponse.findField_none {T : Type} (elem : Decoder T) (zero : T) (key : GoString)
    (hresults : keyMatches "results".toList key = false)
    (hlinks : keyMatches "links".toList key = false) :
    findField (ListResponse.fields elem zero) key = none := by
  have h1 : ¬ ("results".toList = key) := by
    intro h
    rw [← h, keyMatches_self] at hresults
    cases hresults
  have h2 : ¬ ("links".toList = key) := by
    intro h
    rw [← h, keyMatches_self] at hlinks
    cases hlinks
  unfold findField ListResponse.fields
  simp only [List.find?, h1, h2, decide_False, hresults, hlinks]

set_option maxRecDepth 100000 in
/-- C17: decoding the document `{"results": []}` into `ListResponse[T]` gives,
for every element type `T` and whatever the decoding of the elements is, a
`Results` slice that is empty and not nil, and `Links` whose three fields are
the empty string; so does the decoding into the target of `Dashboards.List`. -/
theorem C17_empty_results_decoded {T : Type} (elem : Decoder T) (zero : T)
    (parseTime : GoString → Option Time)
    (others : (t : Target) → GoString → Except Error t.Value) :
    ListResponse.decode elem zero emptyResultsBody (ListResponse.zero T) =
        .ok { Results := some [], Links := { Next := [], Prev := [], Self := [] } } ∧
      jsonDecode parseTime others Target.dashboardListResponse emptyResultsBody =
        .ok ({ Results := some [], Links := { Next := [], Prev := [], Self := [] } } :
          DashboardListResponse) := by
  exact ⟨rfl, rfl⟩

set_option maxRecDepth 100000 in
/-- C18, counterexample: the documents `{}` and
`{"links": {"self": "/v2/projects/123/dashboards"}}` have no `results` key and
decode without error into a `ListResponse[string]` whose `Results` is nil, not
the empty slice. -/
theorem C18_counterexample_empty_object :
    ListResponse.decode decodeString [] emptyObjectBody (ListResponse.zero GoString) =
        .ok { Results := none, Links := { Next := [], Prev := [], Self := [] } } ∧
      ListResponse.decode decodeString [] linksOnlyBody (ListResponse.zero GoString) =
        .ok { Results := none,
              Links := { Next := [], Prev := [],
                         Self := "/v2/projects/123/dashboards".toList } } ∧
      (none : Slice GoString) ≠ some [] := by
  exact ⟨rfl, rfl, fun h => Option.noConfusion h⟩

/-- C18, amended: decoding into a zero `ListResponse[T]` a JSON object none of
whose keys is `results` (up to case) leaves `Results` nil whenever the decoding
succeeds: an absent key is not turned into an empty slice.  The decoding
succeeds, leaving the whole envelope at its zero value, when no key is `links`
either. -/
theorem C18_absent_results_stay_nil {T : Type} (elem : Decoder T) (zero : T) (text : GoString)
    (members : List (GoString × GoString))
    (hobj : objectMembers text = some members)
    (hkey : ∀ m ∈ members, keyMatches "results".toList m.1 = false) :
    (∀ r, ListResponse.decode elem zero text (ListResponse.zero T) = .ok r → r.Results = none) ∧
      ((∀ m ∈ members, keyMatches "links".toList m.1 = false) →
        ListResponse.decode elem zero text (ListResponse.zero T) = .ok (ListResponse.zero T)) := by
  constructor
  · intro r h
    unfold ListResponse.decode decodeStruct at h
    simp only [hobj] at h
    split at h
    · cases h
      rfl
    · exact decodeMembers_invariant (ListResponse.fields elem zero) (fun s => s.Results = none)
        members
        (fun m hm f hf s s1 hs hset =>
          (ListResponse.findField_keeps_results elem zero m.1 (hkey m hm) f hf m.2 s s1 hset).trans
            hs)
        (ListResponse.zero T) r rfl h
  · intro hlinks
    unfold ListResponse.decode decodeStruct
    simp only [hobj]
    split
    · rfl
    · exact decodeMembers_unmatched (ListResponse.fields elem zero) members
        (fun m hm => ListResponse.findField_none elem zero m.1 (hkey m hm) (hlinks m hm))
        (ListResponse.zero T)

set_option maxRecDepth 100000 in
/-- Witness of C18 on the document that has links and no results. -/
theorem C18_witness_links_only :
    objectMembers linksOnlyBody =
        some [("links".toList, "\x7b\"self\": \"/v2/projects/123/dashboards\"\x7d".toList)] ∧
      ListResponse.decode decodeString [] linksOnlyBody (ListResponse.zero GoString) =
        .ok { Results := none,
              Links := { Next := [], Prev := [],
                         Self := "/v2/projects/123/dashboards".toList } } ∧
      ({ Results := none,
         Links := { Next := [], Prev := [], Self := "/v2/projects/123/dashboards".toList } } :
        ListResponse GoString).Results = none :=
  ⟨by decide, rfl,
    (C18_absent_results_stay_nil decodeString [] linksOnlyBody
      [("links".toList, "\x7b\"self\": \"/v2/projects/123/dashboards\"\x7d".toList)]
      (by decide) (by decide)).1 _ rfl⟩

/-! ## Results and errors of the methods -/

theorem Operation.run_head {Req : Type} (c : Client Req) (op : Operation) :
    (op.run c []).2.head? = some (Event.newRequest op.method op.path op.body) := by
  rw [Operation.run_eq_roundTrip, Operation.roundTrip]
  cases c.newRequestFn op.method op.path op.body <;> rfl

theorem Operation.run_firstPath {Req : Type} (c : Client Req) (op : Operation) :
    firstPath (op.run c []).2 = some op.path := by
  rw [Operation.run_eq_roundTrip, Operation.roundTrip]
  cases c.newRequestFn op.method op.path op.body <;> rfl

theorem Operation.run_firstMethod {Req : Type} (c : Client Req) (op : Operation) :
    firstMethod (op.run c []).2 = some op.method := by
  rw [Operation.run_eq_roundTrip, Operation.roundTrip]
  cases c.newRequestFn op.method op.path op.body <;> rfl

theorem Operation.resultNilAfter_pointer (op : Operation) (h : op.returnsPointer = true)
    (r : DoResult op.target) : op.resultNilAfter r = (DoResult.err r).isSome := by
  cases op <;> first
    | exact Bool.noConfusion h
    | (cases r <;> rfl)

/-- C21, counterexample: with the nil slice, a sequence of length 0,
`CheckIns.BulkUpdate` sends a body whose `check_ins` member is `null`, not the
empty array. -/
theorem C21_counterexample_nil_slice :
    Slice.len (none : Slice CheckInParams) = 0 ∧
      (CheckInsService.BulkUpdate quietClient [] 123 none).2.head? =
        some (Event.newRequest "PUT".toList "/projects/123/check_ins".toList
          (some (.checkInBulkRequest { CheckIns := none }))) ∧
      CheckInBulkRequest.toJSON { CheckIns := none } =
        Any.object [("check_ins".toList, Any.null)] ∧
      CheckInBulkRequest.toJSON { CheckIns := none } ≠
        Any.object [("check_ins".toList, Any.array [])] := by
  refine ⟨rfl, by rfl, rfl, ?_⟩
  intro h
  simp [CheckInBulkRequest.toJSON, checkInsJSON] at h

/-- C21, amended: for every projectID and every slice of check-ins,
`CheckIns.BulkUpdate` makes one call of `newRequest`, with PUT, the path
`/projects/{projectID}/check_ins` and the whole slice under the one key
`check_ins`, and then at most one call of `do`; for a slice that is not nil the
member is the JSON array of its N elements in their order, the empty array when
N = 0, and for the nil slice it is `null`. -/
theorem C21_bulk_update_one_request {Req : Type} (c : Client Req) (log : Log Req)
    (projectID : Int) (checkIns : Slice CheckInParams) (items : List CheckInParams) (i : Nat) :
    (CheckInsService.BulkUpdate c log projectID checkIns).2 =
        log ++ Event.newRequest "PUT".toList
            ("/projects/".toList ++ formatInt projectID ++ "/check_ins".toList)
            (some (.checkInBulkRequest { CheckIns := checkIns })) ::
          (match c.newRequestFn "PUT".toList
              ("/projects/".toList ++ formatInt projectID ++ "/check_ins".toList)
              (some (.checkInBulkRequest { CheckIns := checkIns })) with
            | .error _ => []
            | .ok req => [Event.doCall req (some .checkInBulkUpdateResponse)]) ∧
      CheckInBulkRequest.toJSON { CheckIns := some items } =
        Any.object [("check_ins".toList, Any.array (items.map CheckInParams.toJSON))] ∧
      (items.map CheckInParams.toJSON).length = items.length ∧
      (items.map CheckInParams.toJSON)[i]? = items[i]?.map CheckInParams.toJSON ∧
      CheckInBulkRequest.toJSON { CheckIns := some [] } =
        Any.object [("check_ins".toList, Any.array [])] ∧
      CheckInBulkRequest.toJSON { CheckIns := none } =
        Any.object [("check_ins".toList, Any.null)] := by
  refine ⟨?_, rfl, List.length_map _ _, List.getElem?_map _ _ _, rfl, rfl⟩
  simp only [CheckInsService.BulkUpdate, Client.newRequest, Client.do]
  cases c.newRequestFn "PUT".toList
      ("/projects/".toList ++ formatInt projectID ++ "/check_ins".toList)
      (some (.checkInBulkRequest { CheckIns := checkIns })) with
  | error e => simp
  | ok req =>
    simp only
    cases c.doFn req (some .checkInBulkUpdateResponse) with
    | error e => simp
    | ok v => simp

/-- C23: for every projectID, dashboardID and request, `Dashboards.Update` sends
PUT and `Dashboards.Delete` sends DELETE to
`/projects/{projectID}/dashboards/{dashboardID}`, Update with the body
`{"dashboard": request}`; when the request is built, each returns a result with
`Success = true` and a message naming dashboardID, with a nil error, exactly
when `do` returns a nil error, and a nil result with the error of `do`
otherwise. -/
theorem C23_dashboard_update_delete_results {Req : Type} (c : Client Req) (log : Log Req)
    (projectID : Int) (dashboardID : GoString) (dashboardReq : DashboardRequest) :
    (DashboardsService.Update c log projectID dashboardID dashboardReq).1 =
        (match c.newRequestFn "PUT".toList
            ("/projects/".toList ++ formatInt projectID ++ "/dashboards/".toList ++ dashboardID)
            (some (.dashboardMap [("dashboard".toList, dashboardReq)])) with
          | .error err => (none, some err)
          | .ok req =>
            match (c.doFn req none : Option Error) with
            | some err => (none, some err)
            | none =>
              (some { Success := true,
                      Message := "Dashboard ".toList ++ dashboardID ++
                        " was successfully updated".toList }, none)) ∧
      (DashboardsService.Update c log projectID dashboardID dashboardReq).2 =
        log ++ Event.newRequest "PUT".toList
            ("/projects/".toList ++ formatInt projectID ++ "/dashboards/".toList ++ dashboardID)
            (some (.dashboardMap [("dashboard".toList, dashboardReq)])) ::
          (match c.newRequestFn "PUT".toList
              ("/projects/".toList ++ formatInt projectID ++ "/dashboards/".toList ++ dashboardID)
              (some (.dashboardMap [("dashboard".toList, dashboardReq)])) with
            | .error _ => []
            | .ok req => [Event.doCall req none]) ∧
      (DashboardsService.Delete c log projectID dashboardID).1 =
        (match c.newRequestFn "DELETE".toList
            ("/projects/".toList ++ formatInt projectID ++ "/dashboards/".toList ++ dashboardID)
            none with
          | .error err => (none, some err)
          | .ok req =>
            match (c.doFn req none : Option Error) with
            | some err => (none, some err)
            | none =>
              (some { Success := true,
                      Message := "Dashboard ".toList ++ dashboardID ++
                        " deleted successfully".toList }, none)) ∧
      (DashboardsService.Delete c log projectID dashboardID).2 =
        log ++ Event.newRequest "DELETE".toList
            ("/projects/".toList ++ formatInt projectID ++ "/dashboards/".toList ++ dashboardID)
            none ::
          (match c.newRequestFn "DELETE".toList
              ("/projects/".toList ++ formatInt projectID ++ "/dashboards/".toList ++ dashboardID)
              none with
            | .error _ => []
            | .ok req => [Event.doCall req none]) := by
  refine ⟨?_, ?_, ?_, ?_⟩
  all_goals
    simp only [DashboardsService.Update, DashboardsService.Delete, Client.newRequest, Client.do]
  · cases c.newRequestFn "PUT".toList
        ("/projects/".toList ++ formatInt projectID ++ "/dashboards/".toList ++ dashboardID)
        (some (.dashboardMap [("dashboard".toList, dashboardReq)])) with
    | error e => simp
    | ok req =>
      simp only
      cases (c.doFn req none : Option Error) <;> simp
  · cases c.newRequestFn "PUT".toList
        ("/projects/".toList ++ formatInt projectID ++ "/dashboards/".toList ++ dashboardID)
        (some (.dashboardMap [("dashboard".toList, dashboardReq)])) with
    | error e => simp
    | ok req =>
      simp only
      cases (c.doFn req none : Option Error) <;> simp
  · cases c.newRequestFn "DELETE".toList
        ("/projects/".toList ++ formatInt projectID ++ "/dashboards/".toList ++ dashboardID)
        none with
    | error e => simp
    | ok req =>
      simp only
      cases (c.doFn req none : Option Error) <;> simp
  · cases c.newRequestFn "DELETE".toList
        ("/projects/".toList ++ formatInt projectID ++ "/dashboards/".toList ++ dashboardID)
        none with
    | error e => simp
    | ok req =>
      simp only
      cases (c.doFn req none : Option Error) <;> simp

/-- C30: for every resource method declared to return a pointer and an error,
the result is nil exactly when the error is not nil, on every client and every
arguments; the error is the one `newRequest` returned or, when the request was
built, the one `do` returned, unchanged. -/
theorem C30_pointer_result_iff_no_error {Req : Type} (c : Client Req) (log : Log Req)
    (op : Operation) (h : op.returnsPointer = true) :
    (op.run c log).1.hasResult = true ∧
      (op.run c log).1.resultNil = (op.run c log).1.err.isSome ∧
      (op.run c log).1.err =
        (match c.newRequestFn op.method op.path op.body with
         | .error e => some e
         | .ok req => DoResult.err (c.doFn req op.target)) := by
  rw [Operation.run_eq_roundTrip, Operation.roundTrip]
  have hres : op.hasResult = true := by
    cases op <;> first | rfl | exact Bool.noConfusion h
  cases c.newRequestFn op.method op.path op.body with
  | error e => exact ⟨hres, rfl, rfl⟩
  | ok req => exact ⟨hres, Operation.resultNilAfter_pointer op h _, rfl⟩

/-- Witness of C30: `CheckIns.Get(ctx, 123, 1)` on a client whose `do` succeeds
returns a check-in and a nil error. -/
theorem C30_witness_check_in_get :
    (Operation.checkInsGet 123 1).returnsPointer = true ∧
      ((Operation.checkInsGet 123 1).run quietClient []).1.resultNil = false ∧
      ((Operation.checkInsGet 123 1).run quietClient []).1.err = none ∧
      ((Operation.checkInsGet 123 1).run quietClient []).1.resultNil =
        ((Operation.checkInsGet 123 1).run quietClient []).1.err.isSome :=
  ⟨rfl, rfl, rfl,
    (C30_pointer_result_iff_no_error quietClient [] (Operation.checkInsGet 123 1) rfl).2.1⟩

/-! ## Number: failure leaves the receiver, encoding round trip -/

theorem parseJSON_formatInt (i : Int) : parseJSON (formatInt i) = some (Any.number (formatInt i)) := by
  obtain ⟨c, cs, he, hsp, hk⟩ := formatInt_head i
  have hdrop : (c :: cs).dropWhile isSpace = c :: cs := dropWhile_isSpace_cons c cs hsp
  have hnum := scanNumber_formatInt i
  rw [he] at hnum
  unfold parseJSON
  rw [he, parseValue]
  simp only [hdrop, hk, hnum, onlySpace, List.all_nil, if_true]

theorem isNullText_formatInt (i : Int) : isNullText (formatInt i) = false := by
  simp only [isNullText, parseJSON_formatInt]

theorem decodeNumber_formatInt (isPrint : Char → Bool) (i : Int) (h : inIntRange i)
    (cur : Number) : decodeNumber isPrint (formatInt i) cur = .ok i := by
  simp only [decodeNumber, Number.UnmarshalJSON, unmarshalInt_formatInt i h]

theorem BacktraceEntry.findField_number (isPrint : Char → Bool) :
    findField (BacktraceEntry.fields isPrint) "number".toList =
      some { name := "number".toList,
             set := fun raw s =>
               (decodeNumber isPrint raw s.Number).map (fun v => { s with Number := v }) } := by
  rfl

theorem BacktraceEntry.findField_column (isPrint : Char → Bool) :
    findField (BacktraceEntry.fields isPrint) "column".toList =
      some { name := "column".toList,
             set := fun raw s =>
               (decodePtr (decodeNumber isPrint) 0 raw s.Column).map
                 (fun v => { s with Column := v }) } := by
  rfl

/-- C24: on every input on which `Number.UnmarshalJSON` returns an error the
receiver keeps the value it had before the call, whatever that value is, and the
error does not depend on it; the receiver changes only when the call returns
nil. -/
theorem C24_failure_keeps_receiver (n : Number) (data : GoString) (e : NumberError)
    (h : (Number.UnmarshalJSON n data).2 = some e) :
    (Number.UnmarshalJSON n data).1 = n ∧
      ∀ m : Number, Number.UnmarshalJSON m data = (m, some e) := by
  have key : ∀ m : Number, Number.UnmarshalJSON m data = (m, some e) := by
    intro m
    unfold Number.UnmarshalJSON at h ⊢
    cases hi : unmarshalInt data with
    | some num =>
      rw [hi] at h
      cases h
    | none =>
      rw [hi] at h
      simp only [] at h ⊢
      cases hs : unmarshalString data with
      | none =>
        rw [hs] at h
        simp only [] at h ⊢
        cases h
        rfl
      | some str =>
        rw [hs] at h
        simp only [] at h ⊢
        cases ha : Atoi str with
        | ok parsed =>
          rw [ha] at h
          cases h
        | error err =>
          rw [ha] at h
          simp only [] at h ⊢
          cases h
          rfl
  exact ⟨by rw [key n], key⟩

/-- Witness of C24: the token `"abc"` on a receiver holding 7. -/
theorem C24_witness_abc :
    (Number.UnmarshalJSON 7 (jsonQuoted "abc".toList)).2 =
        some (NumberError.cannotParse "abc".toList NumErrKind.errSyntax) ∧
      (Number.UnmarshalJSON 7 (jsonQuoted "abc".toList)).1 = 7 :=
  ⟨by decide,
    (C24_failure_keeps_receiver 7 (jsonQuoted "abc".toList)
      (NumberError.cannotParse "abc".toList NumErrKind.errSyntax) (by decide)).1⟩

/-- C25: for every `Number` in the range of `int`, its default JSON encoding,
the decimal literal, is decoded by `Number.UnmarshalJSON` back to it without
error, whatever the receiver held; so the members `json.Marshal` writes for the
`Number` and the `Column` of a `BacktraceEntry` decode into a zero
`BacktraceEntry` with the same `Number` and the same `Column`. -/
theorem C25_number_round_trip (isPrint : Char → Bool) (e : BacktraceEntry) (m : Number)
    (hn : inIntRange e.Number) (hc : ∀ c, e.Column = some c → inIntRange c) :
    Number.UnmarshalJSON m (formatInt e.Number) = (e.Number, none) ∧
      decodeMembers (BacktraceEntry.fields isPrint) e.numberMembers BacktraceEntry.zero =
        .ok { BacktraceEntry.zero with Number := e.Number, Column := e.Column } := by
  constructor
  · simp only [Number.UnmarshalJSON, unmarshalInt_formatInt e.Number hn]
  · cases hcol : e.Column with
    | none =>
      simp only [BacktraceEntry.numberMembers, hcol, decodeMembers,
        BacktraceEntry.findField_number, decodeNumber_formatInt isPrint e.Number hn, Except.map]
      rfl
    | some c =>
      simp only [BacktraceEntry.numberMembers, hcol, decodeMembers,
        BacktraceEntry.findField_number, BacktraceEntry.findField_column,
        decodeNumber_formatInt isPrint e.Number hn, Except.map, decodePtr,
        isNullText_formatInt, decodeNumber_formatInt isPrint c (hc c hcol)]
      rfl

/-- Witness of C25: the entry at line 42, column 7. -/
theorem C25_witness_line_42 :
    inIntRange entryLine42.Number ∧
      Number.UnmarshalJSON 0 (formatInt entryLine42.Number) = (entryLine42.Number, none) ∧
      decodeMembers (BacktraceEntry.fields (fun _ => true)) entryLine42.numberMembers
          BacktraceEntry.zero =
        .ok { BacktraceEntry.zero with Number := entryLine42.Number,
                                       Column := entryLine42.Column } :=
  ⟨by decide,
    C25_number_round_trip (fun _ => true) entryLine42 0 (by decide)
      (fun c hc => by
        have h7 : c = 7 := by
          have : some (7 : Number) = some c := hc
          exact (Option.some.inj this).symm
        rw [h7]
        decide)⟩

/-! ## Identifiers in the request path -/

theorem formatInt_injective (a b : Int) (h : formatInt a = formatInt b) : a = b := by
  have ha := signedDecimalValue_formatInt a
  rw [h, signedDecimalValue_formatInt] at ha
  exact ha.symm

theorem slash_not_in_formatInt (i : Int) : '/' ∉ formatInt i := by
  intro h
  rcases isSignedDecimal_mem _ (isSignedDecimal_formatInt i) '/' h with h | h | h <;>
    revert h <;> decide

/-- Two texts that agree up to a separator that occurs in neither head have the
same head and the same tail. -/
theorem append_sep_inj (sep : Char) :
    ∀ (a b x y : List Char), sep ∉ a → sep ∉ b → a ++ sep :: x = b ++ sep :: y →
      a = b ∧ x = y := by
  intro a
  induction a with
  | nil =>
    intro b x y _ hb h
    cases b with
    | nil =>
      simp only [List.nil_append, List.cons.injEq, true_and] at h
      exact ⟨rfl, h⟩
    | cons d ds =>
      simp only [List.nil_append, List.cons_append, List.cons.injEq] at h
      exact absurd (h.1 ▸ List.mem_cons_self _ _) hb
  | cons c cs ih =>
    intro b x y ha hb h
    cases b with
    | nil =>
      simp only [List.nil_append, List.cons_append, List.cons.injEq] at h
      exact absurd (h.1 ▸ List.mem_cons_self _ _) ha
    | cons d ds =>
      simp only [List.cons_append, List.cons.injEq] at h
      obtain ⟨h1, h2⟩ := ih ds x y (fun m => ha (List.mem_cons_of_mem _ m))
        (fun m => hb (List.mem_cons_of_mem _ m)) h.2
      exact ⟨by rw [h.1, h1], h2⟩

theorem commentPath_injective (p f i p1 f1 i1 : Int)
    (h : (Operation.commentsGet p f i).path = (Operation.commentsGet p1 f1 i1).path) :
    p = p1 ∧ f = f1 ∧ i = i1 := by
  simp only [Operation.path, List.append_assoc] at h
  have h1 := List.append_cancel_left h
  have e1 : "/faults/".toList ++ (formatInt f ++ ("/comments/".toList ++ formatInt i)) =
      '/' :: ("faults/".toList ++ (formatInt f ++ ("/comments/".toList ++ formatInt i))) := rfl
  have e2 : "/faults/".toList ++ (formatInt f1 ++ ("/comments/".toList ++ formatInt i1)) =
      '/' :: ("faults/".toList ++ (formatInt f1 ++ ("/comments/".toList ++ formatInt i1))) := rfl
  rw [e1, e2] at h1
  obtain ⟨hp, h2⟩ := append_sep_inj '/' _ _ _ _ (slash_not_in_formatInt p)
    (slash_not_in_formatInt p1) h1
  have h3 := List.append_cancel_left h2
  have e3 : "/comments/".toList ++ formatInt i = '/' :: ("comments/".toList ++ formatInt i) := rfl
  have e4 : "/comments/".toList ++ formatInt i1 = '/' :: ("comments/".toList ++ formatInt i1) :=
    rfl
  rw [e3, e4] at h3
  obtain ⟨hf, h4⟩ := append_sep_inj '/' _ _ _ _ (slash_not_in_formatInt f)
    (slash_not_in_formatInt f1) h3
  have h5 := List.append_cancel_left h4
  exact ⟨formatInt_injective _ _ hp, formatInt_injective _ _ hf, formatInt_injective _ _ h5⟩

/-- C28: string identifiers go into the request path as they are.
`Accounts.Get` with the account `accountID ++ "/users"` makes the `newRequest`
call `Accounts.ListUsers` makes for `accountID` (for "1/users" and "1": GET
`/accounts/1/users`, nil body), and `Uptime.Get` with the site
`siteID ++ "/outages"` the one `Uptime.ListOutages` makes for `siteID` without
options; for accountID, siteID and dashboardID, whatever is appended to the
identifier, a `/` or `?` included, is appended to the path of the request. -/
theorem C28_string_ids_verbatim {Req : Type} (c : Client Req) (projectID : Int)
    (accountID siteID dashboardID suffix : GoString) :
    (AccountsService.Get c [] (accountID ++ "/users".toList)).2.head? =
        (AccountsService.ListUsers c [] accountID).2.head? ∧
      (AccountsService.Get c [] "1/users".toList).2.head? =
        some (Event.newRequest "GET".toList "/accounts/1/users".toList none) ∧
      (AccountsService.ListUsers c [] "1".toList).2.head? =
        some (Event.newRequest "GET".toList "/accounts/1/users".toList none) ∧
      (UptimeService.Get c [] projectID (siteID ++ "/outages".toList)).2.head? =
        (UptimeService.ListOutages c [] projectID siteID OutageListOptions.zero).2.head? ∧
      firstPath (AccountsService.Get c [] (accountID ++ suffix)).2 =
        some ("/accounts/".toList ++ accountID ++ suffix) ∧
      firstPath (UptimeService.Get c [] projectID (siteID ++ suffix)).2 =
        some ("/projects/".toList ++ formatInt projectID ++ "/sites/".toList ++ siteID ++
          suffix) ∧
      firstPath (DashboardsService.Get c [] projectID (dashboardID ++ suffix)).2 =
        some ("/projects/".toList ++ formatInt projectID ++ "/dashboards/".toList ++
          dashboardID ++ suffix) := by
  refine ⟨?_, ?_, ?_, ?_, ?_, ?_, ?_⟩
  · show ((Operation.accountsGet (accountID ++ "/users".toList)).run c []).2.head? =
      ((Operation.accountsListUsers accountID).run c []).2.head?
    rw [Operation.run_head, Operation.run_head]
    simp only [Operation.method, Operation.path, Operation.body, List.append_assoc]
  · show ((Operation.accountsGet "1/users".toList).run c []).2.head? = _
    rw [Operation.run_head]
    rfl
  · show ((Operation.accountsListUsers "1".toList).run c []).2.head? = _
    rw [Operation.run_head]
    rfl
  · show ((Operation.uptimeGet projectID (siteID ++ "/outages".toList)).run c []).2.head? =
      ((Operation.uptimeListOutages projectID siteID OutageListOptions.zero).run c []).2.head?
    rw [Operation.run_head, Operation.run_head]
    simp [Operation.method, Operation.path, Operation.body, UptimeService.listOutagesPath,
      OutageListOptions.zero, List.append_assoc]
  · show firstPath ((Operation.accountsGet (accountID ++ suffix)).run c []).2 = _
    rw [Operation.run_firstPath]
    simp only [Operation.path, List.append_assoc]
  · show firstPath ((Operation.uptimeGet projectID (siteID ++ suffix)).run c []).2 = _
    rw [Operation.run_firstPath]
    simp only [Operation.path, List.append_assoc]
  · show firstPath ((Operation.dashboardsGet projectID (dashboardID ++ suffix)).run c []).2 = _
    rw [Operation.run_firstPath]
    simp only [Operation.path, List.append_assoc]

/-- C29: for all integers, negative ones included, `Comments.Get` hands
`newRequest` the same path for `(p, f, i)` and `(p1, f1, i1)` only if `p = p1`,
`f = f1` and `i = i1`; and `Get`, `Update` and `Delete` of one comment hand
`newRequest` that same path, with the methods GET, PUT and DELETE. -/
theorem C29_comment_path_determines_ids {Req : Type} (c : Client Req)
    (p f i p1 f1 i1 : Int) (body : GoString)
    (h : firstPath (CommentsService.Get c [] p f i).2 =
      firstPath (CommentsService.Get c [] p1 f1 i1).2) :
    (p = p1 ∧ f = f1 ∧ i = i1) ∧
      firstPath (CommentsService.Update c [] p f i body).2 =
        firstPath (CommentsService.Get c [] p f i).2 ∧
      firstPath (CommentsService.Delete c [] p f i).2 =
        firstPath (CommentsService.Get c [] p f i).2 ∧
      firstMethod (CommentsService.Get c [] p f i).2 = some "GET".toList ∧
      firstMethod (CommentsService.Update c [] p f i body).2 = some "PUT".toList ∧
      firstMethod (CommentsService.Delete c [] p f i).2 = some "DELETE".toList := by
  have hg : ∀ a b d : Int, firstPath (CommentsService.Get c [] a b d).2 =
      some (Operation.commentsGet a b d).path :=
    fun a b d => Operation.run_firstPath c (Operation.commentsGet a b d)
  have hu : firstPath (CommentsService.Update c [] p f i body).2 =
      some (Operation.commentsUpdate p f i body).path :=
    Operation.run_firstPath c (Operation.commentsUpdate p f i body)
  have hd : firstPath (CommentsService.Delete c [] p f i).2 =
      some (Operation.commentsDelete p f i).path :=
    Operation.run_firstPath c (Operation.commentsDelete p f i)
  refine ⟨?_, ?_, ?_, ?_, ?_, ?_⟩
  · rw [hg, hg] at h
    exact commentPath_injective p f i p1 f1 i1 (Option.some.inj h)
  · rw [hu, hg]
    rfl
  · rw [hd, hg]
    rfl
  · exact Operation.run_firstMethod c (Operation.commentsGet p f i)
  · exact Operation.run_firstMethod c (Operation.commentsUpdate p f i body)
  · exact Operation.run_firstMethod c (Operation.commentsDelete p f i)

/-- Witness of C29 at the comment of `TestCommentsGet`, with a negative fault. -/
theorem C29_witness_comment_1 :
    firstPath (CommentsService.Get quietClient [] 123 (-100) 1).2 =
        firstPath (CommentsService.Get quietClient [] 123 (-100) 1).2 ∧
      firstPath (CommentsService.Get quietClient [] 123 (-100) 1).2 =
        some "/projects/123/faults/-100/comments/1".toList ∧
      firstMethod (CommentsService.Delete quietClient [] 123 (-100) 1).2 =
        some "DELETE".toList :=
  ⟨rfl, by decide,
    (C29_comment_path_determines_ids quietClient 123 (-100) 1 123 (-100) 1 [] rfl).2.2.2.2.2⟩

/-! ## QueryEscape and QueryUnescape -/

theorem unhex_upperHex : ∀ k, k < 16 → unhex (upperHex k) = some k := by
  decide

theorem unreserved_lt (b : Nat) (h : shouldEscape b = false) : b < 128 := by
  unfold shouldEscape at h
  split at h
  · omega
  · split at h
    · omega
    · cases h

theorem unreserved_char : ∀ b, b < 128 → shouldEscape b = false →
    Char.ofNat b ≠ '%' ∧ Char.ofNat b ≠ '+' ∧ utf8Bytes (Char.ofNat b) = [b] := by
  decide

theorem QueryUnescape_percent (a b : Char) (rest : List Char) (x y : Nat)
    (ha : unhex a = some x) (hb : unhex b = some y) :
    QueryUnescape ('%' :: a :: b :: rest) =
      (QueryUnescape rest).map (fun bs => (16 * x + y) :: bs) := by
  rw [QueryUnescape]
  simp only [if_true, ha, hb]

theorem QueryUnescape_plus (rest : List Char) :
    QueryUnescape ('+' :: rest) = (QueryUnescape rest).map (fun bs => 32 :: bs) := by
  rcases rest with _ | ⟨a, _ | ⟨b, r⟩⟩ <;> simp [QueryUnescape]

theorem QueryUnescape_plain (c : Char) (rest : List Char) (h1 : c ≠ '%') (h2 : c ≠ '+') :
    QueryUnescape (c :: rest) = (QueryUnescape rest).map (fun bs => utf8Bytes c ++ bs) := by
  rcases rest with _ | ⟨a, _ | ⟨b, r⟩⟩ <;> simp [QueryUnescape, h1, h2]

theorem char_toNat_lt (c : Char) : c.toNat < 1114112 := by
  have h := c.valid
  simp only [UInt32.isValidChar, Nat.isValidChar] at h
  show c.val.toNat < 1114112
  omega

theorem utf8Bytes_lt (c : Char) : ∀ b ∈ utf8Bytes c, b < 256 := by
  have hc := char_toNat_lt c
  intro b hb
  unfold utf8Bytes at hb
  split at hb
  · simp only [List.mem_singleton] at hb
    omega
  · split at hb
    · simp only [List.mem_cons, List.mem_singleton, List.mem_nil_iff, or_false] at hb
      omega
    · split at hb
      · simp only [List.mem_cons, List.mem_singleton, List.mem_nil_iff, or_false] at hb
        omega
      · simp only [List.mem_cons, List.mem_singleton, List.mem_nil_iff, or_false] at hb
        omega

theorem goBytes_lt (s : GoString) : ∀ b ∈ goBytes s, b < 256 := by
  intro b hb
  simp only [goBytes, List.mem_flatten, List.mem_map] at hb
  obtain ⟨l, ⟨c, _, rfl⟩, hbl⟩ := hb
  exact utf8Bytes_lt c b hbl

theorem QueryUnescape_escapeByte (b : Nat) (hb : b < 256) (rest : List Char) :
    QueryUnescape (escapeByte b ++ rest) = (QueryUnescape rest).map (fun bs => b :: bs) := by
  unfold escapeByte
  by_cases hs : shouldEscape b = true
  · rw [if_pos hs]
    by_cases h32 : b = 32
    · rw [if_pos h32, h32]
      exact QueryUnescape_plus rest
    · rw [if_neg h32]
      have h1 := unhex_upperHex (b / 16) (by omega)
      have h2 := unhex_upperHex (b % 16) (by omega)
      have := QueryUnescape_percent _ _ rest _ _ h1 h2
      rw [show 16 * (b / 16) + b % 16 = b by omega] at this
      exact this
  · rw [if_neg hs]
    have hs2 : shouldEscape b = false := by simpa using hs
    obtain ⟨h1, h2, h3⟩ := unreserved_char b (unreserved_lt b hs2) hs2
    have := QueryUnescape_plain (Char.ofNat b) rest h1 h2
    rw [h3] at this
    exact this

theorem QueryUnescape_flatten (bs : List Nat) (hbs : ∀ b ∈ bs, b < 256) :
    QueryUnescape ((bs.map escapeByte).flatten) = some bs := by
  induction bs with
  | nil => rfl
  | cons b rest ih =>
    simp only [List.map_cons, List.flatten_cons]
    rw [QueryUnescape_escapeByte b (hbs b (List.mem_cons_self _ _)),
      ih (fun x hx => hbs x (List.mem_cons_of_mem _ hx))]
    rfl

theorem escapeByte_of_char (c : Char) (h : c.toNat < 128) (hs : shouldEscape c.toNat = false) :
    utf8Bytes c = [c.toNat] ∧ escapeByte c.toNat = [c] := by
  constructor
  · unfold utf8Bytes
    rw [if_pos h]
  · unfold escapeByte
    rw [hs]
    simp only [Bool.false_eq_true, if_false]
    rw [Char.ofNat_toNat]

theorem utf8Bytes_head_escaped (c : Char) (h : ¬ c.toNat < 128) :
    ∃ b ∈ utf8Bytes c, shouldEscape b = true := by
  have hc := char_toNat_lt c
  unfold utf8Bytes
  rw [if_neg h]
  split
  · refine ⟨_, List.mem_cons_self _ _, ?_⟩
    unfold shouldEscape
    rw [if_neg (by omega), if_neg (by omega)]
  · split
    · refine ⟨_, List.mem_cons_self _ _, ?_⟩
      unfold shouldEscape
      rw [if_neg (by omega), if_neg (by omega)]
    · refine ⟨_, List.mem_cons_self _ _, ?_⟩
      unfold shouldEscape
      rw [if_neg (by omega), if_neg (by omega)]

theorem flatten_escape_of_unreserved (s : GoString)
    (h : (goBytes s).all (fun b => !shouldEscape b) = true) :
    ((goBytes s).map escapeByte).flatten = s := by
  induction s with
  | nil => rfl
  | cons c cs ih =>
    have hall : ∀ b ∈ goBytes (c :: cs), shouldEscape b = false := by
      intro b hb
      have := (List.all_eq_true.1 h) b hb
      simpa using this
    have hlt : c.toNat < 128 := by
      by_contra hn
      obtain ⟨b, hb, hsb⟩ := utf8Bytes_head_escaped c hn
      have : b ∈ goBytes (c :: cs) := by
        simp only [goBytes, List.map_cons, List.flatten_cons, List.mem_append]
        exact Or.inl hb
      rw [hall b this] at hsb
      cases hsb
    have hbytes : goBytes (c :: cs) = c.toNat :: goBytes cs := by
      simp only [goBytes, List.map_cons, List.flatten_cons]
      unfold utf8Bytes
      rw [if_pos hlt]
      rfl
    have hsc : shouldEscape c.toNat = false :=
      hall _ (by rw [hbytes]; exact List.mem_cons_self _ _)
    have hrest : (goBytes cs).all (fun b => !shouldEscape b) = true := by
      rw [hbytes] at h
      simp only [List.all_cons, Bool.and_eq_true] at h
      exact h.2
    rw [hbytes]
    simp only [List.map_cons, List.flatten_cons, (escapeByte_of_char c hlt hsc).2, ih hrest]
    rfl

theorem QueryEscape_eq_flatten (s : GoString) :
    QueryEscape s = ((goBytes s).map escapeByte).flatten := by
  unfold QueryEscape
  split
  · rename_i h
    exact (flatten_escape_of_unreserved s h).symm
  · rfl

/-- Unescaping an escaped string gives back its bytes. -/
theorem QueryUnescape_QueryEscape (s : GoString) :
    QueryUnescape (QueryEscape s) = some (goBytes s) := by
  rw [QueryEscape_eq_flatten]
  exact QueryUnescape_flatten _ (goBytes_lt s)

set_option maxRecDepth 100000 in
theorem escapeByte_safe : ∀ b, b < 256 → (escapeByte b).all isQuerySafe = true := by
  decide

/-- Every character of an escaped string is a letter, a digit, or one of
`- _ . ~ % +`. -/
theorem QueryEscape_safe (s : GoString) (c : Char) (hc : c ∈ QueryEscape s) :
    isQuerySafe c = true := by
  rw [QueryEscape_eq_flatten] at hc
  simp only [List.mem_flatten, List.mem_map] at hc
  obtain ⟨l, ⟨b, hb, rfl⟩, hcl⟩ := hc
  exact (List.all_eq_true.1 (escapeByte_safe b (goBytes_lt s b hb))) c hcl

/-! ## ParseQuery on encoded parameters -/

theorem splitOn_ne_nil (sep : Char) (s : List Char) : splitOn sep s ≠ [] := by
  induction s with
  | nil => simp [splitOn]
  | cons c cs ih =>
    unfold splitOn
    split
    · simp
    · cases h : splitOn sep cs with
      | nil => simp
      | cons x xs => simp

theorem splitOn_of_not_mem (sep : Char) (t : List Char) (h : sep ∉ t) : splitOn sep t = [t] := by
  induction t with
  | nil => rfl
  | cons c cs ih =>
    have hc : c ≠ sep := fun e => h (e ▸ List.mem_cons_self _ _)
    have hcs : sep ∉ cs := fun m => h (List.mem_cons_of_mem _ m)
    unfold splitOn
    rw [if_neg hc, ih hcs]

theorem splitOn_append (sep : Char) (t r : List Char) (h : sep ∉ t) :
    splitOn sep (t ++ sep :: r) = t :: splitOn sep r := by
  induction t with
  | nil =>
    simp only [List.nil_append]
    rw [splitOn, if_pos rfl]
  | cons c cs ih =>
    have hc : c ≠ sep := fun e => h (e ▸ List.mem_cons_self _ _)
    have hcs : sep ∉ cs := fun m => h (List.mem_cons_of_mem _ m)
    simp only [List.cons_append]
    rw [splitOn, if_neg hc, ih hcs]

theorem splitOn_joinAmp (ts : List GoString) (hne : ts ≠ []) (h : ∀ t ∈ ts, '&' ∉ t) :
    splitOn '&' (joinAmp ts) = ts := by
  induction ts with
  | nil => exact absurd rfl hne
  | cons t rest ih =>
    cases rest with
    | nil =>
      simp only [joinAmp]
      exact splitOn_of_not_mem '&' t (h t (List.mem_cons_self _ _))
    | cons u more =>
      simp only [joinAmp]
      rw [splitOn_append '&' t _ (h t (List.mem_cons_self _ _)),
        ih (by simp) (fun x hx => h x (List.mem_cons_of_mem _ hx))]

theorem cutEq_pair (k v : List Char) (h : '=' ∉ k) : cutEq (k ++ '=' :: v) = (k, v) := by
  unfold cutEq
  have hk : ∀ c ∈ k, decide (c ≠ '=') = true := by
    intro c hc
    have : c ≠ '=' := fun e => h (e ▸ hc)
    simpa using this
  have h1 : (k ++ '=' :: v).takeWhile (fun c => decide (c ≠ '=')) = k := by
    rw [List.takeWhile_append_of_pos hk]
    simp
  have h2 : (k ++ '=' :: v).dropWhile (fun c => decide (c ≠ '=')) = '=' :: v := by
    rw [List.dropWhile_append_of_pos hk]
    simp
  rw [h1, h2]
  rfl

theorem safe_not_reserved (c : Char) (h : isQuerySafe c = true) :
    c ≠ '&' ∧ c ≠ '=' ∧ c ≠ ';' ∧ c ≠ '#' ∧ c ≠ '?' ∧ c ≠ ' ' ∧ c ≠ '/' := by
  refine ⟨?_, ?_, ?_, ?_, ?_, ?_, ?_⟩ <;> intro e <;> subst e <;> revert h <;> decide

theorem parseSegment_pair (k v : GoString) :
    parseSegment (QueryEscape k ++ '=' :: QueryEscape v) = some (goBytes k, goBytes v) := by
  have hk : '=' ∉ QueryEscape k := fun m => (safe_not_reserved _ (QueryEscape_safe k _ m)).2.1 rfl
  have hsemi : ';' ∉ QueryEscape k ++ '=' :: QueryEscape v := by
    intro m
    simp only [List.mem_append, List.mem_cons] at m
    rcases m with m | m | m
    · exact (safe_not_reserved _ (QueryEscape_safe k _ m)).2.2.1 rfl
    · revert m; decide
    · exact (safe_not_reserved _ (QueryEscape_safe v _ m)).2.2.1 rfl
  unfold parseSegment
  rw [if_neg hsemi, cutEq_pair _ _ hk]
  simp only [QueryUnescape_QueryEscape]

theorem parseSegments_pairs (ps : List (GoString × GoString)) :
    parseSegments (ps.map (fun kv => QueryEscape kv.1 ++ '=' :: QueryEscape kv.2)) =
      some (ps.map bytesPair) := by
  induction ps with
  | nil => rfl
  | cons kv rest ih =>
    simp only [List.map_cons, parseSegments]
    have hne : QueryEscape kv.1 ++ '=' :: QueryEscape kv.2 ≠ [] := by simp
    rw [if_neg hne, parseSegment_pair, ih]
    rfl

/-- Parsing the encoded form of a list of parameters gives back the bytes of
their keys and values, in their order. -/
theorem ParseQuery_encoded (ps : List (GoString × GoString)) :
    ParseQuery (joinAmp (ps.map (fun kv => QueryEscape kv.1 ++ '=' :: QueryEscape kv.2))) =
      some (ps.map bytesPair) := by
  unfold ParseQuery
  cases ps with
  | nil => rfl
  | cons kv rest =>
    rw [splitOn_joinAmp _ (by simp)]
    · exact parseSegments_pairs (kv :: rest)
    · intro t ht
      simp only [List.mem_map] at ht
      obtain ⟨p, _, rfl⟩ := ht
      intro m
      simp only [List.mem_append, List.mem_cons] at m
      rcases m with m | m | m
      · exact (safe_not_reserved _ (QueryEscape_safe p.1 _ m)).1 rfl
      · revert m; decide
      · exact (safe_not_reserved _ (QueryEscape_safe p.2 _ m)).1 rfl

theorem pairTexts_eq_encoded (ps : List (GoString × GoString))
    (h : ∀ kv ∈ ps, QueryEscape kv.1 = kv.1) :
    pairTexts ps = ps.map (fun kv => QueryEscape kv.1 ++ '=' :: QueryEscape kv.2) := by
  unfold pairTexts
  apply List.map_congr_left
  intro kv hkv
  simp only [pairText, h kv hkv]

theorem deploymentParams_key_plain (o : DeploymentListOptions) :
    ∀ kv ∈ deploymentParams o, QueryEscape kv.1 = kv.1 := by
  intro kv hkv
  rcases deploymentParams_mem o kv hkv with h | h | h | h | h <;>
    (rw [h.1]; dsimp only; decide)

theorem timeRangeParams_key_plain (a b l : Int) :
    ∀ kv ∈ timeRangeParams a b l, QueryEscape kv.1 = kv.1 := by
  intro kv hkv
  rcases timeRangeParams_mem a b l kv hkv with h | h | h <;>
    (rw [h.1]; dsimp only; decide)

theorem queryString_append (base q : GoString) (h : '?' ∉ base) :
    queryString (base ++ '?' :: q) = q := by
  unfold queryString
  have hb : ∀ c ∈ base, decide (c ≠ '?') = true := by
    intro c hc
    have : c ≠ '?' := fun e => h (e ▸ hc)
    simpa using this
  rw [List.dropWhile_append_of_pos hb]
  simp

theorem queryString_of_not_mem (base : GoString) (h : '?' ∉ base) : queryString base = [] := by
  unfold queryString
  have hb : ∀ c ∈ base, decide (c ≠ '?') = true := by
    intro c hc
    have : c ≠ '?' := fun e => h (e ▸ hc)
    simpa using this
  have : base.dropWhile (fun c => decide (c ≠ '?')) = [] := by
    rw [List.dropWhile_eq_nil_iff]
    exact hb
  rw [this]
  rfl

theorem queryString_withQuery (base : GoString) (ps : List (GoString × GoString))
    (h : '?' ∉ base) : queryString (withQuery base ps) = joinAmp (pairTexts ps) := by
  unfold withQuery
  split
  · rename_i hps
    rw [hps, queryString_of_not_mem base h]
    rfl
  · exact queryString_append base _ h

/-- The query string of the path `Deployments.List` builds. -/
theorem DeploymentsService.listPath_query (projectID : Int) (o : DeploymentListOptions) :
    queryString (DeploymentsService.listPath projectID o) =
      joinAmp (pairTexts (deploymentParams o)) := by
  rw [DeploymentsService.listPath_eq]
  exact queryString_withQuery _ _ (question_not_in_deploys_path projectID)

theorem deploymentParams_keys_sublist (o : DeploymentListOptions) :
    List.Sublist ((deploymentParams o).map Prod.fst) deploymentKeys := by
  unfold deploymentParams deploymentKeys
  by_cases h1 : o.CreatedAfter > 0 <;> by_cases h2 : o.CreatedBefore > 0 <;>
    by_cases h3 : o.Environment = [] <;> by_cases h4 : o.Limit > 0 <;>
    by_cases h5 : o.LocalUsername = [] <;>
    simp only [h1, h2, h3, h4, h5, ne_eq, not_true_eq_false, not_false_eq_true, if_true,
      if_false, List.append_nil, List.nil_append, List.map_cons, List.map_nil, List.cons_append,
      List.singleton_append] <;>
    decide

/-! ## Query parameters: presence and round trip -/

theorem teams_query_parsed (accountID : GoString) :
    ParseQuery (queryString ("/teams?account_id=".toList ++ QueryEscape accountID)) =
      some [(goBytes "account_id".toList, goBytes accountID)] := by
  have hq : queryString ("/teams?account_id=".toList ++ QueryEscape accountID) =
      "account_id=".toList ++ QueryEscape accountID :=
    queryString_append "/teams".toList _ (by decide)
  rw [hq]
  exact ParseQuery_encoded [("account_id".toList, accountID)]

/-- C22: for every accountID, `Teams.List` calls `newRequest` with GET and
`Teams.Create` with POST, both on the path `/teams` followed by `?` and the one
query parameter `account_id`, whose unescaped value is exactly the bytes of
accountID; the key is there also for the empty accountID.  `Teams.Create` sends
the body `TeamRequest` holding the name, which is the JSON
`{"team": {"name": name}}`. -/
theorem C22_teams_account_query {Req : Type} (c : Client Req) (accountID name : GoString) :
    (TeamsService.List c [] accountID).2.head? =
        some (Event.newRequest "GET".toList
          ("/teams?account_id=".toList ++ QueryEscape accountID) none) ∧
      (TeamsService.Create c [] accountID name).2.head? =
        some (Event.newRequest "POST".toList
          ("/teams?account_id=".toList ++ QueryEscape accountID)
          (some (.teamRequest { Team := { Name := name } }))) ∧
      ParseQuery (queryString ("/teams?account_id=".toList ++ QueryEscape accountID)) =
        some [(goBytes "account_id".toList, goBytes accountID)] ∧
      firstPath (TeamsService.List c [] "100".toList).2 =
        some "/teams?account_id=100".toList ∧
      firstPath (TeamsService.List c [] []).2 = some "/teams?account_id=".toList ∧
      TeamRequest.toJSON { Team := { Name := name } } =
        Any.object [("team".toList, Any.object [("name".toList, Any.string name)])] := by
  refine ⟨?_, ?_, teams_query_parsed accountID, ?_, ?_, rfl⟩
  · exact Operation.run_head c (Operation.teamsList accountID)
  · exact Operation.run_head c (Operation.teamsCreate accountID name)
  · exact Operation.run_firstPath c (Operation.teamsList "100".toList)
  · exact Operation.run_firstPath c (Operation.teamsList [])

/-- C26, counterexample: `DeploymentListOptions{Environment: "production",
Limit: 10}` and `OutageListOptions{Limit: 10}` have the same numeric values, and
`Deployments.List` and `Uptime.ListOutages` build different query strings. -/
theorem C26_counterexample_environment :
    (productionTen.CreatedAfter = outageLimitTen.CreatedAfter ∧
      productionTen.CreatedBefore = outageLimitTen.CreatedBefore ∧
      productionTen.Limit = outageLimitTen.Limit) ∧
      queryString (DeploymentsService.listPath 123 productionTen) =
        "environment=production&limit=10".toList ∧
      queryString (UptimeService.listOutagesPath 123 "abc".toList outageLimitTen) =
        "limit=10".toList ∧
      queryString (DeploymentsService.listPath 123 productionTen) ≠
        queryString (UptimeService.listOutagesPath 123 "abc".toList outageLimitTen) := by
  decide

/-- C26, amended: in the three listings the keys `created_after`,
`created_before` and `limit` are sent exactly when the field is greater than 0,
and `environment` and `local_username` exactly when the string is not empty.
For equal numeric values `Uptime.ListOutages` and `Uptime.ListUptimeChecks`
append the same query to their paths, and so does `Deployments.List` when
`Environment` and `LocalUsername` are empty. -/
theorem C26_keys_sent_iff_positive (projectID : Int) (siteID : GoString)
    (o : DeploymentListOptions) (a b l : Int) :
    DeploymentsService.listPath projectID o =
        withQuery ("/projects/".toList ++ formatInt projectID ++ "/deploys".toList)
          (deploymentParams o) ∧
      UptimeService.listOutagesPath projectID siteID
          { CreatedAfter := a, CreatedBefore := b, Limit := l } =
        withQuery ("/projects/".toList ++ formatInt projectID ++ "/sites/".toList ++ siteID ++
          "/outages".toList) (timeRangeParams a b l) ∧
      UptimeService.listUptimeChecksPath projectID siteID
          { CreatedAfter := a, CreatedBefore := b, Limit := l } =
        withQuery ("/projects/".toList ++ formatInt projectID ++ "/sites/".toList ++ siteID ++
          "/uptime_checks".toList) (timeRangeParams a b l) ∧
      DeploymentsService.listPath projectID
          { Environment := [], LocalUsername := [], CreatedAfter := a, CreatedBefore := b,
            Limit := l } =
        withQuery ("/projects/".toList ++ formatInt projectID ++ "/deploys".toList)
          (timeRangeParams a b l) ∧
      (("created_after".toList ∈ (deploymentParams o).map Prod.fst ↔ o.CreatedAfter > 0) ∧
        ("created_before".toList ∈ (deploymentParams o).map Prod.fst ↔ o.CreatedBefore > 0) ∧
        ("limit".toList ∈ (deploymentParams o).map Prod.fst ↔ o.Limit > 0) ∧
        ("environment".toList ∈ (deploymentParams o).map Prod.fst ↔ o.Environment ≠ []) ∧
        ("local_username".toList ∈ (deploymentParams o).map Prod.fst ↔
          o.LocalUsername ≠ [])) ∧
      (("created_after".toList ∈ (timeRangeParams a b l).map Prod.fst ↔ a > 0) ∧
        ("created_before".toList ∈ (timeRangeParams a b l).map Prod.fst ↔ b > 0) ∧
        ("limit".toList ∈ (timeRangeParams a b l).map Prod.fst ↔ l > 0)) := by
  refine ⟨DeploymentsService.listPath_eq projectID o,
    UptimeService.listOutagesPath_eq projectID siteID _,
    UptimeService.listUptimeChecksPath_eq projectID siteID _, ?_, ?_, ?_⟩
  · rw [DeploymentsService.listPath_eq]
    simp [deploymentParams, timeRangeParams]
  · unfold deploymentParams
    by_cases h1 : o.CreatedAfter > 0 <;> by_cases h2 : o.CreatedBefore > 0 <;>
      by_cases h3 : o.Environment = [] <;> by_cases h4 : o.Limit > 0 <;>
      by_cases h5 : o.LocalUsername = [] <;>
      simp only [h1, h2, h3, h4, h5, ne_eq, not_true_eq_false, not_false_eq_true, if_true,
        if_false, List.append_nil, List.nil_append, List.map_cons, List.map_nil,
        List.cons_append, List.singleton_append, iff_true, iff_false] <;>
      decide
  · unfold timeRangeParams
    by_cases h1 : a > 0 <;> by_cases h2 : b > 0 <;> by_cases h4 : l > 0 <;>
      simp only [h1, h2, h4, if_true, if_false, List.append_nil, List.nil_append, List.map_cons,
        List.map_nil, List.cons_append, List.singleton_append, iff_true, iff_false] <;>
      decide

/-- Witness of C26 on `Limit: -1`: the key `limit` is not sent. -/
theorem C26_witness_negative_limit :
    ¬ (negativeLimit.Limit > 0) ∧
      ("limit".toList ∈ (deploymentParams negativeLimit).map Prod.fst ↔
        negativeLimit.Limit > 0) ∧
      "limit".toList ∉ (deploymentParams negativeLimit).map Prod.fst :=
  ⟨by decide,
    (C26_keys_sent_iff_positive 123 "abc".toList negativeLimit 0 0 (-1)).2.2.2.2.1.2.2.1,
    by decide⟩

/-- C27, counterexample: with `Limit: -1` the field is set and the query string
is empty, so parsing it yields no `limit`. -/
theorem C27_counterexample_negative_limit :
    negativeLimit.Limit ≠ 0 ∧
      queryString (DeploymentsService.listPath 123 negativeLimit) = [] ∧
      ParseQuery (queryString (DeploymentsService.listPath 123 negativeLimit)) = some [] := by
  decide

/-- C27, amended: for every `DeploymentListOptions`, parsing the query string
`Deployments.List` builds (split at `&` and `=`, unescape) yields exactly the
fields that are a non-empty string or a positive integer, each with the bytes of
its original value (the decimal digits for an integer), each key once and the
keys in ascending order.  An escaped value holds none of `& = ; # ?`, space or
`/`, so no value can add, remove or alter a key; the same holds for the
accountID of `Teams.List`. -/
theorem C27_query_round_trip {Req : Type} (c : Client Req) (projectID : Int)
    (o : DeploymentListOptions) (accountID value : GoString) (ch : Char) :
    ParseQuery (queryString (DeploymentsService.listPath projectID o)) =
        some ((deploymentParams o).map bytesPair) ∧
      List.Sublist ((deploymentParams o).map Prod.fst) deploymentKeys ∧
      ((deploymentParams o).map Prod.fst).Pairwise
        (fun k1 k2 => goStringLE k1 k2 = true ∧ k1 ≠ k2) ∧
      QueryUnescape (QueryEscape value) = some (goBytes value) ∧
      (ch ∈ QueryEscape value →
        ch ≠ '&' ∧ ch ≠ '=' ∧ ch ≠ ';' ∧ ch ≠ '#' ∧ ch ≠ '?' ∧ ch ≠ ' ' ∧ ch ≠ '/') ∧
      firstPath (TeamsService.List c [] accountID).2 =
        some ("/teams?account_id=".toList ++ QueryEscape accountID) ∧
      ParseQuery (queryString ("/teams?account_id=".toList ++ QueryEscape accountID)) =
        some [(goBytes "account_id".toList, goBytes accountID)] := by
  refine ⟨?_, deploymentParams_keys_sublist o, ?_, QueryUnescape_QueryEscape value,
    fun h => safe_not_reserved ch (QueryEscape_safe value ch h),
    Operation.run_firstPath c (Operation.teamsList accountID), teams_query_parsed accountID⟩
  · rw [DeploymentsService.listPath_query,
      pairTexts_eq_encoded _ (deploymentParams_key_plain o)]
    exact ParseQuery_encoded _
  · exact List.Pairwise.sublist (deploymentParams_keys_sublist o) (by decide)

set_option maxRecDepth 100000 in
/-- Witness of C27 on `Environment: "a&b=c #?"`, `Limit: 5`. -/
theorem C27_witness_ampersand :
    queryString (DeploymentsService.listPath 123 ampersandEnvironment) =
        "environment=a%26b%3Dc+%23%3F&limit=5".toList ∧
      ParseQuery (queryString (DeploymentsService.listPath 123 ampersandEnvironment)) =
        some ((deploymentParams ampersandEnvironment).map bytesPair) ∧
      (deploymentParams ampersandEnvironment).map bytesPair =
        [(goBytes "environment".toList, goBytes "a&b=c #?".toList),
         (goBytes "limit".toList, goBytes "5".toList)] ∧
      ('%' ∈ QueryEscape "a&b=c #?".toList ∧ '%' ≠ '&') :=
  ⟨by decide,
    (C27_query_round_trip quietClient 123 ampersandEnvironment [] "a&b=c #?".toList '%').1,
    by decide,
    by decide,
    ((C27_query_round_trip quietClient 123 ampersandEnvironment [] "a&b=c #?".toList
      '%').2.2.2.2.1 (by decide)).1⟩

end Honeybadger
